import Mathlib

/-!
Scheduler core of `wd_sched.c`.

A shallow embedding of the context scheduler: the region tables, the
round-robin allocator, key resolution, the policy variants and region
registration, followed by theorems about them.

Conventions of the embedding.

* `__u32`, `__u16`, `__u8` values are `Nat`; an increment that can wrap is
  written with an explicit `% U32`.  `int` values are `Int`.
* A C pointer that may be `NULL` is an `Option`.
* A read or write through an array index is checked against the size of the
  allocation: a function that touches memory returns `Option`, and `none`
  stands for an access outside the allocation (or through a `NULL` table).
* A pointer to a region cell is a `region_ref`, the coordinate of the cell.
* The mutex of a cell is not modelled: every function is run to completion.
-/

namespace WdSched

/-! ## Constants -/

/-- The modulus of `__u32` arithmetic. -/
def U32 : Nat := 4294967296

/-- From `#define MAX_POLL_TIMES 1000`. -/
def MAX_POLL_TIMES : Nat := 1000

/-- From `enum sched_region_mode`. -/
def SCHED_MODE_SYNC : Nat := 0

/-- From `enum sched_region_mode`. -/
def SCHED_MODE_ASYNC : Nat := 1

/-- From `enum sched_region_mode`. -/
def SCHED_MODE_BUTT : Nat := 2

/-- From `#define SCHED_REGION_NUM 4`. -/
def SCHED_REGION_NUM : Nat := 4

/-- From `#define LOOP_SWITH_TIME 5`. -/
def LOOP_SWITH_TIME : Int := 5

/-- From `enum sched_send_type`. -/
def SCHED_SEND_HW : Int := 0

/-- From `enum sched_send_type`. -/
def SCHED_SEND_SW : Int := 1

/-- The value of `INT32_MAX`. -/
def INT32_MAX : Int := 2147483647

/-- Modelled from the spec: `INVALID_POS` is declared in `wd_sched.h`, which is
not among the sources; it is the distinguished invalid-context sentinel that
`pick-next-context` returns, a `__u32` value, taken to be the largest one. -/
def INVALID_POS : Nat := 4294967295

/-- Modelled from the spec: `WD_EINVAL` is declared in `wd.h`, which is not
among the sources; it is the invalid-argument error code. -/
def WD_EINVAL : Int := 22

/-- Modelled from the spec: `WD_ENOMEM` is declared in `wd.h`, which is not
among the sources; it is the out-of-memory error code. -/
def WD_ENOMEM : Int := 12

/-- The value of `EAGAIN`, the try-again status of a completion check. -/
def EAGAIN : Int := 11

/-- Modelled from the spec: `CTX_MODE_SYNC` is declared in `wd.h`, which is
not among the sources; the synchronous mode, equal to `SCHED_MODE_SYNC`. -/
def CTX_MODE_SYNC : Int := 0

/-- Modelled from the spec: `CTX_MODE_ASYNC` is declared in `wd.h`, which is
not among the sources; the asynchronous mode, equal to `SCHED_MODE_ASYNC`. -/
def CTX_MODE_ASYNC : Int := 1

/-- Modelled from the spec: the execution-path kinds are declared in a header
that is not among the sources; the spec lists them in the order hardware,
crypto-engine instance, vector-engine instance, software fallback. -/
def UADK_CTX_HW : Nat := 0

/-- Modelled from the spec: second execution-path kind, the crypto-engine
one. -/
def UADK_CTX_CE_INS : Nat := 1

/-- Modelled from the spec: third execution-path kind, the vector-engine
one. -/
def UADK_CTX_SVE_INS : Nat := 2

/-- Modelled from the spec: fourth and last execution-path kind, software
fallback. -/
def UADK_CTX_SOFT : Nat := 3

/-- Modelled from the spec: the policy identifiers are declared in
`wd_sched.h`, which is not among the sources; they index `sched_table` in the
order of its entries. -/
def SCHED_POLICY_RR : Nat := 0

/-- Modelled from the spec: policy identifier of the second entry of
`sched_table`. -/
def SCHED_POLICY_NONE : Nat := 1

/-- Modelled from the spec: policy identifier of the third entry of
`sched_table`. -/
def SCHED_POLICY_SINGLE : Nat := 2

/-- Modelled from the spec: policy identifier of the fourth entry of
`sched_table`. -/
def SCHED_POLICY_LOOP : Nat := 3

/-- Modelled from the spec: policy identifier of the fifth entry of
`sched_table`. -/
def SCHED_POLICY_RTE_LOOP : Nat := 4

/-- Modelled from the spec: the number of entries of `sched_table`. -/
def SCHED_POLICY_BUTT : Nat := 5

/-! ## Data model -/

/-- From `struct sched_key`. -/
structure sched_key where
  numa_id : Int
  type : Nat
  mode : Nat
  ctx_prop : Nat
  sync_ctxid : Nat
  async_ctxid : Nat
  sw_sync_ctxid : Nat
  sw_async_ctxid : Nat
deriving DecidableEq, Repr

/-- From `struct sched_ctx_region`; the field `end` is written `end_`, and the
mutex is left out. -/
structure sched_ctx_region where
  begin : Nat
  end_ : Nat
  last : Nat
  valid : Bool
deriving DecidableEq, Repr

/-- One of the four per-node tables: `SCHED_MODE_BUTT` pointers, each `NULL` or
an array of `type_num` cells. -/
abbrev region_tbl := List (Option (List sched_ctx_region))

/-- From `struct wd_sched_info`. -/
structure wd_sched_info where
  ctx_region : region_tbl
  ce_ctx_region : region_tbl
  sve_ctx_region : region_tbl
  soft_ctx_region : region_tbl
  nm_valid : Bool
  hw_valid : Bool
  ce_valid : Bool
  sve_valid : Bool
  soft_valid : Bool
deriving DecidableEq, Repr

/-- From `struct wd_sched_balancer`. -/
structure wd_sched_balancer where
  switch_slice : Int
  next_send_type : Int
  hw_task_num : Nat
  sw_task_num : Nat
  hw_dfx_num : Nat
  sw_dfx_num : Nat
deriving DecidableEq, Repr

/-- Modelled from the spec: `user_poll_func` is declared in `wd_sched.h`, which
is not among the sources; the injected completion check.  It is given the
positions probed so far, the context index and the number of items asked
for, and answers with a status and, when it stores one, the number of
completed items. -/
abbrev user_poll_func := List Nat → Nat → Nat → Int × Option Nat

/-- From `struct wd_sched_ctx`; `sched_info` is the flexible array that ends
it, `numa_map` is indexed by node. -/
structure wd_sched_ctx where
  policy : Nat
  type_num : Nat
  numa_num : Nat
  poll_func : Option user_poll_func
  numa_map : Nat → Int
  balancer : wd_sched_balancer
  sched_info : List wd_sched_info

/-- Modelled from the spec: `struct sched_params` is declared in `wd_sched.h`,
which is not among the sources; the parameters of `register_region` and of
`init`, each field with the type of the local that receives it. -/
structure sched_params where
  numa_id : Int
  type : Nat
  mode : Nat
  begin : Nat
  end_ : Nat
  ctx_prop : Nat
deriving DecidableEq, Repr

/-- Modelled from the spec: `struct wd_sched` is declared in `wd_sched.h`,
which is not among the sources; the outer handle.  Its name and its three
function pointers are those of `sched_table[sched_policy]`. -/
structure wd_sched where
  sched_policy : Nat
  h_sched_ctx : Option wd_sched_ctx

/-- The coordinate of a cell: which of the four tables, node, mode, type. -/
structure region_ref where
  prop : Nat
  numa : Nat
  mode : Nat
  type : Nat
deriving DecidableEq, Repr

/-! ## Memory access -/

/-- Read `tbl[mode][type]`. -/
def tbl_read (tbl : region_tbl) (mode type : Nat) : Option sched_ctx_region :=
  match tbl[mode]? with
  | some (some row) => row[type]?
  | _ => none

/-- Write `tbl[mode][type] = r`. -/
def tbl_write (tbl : region_tbl) (mode type : Nat) (r : sched_ctx_region) :
    Option region_tbl :=
  match tbl[mode]? with
  | some (some row) =>
    if type < row.length then some (tbl.set mode (some (row.set type r))) else none
  | _ => none

/-- The table of a node for a path kind. -/
def info_tbl (info : wd_sched_info) (prop : Nat) : region_tbl :=
  if prop = UADK_CTX_HW then info.ctx_region
  else if prop = UADK_CTX_CE_INS then info.ce_ctx_region
  else if prop = UADK_CTX_SVE_INS then info.sve_ctx_region
  else if prop = UADK_CTX_SOFT then info.soft_ctx_region
  else []

/-- Replace the table of a node for a path kind. -/
def info_set_tbl (info : wd_sched_info) (prop : Nat) (tbl : region_tbl) :
    wd_sched_info :=
  if prop = UADK_CTX_HW then { info with ctx_region := tbl }
  else if prop = UADK_CTX_CE_INS then { info with ce_ctx_region := tbl }
  else if prop = UADK_CTX_SVE_INS then { info with sve_ctx_region := tbl }
  else if prop = UADK_CTX_SOFT then { info with soft_ctx_region := tbl }
  else info

/-- Read the cell a pointer designates. -/
def region_read (sched_info : List wd_sched_info) (ref : region_ref) :
    Option sched_ctx_region :=
  match sched_info[ref.numa]? with
  | some info => tbl_read (info_tbl info ref.prop) ref.mode ref.type
  | none => none

/-- Write the cell a pointer designates. -/
def region_write (sched_info : List wd_sched_info) (ref : region_ref)
    (r : sched_ctx_region) : Option (List wd_sched_info) :=
  match sched_info[ref.numa]? with
  | some info =>
    match tbl_write (info_tbl info ref.prop) ref.mode ref.type r with
    | some tbl => some (sched_info.set ref.numa (info_set_tbl info ref.prop tbl))
    | none => none
  | none => none

/-! ## Round-robin allocator -/

/-- From `sched_get_next_pos_rr`: the position handed out and the cell with its
cursor advanced. -/
def sched_get_next_pos_rr (region : sched_ctx_region) : Nat × sched_ctx_region :=
  let pos := region.last
  if pos < region.end_ then
    (pos, { region with last := (region.last + 1) % U32 })
  else
    (pos, { region with last := region.begin })

/-- The cell after `k` calls of `sched_get_next_pos_rr`. -/
def rr_calls : Nat → sched_ctx_region → sched_ctx_region
  | 0, region => region
  | k + 1, region => (sched_get_next_pos_rr (rr_calls k region)).2

/-- What the call after `k` earlier calls returns. -/
def rr_output (k : Nat) (region : sched_ctx_region) : Nat :=
  (sched_get_next_pos_rr (rr_calls k region)).1

/-- Call `sched_get_next_pos_rr` through a pointer to a cell of the scheduler. -/
def region_next_pos (sched_ctx : wd_sched_ctx) (ref : region_ref) :
    Option (Nat × wd_sched_ctx) :=
  match region_read sched_ctx.sched_info ref with
  | none => none
  | some region =>
    match region_write sched_ctx.sched_info ref (sched_get_next_pos_rr region).2 with
    | none => none
    | some sched_info =>
      some ((sched_get_next_pos_rr region).1, { sched_ctx with sched_info := sched_info })

/-! ## Key resolution, round-robin policy -/

/-- From `sched_key_valid`. -/
def sched_key_valid (sched_ctx : wd_sched_ctx) (key : sched_key) : Bool :=
  if key.numa_id ≥ (sched_ctx.numa_num : Int) ∨ key.mode ≥ SCHED_MODE_BUTT ∨
      key.type ≥ sched_ctx.type_num then
    false
  else
    true

/-- The scan of `sched_get_ctx_range`: `k` nodes are left, starting at
`numa_id`. -/
def sched_get_ctx_range_scan (sched_ctx : wd_sched_ctx) (key : sched_key) :
    Nat → Nat → Option (Option region_ref)
  | 0, _ => some none
  | k + 1, numa_id =>
    match region_read sched_ctx.sched_info ⟨UADK_CTX_HW, numa_id, key.mode, key.type⟩ with
    | none => none
    | some region =>
      if region.valid then
        some (some ⟨UADK_CTX_HW, numa_id, key.mode, key.type⟩)
      else
        sched_get_ctx_range_scan sched_ctx key k (numa_id + 1)

/-- From `sched_get_ctx_range`: `some none` is the `NULL` result. -/
def sched_get_ctx_range (sched_ctx : wd_sched_ctx) (key : sched_key) :
    Option (Option region_ref) :=
  if key.numa_id ≥ 0 then
    match region_read sched_ctx.sched_info
        ⟨UADK_CTX_HW, key.numa_id.toNat, key.mode, key.type⟩ with
    | none => none
    | some region =>
      if region.valid then
        some (some ⟨UADK_CTX_HW, key.numa_id.toNat, key.mode, key.type⟩)
      else
        sched_get_ctx_range_scan sched_ctx key sched_ctx.numa_num 0
  else
    sched_get_ctx_range_scan sched_ctx key sched_ctx.numa_num 0

/-- From `session_sched_init_ctx`: the index, the scheduler and the key after
the call. -/
def session_sched_init_ctx (sched_ctx : wd_sched_ctx) (key : sched_key)
    (sched_mode : Int) : Option (Nat × wd_sched_ctx × sched_key) :=
  let key := { key with mode := (sched_mode % 256).toNat }
  if !sched_key_valid sched_ctx key then
    some (INVALID_POS, sched_ctx, key)
  else
    match sched_get_ctx_range sched_ctx key with
    | none => none
    | some none => some (INVALID_POS, sched_ctx, key)
    | some (some ref) =>
      match region_next_pos sched_ctx ref with
      | none => none
      | some (pos, sched_ctx) => some (pos, sched_ctx, key)

/-- The key with every byte zero, as `memset` leaves it. -/
def zero_key : sched_key := ⟨0, 0, 0, 0, 0, 0, 0, 0⟩

/-- From `session_sched_init`.  `node` is what `numa_node_of_cpu` reports for
the calling thread, `mem` is the result of `malloc`: `none` when it fails,
otherwise the key with whatever the fresh block holds.  The result is the
key or the error code, with the scheduler after the call. -/
def session_sched_init (node : Int) (mem : Option sched_key)
    (h_sched_ctx : Option wd_sched_ctx) (sched_param : Option sched_params) :
    Option (Except Int sched_key × Option wd_sched_ctx) :=
  if node < 0 then some (.error (-WD_EINVAL), h_sched_ctx)
  else
    match h_sched_ctx with
    | none => some (.error (-WD_EINVAL), h_sched_ctx)
    | some sched_ctx =>
      match mem with
      | none => some (.error (-WD_ENOMEM), h_sched_ctx)
      | some skey =>
        let skey : sched_key :=
          match sched_param with
          | none => { zero_key with numa_id := sched_ctx.numa_map node.toNat }
          | some param =>
            if param.numa_id < 0 then
              { skey with type := param.type, numa_id := sched_ctx.numa_map node.toNat }
            else
              { skey with type := param.type, numa_id := param.numa_id }
        let skey := { skey with numa_id := 0 }
        match session_sched_init_ctx sched_ctx skey CTX_MODE_SYNC with
        | none => none
        | some (sync_ctxid, sched_ctx, skey) =>
          let skey := { skey with sync_ctxid := sync_ctxid }
          match session_sched_init_ctx sched_ctx skey CTX_MODE_ASYNC with
          | none => none
          | some (async_ctxid, sched_ctx, skey) =>
            let skey := { skey with async_ctxid := async_ctxid }
            if skey.sync_ctxid = INVALID_POS ∧ skey.async_ctxid = INVALID_POS then
              some (.error (-WD_EINVAL), some sched_ctx)
            else
              some (.ok skey, some sched_ctx)

/-- From `session_sched_pick_next_ctx`: the index, with the scheduler and the
key after the call; the function writes to neither. -/
def session_sched_pick_next_ctx (h_sched_ctx : Option wd_sched_ctx)
    (sched_key : Option WdSched.sched_key) (sched_mode : Int) :
    Nat × Option wd_sched_ctx × Option WdSched.sched_key :=
  match h_sched_ctx, sched_key with
  | some _, some key =>
    if sched_mode = CTX_MODE_SYNC then
      (key.sync_ctxid, h_sched_ctx, sched_key)
    else
      (key.async_ctxid, h_sched_ctx, sched_key)
  | _, _ => (INVALID_POS, h_sched_ctx, sched_key)

/-- Repeated `session_sched_pick_next_ctx` in one mode: the indices returned,
and the scheduler and the key after the last call. -/
def session_picks (sched_mode : Int) :
    Nat → Option wd_sched_ctx → Option sched_key →
      List Nat × Option wd_sched_ctx × Option sched_key
  | 0, h_sched_ctx, sched_key => ([], h_sched_ctx, sched_key)
  | n + 1, h_sched_ctx, sched_key =>
    let r := session_sched_pick_next_ctx h_sched_ctx sched_key sched_mode
    let rest := session_picks sched_mode n r.2.1 r.2.2
    (r.1 :: rest.1, rest.2)

/-! ## Loop policy: pick -/

/-- From `loop_sched_pick_next_ctx`: the index, with the scheduler and the key
after the call. -/
def loop_sched_pick_next_ctx (h_sched_ctx : Option wd_sched_ctx)
    (sched_key : Option WdSched.sched_key) (sched_mode : Int) :
    Nat × Option wd_sched_ctx × Option WdSched.sched_key :=
  match h_sched_ctx, sched_key with
  | some sched_ctx, some key =>
    if key.sw_sync_ctxid = INVALID_POS ∨ key.sw_async_ctxid = INVALID_POS then
      session_sched_pick_next_ctx h_sched_ctx sched_key sched_mode
    else if sched_mode = CTX_MODE_SYNC then
      if sched_ctx.balancer.switch_slice = LOOP_SWITH_TIME then
        (key.sync_ctxid,
          some { sched_ctx with balancer :=
            { sched_ctx.balancer with
              switch_slice := 0
              hw_dfx_num := (sched_ctx.balancer.hw_dfx_num + 1) % U32 } },
          sched_key)
      else
        (key.sw_sync_ctxid,
          some { sched_ctx with balancer :=
            { sched_ctx.balancer with
              switch_slice := sched_ctx.balancer.switch_slice + 1
              sw_dfx_num := (sched_ctx.balancer.sw_dfx_num + 1) % U32 } },
          sched_key)
    else
      let next_send_type :=
        if sched_ctx.balancer.hw_task_num > sched_ctx.balancer.sw_task_num then
          SCHED_SEND_SW
        else
          SCHED_SEND_HW
      if next_send_type = SCHED_SEND_HW then
        (key.async_ctxid,
          some { sched_ctx with balancer :=
            { sched_ctx.balancer with
              next_send_type := next_send_type
              hw_task_num := (sched_ctx.balancer.hw_task_num + 1) % U32
              hw_dfx_num := (sched_ctx.balancer.hw_dfx_num + 1) % U32 } },
          sched_key)
      else
        (key.sw_async_ctxid,
          some { sched_ctx with balancer :=
            { sched_ctx.balancer with
              next_send_type := next_send_type
              sw_task_num := (sched_ctx.balancer.sw_task_num + 1) % U32
              sw_dfx_num := (sched_ctx.balancer.sw_dfx_num + 1) % U32 } },
          sched_key)
  | _, _ => (INVALID_POS, h_sched_ctx, sched_key)

/-- Repeated `loop_sched_pick_next_ctx` in one mode: the indices returned, and
the scheduler and the key after the last call. -/
def loop_picks (sched_mode : Int) :
    Nat → Option wd_sched_ctx → Option sched_key →
      List Nat × Option wd_sched_ctx × Option sched_key
  | 0, h_sched_ctx, sched_key => ([], h_sched_ctx, sched_key)
  | n + 1, h_sched_ctx, sched_key =>
    let r := loop_sched_pick_next_ctx h_sched_ctx sched_key sched_mode
    let rest := loop_picks sched_mode n r.2.1 r.2.2
    (r.1 :: rest.1, rest.2)

/-! ## Region registration -/

/-- The loop of `wd_sched_get_nearby_numa_id`: `k` nodes are left, starting at
`i`.  `numa_distance` is the distance function of the platform. -/
def wd_sched_get_nearby_numa_id_loop (numa_distance : Int → Int → Int)
    (sched_info : List wd_sched_info) (node : Int) :
    Nat → Nat → Int → Int → Option Int
  | 0, _, _, valid_id => some valid_id
  | k + 1, i, dis, valid_id =>
    match sched_info[i]? with
    | none => none
    | some info =>
      if info.nm_valid then
        if dis > numa_distance node i then
          wd_sched_get_nearby_numa_id_loop numa_distance sched_info node k (i + 1)
            (numa_distance node i) i
        else
          wd_sched_get_nearby_numa_id_loop numa_distance sched_info node k (i + 1)
            dis valid_id
      else
        wd_sched_get_nearby_numa_id_loop numa_distance sched_info node k (i + 1)
          dis valid_id

/-- From `wd_sched_get_nearby_numa_id`. -/
def wd_sched_get_nearby_numa_id (numa_distance : Int → Int → Int)
    (sched_info : List wd_sched_info) (node : Int) (numa_num : Nat) : Option Int :=
  wd_sched_get_nearby_numa_id_loop numa_distance sched_info node numa_num 0 INT32_MAX (-1)

/-- The loop of `wd_sched_map_cpus_to_dev`: `k` nodes are left, starting at
`i`. -/
def wd_sched_map_cpus_to_dev_loop (numa_distance : Int → Int → Int)
    (sched_info : List wd_sched_info) (numa_num : Nat) :
    Nat → Nat → (Nat → Int) → Option (Nat → Int)
  | 0, _, numa_map => some numa_map
  | k + 1, i, numa_map =>
    match sched_info[i]? with
    | none => none
    | some info =>
      if info.nm_valid then
        wd_sched_map_cpus_to_dev_loop numa_distance sched_info numa_num k (i + 1)
          (fun j => if j = i then (i : Int) else numa_map j)
      else
        match wd_sched_get_nearby_numa_id numa_distance sched_info i numa_num with
        | none => none
        | some id =>
          wd_sched_map_cpus_to_dev_loop numa_distance sched_info numa_num k (i + 1)
            (fun j => if j = i then id else numa_map j)

/-- From `wd_sched_map_cpus_to_dev`. -/
def wd_sched_map_cpus_to_dev (numa_distance : Int → Int → Int)
    (sched_ctx : wd_sched_ctx) : Option wd_sched_ctx :=
  match wd_sched_map_cpus_to_dev_loop numa_distance sched_ctx.sched_info
      sched_ctx.numa_num sched_ctx.numa_num 0 sched_ctx.numa_map with
  | none => none
  | some numa_map => some { sched_ctx with numa_map := numa_map }

/-- The `switch` of `wd_sched_rr_instance`: the node after the cell of the
table chosen by `prop` has been filled in and the flag of that path set. -/
def rr_instance_switch (info : wd_sched_info) (prop mode type : Nat)
    (param : sched_params) : Option wd_sched_info :=
  if prop = UADK_CTX_HW then
    match tbl_write info.ctx_region mode type
        ⟨param.begin, param.end_, param.begin, true⟩ with
    | none => none
    | some tbl => some { info with ctx_region := tbl, hw_valid := true }
  else if prop = UADK_CTX_CE_INS then
    match tbl_write info.ce_ctx_region mode type
        ⟨param.begin, param.end_, param.begin, true⟩ with
    | none => none
    | some tbl => some { info with ce_ctx_region := tbl, ce_valid := true }
  else if prop = UADK_CTX_SVE_INS then
    match tbl_write info.sve_ctx_region mode type
        ⟨param.begin, param.end_, param.begin, true⟩ with
    | none => none
    | some tbl => some { info with sve_ctx_region := tbl, sve_valid := true }
  else if prop = UADK_CTX_SOFT then
    match tbl_write info.soft_ctx_region mode type
        ⟨param.begin, param.end_, param.begin, true⟩ with
    | none => none
    | some tbl => some { info with soft_ctx_region := tbl, soft_valid := true }
  else
    some info

/-- From `wd_sched_rr_instance`: the status, with the handle after the call.
`numa_distance` is the distance function of the platform. -/
def wd_sched_rr_instance (numa_distance : Int → Int → Int) (sched : Option wd_sched)
    (param : Option sched_params) : Option (Int × Option wd_sched) :=
  match sched, param with
  | some s, some p =>
    match s.h_sched_ctx with
    | none => some (-WD_EINVAL, sched)
    | some sched_ctx =>
      if p.begin > p.end_ then some (-WD_EINVAL, sched)
      else if p.numa_id ≥ (sched_ctx.numa_num : Int) ∨ p.numa_id < 0 then
        some (-WD_EINVAL, sched)
      else if p.type ≥ sched_ctx.type_num then some (-WD_EINVAL, sched)
      else if p.mode ≥ SCHED_MODE_BUTT then some (-WD_EINVAL, sched)
      else if p.ctx_prop > UADK_CTX_SOFT then some (-WD_EINVAL, sched)
      else
        match sched_ctx.sched_info[p.numa_id.toNat]? with
        | none => none
        | some info =>
          match info.ctx_region[p.mode]? with
          | none => none
          | some none => some (-WD_EINVAL, sched)
          | some (some _) =>
            match rr_instance_switch info p.ctx_prop p.mode p.type p with
            | none => none
            | some info =>
              let info : wd_sched_info := { info with nm_valid := true }
              let sched_info := sched_ctx.sched_info.set p.numa_id.toNat info
              match wd_sched_map_cpus_to_dev numa_distance
                  { sched_ctx with sched_info := sched_info } with
              | none => none
              | some sched_ctx => some (0, some { s with h_sched_ctx := some sched_ctx })
  | _, _ => some (-WD_EINVAL, sched)

/-! ## Creation -/

/-- From `numa_num_check`; `numa_max_node` is what the platform reports. -/
def numa_num_check (numa_max_node : Int) (numa_num : Nat) : Int :=
  if numa_max_node + 1 ≤ 0 then -WD_EINVAL
  else if numa_num = 0 ∨ (numa_num : Int) > numa_max_node + 1 then -WD_EINVAL
  else 0

/-- A cell as `calloc` leaves it. -/
def zero_region : sched_ctx_region := ⟨0, 0, 0, false⟩

/-- A node as `calloc` leaves it: the `SCHED_MODE_BUTT` pointers of each table
are `NULL`. -/
def zero_info : wd_sched_info :=
  ⟨List.replicate SCHED_MODE_BUTT none, List.replicate SCHED_MODE_BUTT none,
    List.replicate SCHED_MODE_BUTT none, List.replicate SCHED_MODE_BUTT none,
    false, false, false, false, false⟩

/-- The balancer as `calloc` leaves it. -/
def zero_balancer : wd_sched_balancer := ⟨0, 0, 0, 0, 0, 0⟩

/-- A node as one round of the outer loop of `wd_sched_region_init` leaves it
when every `calloc` succeeds: the `SCHED_MODE_BUTT` pointers of each of the
four tables point to `type_num` zeroed cells, and the five flags are
cleared. -/
def wd_sched_region_init_node (type_num : Nat) : wd_sched_info :=
  { ctx_region :=
      List.replicate SCHED_MODE_BUTT (some (List.replicate type_num zero_region))
    ce_ctx_region :=
      List.replicate SCHED_MODE_BUTT (some (List.replicate type_num zero_region))
    sve_ctx_region :=
      List.replicate SCHED_MODE_BUTT (some (List.replicate type_num zero_region))
    soft_ctx_region :=
      List.replicate SCHED_MODE_BUTT (some (List.replicate type_num zero_region))
    nm_valid := false
    hw_valid := false
    ce_valid := false
    sve_valid := false
    soft_valid := false }

/-- The loop over the nodes of `wd_sched_region_init` when every `calloc`
succeeds: `k` nodes are left, starting at `i`. -/
def wd_sched_region_init_loop (type_num : Nat) :
    Nat → Nat → List wd_sched_info → Option (List wd_sched_info)
  | 0, _, sched_info => some sched_info
  | k + 1, i, sched_info =>
    match sched_info[i]? with
    | none => none
    | some _ =>
      wd_sched_region_init_loop type_num k (i + 1)
        (sched_info.set i (wd_sched_region_init_node type_num))

/-- From `wd_sched_region_init`.  `calloc_ok` says whether memory is available:
when it is not, the first `calloc` fails, nothing has been allocated yet and
the function returns the error. -/
def wd_sched_region_init (calloc_ok : Bool) (sched_ctx : wd_sched_ctx)
    (type_num numa_num : Nat) : Option (Int × wd_sched_ctx) :=
  if calloc_ok then
    match wd_sched_region_init_loop type_num numa_num 0 sched_ctx.sched_info with
    | none => none
    | some sched_info => some (0, { sched_ctx with sched_info := sched_info })
  else
    some (-WD_EINVAL, sched_ctx)

/-- From `wd_sched_rr_alloc`: `some none` is the `NULL` result.
`numa_max_node` is what the platform reports and `calloc_ok` says whether
memory is available. -/
def wd_sched_rr_alloc (numa_max_node : Int) (calloc_ok : Bool)
    (sched_type type_num numa_num : Nat) (func : Option user_poll_func) :
    Option (Option wd_sched) :=
  if numa_num_check numa_max_node numa_num ≠ 0 then some none
  else if sched_type ≥ SCHED_POLICY_BUTT ∨ type_num = 0 then some none
  else if !calloc_ok then some none
  else
    let sched_ctx : wd_sched_ctx :=
      { policy := 0
        type_num := 0
        numa_num := numa_num
        poll_func := none
        numa_map := fun _ => 0
        balancer := zero_balancer
        sched_info := List.replicate numa_num zero_info }
    let finish (sched_ctx : wd_sched_ctx) : Option (Option wd_sched) :=
      some (some
        { sched_policy := sched_type
          h_sched_ctx := some
            { sched_ctx with
              poll_func := func
              policy := sched_type
              type_num := type_num
              numa_map := fun _ => -1 } })
    if sched_type = SCHED_POLICY_NONE ∨ sched_type = SCHED_POLICY_SINGLE then
      finish sched_ctx
    else
      match wd_sched_region_init calloc_ok sched_ctx type_num numa_num with
      | none => none
      | some (ret, sched_ctx) => if ret ≠ 0 then some none else finish sched_ctx

/-! ## Well-formed schedulers -/

/-- Every cell of the four tables of every node is allocated: what
`wd_sched_region_init` establishes for `numa_num` nodes and `type_num`
types. -/
def ctx_wf (sched_ctx : wd_sched_ctx) : Prop :=
  ∀ numa < sched_ctx.numa_num, ∀ prop < SCHED_REGION_NUM,
    ∀ mode < SCHED_MODE_BUTT, ∀ type < sched_ctx.type_num,
      (region_read sched_ctx.sched_info ⟨prop, numa, mode, type⟩).isSome = true

/-- The `valid` flag of the cell a pointer designates. -/
def cell_valid (sched_info : List wd_sched_info) (ref : region_ref) : Bool :=
  match region_read sched_info ref with
  | some region => region.valid
  | none => false

/-- The flag of a node for a path kind. -/
def path_flag (info : wd_sched_info) (prop : Nat) : Bool :=
  if prop = UADK_CTX_HW then info.hw_valid
  else if prop = UADK_CTX_CE_INS then info.ce_valid
  else if prop = UADK_CTX_SVE_INS then info.sve_valid
  else if prop = UADK_CTX_SOFT then info.soft_valid
  else false

/-- The key `session_sched_init` resolves with: node 0, the given type and
mode. -/
def session_key (type : Nat) (sched_mode : Int) : sched_key :=
  { zero_key with type := type, mode := (sched_mode % 256).toNat }

/-- The type `session_sched_init` puts in the key. -/
def param_type (sched_param : Option sched_params) : Nat :=
  match sched_param with
  | none => 0
  | some param => param.type

/-- The cell a key resolves to, if any: the key passes `sched_key_valid` and
`sched_get_ctx_range` finds a cell. -/
def key_resolves (sched_ctx : wd_sched_ctx) (key : sched_key) (ref : region_ref) : Prop :=
  sched_key_valid sched_ctx key = true ∧
    sched_get_ctx_range sched_ctx key = some (some ref)

/-- The cell `session_sched_init` resolves for a type and a mode, if any. -/
def session_resolves (sched_ctx : wd_sched_ctx) (type : Nat) (sched_mode : Int)
    (ref : region_ref) : Prop :=
  key_resolves sched_ctx (session_key type sched_mode) ref

/-- The key `session_sched_init` has built when it starts to resolve. -/
def session_init_key (sched_ctx : wd_sched_ctx) (node : Int) (mem : sched_key)
    (sched_param : Option sched_params) : sched_key :=
  let skey : sched_key :=
    match sched_param with
    | none => { zero_key with numa_id := sched_ctx.numa_map node.toNat }
    | some param =>
      if param.numa_id < 0 then
        { mem with type := param.type, numa_id := sched_ctx.numa_map node.toNat }
      else
        { mem with type := param.type, numa_id := param.numa_id }
  { skey with numa_id := 0 }

/-- The end of `session_sched_init`, from the first `session_sched_init_ctx`
call on. -/
def session_sched_init_tail (sched_ctx : wd_sched_ctx) (skey : sched_key) :
    Option (Except Int sched_key × Option wd_sched_ctx) :=
  match session_sched_init_ctx sched_ctx skey CTX_MODE_SYNC with
  | none => none
  | some (sync_ctxid, sched_ctx, skey) =>
    let skey := { skey with sync_ctxid := sync_ctxid }
    match session_sched_init_ctx sched_ctx skey CTX_MODE_ASYNC with
    | none => none
    | some (async_ctxid, sched_ctx, skey) =>
      let skey := { skey with async_ctxid := async_ctxid }
      if skey.sync_ctxid = INVALID_POS ∧ skey.async_ctxid = INVALID_POS then
        some (.error (-WD_EINVAL), some sched_ctx)
      else
        some (.ok skey, some sched_ctx)

/-! ## Scenarios -/

/-- A platform on which every two nodes are at distance 10. -/
def flat_distance : Int → Int → Int := fun _ _ => 10

/-- The scheduler context of a handle that `wd_sched_rr_alloc` returned. -/
def handle_ctx (sched : Option (Option wd_sched)) : Option wd_sched_ctx :=
  match sched with
  | some (some s) => s.h_sched_ctx
  | _ => none

/-- Register a region on a handle and keep the handle. -/
def register (sched : Option (Option wd_sched)) (param : sched_params) :
    Option (Option wd_sched) :=
  match sched with
  | some (some s) =>
    match wd_sched_rr_instance flat_distance (some s) (some param) with
    | some (_, s) => some s
    | none => none
  | _ => none

/-- A fresh scheduler: one node, one type, the given policy. -/
def fresh_sched (policy : Nat) : Option (Option wd_sched) :=
  wd_sched_rr_alloc 0 true policy 1 1 none

/-- The end-to-end scenario: round-robin policy, hardware sync region
`[0, 3]` and hardware async region `[4, 7]`. -/
def e2e_sched : Option (Option wd_sched) :=
  register
    (register (fresh_sched SCHED_POLICY_RR)
      ⟨0, 0, SCHED_MODE_SYNC, 0, 3, UADK_CTX_HW⟩)
    ⟨0, 0, SCHED_MODE_ASYNC, 4, 7, UADK_CTX_HW⟩

/-- A scheduler with one hardware sync region, which holds only the last
`__u32` index. -/
def top_sched : Option (Option wd_sched) :=
  register (fresh_sched SCHED_POLICY_RR)
    ⟨0, 0, SCHED_MODE_SYNC, 4294967295, 4294967295, UADK_CTX_HW⟩

/-- A key whose four indices are distinct and valid. -/
def demo_key : sched_key := ⟨0, 0, 0, 0, 0, 4, 8, 12⟩

/-- The number of entries of a list of indices equal to a given index. -/
def count_index (index : Nat) (picks : List Nat) : Nat :=
  picks.count index

/-- The scheduler context behind a handle; an empty scheduler stands for a
handle that is missing. -/
def ctx_of (sched : Option (Option wd_sched)) : wd_sched_ctx :=
  match handle_ctx sched with
  | some sched_ctx => sched_ctx
  | none => ⟨0, 0, 0, none, fun _ => 0, zero_balancer, []⟩

/-- Two nodes, one type, round-robin policy; only node 1 has a region, the
hardware sync region `[0, 3]`. -/
def two_node_sched : Option (Option wd_sched) :=
  register (wd_sched_rr_alloc 1 true SCHED_POLICY_RR 1 2 none)
    ⟨1, 0, SCHED_MODE_SYNC, 0, 3, UADK_CTX_HW⟩

instance ctx_wf_decidable (sched_ctx : wd_sched_ctx) : Decidable (ctx_wf sched_ctx) := by
  unfold ctx_wf
  infer_instance

/-- The handle that `wd_sched_rr_alloc` or a registration returned; an empty
handle stands for one that is missing. -/
def sched_of (sched : Option (Option wd_sched)) : wd_sched :=
  match sched with
  | some (some s) => s
  | _ => ⟨0, none⟩

/-- One node, one type, round-robin policy, with the hardware sync region
`[0, 3]`. -/
def once_sched : Option (Option wd_sched) :=
  register (fresh_sched SCHED_POLICY_RR) ⟨0, 0, SCHED_MODE_SYNC, 0, 3, UADK_CTX_HW⟩

/-- The handle after the hardware sync cell of `once_sched` is registered a
second time, as `[10, 20]`. -/
def again_sched : Option wd_sched :=
  match wd_sched_rr_instance flat_distance (some (sched_of once_sched))
      (some ⟨0, 0, SCHED_MODE_SYNC, 10, 20, UADK_CTX_HW⟩) with
  | some (_, out) => out
  | none => none

/-- A fresh loop scheduler in which three hardware tasks and one software task
are outstanding. -/
def busy_ctx : wd_sched_ctx :=
  { ctx_of (fresh_sched SCHED_POLICY_LOOP) with balancer := ⟨0, 0, 3, 1, 3, 1⟩ }

/-! ## Loop policy: key resolution -/

/-- One test of the first part of `loop_get_ctx_range`: the flag of the node for a
path kind, the path kind of the key, and then the `valid` flag of a cell, which
is read only when the first two hold. -/
def loop_branch (flag prop_ok : Bool) (cell : Option sched_ctx_region) : Option Bool :=
  if flag && prop_ok then
    match cell with
    | none => none
    | some region => some region.valid
  else
    some false

/-- The scan of `loop_get_ctx_range`: `k` nodes are left, starting at
`numa_id`.  The cell is not read, its address is returned. -/
def loop_get_ctx_range_scan (sched_ctx : wd_sched_ctx) (key : sched_key) :
    Nat → Nat → Option (Option region_ref)
  | 0, _ => some none
  | k + 1, numa_id =>
    match sched_ctx.sched_info[numa_id]? with
    | none => none
    | some info =>
      if info.hw_valid then
        some (some ⟨UADK_CTX_HW, numa_id, key.mode, key.type⟩)
      else if info.ce_valid then
        some (some ⟨UADK_CTX_CE_INS, numa_id, key.mode, key.type⟩)
      else if info.sve_valid then
        some (some ⟨UADK_CTX_SVE_INS, numa_id, key.mode, key.type⟩)
      else if info.soft_valid then
        some (some ⟨UADK_CTX_SOFT, numa_id, key.mode, key.type⟩)
      else
        loop_get_ctx_range_scan sched_ctx key k (numa_id + 1)

/-- The first part of `loop_get_ctx_range`, for a key with `numa_id ≥ 0`: the
four tests on the node of the key, in order; `some none` when none holds.  The
fourth test, for the software path, reads the crypto-engine table and returns
a cell of it, as the source does. -/
def loop_get_ctx_range_exact (info : wd_sched_info) (key : sched_key) :
    Option (Option region_ref) :=
  match loop_branch info.hw_valid (key.ctx_prop = UADK_CTX_HW)
      (tbl_read info.ctx_region key.mode key.type) with
  | none => none
  | some true => some (some ⟨UADK_CTX_HW, key.numa_id.toNat, key.mode, key.type⟩)
  | some false =>
    match loop_branch info.ce_valid (key.ctx_prop = UADK_CTX_CE_INS)
        (tbl_read info.ce_ctx_region key.mode key.type) with
    | none => none
    | some true => some (some ⟨UADK_CTX_CE_INS, key.numa_id.toNat, key.mode, key.type⟩)
    | some false =>
      match loop_branch info.sve_valid (key.ctx_prop = UADK_CTX_SVE_INS)
          (tbl_read info.sve_ctx_region key.mode key.type) with
      | none => none
      | some true => some (some ⟨UADK_CTX_SVE_INS, key.numa_id.toNat, key.mode, key.type⟩)
      | some false =>
        match loop_branch info.soft_valid (key.ctx_prop = UADK_CTX_SOFT)
            (tbl_read info.ce_ctx_region key.mode key.type) with
        | none => none
        | some true => some (some ⟨UADK_CTX_CE_INS, key.numa_id.toNat, key.mode, key.type⟩)
        | some false => some none

/-- From `loop_get_ctx_range`: `some none` is the `NULL` result. -/
def loop_get_ctx_range (sched_ctx : wd_sched_ctx) (key : sched_key) :
    Option (Option region_ref) :=
  if key.numa_id ≥ 0 then
    match sched_ctx.sched_info[key.numa_id.toNat]? with
    | none => none
    | some info =>
      match loop_get_ctx_range_exact info key with
      | none => none
      | some (some ref) => some (some ref)
      | some none => loop_get_ctx_range_scan sched_ctx key sched_ctx.numa_num 0
  else
    loop_get_ctx_range_scan sched_ctx key sched_ctx.numa_num 0

/-- From `loop_sched_init_ctx`: the index, the scheduler and the key after the
call. -/
def loop_sched_init_ctx (sched_ctx : wd_sched_ctx) (key : sched_key)
    (sched_mode : Int) : Option (Nat × wd_sched_ctx × sched_key) :=
  let key := { key with mode := (sched_mode % 256).toNat }
  if !sched_key_valid sched_ctx key then
    some (INVALID_POS, sched_ctx, key)
  else
    match loop_get_ctx_range sched_ctx key with
    | none => none
    | some none => some (INVALID_POS, sched_ctx, key)
    | some (some ref) =>
      match region_next_pos sched_ctx ref with
      | none => none
      | some (pos, sched_ctx) => some (pos, sched_ctx, key)

/-- From `loop_sched_init`, with `node` and `mem` as for `session_sched_init`. -/
def loop_sched_init (node : Int) (mem : Option sched_key)
    (h_sched_ctx : Option wd_sched_ctx) (sched_param : Option sched_params) :
    Option (Except Int sched_key × Option wd_sched_ctx) :=
  if node < 0 then some (.error (-WD_EINVAL), h_sched_ctx)
  else
    match h_sched_ctx with
    | none => some (.error (-WD_EINVAL), h_sched_ctx)
    | some sched_ctx =>
      match mem with
      | none => some (.error (-WD_ENOMEM), h_sched_ctx)
      | some skey =>
        let skey : sched_key :=
          match sched_param with
          | none => { zero_key with numa_id := 0, ctx_prop := UADK_CTX_HW }
          | some param =>
            if param.numa_id < 0 then
              { skey with type := param.type, numa_id := 0, ctx_prop := param.ctx_prop }
            else
              { skey with
                type := param.type, numa_id := param.numa_id, ctx_prop := param.ctx_prop }
        let skey := { skey with numa_id := 0 }
        match loop_sched_init_ctx sched_ctx skey CTX_MODE_SYNC with
        | none => none
        | some (sync_ctxid, sched_ctx, skey) =>
          let skey := { skey with sync_ctxid := sync_ctxid }
          match loop_sched_init_ctx sched_ctx skey CTX_MODE_ASYNC with
          | none => none
          | some (async_ctxid, sched_ctx, skey) =>
            let skey := { skey with async_ctxid := async_ctxid }
            if skey.sync_ctxid = INVALID_POS ∧ skey.async_ctxid = INVALID_POS then
              some (.error (-WD_EINVAL), some sched_ctx)
            else
              let ctx_prop := skey.ctx_prop
              let skey := { skey with ctx_prop := UADK_CTX_CE_INS }
              match loop_sched_init_ctx sched_ctx skey CTX_MODE_SYNC with
              | none => none
              | some (sw_sync_ctxid, sched_ctx, skey) =>
                let skey := { skey with sw_sync_ctxid := sw_sync_ctxid }
                match loop_sched_init_ctx sched_ctx skey CTX_MODE_ASYNC with
                | none => none
                | some (sw_async_ctxid, sched_ctx, skey) =>
                  let skey := { skey with sw_async_ctxid := sw_async_ctxid }
                  let skey := { skey with ctx_prop := ctx_prop }
                  some (.ok skey, some sched_ctx)

/-- From `loop_sched_rte_init`, with `node` and `mem` as for
`session_sched_init`; the scheduler is not written. -/
def loop_sched_rte_init (node : Int) (mem : Option sched_key)
    (h_sched_ctx : Option wd_sched_ctx) (sched_param : Option sched_params) :
    Except Int sched_key :=
  if node < 0 then .error (-WD_EINVAL)
  else
    match h_sched_ctx with
    | none => .error (-WD_EINVAL)
    | some sched_ctx =>
      match mem with
      | none => .error (-WD_ENOMEM)
      | some skey =>
        let skey : sched_key :=
          match sched_param with
          | none => { zero_key with numa_id := 0, ctx_prop := UADK_CTX_HW }
          | some param =>
            if param.numa_id < 0 then
              { skey with type := param.type, numa_id := 0, ctx_prop := param.ctx_prop }
            else
              { skey with
                type := param.type, numa_id := param.numa_id, ctx_prop := param.ctx_prop }
        let skey := { skey with
          numa_id := 0, sync_ctxid := INVALID_POS, async_ctxid := INVALID_POS,
          sw_sync_ctxid := INVALID_POS, sw_async_ctxid := INVALID_POS }
        if !sched_key_valid sched_ctx skey then .error (-WD_EINVAL)
        else .ok skey

/-- From `loop_sched_rte_pick_ctx`: the index, the scheduler and the key after
the call. -/
def loop_sched_rte_pick_ctx (sched_ctx : wd_sched_ctx) (key : sched_key)
    (sched_mode : Int) : Option (Nat × wd_sched_ctx × sched_key) :=
  let key := { key with mode := (sched_mode % 256).toNat }
  match loop_get_ctx_range sched_ctx key with
  | none => none
  | some none => some (INVALID_POS, sched_ctx, key)
  | some (some ref) =>
    match region_next_pos sched_ctx ref with
    | none => none
    | some (pos, sched_ctx) => some (pos, sched_ctx, key)

/-- From `loop_sched_rte_pick_next_ctx`: the index, with the scheduler and the
key after the call. -/
def loop_sched_rte_pick_next_ctx (h_sched_ctx : Option wd_sched_ctx)
    (sched_key : Option WdSched.sched_key) (sched_mode : Int) :
    Option (Nat × Option wd_sched_ctx × Option WdSched.sched_key) :=
  match h_sched_ctx, sched_key with
  | some sched_ctx, some skey =>
    if sched_ctx.balancer.switch_slice = LOOP_SWITH_TIME then
      let sched_ctx : wd_sched_ctx :=
        { sched_ctx with balancer := { sched_ctx.balancer with switch_slice := 0 } }
      let skey : WdSched.sched_key := { skey with ctx_prop := UADK_CTX_HW }
      if sched_mode = CTX_MODE_SYNC then
        if skey.sync_ctxid ≠ INVALID_POS then
          some (skey.sync_ctxid, some sched_ctx, some skey)
        else
          match loop_sched_rte_pick_ctx sched_ctx skey CTX_MODE_SYNC with
          | none => none
          | some (rte_ctxid, sched_ctx, skey) =>
            some (rte_ctxid, some sched_ctx, some { skey with sync_ctxid := rte_ctxid })
      else
        if skey.async_ctxid ≠ INVALID_POS then
          some (skey.async_ctxid, some sched_ctx, some skey)
        else
          match loop_sched_rte_pick_ctx sched_ctx skey CTX_MODE_ASYNC with
          | none => none
          | some (rte_ctxid, sched_ctx, skey) =>
            some (rte_ctxid, some sched_ctx, some { skey with async_ctxid := rte_ctxid })
    else
      let sched_ctx : wd_sched_ctx :=
        { sched_ctx with balancer :=
          { sched_ctx.balancer with switch_slice := sched_ctx.balancer.switch_slice + 1 } }
      let skey : WdSched.sched_key := { skey with ctx_prop := UADK_CTX_CE_INS }
      if sched_mode = CTX_MODE_SYNC then
        if skey.sw_sync_ctxid ≠ INVALID_POS then
          some (skey.sw_sync_ctxid, some sched_ctx, some skey)
        else
          match loop_sched_rte_pick_ctx sched_ctx skey CTX_MODE_SYNC with
          | none => none
          | some (rte_ctxid, sched_ctx, skey) =>
            some (rte_ctxid, some sched_ctx, some { skey with sw_sync_ctxid := rte_ctxid })
      else
        if skey.sw_async_ctxid ≠ INVALID_POS then
          some (skey.sw_async_ctxid, some sched_ctx, some skey)
        else
          match loop_sched_rte_pick_ctx sched_ctx skey CTX_MODE_ASYNC with
          | none => none
          | some (rte_ctxid, sched_ctx, skey) =>
            some (rte_ctxid, some sched_ctx, some { skey with sw_async_ctxid := rte_ctxid })
  | _, _ => some (INVALID_POS, h_sched_ctx, sched_key)

/-! ## Completion poller -/

/-- How a run of a poll function or of one of its loops ends: the function
returns a status, the loop ends and the function goes on, the run is cut
because the allowance of loop rounds is used up, or memory outside the
allocation (or a `NULL` function) is used. -/
inductive outcome where
  | ret (r : Int)
  | next
  | fuel_out
  | fault
deriving DecidableEq, Repr

/-- One completion check, as recorded: the context probed, the value of
`*count` when the call was made, the status returned and the number of items
the callee stored, if it stored one. -/
structure poll_event where
  pos : Nat
  count : Nat
  ret : Int
  num : Option Nat
deriving DecidableEq, Repr

/-- The state of a poll: `*count`, with two records that the source does not
keep: the completion checks made so far, in order, and the number of
per-node sweeps after which the node loop moved on because `*count` had not
changed. -/
structure poll_st where
  count : Nat
  log : List poll_event
  idle : Nat
deriving DecidableEq, Repr

/-- The loop of `session_poll_region`: `fuel` rounds are allowed, `i` is the
context to probe and `poll_num` the local of that name. -/
def session_poll_region_loop (poll_func : user_poll_func) (end_ expect : Nat) :
    Nat → Nat → Nat → poll_st → outcome × poll_st
  | 0, _, _, st => (.fuel_out, st)
  | fuel + 1, i, poll_num, st =>
    if i ≤ end_ then
      let r := poll_func (st.log.map poll_event.pos) i 1
      let st1 : poll_st := { st with log := st.log ++ [⟨i, st.count, r.1, r.2⟩] }
      let poll_num :=
        match r.2 with
        | some n => n
        | none => poll_num
      if r.1 < 0 ∧ r.1 ≠ -EAGAIN then
        (.ret r.1, st1)
      else if r.1 = -EAGAIN then
        session_poll_region_loop poll_func end_ expect fuel ((i + 1) % U32) poll_num st1
      else if (st1.count + poll_num) % U32 = expect then
        (.ret 0, { st1 with count := (st1.count + poll_num) % U32 })
      else
        session_poll_region_loop poll_func end_ expect fuel ((i + 1) % U32) poll_num
          { st1 with count := (st1.count + poll_num) % U32 }
    else
      (.ret 0, st)

/-- From `session_poll_region`. -/
def session_poll_region (fuel : Nat) (sched_ctx : wd_sched_ctx)
    (begin end_ expect : Nat) (st : poll_st) : outcome × poll_st :=
  match sched_ctx.poll_func with
  | none => (.fault, st)
  | some poll_func => session_poll_region_loop poll_func end_ expect fuel begin 0 st

/-- The loop over the types of `session_poll_policy_rr`, and of
`loop_poll_policy_rr` for the table of the path kind `prop`: `k` types are
left, starting at `i`. -/
def poll_types_loop (fuel : Nat) (sched_ctx : wd_sched_ctx) (prop numa_id expect : Nat) :
    Nat → Nat → poll_st → outcome × poll_st
  | 0, _, st => (.next, st)
  | k + 1, i, st =>
    match region_read sched_ctx.sched_info ⟨prop, numa_id, SCHED_MODE_ASYNC, i⟩ with
    | none => (.fault, st)
    | some region =>
      if !region.valid then
        poll_types_loop fuel sched_ctx prop numa_id expect k (i + 1) st
      else
        match session_poll_region fuel sched_ctx region.begin region.end_ expect st with
        | (.ret r, st) =>
          if r ≠ 0 then (.ret r, st)
          else poll_types_loop fuel sched_ctx prop numa_id expect k (i + 1) st
        | (o, st) => (o, st)

/-- From `session_poll_policy_rr`. -/
def session_poll_policy_rr (fuel : Nat) (sched_ctx : wd_sched_ctx)
    (numa_id expect : Nat) (st : poll_st) : outcome × poll_st :=
  match poll_types_loop fuel sched_ctx UADK_CTX_HW numa_id expect sched_ctx.type_num 0 st with
  | (.next, st) => (.ret 0, st)
  | (o, st) => (o, st)

/-- The loop over the nodes of `session_sched_poll_policy`: `fuel` rounds are
allowed, `i` is the node. -/
def session_sched_poll_policy_for (sched_ctx : wd_sched_ctx) (expect : Nat) (rfuel : Nat) :
    Nat → Nat → poll_st → outcome × poll_st
  | 0, _, st => (.fuel_out, st)
  | fuel + 1, i, st =>
    if i < sched_ctx.numa_num then
      match sched_ctx.sched_info[i]? with
      | none => (.fault, st)
      | some info =>
        if !info.nm_valid then
          session_sched_poll_policy_for sched_ctx expect rfuel fuel (i + 1) st
        else
          match session_poll_policy_rr rfuel sched_ctx i expect st with
          | (.ret r, st') =>
            if r ≠ 0 then (.ret r, st')
            else if expect = st'.count then (.ret 0, st')
            else if st.count = st'.count then
              session_sched_poll_policy_for sched_ctx expect rfuel fuel (i + 1)
                { st' with idle := st'.idle + 1 }
            else
              session_sched_poll_policy_for sched_ctx expect rfuel fuel i st'
          | (o, st') => (o, st')
    else
      (.next, st)

/-- The `while` loop of `session_sched_poll_policy`: at most `k` tests of its
condition are made, `loop_time` is the local of that name. -/
def session_sched_poll_policy_while (sched_ctx : wd_sched_ctx) (expect fuel : Nat) :
    Nat → Nat → poll_st → outcome × poll_st
  | 0, _, st => (.fuel_out, st)
  | k + 1, loop_time, st =>
    if (loop_time + 1) % U32 < MAX_POLL_TIMES then
      match session_sched_poll_policy_for sched_ctx expect fuel fuel 0 st with
      | (.next, st) =>
        session_sched_poll_policy_while sched_ctx expect fuel k ((loop_time + 1) % U32) st
      | (o, st) => (o, st)
    else
      (.next, st)

/-- From `session_sched_poll_policy`.  `fuel` is the number of rounds allowed to
each loop that has no bound of its own, `NUMA_NUM_NODES` is the constant of
the platform, `count` is `NULL` or the state of the poll. -/
def session_sched_poll_policy (fuel NUMA_NUM_NODES : Nat)
    (h_sched_ctx : Option wd_sched_ctx) (expect : Nat) (count : Option poll_st) :
    outcome × Option poll_st :=
  match count, h_sched_ctx with
  | some st, some sched_ctx =>
    if sched_ctx.poll_func.isNone then (.ret (-WD_EINVAL), count)
    else if sched_ctx.numa_num > NUMA_NUM_NODES then (.ret (-WD_EINVAL), count)
    else
      match session_sched_poll_policy_while sched_ctx expect fuel MAX_POLL_TIMES 0 st with
      | (.next, st) => (.ret 0, some st)
      | (o, st) => (o, some st)
  | _, _ => (.ret (-WD_EINVAL), count)

/-- The loop over the four tables of `loop_poll_policy_rr`: `k` tables are left,
starting at `j`. -/
def loop_poll_policy_rr_tables (fuel numa_id expect : Nat) :
    Nat → Nat → wd_sched_ctx → poll_st → outcome × wd_sched_ctx × poll_st
  | 0, _, sched_ctx, st => (.ret 0, sched_ctx, st)
  | k + 1, j, sched_ctx, st =>
    match sched_ctx.sched_info[numa_id]? with
    | none => (.fault, sched_ctx, st)
    | some info =>
      if !path_flag info j then
        loop_poll_policy_rr_tables fuel numa_id expect k (j + 1) sched_ctx st
      else
        match poll_types_loop fuel sched_ctx j numa_id expect sched_ctx.type_num 0 st with
        | (.next, st) =>
          if j = 0 then
            loop_poll_policy_rr_tables fuel numa_id expect k (j + 1)
              { sched_ctx with balancer :=
                { sched_ctx.balancer with
                  hw_task_num := (sched_ctx.balancer.hw_task_num + U32 - st.count % U32) % U32 } }
              st
          else
            loop_poll_policy_rr_tables fuel numa_id expect k (j + 1)
              { sched_ctx with balancer :=
                { sched_ctx.balancer with
                  sw_task_num := (sched_ctx.balancer.sw_task_num + U32 - st.count % U32) % U32 } }
              st
        | (o, st) => (o, sched_ctx, st)

/-- From `loop_poll_policy_rr`. -/
def loop_poll_policy_rr (fuel : Nat) (sched_ctx : wd_sched_ctx) (numa_id expect : Nat)
    (st : poll_st) : outcome × wd_sched_ctx × poll_st :=
  loop_poll_policy_rr_tables fuel numa_id expect SCHED_REGION_NUM 0 sched_ctx st

/-- The loop over the nodes of `loop_sched_poll_policy`: `fuel` rounds are
allowed, `i` is the node. -/
def loop_sched_poll_policy_for (expect : Nat) (rfuel : Nat) :
    Nat → Nat → wd_sched_ctx → poll_st → outcome × wd_sched_ctx × poll_st
  | 0, _, sched_ctx, st => (.fuel_out, sched_ctx, st)
  | fuel + 1, i, sched_ctx, st =>
    if i < sched_ctx.numa_num then
      match sched_ctx.sched_info[i]? with
      | none => (.fault, sched_ctx, st)
      | some info =>
        if !info.nm_valid then
          loop_sched_poll_policy_for expect rfuel fuel (i + 1) sched_ctx st
        else
          match loop_poll_policy_rr rfuel sched_ctx i expect st with
          | (.ret r, sched_ctx', st') =>
            if r ≠ 0 then (.ret r, sched_ctx', st')
            else if expect = st'.count then (.ret 0, sched_ctx', st')
            else if st.count = st'.count then
              loop_sched_poll_policy_for expect rfuel fuel (i + 1) sched_ctx'
                { st' with idle := st'.idle + 1 }
            else
              loop_sched_poll_policy_for expect rfuel fuel i sched_ctx' st'
          | (o, sched_ctx', st') => (o, sched_ctx', st')
    else
      (.next, sched_ctx, st)

/-- The `while` loop of `loop_sched_poll_policy`: at most `k` tests of its
condition are made, `loop_time` is the local of that name. -/
def loop_sched_poll_policy_while (expect fuel : Nat) :
    Nat → Nat → wd_sched_ctx → poll_st → outcome × wd_sched_ctx × poll_st
  | 0, _, sched_ctx, st => (.fuel_out, sched_ctx, st)
  | k + 1, loop_time, sched_ctx, st =>
    if (loop_time + 1) % U32 < MAX_POLL_TIMES then
      match loop_sched_poll_policy_for expect fuel fuel 0 sched_ctx st with
      | (.next, sched_ctx, st) =>
        loop_sched_poll_policy_while expect fuel k ((loop_time + 1) % U32) sched_ctx st
      | (o, sched_ctx, st) => (o, sched_ctx, st)
    else
      (.next, sched_ctx, st)

/-- From `loop_sched_poll_policy`, with `fuel`, `NUMA_NUM_NODES` and `count` as
for `session_sched_poll_policy`; the scheduler after the call is returned as
well. -/
def loop_sched_poll_policy (fuel NUMA_NUM_NODES : Nat)
    (h_sched_ctx : Option wd_sched_ctx) (expect : Nat) (count : Option poll_st) :
    outcome × Option wd_sched_ctx × Option poll_st :=
  match count, h_sched_ctx with
  | some st, some sched_ctx =>
    if sched_ctx.poll_func.isNone then (.ret (-WD_EINVAL), h_sched_ctx, count)
    else if sched_ctx.numa_num > NUMA_NUM_NODES then (.ret (-WD_EINVAL), h_sched_ctx, count)
    else
      match loop_sched_poll_policy_while expect fuel MAX_POLL_TIMES 0 sched_ctx st with
      | (.next, sched_ctx, st) => (.ret 0, some sched_ctx, some st)
      | (o, sched_ctx, st) => (o, some sched_ctx, some st)
  | _, _ => (.ret (-WD_EINVAL), h_sched_ctx, count)

/-! ## Scenarios for the loop policy and the poller -/

/-- One node, one type, loop policy, with the hardware sync region `[0, 3]`
alone. -/
def loop_once_sched : Option (Option wd_sched) :=
  register (fresh_sched SCHED_POLICY_LOOP) ⟨0, 0, SCHED_MODE_SYNC, 0, 3, UADK_CTX_HW⟩

/-- One node, one type, loop policy, with the hardware sync region `[0, 3]` and
the software-fallback sync region `[8, 11]`. -/
def loop_soft_sched : Option (Option wd_sched) :=
  register loop_once_sched ⟨0, 0, SCHED_MODE_SYNC, 8, 11, UADK_CTX_SOFT⟩

/-- One node, one type, loop policy, with the crypto-engine sync region
`[4, 7]` and the software-fallback sync region `[8, 11]`. -/
def loop_ce_soft_sched : Option (Option wd_sched) :=
  register
    (register (fresh_sched SCHED_POLICY_LOOP)
      ⟨0, 0, SCHED_MODE_SYNC, 4, 7, UADK_CTX_CE_INS⟩)
    ⟨0, 0, SCHED_MODE_SYNC, 8, 11, UADK_CTX_SOFT⟩

/-- A scheduler with a completion check installed. -/
def with_poll (sched_ctx : wd_sched_ctx) (poll_func : user_poll_func) : wd_sched_ctx :=
  { sched_ctx with poll_func := some poll_func }

/-- A completion check that always reports try-again. -/
def poll_eagain : user_poll_func := fun _ _ _ => (-EAGAIN, none)

/-- A completion check that always reports one completed item. -/
def poll_one : user_poll_func := fun _ _ _ => (0, some 1)

/-- A completion check that always reports two completed items. -/
def poll_two : user_poll_func := fun _ _ _ => (0, some 2)

/-- A completion check that always fails with the status `-5`. -/
def poll_fatal : user_poll_func := fun _ _ _ => (-5, none)

/-- The state of a poll that starts with `*count = 0`. -/
def poll_start : poll_st := ⟨0, [], 0⟩

/-- One node, two types, round-robin policy, with the hardware async regions
`[4, 4]` for type 0 and `[5, 5]` for type 1. -/
def two_type_sched : Option (Option wd_sched) :=
  register
    (register (wd_sched_rr_alloc 0 true SCHED_POLICY_RR 2 1 none)
      ⟨0, 0, SCHED_MODE_ASYNC, 4, 4, UADK_CTX_HW⟩)
    ⟨0, 1, SCHED_MODE_ASYNC, 5, 5, UADK_CTX_HW⟩

/-- The contexts probed and the value of `*count` at each probe, from the
record of a poll. -/
def probes (st : Option poll_st) : List (Nat × Nat) :=
  match st with
  | some st => st.log.map fun e => (e.pos, e.count)
  | none => []

/-- The value of `*count` after a poll. -/
def count_of (st : Option poll_st) : Nat :=
  match st with
  | some st => st.count
  | none => 0

/-! ## Records of a poll -/

/-- A status of the completion check that ends the poll: negative and not
try-again. -/
def fatal (ret : Int) : Prop :=
  ret < 0 ∧ ret ≠ -EAGAIN

/-- From `st` to `st'` only completion checks without a fatal status were
recorded. -/
def clean_run (st st' : poll_st) : Prop :=
  ∃ new, st'.log = st.log ++ new ∧ ∀ e ∈ new, ¬ fatal e.ret

/-- From `st` to `st'`, either no completion check had a fatal status, or the
last one alone had, the run returned that status, and `*count` is what it was
when that check was made. -/
def run_ok (st : poll_st) (o : outcome) (st' : poll_st) : Prop :=
  ∃ new, st'.log = st.log ++ new ∧
    ((∀ e ∈ new, ¬ fatal e.ret) ∨
      ∃ pre e, new = pre ++ [e] ∧ (∀ x ∈ pre, ¬ fatal x.ret) ∧ fatal e.ret ∧
        o = .ret e.ret ∧ st'.count = e.count)

/-- The run stopped at the first completion check with a fatal status: that
check is the last one recorded, its status is what the run returned, and
`*count` is what it was when the check was made. -/
def stops_at_fatal (st : poll_st) (o : outcome) (st' : Option poll_st) : Prop :=
  ∃ st1 new, st' = some st1 ∧ st1.log = st.log ++ new ∧
    ∀ pre e post, new = pre ++ e :: post → fatal e.ret →
      post = [] ∧ o = .ret e.ret ∧ st1.count = e.count

/-- The number of idle sweeps after a poll. -/
def idle_of (st : Option poll_st) : Nat :=
  match st with
  | some st => st.idle
  | none => 0

/-- Two schedulers with the same region tables and the same dimensions. -/
def same_tables (sched_ctx sched_ctx' : wd_sched_ctx) : Prop :=
  sched_ctx'.sched_info = sched_ctx.sched_info ∧
    sched_ctx'.numa_num = sched_ctx.numa_num ∧
    sched_ctx'.type_num = sched_ctx.type_num ∧
    sched_ctx'.poll_func = sched_ctx.poll_func ∧
    sched_ctx'.numa_map = sched_ctx.numa_map

/-- A completion check that never reports a completion: no fatal status, and
the number of items it stores, when it stores one, is zero. -/
def quiet (poll_func : user_poll_func) : Prop :=
  ∀ hist pos, ¬ fatal (poll_func hist pos 1).1 ∧
    ((poll_func hist pos 1).2 = none ∨ (poll_func hist pos 1).2 = some 0)

/-- A cell that the poller can sweep: it is allocated and, when it is valid,
its range ends below the last `__u32` index. -/
def cell_pollable (sched_info : List wd_sched_info) (ref : region_ref) : Bool :=
  match region_read sched_info ref with
  | some region => !region.valid || decide (region.end_ + 1 < U32)
  | none => false

/-- A scheduler that `session_sched_poll_policy` can sweep: the `numa_num` nodes
exist and every hardware async cell is pollable. -/
def poll_ready (sched_ctx : wd_sched_ctx) : Prop :=
  sched_ctx.numa_num ≤ sched_ctx.sched_info.length ∧
    ∀ numa < sched_ctx.numa_num, ∀ type < sched_ctx.type_num,
      cell_pollable sched_ctx.sched_info ⟨UADK_CTX_HW, numa, SCHED_MODE_ASYNC, type⟩ = true

instance poll_ready_decidable (sched_ctx : wd_sched_ctx) : Decidable (poll_ready sched_ctx) := by
  unfold poll_ready
  infer_instance

/-- The contexts of the valid async cells of a table of a node, in the order of
the types: `k` types are left, starting at `i`. -/
def types_positions (sched_info : List wd_sched_info) (prop numa_id : Nat) :
    Nat → Nat → List Nat
  | 0, _ => []
  | k + 1, i =>
    (match region_read sched_info ⟨prop, numa_id, SCHED_MODE_ASYNC, i⟩ with
      | some region =>
        if region.valid then List.range' region.begin (region.end_ + 1 - region.begin) else []
      | none => []) ++
      types_positions sched_info prop numa_id k (i + 1)

/-- The contexts of the valid hardware async cells of the valid nodes, in the
order of the nodes: `k` nodes are left, starting at `i`. -/
def nodes_positions (sched_ctx : wd_sched_ctx) : Nat → Nat → List Nat
  | 0, _ => []
  | k + 1, i =>
    (match sched_ctx.sched_info[i]? with
      | some info =>
        if info.nm_valid then
          types_positions sched_ctx.sched_info UADK_CTX_HW i sched_ctx.type_num 0
        else []
      | none => []) ++
      nodes_positions sched_ctx k (i + 1)

/-- The contexts that one sweep over the valid nodes probes, in order. -/
def sweep_positions (sched_ctx : wd_sched_ctx) : List Nat :=
  nodes_positions sched_ctx sched_ctx.numa_num 0

/-- The contexts probed so far, in order. -/
def positions (st : poll_st) : List Nat :=
  st.log.map poll_event.pos

/-! ## Invariants of the region tables -/

/-- The bounds that C16 gives for a valid cell, with the bound of the `__u32`
field `end`. -/
def region_inv (r : sched_ctx_region) : Prop :=
  r.valid = true → r.begin ≤ r.last ∧ r.last ≤ r.end_ ∧ r.end_ < U32

/-- Every cell of the tables satisfies `region_inv`. -/
def cursor_inv (sched_info : List wd_sched_info) : Prop :=
  ∀ (ref : region_ref) (r : sched_ctx_region), region_read sched_info ref = some r →
    region_inv r

/-- One call of the interface on a scheduler, from the scheduler before the
call to the scheduler after it, for any arguments: a registration with
`__u32` bounds, an init, a pick or a poll of one of the policies.  Keys,
parameters, poll state and the allowance of loop rounds are arbitrary. -/
inductive sched_step (numa_distance : Int → Int → Int) :
    wd_sched_ctx → wd_sched_ctx → Prop where
  | rr_instance (s s' : wd_sched) (c c' : wd_sched_ctx) (p : sched_params) (r : Int) :
      s.h_sched_ctx = some c → s'.h_sched_ctx = some c' →
      p.begin < U32 → p.end_ < U32 →
      wd_sched_rr_instance numa_distance (some s) (some p) = some (r, some s') →
      sched_step numa_distance c c'
  | session_init (c c' : wd_sched_ctx) (node : Int) (mem : Option sched_key)
      (sched_param : Option sched_params) (res : Except Int sched_key) :
      session_sched_init node mem (some c) sched_param = some (res, some c') →
      sched_step numa_distance c c'
  | loop_init (c c' : wd_sched_ctx) (node : Int) (mem : Option sched_key)
      (sched_param : Option sched_params) (res : Except Int sched_key) :
      loop_sched_init node mem (some c) sched_param = some (res, some c') →
      sched_step numa_distance c c'
  | rte_init (c : wd_sched_ctx) (node : Int) (mem : Option sched_key)
      (sched_param : Option sched_params) (res : Except Int sched_key) :
      loop_sched_rte_init node mem (some c) sched_param = res →
      sched_step numa_distance c c
  | session_pick (c c' : wd_sched_ctx) (key key' : Option sched_key) (sched_mode : Int)
      (pos : Nat) :
      session_sched_pick_next_ctx (some c) key sched_mode = (pos, some c', key') →
      sched_step numa_distance c c'
  | loop_pick (c c' : wd_sched_ctx) (key key' : Option sched_key) (sched_mode : Int)
      (pos : Nat) :
      loop_sched_pick_next_ctx (some c) key sched_mode = (pos, some c', key') →
      sched_step numa_distance c c'
  | rte_pick (c c' : wd_sched_ctx) (key key' : Option sched_key) (sched_mode : Int)
      (pos : Nat) :
      loop_sched_rte_pick_next_ctx (some c) key sched_mode = some (pos, some c', key') →
      sched_step numa_distance c c'
  | session_poll (c : wd_sched_ctx) (fuel NUMA_NUM_NODES expect : Nat)
      (count count' : Option poll_st) (o : outcome) :
      session_sched_poll_policy fuel NUMA_NUM_NODES (some c) expect count = (o, count') →
      sched_step numa_distance c c
  | loop_poll (c c' : wd_sched_ctx) (fuel NUMA_NUM_NODES expect : Nat)
      (count count' : Option poll_st) (o : outcome) :
      loop_sched_poll_policy fuel NUMA_NUM_NODES (some c) expect count =
        (o, some c', count') →
      sched_step numa_distance c c'

/-- The schedulers reachable from a freshly created one by calls of the
interface. -/
inductive reachable (numa_distance : Int → Int → Int) : wd_sched_ctx → Prop where
  | fresh (numa_max_node : Int) (calloc_ok : Bool) (sched_type type_num numa_num : Nat)
      (func : Option user_poll_func) (s : wd_sched) (c : wd_sched_ctx) :
      wd_sched_rr_alloc numa_max_node calloc_ok sched_type type_num numa_num func =
        some (some s) →
      s.h_sched_ctx = some c → reachable numa_distance c
  | step (c c' : wd_sched_ctx) :
      reachable numa_distance c → sched_step numa_distance c c' →
      reachable numa_distance c'

/-- The ranges of two cells have an index in common. -/
def ranges_overlap (r r' : sched_ctx_region) : Bool :=
  decide (r.begin ≤ r'.end_) && decide (r'.begin ≤ r.end_)

/-- The handle after the hardware async region `[2, 5]` is registered on
`once_sched`, whose hardware sync region is `[0, 3]`. -/
def overlap_sched : Option (Option wd_sched) :=
  register once_sched ⟨0, 0, SCHED_MODE_ASYNC, 2, 5, UADK_CTX_HW⟩

/-- The `nm_valid` flag of node `j`; `false` outside the node array. -/
def nm_valid_at (sched_info : List wd_sched_info) (j : Nat) : Bool :=
  match sched_info[j]? with
  | some info => info.nm_valid
  | none => false

/-- What C18 says of an entry `m` of the locality map for a node `i` without
contexts: `m` is a node below `numa_num` with `nm_valid` set, no such node is
nearer to `i`, and every such node with a lower index is farther from `i`. -/
def nearest_valid (numa_distance : Int → Int → Int) (sched_info : List wd_sched_info)
    (numa_num i : Nat) (m : Int) : Prop :=
  ∃ j : Nat, m = (j : Int) ∧ j < numa_num ∧ nm_valid_at sched_info j = true ∧
    (∀ j' : Nat, j' < numa_num → nm_valid_at sched_info j' = true →
      numa_distance i j ≤ numa_distance i j') ∧
    (∀ j' : Nat, j' < j → nm_valid_at sched_info j' = true →
      numa_distance i j < numa_distance i j')

/-- What C18 says of the locality map of a scheduler. -/
def numa_map_spec (numa_distance : Int → Int → Int) (sched_ctx : wd_sched_ctx) : Prop :=
  ∀ i : Nat, i < sched_ctx.numa_num →
    (nm_valid_at sched_ctx.sched_info i = true → sched_ctx.numa_map i = (i : Int)) ∧
    (nm_valid_at sched_ctx.sched_info i = false →
      nearest_valid numa_distance sched_ctx.sched_info sched_ctx.numa_num i
        (sched_ctx.numa_map i))

/-- A platform with three nodes in a row: the distance from node `i` to node
`j` is 10 on the node itself and 10 more for each step between them. -/
def line_distance : Int → Int → Int := fun i j => 10 + 10 * (i - j).natAbs

/-- Three nodes, one type, round-robin policy; node 1 has the hardware sync
region `[0, 3]`. -/
def three_node_sched : Option (Option wd_sched) :=
  register (wd_sched_rr_alloc 2 true SCHED_POLICY_RR 1 3 none)
    ⟨1, 0, SCHED_MODE_SYNC, 0, 3, UADK_CTX_HW⟩

/-- The result of the registration of the hardware sync region `[4, 7]` on
node 2 of `three_node_sched`, on the platform with the nodes in a row. -/
def three_node_out : Option wd_sched :=
  match wd_sched_rr_instance line_distance (some (sched_of three_node_sched))
      (some ⟨2, 0, SCHED_MODE_SYNC, 4, 7, UADK_CTX_HW⟩) with
  | some (_, out) => out
  | none => none

/-- The locals `dis` and `valid_id` of `wd_sched_get_nearby_numa_id` once the
nodes below `i` have been visited: either no such node has `nm_valid` set and
the locals are as initialised, or `valid_id` is the first of the nearest
nodes with `nm_valid` set below `i`, and `dis` its distance from `node`. -/
def nearby_inv (numa_distance : Int → Int → Int) (sched_info : List wd_sched_info)
    (node : Int) (i : Nat) (dis valid_id : Int) : Prop :=
  (valid_id = -1 ∧ dis = INT32_MAX ∧ ∀ j' : Nat, j' < i → nm_valid_at sched_info j' = false) ∨
    ∃ j : Nat, valid_id = (j : Int) ∧ j < i ∧ nm_valid_at sched_info j = true ∧
      dis = numa_distance node j ∧
      (∀ j' : Nat, j' < i → nm_valid_at sched_info j' = true →
        dis ≤ numa_distance node j') ∧
      (∀ j' : Nat, j' < j → nm_valid_at sched_info j' = true →
        dis < numa_distance node j')

/-- The result of `session_sched_init` on `once_sched`, for a thread on node 0,
a zeroed key block and no parameters. -/
def once_init : Option (Except Int sched_key × Option wd_sched_ctx) :=
  session_sched_init 0 (some zero_key) (some (ctx_of once_sched)) none

/-- The scheduler that `once_init` leaves. -/
def once_init_ctx : wd_sched_ctx :=
  match once_init with
  | some (_, some c) => c
  | _ => ctx_of once_sched

/-- The key or error code that `once_init` returns. -/
def once_init_res : Except Int sched_key :=
  match once_init with
  | some (res, _) => res
  | none => .error 0

/-! ## The run-time loop policy: the index a pick selects -/

/-- The index of the key that a call of `loop_sched_rte_pick_next_ctx` selects:
the hardware pair when `switch_slice` has reached `LOOP_SWITH_TIME` and the
software pair otherwise, the sync index for `CTX_MODE_SYNC` and the async one
for any other mode. -/
def rte_cached (sched_ctx : wd_sched_ctx) (skey : sched_key) (sched_mode : Int) : Nat :=
  if sched_ctx.balancer.switch_slice = LOOP_SWITH_TIME then
    if sched_mode = CTX_MODE_SYNC then skey.sync_ctxid else skey.async_ctxid
  else
    if sched_mode = CTX_MODE_SYNC then skey.sw_sync_ctxid else skey.sw_async_ctxid

/-- The three indices of the key that a call of `loop_sched_rte_pick_next_ctx`
does not select, in the order of the fields. -/
def rte_others (sched_ctx : wd_sched_ctx) (skey : sched_key) (sched_mode : Int) : List Nat :=
  if sched_ctx.balancer.switch_slice = LOOP_SWITH_TIME then
    if sched_mode = CTX_MODE_SYNC then
      [skey.async_ctxid, skey.sw_sync_ctxid, skey.sw_async_ctxid]
    else [skey.sync_ctxid, skey.sw_sync_ctxid, skey.sw_async_ctxid]
  else
    if sched_mode = CTX_MODE_SYNC then
      [skey.sync_ctxid, skey.async_ctxid, skey.sw_async_ctxid]
    else [skey.sync_ctxid, skey.async_ctxid, skey.sw_sync_ctxid]

/-- A run-time loop scheduler: one node, one type, the hardware sync region
`[0, 3]`, and the slice counter at `LOOP_SWITH_TIME`, so that the next pick is
a hardware pick. -/
def rte_ctx : wd_sched_ctx :=
  { ctx_of loop_once_sched with balancer := ⟨LOOP_SWITH_TIME, 0, 0, 0, 0, 0⟩ }

/-- A key as `loop_sched_rte_init` leaves it: node 0, type 0, no index
resolved. -/
def rte_key : sched_key :=
  ⟨0, 0, 0, UADK_CTX_HW, INVALID_POS, INVALID_POS, INVALID_POS, INVALID_POS⟩

/-! ## Loop policy: async picks in a row -/

/-- The list of `n` indices that starts with `first` and goes on with `second`,
`first`, `second`, and so on. -/
def alternating (first second : Nat) : Nat → List Nat
  | 0 => []
  | n + 1 => first :: alternating second first n

/-- A fresh loop scheduler whose two counters of outstanding tasks hold the
last `__u32` value. -/
def full_ctx : wd_sched_ctx :=
  { ctx_of (fresh_sched SCHED_POLICY_LOOP) with
    balancer := ⟨0, 0, 4294967295, 4294967295, 0, 0⟩ }

/-! ## The policies without region tables -/

/-- The `while` loop of `sched_none_poll_policy`, which probes context 0, and of
`sched_single_poll_policy`, which probes context 1: `pos` is that context,
`loop_times` and `poll_num` are the locals of these names.  The result is
the status returned and the state of the poll. -/
def sched_fixed_poll_loop (poll_func : user_poll_func) (pos expect : Nat) :
    Nat → Nat → poll_st → Int × poll_st
  | 0, _, st => (0, st)
  | loop_times + 1, poll_num, st =>
    let r := poll_func (st.log.map poll_event.pos) pos 1
    let st1 : poll_st := { st with log := st.log ++ [⟨pos, st.count, r.1, r.2⟩] }
    let poll_num :=
      match r.2 with
      | some n => n
      | none => poll_num
    if r.1 < 0 ∧ r.1 ≠ -EAGAIN then
      (r.1, st1)
    else if r.1 = -EAGAIN then
      sched_fixed_poll_loop poll_func pos expect loop_times poll_num st1
    else if (st1.count + poll_num) % U32 = expect then
      (0, { st1 with count := (st1.count + poll_num) % U32 })
    else
      sched_fixed_poll_loop poll_func pos expect loop_times poll_num
        { st1 with count := (st1.count + poll_num) % U32 }

/-- From `sched_none_poll_policy`; `count` points to the state `st`. -/
def sched_none_poll_policy (h_sched_ctx : Option wd_sched_ctx) (expect : Nat)
    (st : poll_st) : Int × poll_st :=
  match h_sched_ctx with
  | none => (-WD_EINVAL, st)
  | some sched_ctx =>
    match sched_ctx.poll_func with
    | none => (-WD_EINVAL, st)
    | some poll_func =>
      sched_fixed_poll_loop poll_func 0 expect ((MAX_POLL_TIMES + expect) % U32) 0 st

/-- From `sched_single_poll_policy`; `count` points to the state `st`. -/
def sched_single_poll_policy (h_sched_ctx : Option wd_sched_ctx) (expect : Nat)
    (st : poll_st) : Int × poll_st :=
  match h_sched_ctx with
  | none => (-WD_EINVAL, st)
  | some sched_ctx =>
    match sched_ctx.poll_func with
    | none => (-WD_EINVAL, st)
    | some poll_func =>
      sched_fixed_poll_loop poll_func 1 expect ((MAX_POLL_TIMES + expect) % U32) 0 st

/-- What holds of a poll of one context `pos` that started in `st` and ended
with the status and the state `res`: the completion checks made are checks
of `pos`, at most `bound` of them; a check with a fatal status is the last
one and its status is returned; without such a check 0 is returned; a check
that did not report try-again and left `*count` equal to `expect` is the last
one; and the poll ends before `bound` checks are made only at a check with a
fatal status or at such a check. -/
def fixed_poll_spec (pos expect bound : Nat) (st : poll_st) (res : Int × poll_st) : Prop :=
  ∃ new, res.2.log = st.log ++ new ∧ (∀ e ∈ new, e.pos = pos) ∧ new.length ≤ bound ∧
    (∀ pre e post, new = pre ++ e :: post → fatal e.ret → post = [] ∧ res.1 = e.ret) ∧
    ((∀ e ∈ new, ¬ fatal e.ret) → res.1 = 0) ∧
    (∀ pre e e' post, new = pre ++ e :: e' :: post →
      e.ret = -EAGAIN ∨ e'.count ≠ expect) ∧
    (new.length = bound ∨
      ∃ e, new.getLast? = some e ∧
        (fatal e.ret ∨ (e.ret ≠ -EAGAIN ∧ res.2.count = expect)))

/-- A scheduler of the policy without tables, with a completion check that
reports one item per call. -/
def none_ctx : wd_sched_ctx :=
  with_poll (ctx_of (wd_sched_rr_alloc 0 true SCHED_POLICY_NONE 1 1 none)) poll_one

/-- A scheduler of the policy without tables, with a completion check that
always reports try-again. -/
def none_eagain_ctx : wd_sched_ctx :=
  with_poll (ctx_of (wd_sched_rr_alloc 0 true SCHED_POLICY_NONE 1 1 none)) poll_eagain

/-- A scheduler of the policy without tables, created without a completion
check. -/
def none_null_ctx : wd_sched_ctx :=
  ctx_of (wd_sched_rr_alloc 0 true SCHED_POLICY_NONE 1 1 none)

/-- One node, one type, loop policy, with the hardware async region `[4, 4]`
and the crypto-engine async region `[5, 5]`; one hardware task and one
software task are outstanding, and the completion check reports one item per
call. -/
def loop_two_path_ctx : wd_sched_ctx :=
  { with_poll
      (ctx_of
        (register
          (register (fresh_sched SCHED_POLICY_LOOP)
            ⟨0, 0, SCHED_MODE_ASYNC, 4, 4, UADK_CTX_HW⟩)
          ⟨0, 0, SCHED_MODE_ASYNC, 5, 5, UADK_CTX_CE_INS⟩))
      poll_one with
    balancer := ⟨0, 0, 1, 1, 1, 1⟩ }

/-! ## The flags of the nodes -/

/-- The table of a node for a path kind holds a valid cell. -/
def table_has_valid (info : wd_sched_info) (prop : Nat) : Prop :=
  ∃ mode type r, tbl_read (info_tbl info prop) mode type = some r ∧ r.valid = true

/-- What C29 says of a node: `nm_valid` is set exactly when the flag of one of
the four paths is set, and the flag of a path is set exactly when the table of
that path holds a valid cell. -/
def flags_inv (info : wd_sched_info) : Prop :=
  (info.nm_valid = true ↔ ∃ prop, prop < SCHED_REGION_NUM ∧ path_flag info prop = true) ∧
    ∀ prop, prop < SCHED_REGION_NUM →
      (path_flag info prop = true ↔ table_has_valid info prop)

/-- The schedulers reachable from a freshly created one by calls of
`wd_sched_rr_instance`, with any parameters and any status. -/
inductive registered (numa_distance : Int → Int → Int) : wd_sched_ctx → Prop where
  | fresh (numa_max_node : Int) (calloc_ok : Bool) (sched_type type_num numa_num : Nat)
      (func : Option user_poll_func) (s : wd_sched) (c : wd_sched_ctx) :
      wd_sched_rr_alloc numa_max_node calloc_ok sched_type type_num numa_num func =
        some (some s) →
      s.h_sched_ctx = some c → registered numa_distance c
  | rr_instance (s s' : wd_sched) (c c' : wd_sched_ctx) (p : sched_params) (r : Int) :
      registered numa_distance c →
      s.h_sched_ctx = some c → s'.h_sched_ctx = some c' →
      wd_sched_rr_instance numa_distance (some s) (some p) = some (r, some s') →
      registered numa_distance c'

/-- Node 0 of the loop scheduler with the crypto-engine sync region `[4, 7]` and
the software-fallback sync region `[8, 11]`. -/
def ce_soft_node : wd_sched_info :=
  (ctx_of loop_ce_soft_sched).sched_info.headD zero_info

/-! ## What a cursor move leaves as it is -/

/-- The fields of a cell that `sched_get_next_pos_rr` does not write. -/
def cell_shape (r : sched_ctx_region) : Nat × Nat × Bool :=
  (r.begin, r.end_, r.valid)

/-- The five flags of a node. -/
def node_flags (info : wd_sched_info) : Bool × Bool × Bool × Bool × Bool :=
  (info.nm_valid, info.hw_valid, info.ce_valid, info.sve_valid, info.soft_valid)

/-- Two schedulers have the same dimensions, the same flags on every node, and
cells that differ in their cursors at most. -/
def same_shape (c c' : wd_sched_ctx) : Prop :=
  c'.numa_num = c.numa_num ∧ c'.type_num = c.type_num ∧
    (∀ ref, (region_read c'.sched_info ref).map cell_shape =
      (region_read c.sched_info ref).map cell_shape) ∧
    ∀ j : Nat, (c'.sched_info[j]?).map node_flags = (c.sched_info[j]?).map node_flags

/-- One node, one type, loop policy, with the hardware sync region `[0, 3]` and
the crypto-engine sync region `[4, 7]`. -/
def loop_hw_ce_sched : Option (Option wd_sched) :=
  register
    (register (fresh_sched SCHED_POLICY_LOOP)
      ⟨0, 0, SCHED_MODE_SYNC, 0, 3, UADK_CTX_HW⟩)
    ⟨0, 0, SCHED_MODE_SYNC, 4, 7, UADK_CTX_CE_INS⟩

/-- The key that `loop_sched_init` returns for a thread on node 0, a zeroed key
block and no parameters, when it returns one. -/
def loop_init_key (sched : Option (Option wd_sched)) : Option sched_key :=
  match loop_sched_init 0 (some zero_key) (some (ctx_of sched)) none with
  | some (.ok skey, _) => some skey
  | _ => none

/-- The scheduler that `loop_sched_init` leaves for a thread on node 0, a
zeroed key block and no parameters; the scheduler as it was when the call
does not return. -/
def loop_init_ctx (sched : Option (Option wd_sched)) : wd_sched_ctx :=
  match loop_sched_init 0 (some zero_key) (some (ctx_of sched)) none with
  | some (_, some c) => c
  | _ => ctx_of sched

/-! ## Init of the loop policies: the key that is built -/

/-- The key `loop_sched_init` has built when it starts to resolve: the block of
the source from the test of `param` to `skey->numa_id = 0`, on the block `mem`
that `malloc` returned. -/
def loop_sched_init_key (mem : sched_key) (sched_param : Option sched_params) : sched_key :=
  let skey : sched_key :=
    match sched_param with
    | none => { zero_key with numa_id := 0, ctx_prop := UADK_CTX_HW }
    | some param =>
      if param.numa_id < 0 then
        { mem with type := param.type, numa_id := 0, ctx_prop := param.ctx_prop }
      else
        { mem with
          type := param.type, numa_id := param.numa_id, ctx_prop := param.ctx_prop }
  { skey with numa_id := 0 }

/-- The end of `loop_sched_init`, from the first `loop_sched_init_ctx` call
on. -/
def loop_sched_init_tail (sched_ctx : wd_sched_ctx) (skey : sched_key) :
    Option (Except Int sched_key × Option wd_sched_ctx) :=
  match loop_sched_init_ctx sched_ctx skey CTX_MODE_SYNC with
  | none => none
  | some (sync_ctxid, sched_ctx, skey) =>
    let skey := { skey with sync_ctxid := sync_ctxid }
    match loop_sched_init_ctx sched_ctx skey CTX_MODE_ASYNC with
    | none => none
    | some (async_ctxid, sched_ctx, skey) =>
      let skey := { skey with async_ctxid := async_ctxid }
      if skey.sync_ctxid = INVALID_POS ∧ skey.async_ctxid = INVALID_POS then
        some (.error (-WD_EINVAL), some sched_ctx)
      else
        let ctx_prop := skey.ctx_prop
        let skey := { skey with ctx_prop := UADK_CTX_CE_INS }
        match loop_sched_init_ctx sched_ctx skey CTX_MODE_SYNC with
        | none => none
        | some (sw_sync_ctxid, sched_ctx, skey) =>
          let skey := { skey with sw_sync_ctxid := sw_sync_ctxid }
          match loop_sched_init_ctx sched_ctx skey CTX_MODE_ASYNC with
          | none => none
          | some (sw_async_ctxid, sched_ctx, skey) =>
            let skey := { skey with sw_async_ctxid := sw_async_ctxid }
            let skey := { skey with ctx_prop := ctx_prop }
            some (.ok skey, some sched_ctx)

/-- The key `loop_sched_rte_init` has built when it calls `sched_key_valid`: the
block of the source from the test of `param` to the four `INVALID_POS`
stores, on the block `mem` that `malloc` returned. -/
def loop_sched_rte_init_key (mem : sched_key) (sched_param : Option sched_params) :
    sched_key :=
  let skey : sched_key :=
    match sched_param with
    | none => { zero_key with numa_id := 0, ctx_prop := UADK_CTX_HW }
    | some param =>
      if param.numa_id < 0 then
        { mem with type := param.type, numa_id := 0, ctx_prop := param.ctx_prop }
      else
        { mem with
          type := param.type, numa_id := param.numa_id, ctx_prop := param.ctx_prop }
  { skey with
    numa_id := 0, sync_ctxid := INVALID_POS, async_ctxid := INVALID_POS,
    sw_sync_ctxid := INVALID_POS, sw_async_ctxid := INVALID_POS }

/-- The key or error code of an init call that returned. -/
def init_result (res : Option (Except Int sched_key × Option wd_sched_ctx)) :
    Option (Except Int sched_key) :=
  res.map Prod.fst

/-- Parameters that name node 7, the type 0 and the hardware path. -/
def far_params : sched_params := ⟨7, 0, 0, 0, 0, UADK_CTX_HW⟩

/-! ## The run-time loop policy: the key a pick resolves with -/

/-- The key that `loop_sched_rte_pick_next_ctx` hands to `loop_get_ctx_range`
when the index it selects is `INVALID_POS`: the key of the caller with the
path kind the call stores (`UADK_CTX_HW` when `switch_slice` has reached
`LOOP_SWITH_TIME`, `UADK_CTX_CE_INS` otherwise) and with the mode that
`loop_sched_rte_pick_ctx` stores (`CTX_MODE_SYNC` for a sync call,
`CTX_MODE_ASYNC` for any other). -/
def rte_lookup_key (sched_ctx : wd_sched_ctx) (skey : sched_key) (sched_mode : Int) :
    sched_key :=
  { skey with
    ctx_prop :=
      if sched_ctx.balancer.switch_slice = LOOP_SWITH_TIME then UADK_CTX_HW
      else UADK_CTX_CE_INS,
    mode :=
      if sched_mode = CTX_MODE_SYNC then (CTX_MODE_SYNC % 256).toNat
      else (CTX_MODE_ASYNC % 256).toNat }

/-- A run-time loop scheduler as `wd_sched_rr_alloc` returns it, for one node
and one type: no region is registered, and the slice counter is 0, so that the
next pick is a software pick. -/
def rte_empty_ctx : wd_sched_ctx :=
  ctx_of (fresh_sched SCHED_POLICY_RTE_LOOP)

/-! ## Round-robin allocator: theorems -/

/-- The cell after `k` calls, when the cursor starts at `begin`: only the cursor
has moved, to `begin + k mod (end - begin + 1)`. -/
theorem rr_calls_eq (k : Nat) (region : sched_ctx_region)
    (hbe : region.begin ≤ region.end_) (he : region.end_ < U32)
    (hlast : region.last = region.begin) :
    rr_calls k region =
      { region with last := region.begin + k % (region.end_ - region.begin + 1) } := by
  induction k with
  | zero =>
    cases region
    simp_all [rr_calls]
  | succ k ih =>
    have hpos : 0 < region.end_ - region.begin + 1 := Nat.succ_pos _
    have hlt := Nat.mod_lt k hpos
    have hstep : (k + 1) % (region.end_ - region.begin + 1) =
        (k % (region.end_ - region.begin + 1) + 1) % (region.end_ - region.begin + 1) := by
      rw [Nat.add_mod k 1, Nat.add_mod (k % _) 1, Nat.mod_mod]
    simp only [rr_calls, ih, sched_get_next_pos_rr]
    by_cases hc : region.begin + k % (region.end_ - region.begin + 1) < region.end_
    · have h1 : k % (region.end_ - region.begin + 1) + 1 < region.end_ - region.begin + 1 := by
        omega
      rw [if_pos hc, hstep, Nat.mod_eq_of_lt h1]
      have h2 : (region.begin + k % (region.end_ - region.begin + 1) + 1) % U32 =
          region.begin + k % (region.end_ - region.begin + 1) + 1 := by
        apply Nat.mod_eq_of_lt
        omega
      simp only [h2]
      rfl
    · have h1 : k % (region.end_ - region.begin + 1) + 1 = region.end_ - region.begin + 1 := by
        omega
      rw [if_neg hc, hstep, h1, Nat.mod_self]
      rfl

/-- C1: for a region with `begin = b ≤ end = e` (32-bit) whose cursor is at `b`,
the call after `k` earlier calls of `sched_get_next_pos_rr` returns
`b + k mod (e - b + 1)`: the outputs are `b, b+1, …, e, b, …`. -/
theorem sched_get_next_pos_rr_cycle (k : Nat) (region : sched_ctx_region)
    (hbe : region.begin ≤ region.end_) (he : region.end_ < U32)
    (hlast : region.last = region.begin) :
    rr_output k region = region.begin + k % (region.end_ - region.begin + 1) := by
  unfold rr_output
  rw [rr_calls_eq k region hbe he hlast]
  simp only [sched_get_next_pos_rr]
  split <;> rfl

/-- C1 at the region `[3, 6]`: the eleventh call returns `3 + 10 mod 4 = 5`. -/
theorem sched_get_next_pos_rr_cycle_witness :
    rr_output 10 ⟨3, 6, 3, true⟩ = 5 :=
  sched_get_next_pos_rr_cycle 10 ⟨3, 6, 3, true⟩ (by decide) (by decide) rfl

/-! ## Round-robin policy: theorems -/

/-- With no parameters, `session_sched_init` does not depend on the node of the
calling thread nor on what the fresh key block holds. -/
theorem session_sched_init_node (node : Int) (hnode : 0 ≤ node) (mem : sched_key)
    (h_sched_ctx : Option wd_sched_ctx) :
    session_sched_init node (some mem) h_sched_ctx none =
      session_sched_init 0 (some zero_key) h_sched_ctx none := by
  unfold session_sched_init
  rw [if_neg (not_lt.mpr hnode), if_neg (by decide)]

/-- C2, as the code behaves: in the end-to-end scenario `session_sched_init`
with no parameters yields a key with `sync_ctxid = 0` and `async_ctxid = 4`,
and five consecutive `session_sched_pick_next_ctx(sync)` calls on that key
return `0, 0, 0, 0, 0`: the pick returns the stored index and does not
advance. -/
theorem e2e_init_and_picks (node : Int) (hnode : 0 ≤ node) (mem : sched_key) :
    ∃ key ctx,
      session_sched_init node (some mem) (handle_ctx e2e_sched) none =
        some (.ok key, some ctx) ∧
      key.sync_ctxid = 0 ∧ key.async_ctxid = 4 ∧
      (session_picks CTX_MODE_SYNC 5 (some ctx) (some key)).1 = [0, 0, 0, 0, 0] := by
  rw [session_sched_init_node node hnode]
  exact ⟨_, _, rfl, rfl, rfl, rfl⟩

/-- C2 on node 0 with a zeroed key block. -/
theorem e2e_init_and_picks_witness :
    (0 : Int) ≤ 0 ∧
    ∃ key ctx,
      session_sched_init 0 (some zero_key) (handle_ctx e2e_sched) none =
        some (.ok key, some ctx) ∧
      key.sync_ctxid = 0 ∧ key.async_ctxid = 4 ∧
      (session_picks CTX_MODE_SYNC 5 (some ctx) (some key)).1 = [0, 0, 0, 0, 0] :=
  ⟨le_refl 0, e2e_init_and_picks 0 (le_refl 0) zero_key⟩

/-- C2 as stated fails: in the end-to-end scenario the key is built, and the
five picks on it return `0, 0, 0, 0, 0`, not `0, 1, 2, 3, 0`. -/
theorem e2e_picks_counterexample :
    ∃ key ctx,
      session_sched_init 0 (some zero_key) (handle_ctx e2e_sched) none =
        some (.ok key, some ctx) ∧
      (session_picks CTX_MODE_SYNC 5 (some ctx) (some key)).1 = [0, 0, 0, 0, 0] ∧
      (session_picks CTX_MODE_SYNC 5 (some ctx) (some key)).1 ≠ [0, 1, 2, 3, 0] :=
  ⟨_, _, rfl, rfl, by decide⟩

/-- Repeated picks return the same stored index and leave everything as it
is. -/
theorem session_picks_eq (sched_mode : Int) (n : Nat) (sched_ctx : wd_sched_ctx)
    (key : sched_key) :
    session_picks sched_mode n (some sched_ctx) (some key) =
      (List.replicate n
          (if sched_mode = CTX_MODE_SYNC then key.sync_ctxid else key.async_ctxid),
        some sched_ctx, some key) := by
  induction n with
  | zero => rfl
  | succ n ih =>
    simp only [session_picks, session_sched_pick_next_ctx]
    by_cases h : sched_mode = CTX_MODE_SYNC
    · simp only [if_pos h] at ih ⊢
      rw [ih, List.replicate_succ]
    · simp only [if_neg h] at ih ⊢
      rw [ih, List.replicate_succ]

/-- C3: for a non-null scheduler and key, `session_sched_pick_next_ctx` returns
`key.sync_ctxid` in sync mode and `key.async_ctxid` otherwise, and leaves the
key and the whole scheduler (every cursor, the balancer) as they are; so `n`
consecutive picks in one mode return `n` times the same stored index. -/
theorem session_sched_pick_next_ctx_frame (sched_ctx : wd_sched_ctx) (key : sched_key)
    (sched_mode : Int) :
    session_sched_pick_next_ctx (some sched_ctx) (some key) sched_mode =
        (if sched_mode = CTX_MODE_SYNC then key.sync_ctxid else key.async_ctxid,
          some sched_ctx, some key) ∧
      ∀ n, session_picks sched_mode n (some sched_ctx) (some key) =
        (List.replicate n
            (if sched_mode = CTX_MODE_SYNC then key.sync_ctxid else key.async_ctxid),
          some sched_ctx, some key) := by
  refine ⟨?_, fun n => session_picks_eq sched_mode n sched_ctx key⟩
  simp only [session_sched_pick_next_ctx]
  split <;> rfl

/-! ## Key resolution: theorems -/

/-- The scan returns `NULL` when no node it visits has the cell valid. -/
theorem scan_none (sched_ctx : wd_sched_ctx) (key : sched_key) (k i : Nat)
    (hread : ∀ n, i ≤ n → n < i + k →
      (region_read sched_ctx.sched_info ⟨UADK_CTX_HW, n, key.mode, key.type⟩).isSome = true)
    (hinv : ∀ n, i ≤ n → n < i + k →
      cell_valid sched_ctx.sched_info ⟨UADK_CTX_HW, n, key.mode, key.type⟩ = false) :
    sched_get_ctx_range_scan sched_ctx key k i = some none := by
  induction k generalizing i with
  | zero => rfl
  | succ k ih =>
    have h1 := hread i (le_refl i) (by omega)
    have h2 := hinv i (le_refl i) (by omega)
    unfold sched_get_ctx_range_scan
    unfold cell_valid at h2
    cases hr : region_read sched_ctx.sched_info ⟨UADK_CTX_HW, i, key.mode, key.type⟩ with
    | none => simp [hr] at h1
    | some region =>
      simp only [hr] at h2
      simp only [h2]
      exact ih (i + 1) (fun n hn hlt => hread n (by omega) (by omega))
        (fun n hn hlt => hinv n (by omega) (by omega))

/-- The scan returns the cell of the first node it visits that has the cell
valid. -/
theorem scan_first (sched_ctx : wd_sched_ctx) (key : sched_key) (k i n : Nat)
    (hread : ∀ m, i ≤ m → m < i + k →
      (region_read sched_ctx.sched_info ⟨UADK_CTX_HW, m, key.mode, key.type⟩).isSome = true)
    (hin : i ≤ n) (hnk : n < i + k)
    (hval : cell_valid sched_ctx.sched_info ⟨UADK_CTX_HW, n, key.mode, key.type⟩ = true)
    (hbefore : ∀ m, i ≤ m → m < n →
      cell_valid sched_ctx.sched_info ⟨UADK_CTX_HW, m, key.mode, key.type⟩ = false) :
    sched_get_ctx_range_scan sched_ctx key k i =
      some (some ⟨UADK_CTX_HW, n, key.mode, key.type⟩) := by
  induction k generalizing i with
  | zero => omega
  | succ k ih =>
    have h1 := hread i (le_refl i) (by omega)
    unfold sched_get_ctx_range_scan
    cases hr : region_read sched_ctx.sched_info ⟨UADK_CTX_HW, i, key.mode, key.type⟩ with
    | none => simp [hr] at h1
    | some region =>
      by_cases hni : n = i
      · subst hni
        unfold cell_valid at hval
        simp only [hr] at hval
        simp only [hval, if_true]
      · have h2 := hbefore i (le_refl i) (by omega)
        unfold cell_valid at h2
        simp only [hr] at h2
        simp only [h2]
        exact ih (i + 1) (fun m hm hlt => hread m (by omega) (by omega)) (by omega)
          (by omega) (fun m hm hlt => hbefore m (by omega) hlt)

/-- The scan returns `NULL` only if no node it visits has the cell valid. -/
theorem scan_none_iff (sched_ctx : wd_sched_ctx) (key : sched_key) (k : Nat)
    (hread : ∀ n, n < k →
      (region_read sched_ctx.sched_info ⟨UADK_CTX_HW, n, key.mode, key.type⟩).isSome = true) :
    sched_get_ctx_range_scan sched_ctx key k 0 = some none ↔
      ∀ n, n < k →
        cell_valid sched_ctx.sched_info ⟨UADK_CTX_HW, n, key.mode, key.type⟩ = false := by
  constructor
  · intro hnone
    by_contra hex
    push_neg at hex
    have hex' : ∃ n, n < k ∧
        cell_valid sched_ctx.sched_info ⟨UADK_CTX_HW, n, key.mode, key.type⟩ = true := by
      obtain ⟨n, hn, hv⟩ := hex
      exact ⟨n, hn, by simpa using hv⟩
    obtain ⟨hlt, hv⟩ := Nat.find_spec hex'
    have := scan_first sched_ctx key k 0 (Nat.find hex')
      (fun m _ hm => hread m (by omega)) (Nat.zero_le _) (by omega) hv
      (fun m _ hm => by
        have hmin := Nat.find_min hex' hm
        simp only [not_and] at hmin
        by_cases hmk : m < k
        · simpa using hmin hmk
        · omega)
    rw [this] at hnone
    simp at hnone
  · intro hall
    exact scan_none sched_ctx key k 0 (fun n _ hn => hread n (by omega))
      (fun n _ hn => hall n (by omega))

/-- C4, for keys that pass the node bound of `sched_key_valid`: on a scheduler
whose tables are allocated, for a key with `numa_id < numa_num`, `mode < 2` and
`type < type_num`, `sched_get_ctx_range` returns the hardware cell
`[numa_id][mode][type]` when `0 ≤ numa_id` and that cell is valid; otherwise
the hardware cell `[n][mode][type]` of the lowest node `n < numa_num` that has
it valid; and `NULL` exactly when no node has it valid. -/
theorem sched_get_ctx_range_spec (sched_ctx : wd_sched_ctx) (key : sched_key)
    (hwf : ctx_wf sched_ctx) (hnuma : key.numa_id < (sched_ctx.numa_num : Int))
    (hmode : key.mode < SCHED_MODE_BUTT) (htype : key.type < sched_ctx.type_num) :
    (0 ≤ key.numa_id ∧
        cell_valid sched_ctx.sched_info
          ⟨UADK_CTX_HW, key.numa_id.toNat, key.mode, key.type⟩ = true →
      sched_get_ctx_range sched_ctx key =
        some (some ⟨UADK_CTX_HW, key.numa_id.toNat, key.mode, key.type⟩)) ∧
    (¬ (0 ≤ key.numa_id ∧
        cell_valid sched_ctx.sched_info
          ⟨UADK_CTX_HW, key.numa_id.toNat, key.mode, key.type⟩ = true) →
      ∀ n, n < sched_ctx.numa_num →
        cell_valid sched_ctx.sched_info ⟨UADK_CTX_HW, n, key.mode, key.type⟩ = true →
        (∀ m, m < n →
          cell_valid sched_ctx.sched_info ⟨UADK_CTX_HW, m, key.mode, key.type⟩ = false) →
        sched_get_ctx_range sched_ctx key =
          some (some ⟨UADK_CTX_HW, n, key.mode, key.type⟩)) ∧
    (sched_get_ctx_range sched_ctx key = some none ↔
      ∀ n, n < sched_ctx.numa_num →
        cell_valid sched_ctx.sched_info ⟨UADK_CTX_HW, n, key.mode, key.type⟩ = false) := by
  have hread : ∀ n, n < sched_ctx.numa_num →
      (region_read sched_ctx.sched_info ⟨UADK_CTX_HW, n, key.mode, key.type⟩).isSome = true :=
    fun n hn => hwf n hn UADK_CTX_HW (by decide) key.mode hmode key.type htype
  by_cases h0 : 0 ≤ key.numa_id
  · have hlt : key.numa_id.toNat < sched_ctx.numa_num := by omega
    have hr := hread _ hlt
    cases hreg : region_read sched_ctx.sched_info
        ⟨UADK_CTX_HW, key.numa_id.toNat, key.mode, key.type⟩ with
    | none => simp [hreg] at hr
    | some region =>
      have hcv : cell_valid sched_ctx.sched_info
          ⟨UADK_CTX_HW, key.numa_id.toNat, key.mode, key.type⟩ = region.valid := by
        simp only [cell_valid, hreg]
      by_cases hv : region.valid = true
      · have hres : sched_get_ctx_range sched_ctx key =
            some (some ⟨UADK_CTX_HW, key.numa_id.toNat, key.mode, key.type⟩) := by
          simp only [sched_get_ctx_range, ge_iff_le, h0, if_true, hreg, hv]
        refine ⟨fun _ => hres, fun hneg => ?_, ?_⟩
        · exact absurd ⟨h0, hcv.trans hv⟩ hneg
        · rw [hres]
          constructor
          · intro h
            simp at h
          · intro h
            have := h _ hlt
            rw [hcv, hv] at this
            simp at this
      · have hres : sched_get_ctx_range sched_ctx key =
            sched_get_ctx_range_scan sched_ctx key sched_ctx.numa_num 0 := by
          simp only [sched_get_ctx_range, ge_iff_le, h0, if_true, hreg, hv]
          rfl
        refine ⟨fun h => ?_, fun _ n hn hval hbefore => ?_, ?_⟩
        · exact absurd (hcv.symm.trans h.2) hv
        · rw [hres]
          exact scan_first sched_ctx key _ 0 n (fun m _ hm => hread m (by omega))
            (Nat.zero_le _) (by omega) hval (fun m _ hm => hbefore m hm)
        · rw [hres]
          exact scan_none_iff sched_ctx key _ hread
  · have hres : sched_get_ctx_range sched_ctx key =
        sched_get_ctx_range_scan sched_ctx key sched_ctx.numa_num 0 := by
      simp only [sched_get_ctx_range, ge_iff_le, h0, if_false]
    refine ⟨fun h => absurd h.1 h0, fun _ n hn hval hbefore => ?_, ?_⟩
    · rw [hres]
      exact scan_first sched_ctx key _ 0 n (fun m _ hm => hread m (by omega))
        (Nat.zero_le _) (by omega) hval (fun m _ hm => hbefore m hm)
    · rw [hres]
      exact scan_none_iff sched_ctx key _ hread

/-- C4 on two nodes of which only node 1 has the sync cell valid: a key for
node 0 resolves to the cell of node 1. -/
theorem sched_get_ctx_range_spec_witness :
    sched_get_ctx_range (ctx_of two_node_sched) zero_key =
      some (some ⟨UADK_CTX_HW, 1, 0, 0⟩) :=
  (sched_get_ctx_range_spec (ctx_of two_node_sched) zero_key (by decide) (by decide)
    (by decide) (by decide)).2.1 (by decide) 1 (by decide) (by decide) (by decide)

/-- C4 as stated fails for a node beyond `numa_num`: on the one-node end-to-end
scheduler the sync cell of node 0 is valid, yet for a key with `numa_id = 1`
the first test of `sched_get_ctx_range` reads `sched_info[1]`, outside the
allocation, and no cell is returned. -/
theorem sched_get_ctx_range_counterexample :
    (ctx_of e2e_sched).numa_num = 1 ∧
    cell_valid (ctx_of e2e_sched).sched_info ⟨UADK_CTX_HW, 0, 0, 0⟩ = true ∧
    sched_get_ctx_range (ctx_of e2e_sched) { zero_key with numa_id := 1 } = none ∧
    sched_get_ctx_range (ctx_of e2e_sched) { zero_key with numa_id := 1 } ≠
      some (some ⟨UADK_CTX_HW, 0, 0, 0⟩) := by
  refine ⟨rfl, rfl, rfl, ?_⟩
  decide

/-! ## Memory access: theorems -/

/-- A write into a table is read back at its place and nowhere else. -/
theorem tbl_read_write (tbl tbl' : region_tbl) (mode type : Nat) (r : sched_ctx_region)
    (h : tbl_write tbl mode type r = some tbl') (mode' type' : Nat) :
    tbl_read tbl' mode' type' =
      if mode' = mode ∧ type' = type then some r else tbl_read tbl mode' type' := by
  unfold tbl_write at h
  split at h
  · rename_i row hrow
    split at h
    · rename_i hlt
      injection h with h
      subst h
      have hm : mode < tbl.length := by
        rcases List.getElem?_eq_some.mp hrow with ⟨hm, _⟩
        exact hm
      unfold tbl_read
      by_cases hmm : mode' = mode
      · subst hmm
        rw [List.getElem?_set_self hm]
        simp only [true_and, hrow]
        by_cases htt : type' = type
        · subst htt
          rw [List.getElem?_set_self hlt, if_pos rfl]
        · rw [List.getElem?_set_ne (Ne.symm htt), if_neg htt]
      · rw [List.getElem?_set_ne (Ne.symm hmm)]
        simp only [hmm, false_and, if_false]
    · cases h
  · cases h

/-- A write into a table succeeds exactly where a read does. -/
theorem tbl_write_isSome (tbl : region_tbl) (mode type : Nat) (r : sched_ctx_region) :
    (tbl_write tbl mode type r).isSome = (tbl_read tbl mode type).isSome := by
  unfold tbl_write tbl_read
  split
  · rename_i row hrow
    by_cases hlt : type < row.length
    · simp [hlt]
    · simp [hlt, List.getElem?_eq_none (Nat.le_of_not_lt hlt)]
  · rfl

/-- The table of a path kind after the table of a path kind was replaced. -/
theorem info_tbl_set_tbl (info : wd_sched_info) (prop : Nat) (tbl : region_tbl)
    (hprop : prop ≤ UADK_CTX_SOFT) (prop' : Nat) :
    info_tbl (info_set_tbl info prop tbl) prop' =
      if prop' = prop then tbl else info_tbl info prop' := by
  have h4 : prop = 0 ∨ prop = 1 ∨ prop = 2 ∨ prop = 3 := by
    unfold UADK_CTX_SOFT at hprop
    omega
  by_cases hq : prop' = 0 ∨ prop' = 1 ∨ prop' = 2 ∨ prop' = 3
  · rcases h4 with h | h | h | h <;> rcases hq with hq | hq | hq | hq <;> subst h <;> subst hq <;>
      simp [info_tbl, info_set_tbl, UADK_CTX_HW, UADK_CTX_CE_INS, UADK_CTX_SVE_INS,
        UADK_CTX_SOFT]
  · have h0 : prop' ≠ 0 := fun h => hq (Or.inl h)
    have h1 : prop' ≠ 1 := fun h => hq (Or.inr (Or.inl h))
    have h2 : prop' ≠ 2 := fun h => hq (Or.inr (Or.inr (Or.inl h)))
    have h3 : prop' ≠ 3 := fun h => hq (Or.inr (Or.inr (Or.inr h)))
    have hne : prop' ≠ prop := by omega
    simp [info_tbl, UADK_CTX_HW, UADK_CTX_CE_INS, UADK_CTX_SVE_INS, UADK_CTX_SOFT, h0, h1,
      h2, h3, hne]

/-- A path kind that has a table some cell of which can be written is one of
the four. -/
theorem prop_le_of_tbl_write (info : wd_sched_info) (prop mode type : Nat)
    (r : sched_ctx_region) (tbl : region_tbl)
    (h : tbl_write (info_tbl info prop) mode type r = some tbl) : prop ≤ UADK_CTX_SOFT := by
  by_contra hgt
  unfold UADK_CTX_SOFT at hgt
  have h0 : prop ≠ 0 := by omega
  have h1 : prop ≠ 1 := by omega
  have h2 : prop ≠ 2 := by omega
  have h3 : prop ≠ 3 := by omega
  simp [info_tbl, tbl_write, UADK_CTX_HW, UADK_CTX_CE_INS, UADK_CTX_SVE_INS, UADK_CTX_SOFT,
    h0, h1, h2, h3] at h

/-- A write through a pointer is read back through that pointer and through
no other. -/
theorem region_read_write (sched_info sched_info' : List wd_sched_info) (ref : region_ref)
    (r : sched_ctx_region) (h : region_write sched_info ref r = some sched_info')
    (ref' : region_ref) :
    region_read sched_info' ref' =
      if ref' = ref then some r else region_read sched_info ref' := by
  unfold region_write at h
  split at h
  · rename_i info hinfo
    split at h
    · rename_i tbl htbl
      injection h with h
      subst h
      have hn : ref.numa < sched_info.length := by
        rcases List.getElem?_eq_some.mp hinfo with ⟨hn, _⟩
        exact hn
      have hprop := prop_le_of_tbl_write info ref.prop ref.mode ref.type r tbl htbl
      unfold region_read
      by_cases hnn : ref'.numa = ref.numa
      · rw [hnn, List.getElem?_set_self hn, hinfo]
        simp only [info_tbl_set_tbl info ref.prop tbl hprop]
        by_cases hpp : ref'.prop = ref.prop
        · rw [if_pos hpp, tbl_read_write _ _ _ _ _ htbl, hpp]
          by_cases hmt : ref'.mode = ref.mode ∧ ref'.type = ref.type
          · have : ref' = ref := by
              cases ref; cases ref'; simp_all
            rw [if_pos hmt, if_pos this]
          · have : ref' ≠ ref := by
              intro he; subst he; exact hmt ⟨rfl, rfl⟩
            rw [if_neg hmt, if_neg this]
        · have : ref' ≠ ref := by
            intro he; subst he; exact hpp rfl
          rw [if_neg hpp, if_neg this]
      · have : ref' ≠ ref := by
          intro he; subst he; exact hnn rfl
        rw [List.getElem?_set_ne (Ne.symm hnn), if_neg this]
    · cases h
  · cases h

/-- A write through a pointer succeeds exactly where a read does. -/
theorem region_write_isSome (sched_info : List wd_sched_info) (ref : region_ref)
    (r : sched_ctx_region) :
    (region_write sched_info ref r).isSome = (region_read sched_info ref).isSome := by
  unfold region_write region_read
  split
  · rename_i info hinfo
    have := tbl_write_isSome (info_tbl info ref.prop) ref.mode ref.type r
    split
    · rename_i tbl htbl
      rw [htbl] at this
      simpa using this
    · rename_i htbl
      rw [htbl] at this
      simpa using this
  · rfl

/-! ## Region registration: theorems -/

/-- The locality map is the only part of the scheduler that
`wd_sched_map_cpus_to_dev` writes. -/
theorem wd_sched_map_cpus_to_dev_frame (numa_distance : Int → Int → Int)
    (sched_ctx sched_ctx' : wd_sched_ctx)
    (h : wd_sched_map_cpus_to_dev numa_distance sched_ctx = some sched_ctx') :
    sched_ctx'.sched_info = sched_ctx.sched_info ∧
      sched_ctx'.numa_num = sched_ctx.numa_num ∧
      sched_ctx'.type_num = sched_ctx.type_num ∧
      sched_ctx'.balancer = sched_ctx.balancer ∧
      sched_ctx'.policy = sched_ctx.policy := by
  unfold wd_sched_map_cpus_to_dev at h
  split at h
  · cases h
  · injection h with h
    subst h
    exact ⟨rfl, rfl, rfl, rfl, rfl⟩

/-- The `switch` of `wd_sched_rr_instance` writes one cell of the table of the
path kind and sets the flag of that path kind. -/
theorem rr_instance_switch_spec (info info' : wd_sched_info) (prop mode type : Nat)
    (param : sched_params) (hprop : prop ≤ UADK_CTX_SOFT)
    (h : rr_instance_switch info prop mode type param = some info') :
    (∃ tbl, tbl_write (info_tbl info prop) mode type
        ⟨param.begin, param.end_, param.begin, true⟩ = some tbl ∧
      ∀ prop', info_tbl info' prop' = if prop' = prop then tbl else info_tbl info prop') ∧
    path_flag info' prop = true := by
  have h4 : prop = 0 ∨ prop = 1 ∨ prop = 2 ∨ prop = 3 := by
    unfold UADK_CTX_SOFT at hprop
    omega
  unfold rr_instance_switch at h
  rcases h4 with hp | hp | hp | hp <;> subst hp <;>
    simp only [UADK_CTX_HW, UADK_CTX_CE_INS, UADK_CTX_SVE_INS, UADK_CTX_SOFT,
      if_true, OfNat.ofNat_ne_zero, OfNat.zero_ne_ofNat, if_false, Nat.reduceEqDiff,
      Nat.succ_ne_self, OfNat.ofNat_ne_one, OfNat.one_ne_ofNat, one_ne_zero, zero_ne_one] at h
  all_goals
    split at h
    · cases h
    · rename_i tbl htbl
      injection h with h
      subst h
      refine ⟨⟨tbl, ?_, ?_⟩, ?_⟩
      · simpa [info_tbl, UADK_CTX_HW, UADK_CTX_CE_INS, UADK_CTX_SVE_INS, UADK_CTX_SOFT]
          using htbl
      · intro prop'
        simp only [info_tbl, UADK_CTX_HW, UADK_CTX_CE_INS, UADK_CTX_SVE_INS, UADK_CTX_SOFT]
        split_ifs <;> first | rfl | omega
      · simp [path_flag, UADK_CTX_HW, UADK_CTX_CE_INS, UADK_CTX_SVE_INS, UADK_CTX_SOFT]

/-- C6: a successful `wd_sched_rr_instance` leaves the addressed cell of the
table chosen by `ctx_prop` with `begin` and `end` as given, `last = begin` and
`valid = true`, sets the flag of that path and `nm_valid` on that node, and
leaves every other cell as it was, whatever the scheduler held before; so a
second registration of a coordinate overwrites the cell and resets its
cursor. -/
theorem wd_sched_rr_instance_cell (numa_distance : Int → Int → Int) (s : wd_sched)
    (sched_ctx : wd_sched_ctx) (p : sched_params) (out : Option wd_sched)
    (hctx : s.h_sched_ctx = some sched_ctx)
    (h : wd_sched_rr_instance numa_distance (some s) (some p) = some (0, out)) :
    ∃ sched_ctx', out = some { s with h_sched_ctx := some sched_ctx' } ∧
      region_read sched_ctx'.sched_info ⟨p.ctx_prop, p.numa_id.toNat, p.mode, p.type⟩ =
        some ⟨p.begin, p.end_, p.begin, true⟩ ∧
      (∃ info, sched_ctx'.sched_info[p.numa_id.toNat]? = some info ∧
        path_flag info p.ctx_prop = true ∧ info.nm_valid = true) ∧
      (∀ ref : region_ref, ref ≠ ⟨p.ctx_prop, p.numa_id.toNat, p.mode, p.type⟩ →
        region_read sched_ctx'.sched_info ref = region_read sched_ctx.sched_info ref) := by
  have hne : (-WD_EINVAL : Int) ≠ 0 := by decide
  have herr : ∀ o : Option wd_sched, some (-WD_EINVAL, o) ≠ some ((0 : Int), out) := by
    intro o he
    injection he with he
    injection he with he1 _
    exact hne he1
  unfold wd_sched_rr_instance at h
  simp only [hctx] at h
  split_ifs at h with h1 h2 h3 h4 h5
  · exact absurd h (herr _)
  · exact absurd h (herr _)
  · exact absurd h (herr _)
  · exact absurd h (herr _)
  · exact absurd h (herr _)
  · split at h
    · cases h
    · rename_i info hinfo
      split at h
      · cases h
      · exact absurd h (herr _)
      · split at h
        · cases h
        · rename_i info' hsw
          split at h
          · cases h
          · rename_i sched_ctx' hmap
            injection h with h
            injection h with _ h
            have hprop : p.ctx_prop ≤ UADK_CTX_SOFT := Nat.le_of_not_lt h5
            obtain ⟨⟨tbl, htbl, htbls⟩, hflag⟩ :=
              rr_instance_switch_spec info info' p.ctx_prop p.mode p.type p hprop hsw
            have hsi := (wd_sched_map_cpus_to_dev_frame numa_distance _ _ hmap).1
            simp only at hsi
            have hn : p.numa_id.toNat < sched_ctx.sched_info.length := by
              rcases List.getElem?_eq_some.mp hinfo with ⟨hn, _⟩
              exact hn
            refine ⟨sched_ctx', h.symm, ?_, ?_, ?_⟩
            · rw [hsi]
              unfold region_read
              simp only [List.getElem?_set_self hn]
              show tbl_read (info_tbl info' p.ctx_prop) p.mode p.type = _
              rw [htbls, if_pos rfl, tbl_read_write _ _ _ _ _ htbl, if_pos ⟨rfl, rfl⟩]
            · refine ⟨{ info' with nm_valid := true }, ?_, ?_, rfl⟩
              · rw [hsi, List.getElem?_set_self hn]
              · exact hflag
            · intro ref href
              rw [hsi]
              unfold region_read
              by_cases hnn : ref.numa = p.numa_id.toNat
              · rw [hnn, List.getElem?_set_self hn, hinfo]
                show tbl_read (info_tbl info' ref.prop) ref.mode ref.type = _
                rw [htbls]
                by_cases hpp : ref.prop = p.ctx_prop
                · rw [if_pos hpp, tbl_read_write _ _ _ _ _ htbl, hpp]
                  have hmt : ¬ (ref.mode = p.mode ∧ ref.type = p.type) := by
                    intro hmt
                    apply href
                    cases ref
                    simp_all
                  rw [if_neg hmt]
                · rw [if_neg hpp]
              · rw [List.getElem?_set_ne (Ne.symm hnn)]

/-- C6 on a second registration: the hardware sync cell of node 0, registered
as `[0, 3]`, is registered again as `[10, 20]`; it then holds `[10, 20]` with
the cursor at `10`. -/
theorem wd_sched_rr_instance_cell_witness :
    ∃ sched_ctx', again_sched =
        some { sched_of once_sched with h_sched_ctx := some sched_ctx' } ∧
      region_read sched_ctx'.sched_info ⟨UADK_CTX_HW, 0, SCHED_MODE_SYNC, 0⟩ =
        some ⟨10, 20, 10, true⟩ ∧
      (∃ info, sched_ctx'.sched_info[0]? = some info ∧
        path_flag info UADK_CTX_HW = true ∧ info.nm_valid = true) ∧
      (∀ ref : region_ref, ref ≠ ⟨UADK_CTX_HW, 0, SCHED_MODE_SYNC, 0⟩ →
        region_read sched_ctx'.sched_info ref =
          region_read (ctx_of once_sched).sched_info ref) :=
  wd_sched_rr_instance_cell flat_distance (sched_of once_sched) (ctx_of once_sched)
    ⟨0, 0, SCHED_MODE_SYNC, 10, 20, UADK_CTX_HW⟩ again_sched rfl rfl

/-! ## Creation: theorems -/

/-- What the node loop of `wd_sched_region_init` produces: the nodes it visits
are freshly initialised, the others are as they were. -/
theorem wd_sched_region_init_loop_spec (type_num k i : Nat)
    (sched_info sched_info' : List wd_sched_info)
    (h : wd_sched_region_init_loop type_num k i sched_info = some sched_info') :
    ∀ j, sched_info'[j]? =
      if i ≤ j ∧ j < i + k then some (wd_sched_region_init_node type_num)
      else sched_info[j]? := by
  induction k generalizing i sched_info with
  | zero =>
    intro j
    simp only [wd_sched_region_init_loop] at h
    injection h with h
    subst h
    have : ¬ (i ≤ j ∧ j < i + 0) := by omega
    rw [if_neg this]
  | succ k ih =>
    intro j
    unfold wd_sched_region_init_loop at h
    split at h
    · cases h
    · rename_i x hx
      have hi : i < sched_info.length := by
        rcases List.getElem?_eq_some.mp hx with ⟨hi, _⟩
        exact hi
      rw [ih (i + 1) _ h j]
      by_cases hj : i + 1 ≤ j ∧ j < i + 1 + k
      · have : i ≤ j ∧ j < i + (k + 1) := by omega
        rw [if_pos hj, if_pos this]
      · rw [if_neg hj]
        by_cases hij : j = i
        · subst hij
          have : j ≤ j ∧ j < j + (k + 1) := by omega
          rw [if_pos this, List.getElem?_set_self hi]
        · have : ¬ (i ≤ j ∧ j < i + (k + 1)) := by omega
          rw [if_neg this, List.getElem?_set_ne (Ne.symm hij)]

/-- The cells of a freshly initialised node: every cell of the four tables is
allocated and zeroed. -/
theorem region_init_node_read (type_num prop mode type : Nat) :
    tbl_read (info_tbl (wd_sched_region_init_node type_num) prop) mode type =
      if prop < SCHED_REGION_NUM ∧ mode < SCHED_MODE_BUTT ∧ type < type_num then
        some zero_region
      else none := by
  have htbl : ∀ tbl : region_tbl,
      tbl = List.replicate SCHED_MODE_BUTT (some (List.replicate type_num zero_region)) →
      tbl_read tbl mode type =
        if mode < SCHED_MODE_BUTT ∧ type < type_num then some zero_region else none := by
    intro tbl ht
    subst ht
    unfold tbl_read
    by_cases hm : mode < SCHED_MODE_BUTT
    · rw [List.getElem?_replicate_of_lt hm]
      by_cases ht : type < type_num
      · simp [List.getElem?_replicate_of_lt ht, hm, ht]
      · simp [List.getElem?_replicate, hm, ht]
    · simp [List.getElem?_replicate, hm]
  unfold SCHED_REGION_NUM
  by_cases h0 : prop = 0
  · subst h0
    simpa [info_tbl, UADK_CTX_HW] using htbl _ rfl
  by_cases h1 : prop = 1
  · subst h1
    simpa [info_tbl, UADK_CTX_HW, UADK_CTX_CE_INS] using htbl _ rfl
  by_cases h2 : prop = 2
  · subst h2
    simpa [info_tbl, UADK_CTX_HW, UADK_CTX_CE_INS, UADK_CTX_SVE_INS] using htbl _ rfl
  by_cases h3 : prop = 3
  · subst h3
    simpa [info_tbl, UADK_CTX_HW, UADK_CTX_CE_INS, UADK_CTX_SVE_INS, UADK_CTX_SOFT]
      using htbl _ rfl
  have : ¬ prop < 4 := by omega
  simp [info_tbl, tbl_read, UADK_CTX_HW, UADK_CTX_CE_INS, UADK_CTX_SVE_INS, UADK_CTX_SOFT,
    h0, h1, h2, h3, this]

/-- A node that `calloc` zeroed has no cell to read: its tables are `NULL`. -/
theorem zero_info_read (prop mode type : Nat) :
    tbl_read (info_tbl zero_info prop) mode type = none := by
  unfold tbl_read info_tbl zero_info
  simp only [SCHED_MODE_BUTT]
  split_ifs <;>
    (rcases mode with _ | _ | mode <;> simp [List.replicate])

/-- The nodes of a scheduler that `wd_sched_rr_alloc` returned: each is as
`calloc` or as `wd_sched_region_init` left it, and with a region-table policy
all `numa_num` nodes are initialised. -/
theorem wd_sched_rr_alloc_nodes (numa_max_node : Int) (calloc_ok : Bool)
    (sched_type type_num numa_num : Nat) (func : Option user_poll_func) (s : wd_sched)
    (h : wd_sched_rr_alloc numa_max_node calloc_ok sched_type type_num numa_num func =
      some (some s)) :
    ∃ sched_ctx, s.h_sched_ctx = some sched_ctx ∧ sched_ctx.numa_num = numa_num ∧
      sched_ctx.type_num = type_num ∧ sched_ctx.balancer = zero_balancer ∧
      (∀ (j : Nat) (info : wd_sched_info), sched_ctx.sched_info[j]? = some info →
        info = zero_info ∨ info = wd_sched_region_init_node type_num) ∧
      (sched_type ≠ SCHED_POLICY_NONE → sched_type ≠ SCHED_POLICY_SINGLE →
        ∀ j, j < numa_num →
          sched_ctx.sched_info[j]? = some (wd_sched_region_init_node type_num)) := by
  unfold wd_sched_rr_alloc at h
  split_ifs at h with h1 h2 h3 h4
  · cases h
  · cases h
  · cases h
  · dsimp only at h
    injection h with h
    injection h with h
    subst h
    refine ⟨_, rfl, rfl, rfl, rfl, ?_, ?_⟩
    · intro j info hj
      simp only [List.getElem?_replicate] at hj
      split_ifs at hj
      injection hj with hj
      exact Or.inl hj.symm
    · intro hn hs
      rcases h4 with h4 | h4
      · exact absurd h4 hn
      · exact absurd h4 hs
  · have hok : calloc_ok = true := by simpa using h3
    simp only [wd_sched_region_init, hok, if_true] at h
    split at h
    · cases h
    · rename_i ret ctx hinit
      split at hinit
      · cases hinit
      · rename_i sched_info hloop
        injection hinit with hinit
        injection hinit with hret hc
        subst hret
        subst hc
        simp only [ne_eq, not_true_eq_false, if_false] at h
        injection h with h
        injection h with h
        subst h
        have hspec := wd_sched_region_init_loop_spec _ _ _ _ _ hloop
        refine ⟨_, rfl, rfl, rfl, rfl, ?_, ?_⟩
        · intro j info hj
          simp only at hj
          rw [hspec j] at hj
          split_ifs at hj
          · injection hj with hj
            exact Or.inr hj.symm
          · simp only [List.getElem?_replicate] at hj
            split_ifs at hj
            injection hj with hj
            exact Or.inl hj.symm
        · intro _ _ j hj
          simp only
          rw [hspec j, if_pos ⟨Nat.zero_le _, by omega⟩]

/-- A freshly created scheduler: the balancer is zeroed, no cell is marked
valid, no flag of any node is set, and with a region-table policy every cell
is allocated. -/
theorem wd_sched_rr_alloc_fresh (numa_max_node : Int) (calloc_ok : Bool)
    (sched_type type_num numa_num : Nat) (func : Option user_poll_func) (s : wd_sched)
    (h : wd_sched_rr_alloc numa_max_node calloc_ok sched_type type_num numa_num func =
      some (some s)) :
    ∃ sched_ctx, s.h_sched_ctx = some sched_ctx ∧ sched_ctx.numa_num = numa_num ∧
      sched_ctx.type_num = type_num ∧ sched_ctx.balancer = zero_balancer ∧
      (∀ ref, cell_valid sched_ctx.sched_info ref = false) ∧
      (∀ (j : Nat) (info : wd_sched_info), sched_ctx.sched_info[j]? = some info →
        info.nm_valid = false ∧ info.hw_valid = false ∧ info.ce_valid = false ∧
          info.sve_valid = false ∧ info.soft_valid = false) ∧
      (sched_type ≠ SCHED_POLICY_NONE → sched_type ≠ SCHED_POLICY_SINGLE →
        ctx_wf sched_ctx) := by
  obtain ⟨sched_ctx, hs, hn, ht, hb, hnodes, hall⟩ :=
    wd_sched_rr_alloc_nodes _ _ _ _ _ _ _ h
  refine ⟨sched_ctx, hs, hn, ht, hb, ?_, ?_, ?_⟩
  · intro ref
    unfold cell_valid region_read
    cases hj : sched_ctx.sched_info[ref.numa]? with
    | none => rfl
    | some info =>
      rcases hnodes _ _ hj with hi | hi
      · rw [hi]
        simp only [zero_info_read]
      · rw [hi]
        simp only [region_init_node_read]
        split_ifs <;> rfl
  · intro j info hj
    rcases hnodes _ _ hj with hi | hi <;> subst hi <;> exact ⟨rfl, rfl, rfl, rfl, rfl⟩
  · intro h1 h2 numa hnuma prop hprop mode hmode type htype
    unfold region_read
    rw [hall h1 h2 numa (by omega)]
    simp only [region_init_node_read]
    rw [if_pos ⟨hprop, hmode, by omega⟩]
    rfl

/-- C5: `wd_sched_rr_instance` returns `-WD_EINVAL` and hands back the
scheduler exactly as it was (every cell, every flag, the locality map)
whenever `begin > end`, or `numa_id < 0`, or `numa_id ≥ numa_num`, or
`type ≥ type_num`, or `mode ≥ 2`, or `ctx_prop > UADK_CTX_SOFT`; if the
scheduler was freshly created, no cell is marked valid after the call. -/
theorem wd_sched_rr_instance_rejects (numa_distance : Int → Int → Int) (s : wd_sched)
    (sched_ctx : wd_sched_ctx) (p : sched_params) (hctx : s.h_sched_ctx = some sched_ctx)
    (hbad : p.begin > p.end_ ∨ p.numa_id < 0 ∨ p.numa_id ≥ (sched_ctx.numa_num : Int) ∨
      p.type ≥ sched_ctx.type_num ∨ p.mode ≥ SCHED_MODE_BUTT ∨
      p.ctx_prop > UADK_CTX_SOFT) :
    ∃ out, wd_sched_rr_instance numa_distance (some s) (some p) =
        some (-WD_EINVAL, out) ∧ out = some s ∧
      ∀ numa_max_node calloc_ok sched_type type_num numa_num func,
        wd_sched_rr_alloc numa_max_node calloc_ok sched_type type_num numa_num func =
          some (some s) →
        ∀ ref, cell_valid (ctx_of (some out)).sched_info ref = false := by
  refine ⟨some s, ?_, rfl, ?_⟩
  · unfold wd_sched_rr_instance
    simp only [hctx]
    split_ifs with h1 h2 h3 h4 h5
    · rfl
    · rfl
    · rfl
    · rfl
    · rfl
    · exfalso
      rcases hbad with h | h | h | h | h | h
      · exact h1 h
      · exact h2 (Or.inr h)
      · exact h2 (Or.inl h)
      · exact h3 h
      · exact h4 h
      · exact h5 h
  · intro mx ok ty tn nn f hfresh ref
    obtain ⟨c, hc, _, _, _, hcells, _⟩ := wd_sched_rr_alloc_fresh _ _ _ _ _ _ _ hfresh
    have : ctx_of (some (some s)) = c := by
      simp only [ctx_of, handle_ctx, hc]
    rw [this]
    exact hcells ref

/-- C5 on the fresh one-node scheduler: a region with `begin = 5 > end = 2` is
rejected and no cell becomes valid. -/
theorem wd_sched_rr_instance_rejects_witness :
    ∃ out, wd_sched_rr_instance flat_distance
        (some (sched_of (fresh_sched SCHED_POLICY_RR)))
        (some ⟨0, 0, SCHED_MODE_SYNC, 5, 2, UADK_CTX_HW⟩) = some (-WD_EINVAL, out) ∧
      out = some (sched_of (fresh_sched SCHED_POLICY_RR)) ∧
      ∀ numa_max_node calloc_ok sched_type type_num numa_num func,
        wd_sched_rr_alloc numa_max_node calloc_ok sched_type type_num numa_num func =
          some (some (sched_of (fresh_sched SCHED_POLICY_RR))) →
        ∀ ref, cell_valid (ctx_of (some out)).sched_info ref = false :=
  wd_sched_rr_instance_rejects flat_distance (sched_of (fresh_sched SCHED_POLICY_RR))
    (ctx_of (fresh_sched SCHED_POLICY_RR)) ⟨0, 0, SCHED_MODE_SYNC, 5, 2, UADK_CTX_HW⟩ rfl
    (Or.inl (by decide))

/-! ## Key initialisation: theorems -/

/-- With a scheduler and a key block, `session_sched_init` builds its key and
then resolves. -/
theorem session_sched_init_eq_tail (node : Int) (hnode : 0 ≤ node) (mem : sched_key)
    (sched_ctx : wd_sched_ctx) (sched_param : Option sched_params) :
    session_sched_init node (some mem) (some sched_ctx) sched_param =
      session_sched_init_tail sched_ctx
        (session_init_key sched_ctx node mem sched_param) := by
  unfold session_sched_init
  rw [if_neg (not_lt.mpr hnode)]
  rfl

/-- The key `session_sched_init` resolves with is for node 0 and for the type of
the parameters. -/
theorem session_init_key_fields (sched_ctx : wd_sched_ctx) (node : Int) (mem : sched_key)
    (sched_param : Option sched_params) :
    (session_init_key sched_ctx node mem sched_param).numa_id = 0 ∧
      (session_init_key sched_ctx node mem sched_param).type = param_type sched_param := by
  cases sched_param with
  | none => exact ⟨rfl, rfl⟩
  | some param =>
    by_cases h : param.numa_id < 0 <;> simp [session_init_key, param_type, h]

/-- The scan reads only the mode and the type of the key. -/
theorem scan_key_congr (sched_ctx : wd_sched_ctx) (key key' : sched_key)
    (hm : key.mode = key'.mode) (ht : key.type = key'.type) (k i : Nat) :
    sched_get_ctx_range_scan sched_ctx key k i =
      sched_get_ctx_range_scan sched_ctx key' k i := by
  induction k generalizing i with
  | zero => rfl
  | succ k ih =>
    simp only [sched_get_ctx_range_scan, hm, ht, ih]

/-- `sched_get_ctx_range` reads only the node, the mode and the type of the
key. -/
theorem sched_get_ctx_range_key_congr (sched_ctx : wd_sched_ctx) (key key' : sched_key)
    (hn : key.numa_id = key'.numa_id) (hm : key.mode = key'.mode)
    (ht : key.type = key'.type) :
    sched_get_ctx_range sched_ctx key = sched_get_ctx_range sched_ctx key' := by
  simp only [sched_get_ctx_range, hn, hm, ht, scan_key_congr sched_ctx key key' hm ht]

/-- `sched_key_valid` reads only the node, the mode and the type of the key. -/
theorem sched_key_valid_key_congr (sched_ctx : wd_sched_ctx) (key key' : sched_key)
    (hn : key.numa_id = key'.numa_id) (hm : key.mode = key'.mode)
    (ht : key.type = key'.type) :
    sched_key_valid sched_ctx key = sched_key_valid sched_ctx key' := by
  simp only [sched_key_valid, hn, hm, ht]

/-- The scan looks only at the `valid` flags of the cells. -/
theorem scan_ctx_congr (sched_ctx sched_ctx' : wd_sched_ctx) (key : sched_key)
    (hv : ∀ ref, (region_read sched_ctx'.sched_info ref).map (fun r => r.valid) =
      (region_read sched_ctx.sched_info ref).map (fun r => r.valid)) (k i : Nat) :
    sched_get_ctx_range_scan sched_ctx' key k i =
      sched_get_ctx_range_scan sched_ctx key k i := by
  induction k generalizing i with
  | zero => rfl
  | succ k ih =>
    have h := hv ⟨UADK_CTX_HW, i, key.mode, key.type⟩
    unfold sched_get_ctx_range_scan
    cases h1 : region_read sched_ctx'.sched_info ⟨UADK_CTX_HW, i, key.mode, key.type⟩ with
    | none =>
      cases h2 : region_read sched_ctx.sched_info ⟨UADK_CTX_HW, i, key.mode, key.type⟩ with
      | none => rfl
      | some r => simp [h1, h2] at h
    | some r' =>
      cases h2 : region_read sched_ctx.sched_info ⟨UADK_CTX_HW, i, key.mode, key.type⟩ with
      | none => simp [h1, h2] at h
      | some r =>
        simp only [h1, h2, Option.map_some', Option.some.injEq] at h
        simp only [h, ih]

/-- `sched_get_ctx_range` looks only at the number of nodes and at the `valid`
flags of the cells. -/
theorem sched_get_ctx_range_ctx_congr (sched_ctx sched_ctx' : wd_sched_ctx)
    (key : sched_key) (hnum : sched_ctx'.numa_num = sched_ctx.numa_num)
    (hv : ∀ ref, (region_read sched_ctx'.sched_info ref).map (fun r => r.valid) =
      (region_read sched_ctx.sched_info ref).map (fun r => r.valid)) :
    sched_get_ctx_range sched_ctx' key = sched_get_ctx_range sched_ctx key := by
  have h := hv ⟨UADK_CTX_HW, key.numa_id.toNat, key.mode, key.type⟩
  unfold sched_get_ctx_range
  rw [hnum, scan_ctx_congr sched_ctx sched_ctx' key hv]
  split_ifs with h0
  · cases h1 : region_read sched_ctx'.sched_info
        ⟨UADK_CTX_HW, key.numa_id.toNat, key.mode, key.type⟩ with
    | none =>
      cases h2 : region_read sched_ctx.sched_info
          ⟨UADK_CTX_HW, key.numa_id.toNat, key.mode, key.type⟩ with
      | none => rfl
      | some r => simp [h1, h2] at h
    | some r' =>
      cases h2 : region_read sched_ctx.sched_info
          ⟨UADK_CTX_HW, key.numa_id.toNat, key.mode, key.type⟩ with
      | none => simp [h1, h2] at h
      | some r =>
        simp only [h1, h2, Option.map_some', Option.some.injEq] at h
        simp only [h]
  · rfl

/-- On allocated cells the scan does not leave the allocation, and a cell it
returns is a valid hardware cell for the mode and the type of the key. -/
theorem scan_total (sched_ctx : wd_sched_ctx) (key : sched_key) (k i : Nat)
    (hread : ∀ n, i ≤ n → n < i + k →
      (region_read sched_ctx.sched_info ⟨UADK_CTX_HW, n, key.mode, key.type⟩).isSome = true) :
    ∃ res, sched_get_ctx_range_scan sched_ctx key k i = some res ∧
      ∀ ref, res = some ref →
        ref.prop = UADK_CTX_HW ∧ ref.numa < i + k ∧ ref.mode = key.mode ∧
          ref.type = key.type ∧ cell_valid sched_ctx.sched_info ref = true := by
  induction k generalizing i with
  | zero =>
    refine ⟨none, rfl, ?_⟩
    intro ref h
    cases h
  | succ k ih =>
    have h1 := hread i (le_refl i) (by omega)
    unfold sched_get_ctx_range_scan
    cases hr : region_read sched_ctx.sched_info ⟨UADK_CTX_HW, i, key.mode, key.type⟩ with
    | none => simp [hr] at h1
    | some region =>
      by_cases hv : region.valid = true
      · refine ⟨some ⟨UADK_CTX_HW, i, key.mode, key.type⟩, by simp only [hv, if_true], ?_⟩
        intro ref h
        injection h with h
        subst h
        refine ⟨rfl, ?_, rfl, rfl, ?_⟩
        · show i < i + (k + 1)
          omega
        · simp only [cell_valid, hr, hv]
      · simp only [hv]
        obtain ⟨res, hres, hp⟩ := ih (i + 1) (fun n hn hlt => hread n (by omega) (by omega))
        refine ⟨res, hres, fun ref h => ?_⟩
        obtain ⟨h1, h2, h3⟩ := hp ref h
        exact ⟨h1, by omega, h3⟩

/-- On a scheduler whose cells are allocated, for a key that passes
`sched_key_valid`, `sched_get_ctx_range` does not leave the allocation, and a
cell it returns is a valid hardware cell for the mode and the type of the
key. -/
theorem sched_get_ctx_range_total (sched_ctx : wd_sched_ctx) (key : sched_key)
    (hwf : ctx_wf sched_ctx) (hvalid : sched_key_valid sched_ctx key = true) :
    ∃ res, sched_get_ctx_range sched_ctx key = some res ∧
      ∀ ref, res = some ref →
        ref.prop = UADK_CTX_HW ∧ ref.numa < sched_ctx.numa_num ∧ ref.mode = key.mode ∧
          ref.type = key.type ∧ cell_valid sched_ctx.sched_info ref = true := by
  have hk : ¬ (key.numa_id ≥ (sched_ctx.numa_num : Int) ∨ key.mode ≥ SCHED_MODE_BUTT ∨
      key.type ≥ sched_ctx.type_num) := by
    intro hk
    simp [sched_key_valid, hk] at hvalid
  have hnuma : key.numa_id < (sched_ctx.numa_num : Int) := by
    by_contra h
    exact hk (Or.inl (not_lt.mp h))
  have hmode : key.mode < SCHED_MODE_BUTT := by
    by_contra h
    exact hk (Or.inr (Or.inl (not_lt.mp h)))
  have htype : key.type < sched_ctx.type_num := by
    by_contra h
    exact hk (Or.inr (Or.inr (not_lt.mp h)))
  have hread : ∀ n, n < sched_ctx.numa_num →
      (region_read sched_ctx.sched_info ⟨UADK_CTX_HW, n, key.mode, key.type⟩).isSome = true :=
    fun n hn => hwf n hn UADK_CTX_HW (by decide) key.mode hmode key.type htype
  have hscan : ∃ res, sched_get_ctx_range_scan sched_ctx key sched_ctx.numa_num 0 =
        some res ∧
      ∀ ref, res = some ref →
        ref.prop = UADK_CTX_HW ∧ ref.numa < sched_ctx.numa_num ∧ ref.mode = key.mode ∧
          ref.type = key.type ∧ cell_valid sched_ctx.sched_info ref = true := by
    obtain ⟨res, hres, hp⟩ := scan_total sched_ctx key sched_ctx.numa_num 0
      (fun n _ hn => hread n (by omega))
    refine ⟨res, hres, fun ref h => ?_⟩
    obtain ⟨h1, h2, h3⟩ := hp ref h
    exact ⟨h1, by omega, h3⟩
  unfold sched_get_ctx_range
  split_ifs with h0
  · have hlt : key.numa_id.toNat < sched_ctx.numa_num := by omega
    have hr := hread _ hlt
    cases hreg : region_read sched_ctx.sched_info
        ⟨UADK_CTX_HW, key.numa_id.toNat, key.mode, key.type⟩ with
    | none => simp [hreg] at hr
    | some region =>
      by_cases hv : region.valid = true
      · refine ⟨some ⟨UADK_CTX_HW, key.numa_id.toNat, key.mode, key.type⟩,
          by simp only [hv, if_true], ?_⟩
        intro ref h
        injection h with h
        subst h
        refine ⟨rfl, hlt, rfl, rfl, ?_⟩
        simp only [cell_valid, hreg, hv]
      · simp only [hv]
        exact hscan
  · exact hscan

/-- The allocator returns the cursor as it was and keeps the `valid` flag. -/
theorem sched_get_next_pos_rr_fst (region : sched_ctx_region) :
    (sched_get_next_pos_rr region).1 = region.last ∧
      (sched_get_next_pos_rr region).2.valid = region.valid := by
  simp only [sched_get_next_pos_rr]
  split_ifs <;> exact ⟨rfl, rfl⟩

/-- A call of the allocator through a pointer to an allocated cell returns the
cursor of that cell and writes that cell only. -/
theorem region_next_pos_spec (sched_ctx : wd_sched_ctx) (ref : region_ref)
    (r : sched_ctx_region) (h : region_read sched_ctx.sched_info ref = some r) :
    ∃ sched_ctx', region_next_pos sched_ctx ref = some (r.last, sched_ctx') ∧
      sched_ctx'.numa_num = sched_ctx.numa_num ∧
      sched_ctx'.type_num = sched_ctx.type_num ∧
      ∀ ref', region_read sched_ctx'.sched_info ref' =
        if ref' = ref then some (sched_get_next_pos_rr r).2
        else region_read sched_ctx.sched_info ref' := by
  have hw := region_write_isSome sched_ctx.sched_info ref (sched_get_next_pos_rr r).2
  rw [h] at hw
  cases hwr : region_write sched_ctx.sched_info ref (sched_get_next_pos_rr r).2 with
  | none => simp [hwr] at hw
  | some sched_info =>
    refine ⟨{ sched_ctx with sched_info := sched_info }, ?_, rfl, rfl, ?_⟩
    · simp only [region_next_pos, h, hwr, (sched_get_next_pos_rr_fst r).1]
    · intro ref'
      exact region_read_write _ _ _ _ hwr ref'

/-- What `session_sched_init_ctx` does on a scheduler whose cells are allocated:
either the key does not resolve, and the index is `INVALID_POS` and nothing is
written, or it resolves to a valid hardware cell of the mode, the index is the
cursor of that cell, and that cell alone is written. -/
theorem session_sched_init_ctx_spec (sched_ctx : wd_sched_ctx) (key : sched_key)
    (sched_mode : Int) (hwf : ctx_wf sched_ctx) :
    ∃ idx sched_ctx',
      session_sched_init_ctx sched_ctx key sched_mode =
        some (idx, sched_ctx', { key with mode := (sched_mode % 256).toNat }) ∧
      sched_ctx'.numa_num = sched_ctx.numa_num ∧
      sched_ctx'.type_num = sched_ctx.type_num ∧
      (((∀ ref, ¬ key_resolves sched_ctx
            { key with mode := (sched_mode % 256).toNat } ref) ∧
          idx = INVALID_POS ∧ sched_ctx' = sched_ctx) ∨
        ∃ ref r,
          key_resolves sched_ctx { key with mode := (sched_mode % 256).toNat } ref ∧
          ref.prop = UADK_CTX_HW ∧ ref.numa < sched_ctx.numa_num ∧
          ref.mode = (sched_mode % 256).toNat ∧ ref.type = key.type ∧
          region_read sched_ctx.sched_info ref = some r ∧ r.valid = true ∧
          idx = r.last ∧
          ∀ ref', region_read sched_ctx'.sched_info ref' =
            if ref' = ref then some (sched_get_next_pos_rr r).2
            else region_read sched_ctx.sched_info ref') := by
  unfold session_sched_init_ctx
  by_cases hvalid : sched_key_valid sched_ctx
      { key with mode := (sched_mode % 256).toNat } = true
  · obtain ⟨res, hres, hprops⟩ := sched_get_ctx_range_total sched_ctx _ hwf hvalid
    cases res with
    | none =>
      refine ⟨INVALID_POS, sched_ctx, ?_, rfl, rfl, Or.inl ⟨?_, rfl, rfl⟩⟩
      · simp only [hvalid, hres, Bool.not_true, Bool.false_eq_true, if_false]
      · intro ref hr
        rw [hr.2] at hres
        simp at hres
    | some ref =>
      obtain ⟨hp, hnu, hm, hty, hcv⟩ := hprops ref rfl
      unfold cell_valid at hcv
      cases hrd : region_read sched_ctx.sched_info ref with
      | none => simp [hrd] at hcv
      | some r =>
        simp only [hrd] at hcv
        obtain ⟨sched_ctx', hnext, hnum, htn, hreads⟩ := region_next_pos_spec sched_ctx ref r hrd
        refine ⟨r.last, sched_ctx', ?_, hnum, htn, Or.inr ⟨ref, r, ⟨hvalid, hres⟩, hp, hnu, hm,
          hty, hrd, hcv, rfl, hreads⟩⟩
        simp only [hvalid, hres, hnext, Bool.not_true, Bool.false_eq_true, if_false]
  · refine ⟨INVALID_POS, sched_ctx, ?_, rfl, rfl, Or.inl ⟨?_, rfl, rfl⟩⟩
    · have : sched_key_valid sched_ctx { key with mode := (sched_mode % 256).toNat } = false := by
        simpa using hvalid
      simp only [this, Bool.not_false, if_true]
    · intro ref hr
      exact hvalid hr.1

/-- `sched_key_valid` looks only at the numbers of nodes and of types of the
scheduler. -/
theorem sched_key_valid_ctx_congr (sched_ctx sched_ctx' : wd_sched_ctx) (key : sched_key)
    (hnum : sched_ctx'.numa_num = sched_ctx.numa_num)
    (htn : sched_ctx'.type_num = sched_ctx.type_num) :
    sched_key_valid sched_ctx' key = sched_key_valid sched_ctx key := by
  simp only [sched_key_valid, hnum, htn]

/-- Whether and where a key resolves depends only on its node, mode and type,
and on the numbers of nodes and types and the `valid` flags of the
scheduler. -/
theorem key_resolves_congr (sched_ctx sched_ctx' : wd_sched_ctx) (key key' : sched_key)
    (hn : key.numa_id = key'.numa_id) (hm : key.mode = key'.mode)
    (ht : key.type = key'.type) (hnum : sched_ctx'.numa_num = sched_ctx.numa_num)
    (htn : sched_ctx'.type_num = sched_ctx.type_num)
    (hv : ∀ ref, (region_read sched_ctx'.sched_info ref).map (fun r => r.valid) =
      (region_read sched_ctx.sched_info ref).map (fun r => r.valid)) (ref : region_ref) :
    key_resolves sched_ctx' key ref ↔ key_resolves sched_ctx key' ref := by
  unfold key_resolves
  rw [sched_key_valid_ctx_congr sched_ctx sched_ctx' key hnum htn,
    sched_key_valid_key_congr sched_ctx key key' hn hm ht,
    sched_get_ctx_range_ctx_congr sched_ctx sched_ctx' key hnum hv,
    sched_get_ctx_range_key_congr sched_ctx key key' hn hm ht]

/-- A key resolves to at most one cell. -/
theorem key_resolves_unique (sched_ctx : wd_sched_ctx) (key : sched_key)
    (ref ref' : region_ref) (h : key_resolves sched_ctx key ref)
    (h' : key_resolves sched_ctx key ref') : ref = ref' := by
  have := h.2.symm.trans h'.2
  injection this with this
  injection this

/-- The end of `session_sched_init` on a scheduler whose cells are allocated and
in which no valid hardware cell has its cursor at `INVALID_POS`: it fails
exactly when neither mode resolves, and when one mode alone resolves the key
holds the cursor of that cell for that mode and `INVALID_POS` for the
other. -/
theorem session_sched_init_tail_spec (sched_ctx : wd_sched_ctx) (skey : sched_key)
    (hwf : ctx_wf sched_ctx) (h0 : skey.numa_id = 0)
    (hpos : ∀ numa < sched_ctx.numa_num, ∀ mode < SCHED_MODE_BUTT,
      ∀ r ∈ region_read sched_ctx.sched_info ⟨UADK_CTX_HW, numa, mode, skey.type⟩,
        r.valid = true → r.last ≠ INVALID_POS) :
    ∃ res sched_ctx',
      session_sched_init_tail sched_ctx skey = some (res, some sched_ctx') ∧
      (res = .error (-WD_EINVAL) ↔
        (∀ ref, ¬ session_resolves sched_ctx skey.type CTX_MODE_SYNC ref) ∧
          ∀ ref, ¬ session_resolves sched_ctx skey.type CTX_MODE_ASYNC ref) ∧
      (∀ ref r, session_resolves sched_ctx skey.type CTX_MODE_SYNC ref →
        (∀ ref', ¬ session_resolves sched_ctx skey.type CTX_MODE_ASYNC ref') →
        region_read sched_ctx.sched_info ref = some r →
        ∃ key, res = .ok key ∧ key.sync_ctxid = r.last ∧ key.async_ctxid = INVALID_POS) ∧
      (∀ ref r, session_resolves sched_ctx skey.type CTX_MODE_ASYNC ref →
        (∀ ref', ¬ session_resolves sched_ctx skey.type CTX_MODE_SYNC ref') →
        region_read sched_ctx.sched_info ref = some r →
        ∃ key, res = .ok key ∧ key.async_ctxid = r.last ∧ key.sync_ctxid = INVALID_POS) := by
  have hpos' : ∀ (ref : region_ref) (r : sched_ctx_region), ref.prop = UADK_CTX_HW →
      ref.numa < sched_ctx.numa_num → ref.mode < SCHED_MODE_BUTT → ref.type = skey.type →
      region_read sched_ctx.sched_info ref = some r → r.valid = true →
      r.last ≠ INVALID_POS := by
    intro ref r hp hn hm ht hrd hv
    cases ref with
    | mk prop numa mode type =>
      simp only at hp hn hm ht
      subst hp
      subst ht
      exact hpos numa hn mode hm r (Option.mem_def.mpr hrd) hv
  obtain ⟨idx1, ctx1, h1, hn1, ht1, hcase1⟩ :=
    session_sched_init_ctx_spec sched_ctx skey CTX_MODE_SYNC hwf
  -- the scheduler after the first call has the same cells allocated and valid
  have hreads1 : ∀ ref', (region_read ctx1.sched_info ref').map (fun r => r.valid) =
        (region_read sched_ctx.sched_info ref').map (fun r => r.valid) := by
    rcases hcase1 with ⟨_, _, hc⟩ | ⟨ref, r, _, _, _, _, _, hrd, _, _, hreads⟩
    · intro ref'
      rw [hc]
    · intro ref'
      rw [hreads ref']
      split_ifs with he
      · rw [he, hrd]
        simp only [Option.map_some', (sched_get_next_pos_rr_fst r).2]
      · rfl
  have hwf1 : ctx_wf ctx1 := by
    intro numa hnuma prop hprop mode hmode type htype
    have h := hwf numa (by omega) prop hprop mode hmode type (by omega)
    have hm := hreads1 ⟨prop, numa, mode, type⟩
    cases hr1 : region_read ctx1.sched_info ⟨prop, numa, mode, type⟩ with
    | none =>
      rw [hr1] at hm
      cases hr0 : region_read sched_ctx.sched_info ⟨prop, numa, mode, type⟩ with
      | none => simp [hr0] at h
      | some r => simp [hr0] at hm
    | some r => rfl
  obtain ⟨idx2, ctx2, h2, _, _, hcase2⟩ :=
    session_sched_init_ctx_spec ctx1
      { ({ skey with mode := (CTX_MODE_SYNC % 256).toNat } : sched_key) with
        sync_ctxid := idx1 } CTX_MODE_ASYNC hwf1
  have hS : ∀ ref, key_resolves sched_ctx
      { skey with mode := (CTX_MODE_SYNC % 256).toNat } ref ↔
      session_resolves sched_ctx skey.type CTX_MODE_SYNC ref := fun ref =>
    key_resolves_congr sched_ctx sched_ctx
      { skey with mode := (CTX_MODE_SYNC % 256).toNat }
      (session_key skey.type CTX_MODE_SYNC) h0 rfl rfl rfl rfl (fun _ => rfl) ref
  have hA : ∀ ref, key_resolves ctx1
      { ({ ({ skey with mode := (CTX_MODE_SYNC % 256).toNat } : sched_key) with
          sync_ctxid := idx1 } : sched_key) with
        mode := (CTX_MODE_ASYNC % 256).toNat } ref ↔
      session_resolves sched_ctx skey.type CTX_MODE_ASYNC ref := fun ref =>
    key_resolves_congr sched_ctx ctx1
      { ({ ({ skey with mode := (CTX_MODE_SYNC % 256).toNat } : sched_key) with
          sync_ctxid := idx1 } : sched_key) with
        mode := (CTX_MODE_ASYNC % 256).toNat }
      (session_key skey.type CTX_MODE_ASYNC) h0 rfl rfl hn1 ht1 hreads1 ref
  have htail : session_sched_init_tail sched_ctx skey =
      if idx1 = INVALID_POS ∧ idx2 = INVALID_POS then
        some (.error (-WD_EINVAL), some ctx2)
      else
        some (.ok
          { ({ ({ ({ skey with mode := (CTX_MODE_SYNC % 256).toNat } : sched_key) with
              sync_ctxid := idx1 } : sched_key) with
              mode := (CTX_MODE_ASYNC % 256).toNat } : sched_key) with
            async_ctxid := idx2 }, some ctx2) := by
    simp only [session_sched_init_tail, h1, h2]
  rw [htail]
  rcases hcase1 with ⟨hno1, hi1, hc1⟩ |
    ⟨ref1, r1, hres1, hp1, hnu1, hm1, hty1, hrd1, hv1, hi1, hreads1'⟩
  · -- sync does not resolve
    have hnoS : ∀ ref, ¬ session_resolves sched_ctx skey.type CTX_MODE_SYNC ref :=
      fun ref h => hno1 ref ((hS ref).mpr h)
    rcases hcase2 with ⟨hno2, hi2, _⟩ |
      ⟨ref2, r2, hres2, hp2, hnu2, hm2, hty2, hrd2, hv2, hi2, _⟩
    · have hnoA : ∀ ref, ¬ session_resolves sched_ctx skey.type CTX_MODE_ASYNC ref :=
        fun ref h => hno2 ref ((hA ref).mpr h)
      refine ⟨_, ctx2, if_pos ⟨hi1, hi2⟩, ?_, ?_, ?_⟩
      · exact ⟨fun _ => ⟨hnoS, hnoA⟩, fun _ => rfl⟩
      · intro ref r h
        exact absurd h (hnoS ref)
      · intro ref r h
        exact absurd h (hnoA ref)
    · rw [hc1] at hrd2 hnu2
      have hne : idx2 ≠ INVALID_POS := by
        rw [hi2]
        exact hpos' ref2 r2 hp2 hnu2 (hm2 ▸ (by decide)) hty2 hrd2 hv2
      have hresA := (hA ref2).mp hres2
      refine ⟨_, ctx2, if_neg (fun h => hne h.2), ?_, ?_, ?_⟩
      · constructor
        · intro h
          cases h
        · intro h
          exact absurd hresA (h.2 ref2)
      · intro ref r h
        exact absurd h (hnoS ref)
      · intro ref r h _ hrd
        have := key_resolves_unique _ _ _ _ h hresA
        subst this
        rw [hrd2] at hrd
        injection hrd with hrd
        subst hrd
        exact ⟨_, rfl, hi2, hi1⟩
  · -- sync resolves
    have hne1 : idx1 ≠ INVALID_POS := by
      rw [hi1]
      exact hpos' ref1 r1 hp1 hnu1 (hm1 ▸ (by decide)) hty1 hrd1 hv1
    have hresS := (hS ref1).mp hres1
    refine ⟨_, ctx2, if_neg (fun h => hne1 h.1), ?_, ?_, ?_⟩
    · constructor
      · intro h
        cases h
      · intro h
        exact absurd hresS (h.1 ref1)
    · intro ref r h hnoA hrd
      have := key_resolves_unique _ _ _ _ h hresS
      subst this
      rw [hrd1] at hrd
      injection hrd with hrd
      subst hrd
      rcases hcase2 with ⟨_, hi2, _⟩ | ⟨ref2, _, hres2, _⟩
      · exact ⟨_, rfl, hi1, hi2⟩
      · exact absurd ((hA ref2).mp hres2) (hnoA ref2)
    · intro ref r _ hnoS
      exact absurd hresS (hnoS ref1)

/-- C7, with the sentinel kept out of the cursors: on a scheduler whose cells
are allocated and in which no valid hardware cell for the type of the key has
its cursor at `INVALID_POS`, given a non-negative node and a key block,
`session_sched_init` returns `-WD_EINVAL` if and only if neither the sync nor
the async hardware cell for the type of the key resolves; when the sync cell
alone resolves it returns a key with the cursor of that cell as `sync_ctxid`
and `INVALID_POS` as `async_ctxid`, and likewise with the modes exchanged. -/
theorem session_sched_init_status (node : Int) (mem : sched_key)
    (sched_ctx : wd_sched_ctx) (sched_param : Option sched_params) (hnode : 0 ≤ node)
    (hwf : ctx_wf sched_ctx)
    (hpos : ∀ numa < sched_ctx.numa_num, ∀ mode < SCHED_MODE_BUTT,
      ∀ r ∈ region_read sched_ctx.sched_info ⟨UADK_CTX_HW, numa, mode, param_type sched_param⟩,
        r.valid = true → r.last ≠ INVALID_POS) :
    ∃ res sched_ctx',
      session_sched_init node (some mem) (some sched_ctx) sched_param =
        some (res, some sched_ctx') ∧
      (res = .error (-WD_EINVAL) ↔
        (∀ ref, ¬ session_resolves sched_ctx (param_type sched_param) CTX_MODE_SYNC ref) ∧
          ∀ ref, ¬ session_resolves sched_ctx (param_type sched_param) CTX_MODE_ASYNC ref) ∧
      (∀ ref r, session_resolves sched_ctx (param_type sched_param) CTX_MODE_SYNC ref →
        (∀ ref', ¬ session_resolves sched_ctx (param_type sched_param) CTX_MODE_ASYNC ref') →
        region_read sched_ctx.sched_info ref = some r →
        ∃ key, res = .ok key ∧ key.sync_ctxid = r.last ∧ key.async_ctxid = INVALID_POS) ∧
      (∀ ref r, session_resolves sched_ctx (param_type sched_param) CTX_MODE_ASYNC ref →
        (∀ ref', ¬ session_resolves sched_ctx (param_type sched_param) CTX_MODE_SYNC ref') →
        region_read sched_ctx.sched_info ref = some r →
        ∃ key, res = .ok key ∧ key.async_ctxid = r.last ∧ key.sync_ctxid = INVALID_POS) := by
  have hf := session_init_key_fields sched_ctx node mem sched_param
  rw [← hf.2] at hpos
  rw [session_sched_init_eq_tail node hnode, ← hf.2]
  exact session_sched_init_tail_spec sched_ctx _ hwf hf.1 hpos

/-- C7 on the scheduler with the hardware sync region `[0, 3]` alone: the
hypotheses hold there, so `session_sched_init` fails exactly when neither mode
resolves, and a mode that resolves alone gives its index to the key. -/
theorem session_sched_init_status_witness :
    ∃ res sched_ctx',
      session_sched_init 0 (some zero_key) (some (ctx_of once_sched)) none =
        some (res, some sched_ctx') ∧
      (res = .error (-WD_EINVAL) ↔
        (∀ ref, ¬ session_resolves (ctx_of once_sched) (param_type none) CTX_MODE_SYNC ref) ∧
          ∀ ref, ¬ session_resolves (ctx_of once_sched) (param_type none)
            CTX_MODE_ASYNC ref) ∧
      (∀ ref r, session_resolves (ctx_of once_sched) (param_type none) CTX_MODE_SYNC ref →
        (∀ ref', ¬ session_resolves (ctx_of once_sched) (param_type none)
          CTX_MODE_ASYNC ref') →
        region_read (ctx_of once_sched).sched_info ref = some r →
        ∃ key, res = .ok key ∧ key.sync_ctxid = r.last ∧ key.async_ctxid = INVALID_POS) ∧
      (∀ ref r, session_resolves (ctx_of once_sched) (param_type none) CTX_MODE_ASYNC ref →
        (∀ ref', ¬ session_resolves (ctx_of once_sched) (param_type none)
          CTX_MODE_SYNC ref') →
        region_read (ctx_of once_sched).sched_info ref = some r →
        ∃ key, res = .ok key ∧ key.async_ctxid = r.last ∧ key.sync_ctxid = INVALID_POS) :=
  session_sched_init_status 0 zero_key (ctx_of once_sched) none (le_refl 0) (by decide)
    (by decide)

/-- C7 as stated fails when the cursor of the cell that resolves is the
sentinel: with the hardware sync region `[4294967295, 4294967295]` alone, the
sync cell resolves, yet both indices equal `INVALID_POS` and
`session_sched_init` returns `-WD_EINVAL`. -/
theorem session_sched_init_counterexample :
    session_resolves (ctx_of top_sched) 0 CTX_MODE_SYNC ⟨UADK_CTX_HW, 0, 0, 0⟩ ∧
    ∃ sched_ctx',
      session_sched_init 0 (some zero_key) (some (ctx_of top_sched)) none =
        some (.error (-WD_EINVAL), some sched_ctx') :=
  ⟨⟨rfl, rfl⟩, _, rfl⟩

/-! ## Loop policy: theorems -/

/-- One sync pick of the loop policy: with the slice counter at the threshold
the pick is the hardware index and the counter restarts; otherwise the pick is
the software index and the counter goes up by one. -/
theorem loop_pick_sync (sched_ctx : wd_sched_ctx) (key : sched_key)
    (hs : key.sw_sync_ctxid ≠ INVALID_POS) (ha : key.sw_async_ctxid ≠ INVALID_POS) :
    ∃ sched_ctx',
      loop_sched_pick_next_ctx (some sched_ctx) (some key) CTX_MODE_SYNC =
        (if sched_ctx.balancer.switch_slice = LOOP_SWITH_TIME then key.sync_ctxid
          else key.sw_sync_ctxid, some sched_ctx', some key) ∧
      sched_ctx'.balancer.switch_slice =
        (if sched_ctx.balancer.switch_slice = LOOP_SWITH_TIME then 0
          else sched_ctx.balancer.switch_slice + 1) := by
  have hno : ¬ (key.sw_sync_ctxid = INVALID_POS ∨ key.sw_async_ctxid = INVALID_POS) := by
    rintro (h | h)
    · exact hs h
    · exact ha h
  by_cases hsl : sched_ctx.balancer.switch_slice = LOOP_SWITH_TIME
  · refine ⟨{ sched_ctx with balancer :=
        { sched_ctx.balancer with
          switch_slice := 0
          hw_dfx_num := (sched_ctx.balancer.hw_dfx_num + 1) % U32 } }, ?_, ?_⟩
    · simp only [loop_sched_pick_next_ctx, if_neg hno, if_true, if_pos hsl]
    · simp only [if_pos hsl]
  · refine ⟨{ sched_ctx with balancer :=
        { sched_ctx.balancer with
          switch_slice := sched_ctx.balancer.switch_slice + 1
          sw_dfx_num := (sched_ctx.balancer.sw_dfx_num + 1) % U32 } }, ?_, ?_⟩
    · simp only [loop_sched_pick_next_ctx, if_neg hno, if_true, if_neg hsl]
    · simp only [if_neg hsl]

/-- Picks in a row: the first `a` picks, then `b` more from where they end. -/
theorem loop_picks_add (sched_mode : Int) (a b : Nat) (h_sched_ctx : Option wd_sched_ctx)
    (sched_key : Option sched_key) :
    loop_picks sched_mode (a + b) h_sched_ctx sched_key =
      ((loop_picks sched_mode a h_sched_ctx sched_key).1 ++
          (loop_picks sched_mode b (loop_picks sched_mode a h_sched_ctx sched_key).2.1
            (loop_picks sched_mode a h_sched_ctx sched_key).2.2).1,
        (loop_picks sched_mode b (loop_picks sched_mode a h_sched_ctx sched_key).2.1
          (loop_picks sched_mode a h_sched_ctx sched_key).2.2).2) := by
  induction a generalizing h_sched_ctx sched_key with
  | zero => simp [loop_picks]
  | succ a ih =>
    rw [Nat.add_right_comm]
    simp only [loop_picks, ih, List.cons_append]

/-- Six sync picks from a slice counter at zero: five software picks, then one
hardware pick, and the counter is at zero again. -/
theorem loop_picks_six (sched_ctx : wd_sched_ctx) (key : sched_key)
    (hs : key.sw_sync_ctxid ≠ INVALID_POS) (ha : key.sw_async_ctxid ≠ INVALID_POS)
    (h0 : sched_ctx.balancer.switch_slice = 0) :
    ∃ sched_ctx',
      loop_picks CTX_MODE_SYNC 6 (some sched_ctx) (some key) =
        ([key.sw_sync_ctxid, key.sw_sync_ctxid, key.sw_sync_ctxid, key.sw_sync_ctxid,
          key.sw_sync_ctxid, key.sync_ctxid], some sched_ctx', some key) ∧
      sched_ctx'.balancer.switch_slice = 0 := by
  obtain ⟨c1, e1, s1⟩ := loop_pick_sync sched_ctx key hs ha
  obtain ⟨c2, e2, s2⟩ := loop_pick_sync c1 key hs ha
  obtain ⟨c3, e3, s3⟩ := loop_pick_sync c2 key hs ha
  obtain ⟨c4, e4, s4⟩ := loop_pick_sync c3 key hs ha
  obtain ⟨c5, e5, s5⟩ := loop_pick_sync c4 key hs ha
  obtain ⟨c6, e6, s6⟩ := loop_pick_sync c5 key hs ha
  simp only [h0, LOOP_SWITH_TIME] at s1 e1
  norm_num at s1 e1
  simp only [s1, LOOP_SWITH_TIME] at s2 e2
  norm_num at s2 e2
  simp only [s2, LOOP_SWITH_TIME] at s3 e3
  norm_num at s3 e3
  simp only [s3, LOOP_SWITH_TIME] at s4 e4
  norm_num at s4 e4
  simp only [s4, LOOP_SWITH_TIME] at s5 e5
  norm_num at s5 e5
  simp only [s5, LOOP_SWITH_TIME] at s6 e6
  norm_num at s6 e6
  exact ⟨c6, by simp only [loop_picks, e1, e2, e3, e4, e5, e6], s6⟩

/-- C8, as the code behaves: with the loop policy, a slice counter at zero (a
fresh scheduler) and a key whose software indices are valid, six consecutive
`loop_sched_pick_next_ctx(sync)` calls route software five times and then
hardware: calls 1 to 5 return `key.sw_sync_ctxid` and call 6 returns
`key.sync_ctxid`. -/
theorem loop_sync_six_picks (sched_ctx : wd_sched_ctx) (key : sched_key)
    (hs : key.sw_sync_ctxid ≠ INVALID_POS) (ha : key.sw_async_ctxid ≠ INVALID_POS)
    (h0 : sched_ctx.balancer.switch_slice = 0) :
    (loop_picks CTX_MODE_SYNC 6 (some sched_ctx) (some key)).1 =
      [key.sw_sync_ctxid, key.sw_sync_ctxid, key.sw_sync_ctxid, key.sw_sync_ctxid,
        key.sw_sync_ctxid, key.sync_ctxid] := by
  obtain ⟨c, h, _⟩ := loop_picks_six sched_ctx key hs ha h0
  rw [h]

/-- C8 on a fresh loop scheduler with the indices `0, 4, 8, 12`: the six sync
picks are `8, 8, 8, 8, 8, 0`. -/
theorem loop_sync_six_picks_witness :
    (loop_picks CTX_MODE_SYNC 6 (some (ctx_of (fresh_sched SCHED_POLICY_LOOP)))
      (some demo_key)).1 = [8, 8, 8, 8, 8, 0] :=
  loop_sync_six_picks (ctx_of (fresh_sched SCHED_POLICY_LOOP)) demo_key (by decide)
    (by decide) rfl

/-- C8 as stated fails: on a fresh loop scheduler, with the hardware sync index
`0` and the software sync index `8`, the six sync picks are
`8, 8, 8, 8, 8, 0`; the first is software, not hardware. -/
theorem loop_sync_six_picks_counterexample :
    (ctx_of (fresh_sched SCHED_POLICY_LOOP)).balancer.switch_slice = 0 ∧
    (loop_picks CTX_MODE_SYNC 6 (some (ctx_of (fresh_sched SCHED_POLICY_LOOP)))
      (some demo_key)).1 = [8, 8, 8, 8, 8, 0] ∧
    (loop_picks CTX_MODE_SYNC 6 (some (ctx_of (fresh_sched SCHED_POLICY_LOOP)))
      (some demo_key)).1 ≠
      [demo_key.sync_ctxid, demo_key.sw_sync_ctxid, demo_key.sw_sync_ctxid,
        demo_key.sw_sync_ctxid, demo_key.sw_sync_ctxid, demo_key.sync_ctxid] :=
  ⟨rfl, rfl, by decide⟩

/-- C9, as the code behaves: sync time-slicing gives a fixed 1-in-6 hardware
ratio.  For every `n`, among the first `6 n` consecutive
`loop_sched_pick_next_ctx(sync)` calls from a slice counter at zero (key with
valid software indices, the hardware sync index different from the software
one) exactly `n` return `key.sync_ctxid` and the other `5 n` return
`key.sw_sync_ctxid`. -/
theorem loop_sync_ratio (n : Nat) (sched_ctx : wd_sched_ctx) (key : sched_key)
    (hs : key.sw_sync_ctxid ≠ INVALID_POS) (ha : key.sw_async_ctxid ≠ INVALID_POS)
    (hne : key.sync_ctxid ≠ key.sw_sync_ctxid)
    (h0 : sched_ctx.balancer.switch_slice = 0) :
    count_index key.sync_ctxid
        (loop_picks CTX_MODE_SYNC (6 * n) (some sched_ctx) (some key)).1 = n ∧
      count_index key.sw_sync_ctxid
        (loop_picks CTX_MODE_SYNC (6 * n) (some sched_ctx) (some key)).1 = 5 * n := by
  induction n generalizing sched_ctx with
  | zero => exact ⟨rfl, rfl⟩
  | succ n ih =>
    obtain ⟨c, h6, hc⟩ := loop_picks_six sched_ctx key hs ha h0
    obtain ⟨ih1, ih2⟩ := ih c hc
    have hsplit : 6 * (n + 1) = 6 + 6 * n := by ring
    rw [hsplit, loop_picks_add, h6]
    simp only [count_index] at ih1 ih2 ⊢
    simp only [List.count_append, ih1, ih2]
    have hne' : key.sw_sync_ctxid ≠ key.sync_ctxid := fun h => hne h.symm
    constructor
    · simp [List.count_cons, hne']
      omega
    · simp [List.count_cons, hne]
      omega

/-- C9 on a fresh loop scheduler: of the first 18 sync picks 3 are hardware and
15 are software. -/
theorem loop_sync_ratio_witness :
    count_index demo_key.sync_ctxid
        (loop_picks CTX_MODE_SYNC (6 * 3) (some (ctx_of (fresh_sched SCHED_POLICY_LOOP)))
          (some demo_key)).1 = 3 ∧
      count_index demo_key.sw_sync_ctxid
        (loop_picks CTX_MODE_SYNC (6 * 3) (some (ctx_of (fresh_sched SCHED_POLICY_LOOP)))
          (some demo_key)).1 = 5 * 3 :=
  loop_sync_ratio 3 (ctx_of (fresh_sched SCHED_POLICY_LOOP)) demo_key (by decide)
    (by decide) (by decide) rfl

/-- C9 as stated fails for `n = 1`: on a fresh loop scheduler none of the first
five sync picks returns the hardware index, all five return the software
index. -/
theorem loop_sync_ratio_counterexample :
    (loop_picks CTX_MODE_SYNC (5 * 1) (some (ctx_of (fresh_sched SCHED_POLICY_LOOP)))
      (some demo_key)).1 = [8, 8, 8, 8, 8] ∧
    count_index demo_key.sync_ctxid
      (loop_picks CTX_MODE_SYNC (5 * 1) (some (ctx_of (fresh_sched SCHED_POLICY_LOOP)))
        (some demo_key)).1 ≠ 1 ∧
    count_index demo_key.sw_sync_ctxid
      (loop_picks CTX_MODE_SYNC (5 * 1) (some (ctx_of (fresh_sched SCHED_POLICY_LOOP)))
        (some demo_key)).1 ≠ 4 * 1 :=
  ⟨rfl, by decide, by decide⟩

/-- C10: for every balancer state with 32-bit counters and every key with valid
software indices, `loop_sched_pick_next_ctx` in async mode returns
`key.sw_async_ctxid` and adds one to `sw_task_num` when
`hw_task_num > sw_task_num`, and otherwise (ties included) returns
`key.async_ctxid` and adds one to `hw_task_num`, modulo `2^32`; the counter of
the other path and `switch_slice` are as before. -/
theorem loop_async_pick (sched_ctx : wd_sched_ctx) (key : sched_key) (sched_mode : Int)
    (hmode : sched_mode ≠ CTX_MODE_SYNC)
    (hs : key.sw_sync_ctxid ≠ INVALID_POS) (ha : key.sw_async_ctxid ≠ INVALID_POS)
    (hhw : sched_ctx.balancer.hw_task_num < U32) :
    ∃ idx sched_ctx',
      loop_sched_pick_next_ctx (some sched_ctx) (some key) sched_mode =
        (idx, some sched_ctx', some key) ∧
      sched_ctx'.balancer.switch_slice = sched_ctx.balancer.switch_slice ∧
      (sched_ctx.balancer.hw_task_num > sched_ctx.balancer.sw_task_num →
        idx = key.sw_async_ctxid ∧
        sched_ctx'.balancer.sw_task_num = sched_ctx.balancer.sw_task_num + 1 ∧
        sched_ctx'.balancer.hw_task_num = sched_ctx.balancer.hw_task_num) ∧
      (¬ sched_ctx.balancer.hw_task_num > sched_ctx.balancer.sw_task_num →
        idx = key.async_ctxid ∧
        sched_ctx'.balancer.hw_task_num = (sched_ctx.balancer.hw_task_num + 1) % U32 ∧
        sched_ctx'.balancer.sw_task_num = sched_ctx.balancer.sw_task_num) := by
  have hno : ¬ (key.sw_sync_ctxid = INVALID_POS ∨ key.sw_async_ctxid = INVALID_POS) := by
    rintro (h | h)
    · exact hs h
    · exact ha h
  by_cases hgt : sched_ctx.balancer.hw_task_num > sched_ctx.balancer.sw_task_num
  · refine ⟨key.sw_async_ctxid,
      { sched_ctx with balancer :=
        { sched_ctx.balancer with
          next_send_type := SCHED_SEND_SW
          sw_task_num := (sched_ctx.balancer.sw_task_num + 1) % U32
          sw_dfx_num := (sched_ctx.balancer.sw_dfx_num + 1) % U32 } }, ?_, rfl, ?_, ?_⟩
    · have hsw : SCHED_SEND_SW ≠ SCHED_SEND_HW := by decide
      simp only [loop_sched_pick_next_ctx, if_neg hno, if_neg hmode, if_pos hgt, if_neg hsw]
    · intro _
      refine ⟨rfl, ?_, rfl⟩
      show (sched_ctx.balancer.sw_task_num + 1) % U32 = sched_ctx.balancer.sw_task_num + 1
      apply Nat.mod_eq_of_lt
      omega
    · intro h
      exact absurd hgt h
  · refine ⟨key.async_ctxid,
      { sched_ctx with balancer :=
        { sched_ctx.balancer with
          next_send_type := SCHED_SEND_HW
          hw_task_num := (sched_ctx.balancer.hw_task_num + 1) % U32
          hw_dfx_num := (sched_ctx.balancer.hw_dfx_num + 1) % U32 } }, ?_, rfl, ?_, ?_⟩
    · simp only [loop_sched_pick_next_ctx, if_neg hno, if_neg hmode, if_neg hgt, if_true]
    · intro h
      exact absurd h hgt
    · intro _
      exact ⟨rfl, rfl, rfl⟩

/-- C10 with three hardware tasks and one software task outstanding: the async
pick goes to software and `sw_task_num` becomes 2. -/
theorem loop_async_pick_witness :
    ∃ idx sched_ctx',
      loop_sched_pick_next_ctx (some busy_ctx) (some demo_key) CTX_MODE_ASYNC =
        (idx, some sched_ctx', some demo_key) ∧
      sched_ctx'.balancer.switch_slice = busy_ctx.balancer.switch_slice ∧
      (busy_ctx.balancer.hw_task_num > busy_ctx.balancer.sw_task_num →
        idx = demo_key.sw_async_ctxid ∧
        sched_ctx'.balancer.sw_task_num = busy_ctx.balancer.sw_task_num + 1 ∧
        sched_ctx'.balancer.hw_task_num = busy_ctx.balancer.hw_task_num) ∧
      (¬ busy_ctx.balancer.hw_task_num > busy_ctx.balancer.sw_task_num →
        idx = demo_key.async_ctxid ∧
        sched_ctx'.balancer.hw_task_num = (busy_ctx.balancer.hw_task_num + 1) % U32 ∧
        sched_ctx'.balancer.sw_task_num = busy_ctx.balancer.sw_task_num) :=
  loop_async_pick busy_ctx demo_key CTX_MODE_ASYNC (by decide) (by decide) (by decide)
    (by decide)

/-! ## Region registration succeeds on allocated tables -/

/-- The search for the nearest node stays inside the node array when the nodes
it visits exist. -/
theorem wd_sched_get_nearby_numa_id_loop_some (numa_distance : Int → Int → Int)
    (sched_info : List wd_sched_info) (node : Int) (k i : Nat) (dis valid_id : Int)
    (hlen : i + k ≤ sched_info.length) :
    ∃ id, wd_sched_get_nearby_numa_id_loop numa_distance sched_info node k i dis valid_id =
      some id := by
  induction k generalizing i dis valid_id with
  | zero => exact ⟨valid_id, rfl⟩
  | succ k ih =>
    have hi : i < sched_info.length := by omega
    unfold wd_sched_get_nearby_numa_id_loop
    rw [List.getElem?_eq_getElem hi]
    simp only
    split_ifs
    · exact ih (i + 1) _ _ (by omega)
    · exact ih (i + 1) _ _ (by omega)
    · exact ih (i + 1) _ _ (by omega)

/-- The loop of `wd_sched_map_cpus_to_dev` stays inside the node array when
there are `numa_num` nodes. -/
theorem wd_sched_map_cpus_to_dev_loop_some (numa_distance : Int → Int → Int)
    (sched_info : List wd_sched_info) (numa_num k i : Nat) (numa_map : Nat → Int)
    (hnum : numa_num ≤ sched_info.length) (hlen : i + k ≤ sched_info.length) :
    ∃ m, wd_sched_map_cpus_to_dev_loop numa_distance sched_info numa_num k i numa_map =
      some m := by
  induction k generalizing i numa_map with
  | zero => exact ⟨numa_map, rfl⟩
  | succ k ih =>
    have hi : i < sched_info.length := by omega
    unfold wd_sched_map_cpus_to_dev_loop
    rw [List.getElem?_eq_getElem hi]
    simp only
    split_ifs
    · exact ih (i + 1) _ (by omega)
    · obtain ⟨id, hid⟩ := wd_sched_get_nearby_numa_id_loop_some numa_distance sched_info i
        numa_num 0 INT32_MAX (-1) (by omega)
      simp only [wd_sched_get_nearby_numa_id, hid]
      exact ih (i + 1) _ (by omega)

/-- On a scheduler whose cells are allocated, `wd_sched_rr_instance` accepts
every region with `begin ≤ end` at a coordinate inside the tables: it returns
0. -/
theorem wd_sched_rr_instance_succeeds (numa_distance : Int → Int → Int) (s : wd_sched)
    (sched_ctx : wd_sched_ctx) (p : sched_params) (hctx : s.h_sched_ctx = some sched_ctx)
    (hwf : ctx_wf sched_ctx) (hbe : p.begin ≤ p.end_) (hn0 : 0 ≤ p.numa_id)
    (hn : p.numa_id < (sched_ctx.numa_num : Int)) (ht : p.type < sched_ctx.type_num)
    (hm : p.mode < SCHED_MODE_BUTT) (hp : p.ctx_prop ≤ UADK_CTX_SOFT) :
    ∃ out, wd_sched_rr_instance numa_distance (some s) (some p) = some (0, out) := by
  have hnat : p.numa_id.toNat < sched_ctx.numa_num := by omega
  have hnode : ∀ j, j < sched_ctx.numa_num → j < sched_ctx.sched_info.length := by
    intro j hj
    have h := hwf j hj UADK_CTX_HW (by decide) p.mode hm p.type ht
    unfold region_read at h
    by_contra hlen
    rw [List.getElem?_eq_none (Nat.le_of_not_lt hlen)] at h
    simp at h
  have hlen := hnode _ hnat
  have hcell : ∀ prop, prop ≤ UADK_CTX_SOFT →
      (tbl_read (info_tbl sched_ctx.sched_info[p.numa_id.toNat] prop) p.mode p.type).isSome =
        true := by
    intro prop hprop
    have h := hwf _ hnat prop (by unfold UADK_CTX_SOFT at hprop; unfold SCHED_REGION_NUM; omega)
      p.mode hm p.type ht
    unfold region_read at h
    rw [List.getElem?_eq_getElem hlen] at h
    exact h
  have hrow : ∃ row, (sched_ctx.sched_info[p.numa_id.toNat]).ctx_region[p.mode]? =
      some (some row) := by
    have h := hcell UADK_CTX_HW (by decide)
    have htbl : info_tbl sched_ctx.sched_info[p.numa_id.toNat] UADK_CTX_HW =
        (sched_ctx.sched_info[p.numa_id.toNat]).ctx_region := by
      simp [info_tbl]
    rw [htbl] at h
    unfold tbl_read at h
    split at h
    · rename_i row hrow
      exact ⟨row, hrow⟩
    · simp at h
  obtain ⟨row, hrow⟩ := hrow
  have hsw : ∃ info, rr_instance_switch sched_ctx.sched_info[p.numa_id.toNat] p.ctx_prop
      p.mode p.type p = some info := by
    have hw := fun prop hprop =>
      (tbl_write_isSome (info_tbl sched_ctx.sched_info[p.numa_id.toNat] prop) p.mode p.type
        ⟨p.begin, p.end_, p.begin, true⟩).trans (hcell prop hprop)
    have h4 : p.ctx_prop = 0 ∨ p.ctx_prop = 1 ∨ p.ctx_prop = 2 ∨ p.ctx_prop = 3 := by
      unfold UADK_CTX_SOFT at hp
      omega
    unfold rr_instance_switch
    rcases h4 with h | h | h | h <;> rw [h]
    · have := hw 0 (by decide)
      simp only [info_tbl, UADK_CTX_HW, if_true] at this ⊢
      cases hx : tbl_write (sched_ctx.sched_info[p.numa_id.toNat]).ctx_region p.mode p.type
          ⟨p.begin, p.end_, p.begin, true⟩ with
      | none => simp [hx] at this
      | some t => exact ⟨_, rfl⟩
    · have := hw 1 (by decide)
      simp only [info_tbl, UADK_CTX_HW, UADK_CTX_CE_INS, if_true, one_ne_zero, if_false]
        at this ⊢
      cases hx : tbl_write (sched_ctx.sched_info[p.numa_id.toNat]).ce_ctx_region p.mode p.type
          ⟨p.begin, p.end_, p.begin, true⟩ with
      | none => simp [hx] at this
      | some t => exact ⟨_, rfl⟩
    · have := hw 2 (by decide)
      simp only [info_tbl, UADK_CTX_HW, UADK_CTX_CE_INS, UADK_CTX_SVE_INS, if_true,
        OfNat.ofNat_ne_zero, OfNat.ofNat_ne_one, if_false] at this ⊢
      cases hx : tbl_write (sched_ctx.sched_info[p.numa_id.toNat]).sve_ctx_region p.mode p.type
          ⟨p.begin, p.end_, p.begin, true⟩ with
      | none => simp [hx] at this
      | some t => exact ⟨_, rfl⟩
    · have := hw 3 (by decide)
      simp only [info_tbl, UADK_CTX_HW, UADK_CTX_CE_INS, UADK_CTX_SVE_INS, UADK_CTX_SOFT,
        if_true, OfNat.ofNat_ne_zero, OfNat.ofNat_ne_one, if_false, Nat.reduceEqDiff]
        at this ⊢
      cases hx : tbl_write (sched_ctx.sched_info[p.numa_id.toNat]).soft_ctx_region p.mode
          p.type ⟨p.begin, p.end_, p.begin, true⟩ with
      | none => simp [hx] at this
      | some t => exact ⟨_, rfl⟩
  obtain ⟨info, hinfo⟩ := hsw
  have hmap : ∃ c, wd_sched_map_cpus_to_dev numa_distance
      { sched_ctx with sched_info :=
          sched_ctx.sched_info.set p.numa_id.toNat { info with nm_valid := true } } =
        some c := by
    have hlen' : sched_ctx.numa_num ≤ sched_ctx.sched_info.length := by
      by_contra hc
      have := hnode sched_ctx.sched_info.length (by omega)
      omega
    obtain ⟨m, hm⟩ := wd_sched_map_cpus_to_dev_loop_some numa_distance
      (sched_ctx.sched_info.set p.numa_id.toNat { info with nm_valid := true })
      sched_ctx.numa_num sched_ctx.numa_num 0 sched_ctx.numa_map
      (by rw [List.length_set]; exact hlen') (by rw [List.length_set]; omega)
    simp only [wd_sched_map_cpus_to_dev, hm]
    exact ⟨_, rfl⟩
  obtain ⟨c, hc⟩ := hmap
  refine ⟨some { s with h_sched_ctx := some c }, ?_⟩
  unfold wd_sched_rr_instance
  simp only [hctx]
  rw [if_neg (by omega), if_neg (by omega), if_neg (by omega), if_neg (by omega),
    if_neg (by omega)]
  simp only [List.getElem?_eq_getElem hlen, hrow, hinfo, hc]

/-! ## Loop policy, key resolution: theorems -/

/-- C19 fails on the code: with the hardware sync region `[0, 3]` alone, no
cell for the async mode is valid on any path, yet for an async key
`loop_get_ctx_range` returns the hardware async cell of node 0, which is not
valid; the scan goes by the flag of the node and does not look at the
cell. -/
theorem loop_get_ctx_range_unprovisioned :
    loop_get_ctx_range (ctx_of loop_once_sched) { zero_key with mode := SCHED_MODE_ASYNC } =
        some (some ⟨UADK_CTX_HW, 0, SCHED_MODE_ASYNC, 0⟩) ∧
      cell_valid (ctx_of loop_once_sched).sched_info
        ⟨UADK_CTX_HW, 0, SCHED_MODE_ASYNC, 0⟩ = false ∧
      ∀ prop < SCHED_REGION_NUM, ∀ numa < (ctx_of loop_once_sched).numa_num,
        cell_valid (ctx_of loop_once_sched).sched_info
          ⟨prop, numa, SCHED_MODE_ASYNC, 0⟩ = false := by
  decide

/-- The first part of `loop_get_ctx_range` on the hardware, crypto-engine and
vector-engine paths: if `key.numa_id ≥ 0`, `key.ctx_prop` is one of these
three, the flag of the node for that path is set and the cell of that path at
`[numa_id][mode][type]` is valid, the function returns that cell. -/
theorem loop_get_ctx_range_exact_cell (sched_ctx : wd_sched_ctx) (key : sched_key)
    (info : wd_sched_info) (h0 : 0 ≤ key.numa_id)
    (hprop : key.ctx_prop = UADK_CTX_HW ∨ key.ctx_prop = UADK_CTX_CE_INS ∨
      key.ctx_prop = UADK_CTX_SVE_INS)
    (hinfo : sched_ctx.sched_info[key.numa_id.toNat]? = some info)
    (hflag : path_flag info key.ctx_prop = true)
    (hcell : cell_valid sched_ctx.sched_info
      ⟨key.ctx_prop, key.numa_id.toNat, key.mode, key.type⟩ = true) :
    loop_get_ctx_range sched_ctx key =
      some (some ⟨key.ctx_prop, key.numa_id.toNat, key.mode, key.type⟩) := by
  have hread : ∃ r, tbl_read (info_tbl info key.ctx_prop) key.mode key.type = some r ∧
      r.valid = true := by
    unfold cell_valid region_read at hcell
    simp only [hinfo] at hcell
    cases hr : tbl_read (info_tbl info key.ctx_prop) key.mode key.type with
    | none => simp [hr] at hcell
    | some r =>
      simp only [hr] at hcell
      exact ⟨r, rfl, hcell⟩
  obtain ⟨r, hr, hv⟩ := hread
  unfold loop_get_ctx_range
  rw [if_pos h0]
  simp only [hinfo]
  rcases hprop with hp | hp | hp
  · rw [hp] at hflag hr ⊢
    have hf : info.hw_valid = true := by simpa [path_flag] using hflag
    have ht : tbl_read info.ctx_region key.mode key.type = some r := by
      simpa [info_tbl] using hr
    simp [loop_get_ctx_range_exact, loop_branch, hp, hf, ht, hv]
  · rw [hp] at hflag hr ⊢
    have hf : info.ce_valid = true := by
      simpa [path_flag, UADK_CTX_HW, UADK_CTX_CE_INS] using hflag
    have ht : tbl_read info.ce_ctx_region key.mode key.type = some r := by
      simpa [info_tbl, UADK_CTX_HW, UADK_CTX_CE_INS] using hr
    simp [loop_get_ctx_range_exact, loop_branch, hp, hf, ht, hv, UADK_CTX_HW,
      UADK_CTX_CE_INS]
  · rw [hp] at hflag hr ⊢
    have hf : info.sve_valid = true := by
      simpa [path_flag, UADK_CTX_HW, UADK_CTX_CE_INS, UADK_CTX_SVE_INS] using hflag
    have ht : tbl_read info.sve_ctx_region key.mode key.type = some r := by
      simpa [info_tbl, UADK_CTX_HW, UADK_CTX_CE_INS, UADK_CTX_SVE_INS] using hr
    simp [loop_get_ctx_range_exact, loop_branch, hp, hf, ht, hv, UADK_CTX_HW,
      UADK_CTX_CE_INS, UADK_CTX_SVE_INS]

/-- C20 fails on the code for the software-fallback path: with the hardware
sync region `[0, 3]` and the software sync region `[8, 11]` registered on
node 0, the software cell is valid and the flag of the node is set, yet for a
key with `ctx_prop = UADK_CTX_SOFT` `loop_get_ctx_range` returns the hardware
cell; and with the crypto-engine region `[4, 7]` in place of the hardware one
it returns the crypto-engine cell.  The fourth test reads `ce_ctx_region`. -/
theorem loop_get_ctx_range_soft :
    (ctx_of loop_soft_sched).sched_info.map (fun info => info.soft_valid) = [true] ∧
      cell_valid (ctx_of loop_soft_sched).sched_info ⟨UADK_CTX_SOFT, 0, 0, 0⟩ = true ∧
      loop_get_ctx_range (ctx_of loop_soft_sched) { zero_key with ctx_prop := UADK_CTX_SOFT } =
        some (some ⟨UADK_CTX_HW, 0, 0, 0⟩) ∧
      cell_valid (ctx_of loop_ce_soft_sched).sched_info ⟨UADK_CTX_SOFT, 0, 0, 0⟩ = true ∧
      loop_get_ctx_range (ctx_of loop_ce_soft_sched)
          { zero_key with ctx_prop := UADK_CTX_SOFT } =
        some (some ⟨UADK_CTX_CE_INS, 0, 0, 0⟩) := by
  decide

/-! ## Completion poller: evaluations -/

/-- C11 as stated fails: on the end-to-end scheduler, with `expect = 0` and
`*count = 0`, the poll probes context 4; when the completion check fails with
`-5` the poll returns `-5`, and when it reports one item `*count` becomes 1
and the poll goes on. -/
theorem session_poll_expect_zero_counterexample :
    session_sched_poll_policy 10 128
        (some (with_poll (ctx_of e2e_sched) poll_fatal)) 0 (some poll_start) =
      (.ret (-5), some ⟨0, [⟨4, 0, -5, none⟩], 0⟩) ∧
    probes (session_sched_poll_policy 1 128
        (some (with_poll (ctx_of e2e_sched) poll_one)) 0 (some poll_start)).2 = [(4, 0)] ∧
    count_of (session_sched_poll_policy 1 128
        (some (with_poll (ctx_of e2e_sched) poll_one)) 0 (some poll_start)).2 = 1 ∧
    (session_sched_poll_policy 1 128
        (some (with_poll (ctx_of e2e_sched) poll_one)) 0 (some poll_start)).1 ≠ .ret 0 := by
  decide

/-- C12 fails on the code: with two types whose async regions are `[4, 4]` and
`[5, 5]`, `expect = 1` and a completion check that reports one item per call,
`*count` equals `expect` after the probe of context 4, yet context 5 is probed
next, `*count` becomes 2, and the poll goes on; the same holds for the loop
policy.  The loop over the types does not test `*count` against `expect`. -/
theorem poll_goes_past_expect :
    probes (session_sched_poll_policy 3 128
        (some (with_poll (ctx_of two_type_sched) poll_one)) 1 (some poll_start)).2 =
      [(4, 0), (5, 1), (4, 2), (5, 3), (4, 4), (5, 5)] ∧
    (session_sched_poll_policy 3 128
        (some (with_poll (ctx_of two_type_sched) poll_one)) 1 (some poll_start)).1 =
      .fuel_out ∧
    probes (loop_sched_poll_policy 3 128
        (some (with_poll (ctx_of two_type_sched) poll_one)) 1 (some poll_start)).2.2 =
      [(4, 0), (5, 1), (4, 2), (5, 3), (4, 4), (5, 5)] ∧
    (loop_sched_poll_policy 3 128
        (some (with_poll (ctx_of two_type_sched) poll_one)) 1 (some poll_start)).1 =
      .fuel_out := by
  decide

/-! ## Completion poller: fatal statuses -/

theorem clean_run_refl (st : poll_st) : clean_run st st :=
  ⟨[], by simp, by simp⟩

theorem clean_run_trans (st st1 st2 : poll_st) (h1 : clean_run st st1)
    (h2 : clean_run st1 st2) : clean_run st st2 := by
  obtain ⟨n1, e1, c1⟩ := h1
  obtain ⟨n2, e2, c2⟩ := h2
  refine ⟨n1 ++ n2, by rw [e2, e1, List.append_assoc], ?_⟩
  intro e he
  rcases List.mem_append.mp he with h | h
  · exact c1 e h
  · exact c2 e h

/-- The count of idle sweeps is not part of the record of completion checks. -/
theorem clean_run_idle (st st1 : poll_st) (n : Nat) (h : clean_run st st1) :
    clean_run st { st1 with idle := n } := h

theorem run_ok_of_clean (st st' : poll_st) (o : outcome) (h : clean_run st st') :
    run_ok st o st' := by
  obtain ⟨n, e, c⟩ := h
  exact ⟨n, e, Or.inl c⟩

theorem clean_of_run_ok (st st' : poll_st) (o : outcome) (h : run_ok st o st')
    (ho : ∀ r, o = .ret r → ¬ fatal r) : clean_run st st' := by
  obtain ⟨n, e, c | ⟨pre, ev, _, _, hf, hret, _⟩⟩ := h
  · exact ⟨n, e, c⟩
  · exact absurd hf (ho _ hret)

theorem run_ok_after_clean (st st1 st2 : poll_st) (o : outcome) (h1 : clean_run st st1)
    (h2 : run_ok st1 o st2) : run_ok st o st2 := by
  obtain ⟨n1, e1, c1⟩ := h1
  obtain ⟨n2, e2, c2 | ⟨pre, ev, hn, hpre, hf, hret, hcount⟩⟩ := h2
  · exact run_ok_of_clean _ _ _ (clean_run_trans _ _ _ ⟨n1, e1, c1⟩ ⟨n2, e2, c2⟩)
  · refine ⟨n1 ++ n2, by rw [e2, e1, List.append_assoc], Or.inr ⟨n1 ++ pre, ev, ?_, ?_, hf,
      hret, hcount⟩⟩
    · rw [hn, List.append_assoc]
    · intro x hx
      rcases List.mem_append.mp hx with h | h
      · exact c1 x h
      · exact hpre x h

theorem not_fatal_zero : ¬ fatal 0 := fun h => absurd h.1 (by decide)

/-- A run that is in order stopped at the first fatal status. -/
theorem stops_of_run_ok (st st' : poll_st) (o : outcome) (h : run_ok st o st') :
    stops_at_fatal st o (some st') := by
  obtain ⟨new, hlog, hc⟩ := h
  refine ⟨st', new, rfl, hlog, ?_⟩
  intro pre e post hsplit hf
  rcases hc with hclean | ⟨pre', e', hn, hpre, _, hret, hcount⟩
  · exact absurd hf (hclean e (by rw [hsplit]; simp))
  · rcases List.eq_nil_or_concat post with hp | ⟨post', x, hp⟩
    · subst hp
      have h2 : pre ++ [e] = pre' ++ [e'] := by rw [← hn, hsplit]
      have h3 := List.append_inj' h2 rfl
      have h4 : e = e' := by
        have := h3.2
        injection this
      subst h4
      exact ⟨rfl, hret, hcount⟩
    · exfalso
      have h2 : (pre ++ e :: post') ++ [x] = pre' ++ [e'] := by
        rw [← hn, hsplit, hp]
        simp
      have h3 := (List.append_inj' h2 rfl).1
      exact hpre e (by rw [← h3]; simp) hf

/-- The loop of `session_poll_region` stops at the first fatal status. -/
theorem session_poll_region_loop_ok (poll_func : user_poll_func) (end_ expect : Nat)
    (fuel i poll_num : Nat) (st : poll_st) :
    run_ok st (session_poll_region_loop poll_func end_ expect fuel i poll_num st).1
      (session_poll_region_loop poll_func end_ expect fuel i poll_num st).2 := by
  induction fuel generalizing i poll_num st with
  | zero => exact run_ok_of_clean _ _ _ (clean_run_refl st)
  | succ fuel ih =>
    unfold session_poll_region_loop
    by_cases hi : i ≤ end_
    · simp only [if_pos hi]
      by_cases hf : (poll_func (st.log.map poll_event.pos) i 1).1 < 0 ∧
          (poll_func (st.log.map poll_event.pos) i 1).1 ≠ -EAGAIN
      · rw [if_pos hf]
        exact ⟨[_], rfl, Or.inr ⟨[], _, rfl, by simp, hf, rfl, rfl⟩⟩
      · rw [if_neg hf]
        have hstep : ∀ c, clean_run st
            { count := c
              log := st.log ++ [⟨i, st.count, (poll_func (st.log.map poll_event.pos) i 1).1,
                (poll_func (st.log.map poll_event.pos) i 1).2⟩]
              idle := st.idle } := by
          intro c
          refine ⟨[_], rfl, ?_⟩
          intro e he
          simp only [List.mem_singleton] at he
          subst he
          exact hf
        split_ifs
        · exact run_ok_after_clean _ _ _ _ (hstep _) (ih _ _ _)
        · exact run_ok_of_clean _ _ _ (hstep _)
        · exact run_ok_after_clean _ _ _ _ (hstep _) (ih _ _ _)
    · simp only [if_neg hi]
      exact run_ok_of_clean _ _ _ (clean_run_refl st)

/-- `session_poll_region` stops at the first fatal status. -/
theorem session_poll_region_ok (fuel : Nat) (sched_ctx : wd_sched_ctx)
    (begin end_ expect : Nat) (st : poll_st) :
    run_ok st (session_poll_region fuel sched_ctx begin end_ expect st).1
      (session_poll_region fuel sched_ctx begin end_ expect st).2 := by
  unfold session_poll_region
  split
  · exact run_ok_of_clean _ _ _ (clean_run_refl st)
  · exact session_poll_region_loop_ok _ _ _ _ _ _ _

/-- The loop over the types stops at the first fatal status. -/
theorem poll_types_loop_ok (fuel : Nat) (sched_ctx : wd_sched_ctx)
    (prop numa_id expect k i : Nat) (st : poll_st) :
    run_ok st (poll_types_loop fuel sched_ctx prop numa_id expect k i st).1
      (poll_types_loop fuel sched_ctx prop numa_id expect k i st).2 := by
  induction k generalizing i st with
  | zero => exact run_ok_of_clean _ _ _ (clean_run_refl st)
  | succ k ih =>
    unfold poll_types_loop
    split
    · exact run_ok_of_clean _ _ _ (clean_run_refl st)
    · rename_i region _
      split_ifs
      · exact ih _ _
      · have h := session_poll_region_ok fuel sched_ctx region.begin region.end_ expect st
        split
        · rename_i r st1 heq
          rw [heq] at h
          split_ifs with hr
          · exact h
          · have hr0 : r = 0 := by simpa using hr
            subst hr0
            exact run_ok_after_clean _ _ _ _
              (clean_of_run_ok _ _ _ h (fun r hr => by cases hr; exact not_fatal_zero))
              (ih _ _)
        · rename_i o st1 _ heq
          rw [heq] at h
          exact h

/-- `session_poll_policy_rr` stops at the first fatal status. -/
theorem session_poll_policy_rr_ok (fuel : Nat) (sched_ctx : wd_sched_ctx)
    (numa_id expect : Nat) (st : poll_st) :
    run_ok st (session_poll_policy_rr fuel sched_ctx numa_id expect st).1
      (session_poll_policy_rr fuel sched_ctx numa_id expect st).2 := by
  have h := poll_types_loop_ok fuel sched_ctx UADK_CTX_HW numa_id expect sched_ctx.type_num 0 st
  unfold session_poll_policy_rr
  split
  · rename_i st1 heq
    rw [heq] at h
    exact run_ok_of_clean _ _ _ (clean_of_run_ok _ _ _ h (fun r hr => by cases hr))
  · rename_i o st1 _ heq
    rw [heq] at h
    exact h

/-- The loop over the nodes of `session_sched_poll_policy` stops at the first
fatal status. -/
theorem session_sched_poll_policy_for_ok (sched_ctx : wd_sched_ctx) (expect rfuel : Nat)
    (fuel i : Nat) (st : poll_st) :
    run_ok st (session_sched_poll_policy_for sched_ctx expect rfuel fuel i st).1
      (session_sched_poll_policy_for sched_ctx expect rfuel fuel i st).2 := by
  induction fuel generalizing i st with
  | zero => exact run_ok_of_clean _ _ _ (clean_run_refl st)
  | succ fuel ih =>
    unfold session_sched_poll_policy_for
    split_ifs with hi
    · split
      · exact run_ok_of_clean _ _ _ (clean_run_refl st)
      · rename_i info _
        split_ifs
        · exact ih _ _
        · have h := session_poll_policy_rr_ok rfuel sched_ctx i expect st
          split
          · rename_i r st1 heq
            rw [heq] at h
            split_ifs with hr
            · exact h
            · have hr0 : r = 0 := by simpa using hr
              subst hr0
              exact h
            · have hr0 : r = 0 := by simpa using hr
              subst hr0
              have hc := clean_of_run_ok _ _ _ h
                (fun r hr => by cases hr; exact not_fatal_zero)
              exact run_ok_after_clean _ _ _ _ (clean_run_idle _ _ _ hc) (ih _ _)
            · have hr0 : r = 0 := by simpa using hr
              subst hr0
              have hc := clean_of_run_ok _ _ _ h
                (fun r hr => by cases hr; exact not_fatal_zero)
              exact run_ok_after_clean _ _ _ _ hc (ih _ _)
          · rename_i o st1 _ heq
            rw [heq] at h
            exact h
    · exact run_ok_of_clean _ _ _ (clean_run_refl st)

/-- The `while` loop of `session_sched_poll_policy` stops at the first fatal
status. -/
theorem session_sched_poll_policy_while_ok (sched_ctx : wd_sched_ctx) (expect fuel : Nat)
    (k loop_time : Nat) (st : poll_st) :
    run_ok st (session_sched_poll_policy_while sched_ctx expect fuel k loop_time st).1
      (session_sched_poll_policy_while sched_ctx expect fuel k loop_time st).2 := by
  induction k generalizing loop_time st with
  | zero => exact run_ok_of_clean _ _ _ (clean_run_refl st)
  | succ k ih =>
    unfold session_sched_poll_policy_while
    split_ifs
    · have h := session_sched_poll_policy_for_ok sched_ctx expect fuel fuel 0 st
      split
      · rename_i st1 heq
        rw [heq] at h
        exact run_ok_after_clean _ _ _ _
          (clean_of_run_ok _ _ _ h (fun r hr => by cases hr)) (ih _ _)
      · rename_i o st1 _ heq
        rw [heq] at h
        exact h
    · exact run_ok_of_clean _ _ _ (clean_run_refl st)

/-- `session_sched_poll_policy` stops at the first fatal status. -/
theorem session_sched_poll_policy_ok (fuel NUMA_NUM_NODES : Nat) (sched_ctx : wd_sched_ctx)
    (expect : Nat) (st : poll_st) :
    stops_at_fatal st
      (session_sched_poll_policy fuel NUMA_NUM_NODES (some sched_ctx) expect (some st)).1
      (session_sched_poll_policy fuel NUMA_NUM_NODES (some sched_ctx) expect (some st)).2 := by
  unfold session_sched_poll_policy
  simp only
  split_ifs
  · exact stops_of_run_ok _ _ _ (run_ok_of_clean _ _ _ (clean_run_refl st))
  · exact stops_of_run_ok _ _ _ (run_ok_of_clean _ _ _ (clean_run_refl st))
  · have h := session_sched_poll_policy_while_ok sched_ctx expect fuel MAX_POLL_TIMES 0 st
    split
    · rename_i st1 heq
      rw [heq] at h
      exact stops_of_run_ok _ _ _
        (run_ok_of_clean _ _ _ (clean_of_run_ok _ _ _ h (fun r hr => by cases hr)))
    · rename_i o st1 _ heq
      rw [heq] at h
      exact stops_of_run_ok _ _ _ h

/-- The loop over the tables of `loop_poll_policy_rr` stops at the first fatal
status. -/
theorem loop_poll_policy_rr_tables_ok (fuel numa_id expect k j : Nat)
    (sched_ctx : wd_sched_ctx) (st : poll_st) :
    run_ok st (loop_poll_policy_rr_tables fuel numa_id expect k j sched_ctx st).1
      (loop_poll_policy_rr_tables fuel numa_id expect k j sched_ctx st).2.2 := by
  induction k generalizing j sched_ctx st with
  | zero => exact run_ok_of_clean _ _ _ (clean_run_refl st)
  | succ k ih =>
    unfold loop_poll_policy_rr_tables
    split
    · exact run_ok_of_clean _ _ _ (clean_run_refl st)
    · rename_i info _
      by_cases hflag : (!path_flag info j) = true
      · rw [if_pos hflag]
        exact ih _ _ _
      · rw [if_neg hflag]
        have h := poll_types_loop_ok fuel sched_ctx j numa_id expect sched_ctx.type_num 0 st
        split
        · rename_i st1 heq
          rw [heq] at h
          have hc := clean_of_run_ok _ _ _ h (fun r hr => by cases hr)
          split_ifs
          · exact run_ok_after_clean _ _ _ _ hc (ih _ _ _)
          · exact run_ok_after_clean _ _ _ _ hc (ih _ _ _)
        · rename_i o st1 _ heq
          rw [heq] at h
          exact h

/-- The loop over the nodes of `loop_sched_poll_policy` stops at the first
fatal status. -/
theorem loop_sched_poll_policy_for_ok (expect rfuel : Nat) (fuel i : Nat)
    (sched_ctx : wd_sched_ctx) (st : poll_st) :
    run_ok st (loop_sched_poll_policy_for expect rfuel fuel i sched_ctx st).1
      (loop_sched_poll_policy_for expect rfuel fuel i sched_ctx st).2.2 := by
  induction fuel generalizing i sched_ctx st with
  | zero => exact run_ok_of_clean _ _ _ (clean_run_refl st)
  | succ fuel ih =>
    unfold loop_sched_poll_policy_for
    split_ifs with hi
    · split
      · exact run_ok_of_clean _ _ _ (clean_run_refl st)
      · rename_i info _
        split_ifs
        · exact ih _ _ _
        · have h := loop_poll_policy_rr_tables_ok rfuel i expect SCHED_REGION_NUM 0 sched_ctx st
          unfold loop_poll_policy_rr
          split
          · rename_i r c1 st1 heq
            rw [heq] at h
            split_ifs with hr
            · exact h
            · have hr0 : r = 0 := by simpa using hr
              subst hr0
              exact h
            · have hr0 : r = 0 := by simpa using hr
              subst hr0
              have hc := clean_of_run_ok _ _ _ h
                (fun r hr => by cases hr; exact not_fatal_zero)
              exact run_ok_after_clean _ _ _ _ (clean_run_idle _ _ _ hc) (ih _ _ _)
            · have hr0 : r = 0 := by simpa using hr
              subst hr0
              have hc := clean_of_run_ok _ _ _ h
                (fun r hr => by cases hr; exact not_fatal_zero)
              exact run_ok_after_clean _ _ _ _ hc (ih _ _ _)
          · rename_i o c1 st1 _ heq
            rw [heq] at h
            exact h
    · exact run_ok_of_clean _ _ _ (clean_run_refl st)

/-- The `while` loop of `loop_sched_poll_policy` stops at the first fatal
status. -/
theorem loop_sched_poll_policy_while_ok (expect fuel : Nat) (k loop_time : Nat)
    (sched_ctx : wd_sched_ctx) (st : poll_st) :
    run_ok st (loop_sched_poll_policy_while expect fuel k loop_time sched_ctx st).1
      (loop_sched_poll_policy_while expect fuel k loop_time sched_ctx st).2.2 := by
  induction k generalizing loop_time sched_ctx st with
  | zero => exact run_ok_of_clean _ _ _ (clean_run_refl st)
  | succ k ih =>
    unfold loop_sched_poll_policy_while
    split_ifs
    · have h := loop_sched_poll_policy_for_ok expect fuel fuel 0 sched_ctx st
      split
      · rename_i c1 st1 heq
        rw [heq] at h
        exact run_ok_after_clean _ _ _ _
          (clean_of_run_ok _ _ _ h (fun r hr => by cases hr)) (ih _ _ _)
      · rename_i o c1 st1 _ heq
        rw [heq] at h
        exact h
    · exact run_ok_of_clean _ _ _ (clean_run_refl st)

/-- `loop_sched_poll_policy` stops at the first fatal status. -/
theorem loop_sched_poll_policy_ok (fuel NUMA_NUM_NODES : Nat) (sched_ctx : wd_sched_ctx)
    (expect : Nat) (st : poll_st) :
    stops_at_fatal st
      (loop_sched_poll_policy fuel NUMA_NUM_NODES (some sched_ctx) expect (some st)).1
      (loop_sched_poll_policy fuel NUMA_NUM_NODES (some sched_ctx) expect (some st)).2.2 := by
  unfold loop_sched_poll_policy
  simp only
  split_ifs
  · exact stops_of_run_ok _ _ _ (run_ok_of_clean _ _ _ (clean_run_refl st))
  · exact stops_of_run_ok _ _ _ (run_ok_of_clean _ _ _ (clean_run_refl st))
  · have h := loop_sched_poll_policy_while_ok expect fuel MAX_POLL_TIMES 0 sched_ctx st
    split
    · rename_i c1 st1 heq
      rw [heq] at h
      exact stops_of_run_ok _ _ _
        (run_ok_of_clean _ _ _ (clean_of_run_ok _ _ _ h (fun r hr => by cases hr)))
    · rename_i o c1 st1 _ heq
      rw [heq] at h
      exact stops_of_run_ok _ _ _ h

/-- C13: in every run of `session_sched_poll_policy` and of
`loop_sched_poll_policy`, whatever the completion check and however long the
run, a completion check that returns a negative status other than `-EAGAIN`
is the last one made, the poll returns exactly that status, and `*count` is
what it was when that check was made. -/
theorem poll_stops_at_fatal (fuel NUMA_NUM_NODES : Nat) (sched_ctx : wd_sched_ctx)
    (expect : Nat) (st : poll_st) :
    stops_at_fatal st
        (session_sched_poll_policy fuel NUMA_NUM_NODES (some sched_ctx) expect (some st)).1
        (session_sched_poll_policy fuel NUMA_NUM_NODES (some sched_ctx) expect (some st)).2 ∧
      stops_at_fatal st
        (loop_sched_poll_policy fuel NUMA_NUM_NODES (some sched_ctx) expect (some st)).1
        (loop_sched_poll_policy fuel NUMA_NUM_NODES (some sched_ctx) expect (some st)).2.2 :=
  ⟨session_sched_poll_policy_ok fuel NUMA_NUM_NODES sched_ctx expect st,
    loop_sched_poll_policy_ok fuel NUMA_NUM_NODES sched_ctx expect st⟩

/-! ## Completion poller: idle sweeps -/

/-- The loop of `session_poll_region` does not count sweeps. -/
theorem session_poll_region_loop_idle (poll_func : user_poll_func) (end_ expect : Nat)
    (fuel i poll_num : Nat) (st : poll_st) :
    (session_poll_region_loop poll_func end_ expect fuel i poll_num st).2.idle = st.idle := by
  induction fuel generalizing i poll_num st with
  | zero => rfl
  | succ fuel ih =>
    unfold session_poll_region_loop
    by_cases hi : i ≤ end_
    · simp only [if_pos hi]
      split_ifs
      · rfl
      · rw [ih]
      · rfl
      · rw [ih]
    · simp only [if_neg hi]

/-- The loop over the types does not count sweeps. -/
theorem poll_types_loop_idle (fuel : Nat) (sched_ctx : wd_sched_ctx)
    (prop numa_id expect k i : Nat) (st : poll_st) :
    (poll_types_loop fuel sched_ctx prop numa_id expect k i st).2.idle = st.idle := by
  induction k generalizing i st with
  | zero => rfl
  | succ k ih =>
    unfold poll_types_loop
    split
    · rfl
    · rename_i region _
      have h : (session_poll_region fuel sched_ctx region.begin region.end_ expect st).2.idle =
          st.idle := by
        unfold session_poll_region
        split
        · rfl
        · exact session_poll_region_loop_idle _ _ _ _ _ _ _
      split_ifs
      · exact ih _ _
      · split
        · rename_i r st1 heq
          rw [heq] at h
          split_ifs
          · exact h
          · rw [ih]
            exact h
        · rename_i o st1 _ heq
          rw [heq] at h
          exact h

/-- `session_poll_policy_rr` does not count sweeps. -/
theorem session_poll_policy_rr_idle (fuel : Nat) (sched_ctx : wd_sched_ctx)
    (numa_id expect : Nat) (st : poll_st) :
    (session_poll_policy_rr fuel sched_ctx numa_id expect st).2.idle = st.idle := by
  have h := poll_types_loop_idle fuel sched_ctx UADK_CTX_HW numa_id expect sched_ctx.type_num 0 st
  unfold session_poll_policy_rr
  split
  · rename_i st1 heq
    rw [heq] at h
    exact h
  · rename_i o st1 _ heq
    rw [heq] at h
    exact h

/-- The loop over the tables of `loop_poll_policy_rr` does not count sweeps and
writes nothing but the balancer. -/
theorem loop_poll_policy_rr_tables_frame (fuel numa_id expect k j : Nat)
    (sched_ctx : wd_sched_ctx) (st : poll_st) :
    (loop_poll_policy_rr_tables fuel numa_id expect k j sched_ctx st).2.2.idle = st.idle ∧
      same_tables sched_ctx
        (loop_poll_policy_rr_tables fuel numa_id expect k j sched_ctx st).2.1 := by
  induction k generalizing j sched_ctx st with
  | zero => exact ⟨rfl, rfl, rfl, rfl, rfl, rfl⟩
  | succ k ih =>
    unfold loop_poll_policy_rr_tables
    split
    · exact ⟨rfl, rfl, rfl, rfl, rfl, rfl⟩
    · rename_i info _
      by_cases hflag : (!path_flag info j) = true
      · rw [if_pos hflag]
        exact ih _ _ _
      · rw [if_neg hflag]
        have h := poll_types_loop_idle fuel sched_ctx j numa_id expect sched_ctx.type_num 0 st
        split
        · rename_i st1 heq
          rw [heq] at h
          split_ifs
          · obtain ⟨h1, h2⟩ := ih (j + 1)
              { sched_ctx with balancer :=
                { sched_ctx.balancer with
                  hw_task_num :=
                    (sched_ctx.balancer.hw_task_num + U32 - st1.count % U32) % U32 } } st1
            exact ⟨h1.trans h, h2⟩
          · obtain ⟨h1, h2⟩ := ih (j + 1)
              { sched_ctx with balancer :=
                { sched_ctx.balancer with
                  sw_task_num :=
                    (sched_ctx.balancer.sw_task_num + U32 - st1.count % U32) % U32 } } st1
            exact ⟨h1.trans h, h2⟩
        · rename_i o st1 _ heq
          rw [heq] at h
          exact ⟨h, rfl, rfl, rfl, rfl, rfl⟩

/-- In one pass of the node loop of `session_sched_poll_policy`, at most one
idle sweep is counted for each node that is left. -/
theorem session_sched_poll_policy_for_idle (sched_ctx : wd_sched_ctx) (expect rfuel : Nat)
    (fuel i : Nat) (st : poll_st) :
    (session_sched_poll_policy_for sched_ctx expect rfuel fuel i st).2.idle ≤
      st.idle + (sched_ctx.numa_num - i) := by
  induction fuel generalizing i st with
  | zero => exact Nat.le_add_right _ _
  | succ fuel ih =>
    unfold session_sched_poll_policy_for
    split_ifs with hi
    · split
      · exact Nat.le_add_right _ _
      · rename_i info _
        split_ifs
        · have := ih (i + 1) st
          omega
        · have h := session_poll_policy_rr_idle rfuel sched_ctx i expect st
          split
          · rename_i r st1 heq
            rw [heq] at h
            have h' : st1.idle = st.idle := h
            split_ifs
            · show st1.idle ≤ _
              omega
            · show st1.idle ≤ _
              omega
            · have := ih (i + 1) { st1 with idle := st1.idle + 1 }
              simp only at this
              omega
            · have := ih i st1
              omega
          · rename_i o st1 _ heq
            rw [heq] at h
            have h' : st1.idle = st.idle := h
            show st1.idle ≤ _
            omega
    · exact Nat.le_add_right _ _

/-- The `while` loop of `session_sched_poll_policy` counts at most `numa_num`
idle sweeps for each of the passes that are left. -/
theorem session_sched_poll_policy_while_idle (sched_ctx : wd_sched_ctx) (expect fuel : Nat)
    (k loop_time : Nat) (st : poll_st) (hlt : loop_time < MAX_POLL_TIMES) :
    (session_sched_poll_policy_while sched_ctx expect fuel k loop_time st).2.idle ≤
      st.idle + (MAX_POLL_TIMES - 1 - loop_time) * sched_ctx.numa_num := by
  induction k generalizing loop_time st with
  | zero => exact Nat.le_add_right _ _
  | succ k ih =>
    have hmod : (loop_time + 1) % U32 = loop_time + 1 := by
      apply Nat.mod_eq_of_lt
      unfold MAX_POLL_TIMES at hlt
      unfold U32
      omega
    unfold session_sched_poll_policy_while
    rw [hmod]
    split_ifs with hc
    · have h := session_sched_poll_policy_for_idle sched_ctx expect fuel fuel 0 st
      have hsplit : (MAX_POLL_TIMES - 1 - loop_time) * sched_ctx.numa_num =
          sched_ctx.numa_num + (MAX_POLL_TIMES - 1 - (loop_time + 1)) * sched_ctx.numa_num := by
        have : MAX_POLL_TIMES - 1 - loop_time = (MAX_POLL_TIMES - 1 - (loop_time + 1)) + 1 := by
          omega
        rw [this, Nat.add_mul, Nat.one_mul, Nat.add_comm]
      split
      · rename_i st1 heq
        rw [heq] at h
        simp only [Nat.sub_zero] at h
        have := ih (loop_time + 1) st1 hc
        omega
      · rename_i o st1 _ heq
        rw [heq] at h
        simp only [Nat.sub_zero] at h
        show st1.idle ≤ _
        omega
    · exact Nat.le_add_right _ _

theorem same_tables_refl (sched_ctx : wd_sched_ctx) : same_tables sched_ctx sched_ctx :=
  ⟨rfl, rfl, rfl, rfl, rfl⟩

theorem same_tables_trans (a b c : wd_sched_ctx) (h1 : same_tables a b)
    (h2 : same_tables b c) : same_tables a c :=
  ⟨h2.1.trans h1.1, h2.2.1.trans h1.2.1, h2.2.2.1.trans h1.2.2.1,
    h2.2.2.2.1.trans h1.2.2.2.1, h2.2.2.2.2.trans h1.2.2.2.2⟩

/-- In one pass of the node loop of `loop_sched_poll_policy`, at most one idle
sweep is counted for each node that is left, and nothing but the balancer is
written. -/
theorem loop_sched_poll_policy_for_idle (expect rfuel : Nat) (fuel i : Nat)
    (sched_ctx : wd_sched_ctx) (st : poll_st) :
    (loop_sched_poll_policy_for expect rfuel fuel i sched_ctx st).2.2.idle ≤
        st.idle + (sched_ctx.numa_num - i) ∧
      same_tables sched_ctx
        (loop_sched_poll_policy_for expect rfuel fuel i sched_ctx st).2.1 := by
  induction fuel generalizing i sched_ctx st with
  | zero => exact ⟨Nat.le_add_right _ _, same_tables_refl _⟩
  | succ fuel ih =>
    unfold loop_sched_poll_policy_for
    split_ifs with hi
    · split
      · exact ⟨Nat.le_add_right _ _, same_tables_refl _⟩
      · rename_i info _
        split_ifs
        · obtain ⟨h1, h2⟩ := ih (i + 1) sched_ctx st
          exact ⟨by omega, h2⟩
        · have h := loop_poll_policy_rr_tables_frame rfuel i expect SCHED_REGION_NUM 0
            sched_ctx st
          unfold loop_poll_policy_rr
          split
          · rename_i r c1 st1 heq
            rw [heq] at h
            obtain ⟨hidle, hsame⟩ := h
            have hidle' : st1.idle = st.idle := hidle
            have hsame' : same_tables sched_ctx c1 := hsame
            have hnum : c1.numa_num = sched_ctx.numa_num := hsame'.2.1
            split_ifs
            · exact ⟨by show st1.idle ≤ _; omega, hsame'⟩
            · exact ⟨by show st1.idle ≤ _; omega, hsame'⟩
            · obtain ⟨h1, h2⟩ := ih (i + 1) c1 { st1 with idle := st1.idle + 1 }
              simp only at h1
              exact ⟨by omega, same_tables_trans _ _ _ hsame' h2⟩
            · obtain ⟨h1, h2⟩ := ih i c1 st1
              exact ⟨by omega, same_tables_trans _ _ _ hsame' h2⟩
          · rename_i o c1 st1 _ heq
            rw [heq] at h
            obtain ⟨hidle, hsame⟩ := h
            have hidle' : st1.idle = st.idle := hidle
            exact ⟨by show st1.idle ≤ _; omega, hsame⟩
    · exact ⟨Nat.le_add_right _ _, same_tables_refl _⟩

/-- The `while` loop of `loop_sched_poll_policy` counts at most `numa_num` idle
sweeps for each of the passes that are left, and writes nothing but the
balancer. -/
theorem loop_sched_poll_policy_while_idle (expect fuel : Nat) (k loop_time : Nat)
    (sched_ctx : wd_sched_ctx) (st : poll_st) (hlt : loop_time < MAX_POLL_TIMES) :
    (loop_sched_poll_policy_while expect fuel k loop_time sched_ctx st).2.2.idle ≤
        st.idle + (MAX_POLL_TIMES - 1 - loop_time) * sched_ctx.numa_num ∧
      same_tables sched_ctx
        (loop_sched_poll_policy_while expect fuel k loop_time sched_ctx st).2.1 := by
  induction k generalizing loop_time sched_ctx st with
  | zero => exact ⟨Nat.le_add_right _ _, same_tables_refl _⟩
  | succ k ih =>
    have hmod : (loop_time + 1) % U32 = loop_time + 1 := by
      apply Nat.mod_eq_of_lt
      unfold MAX_POLL_TIMES at hlt
      unfold U32
      omega
    unfold loop_sched_poll_policy_while
    rw [hmod]
    split_ifs with hc
    · have h := loop_sched_poll_policy_for_idle expect fuel fuel 0 sched_ctx st
      have hsplit : (MAX_POLL_TIMES - 1 - loop_time) * sched_ctx.numa_num =
          sched_ctx.numa_num + (MAX_POLL_TIMES - 1 - (loop_time + 1)) * sched_ctx.numa_num := by
        have : MAX_POLL_TIMES - 1 - loop_time = (MAX_POLL_TIMES - 1 - (loop_time + 1)) + 1 := by
          omega
        rw [this, Nat.add_mul, Nat.one_mul, Nat.add_comm]
      split
      · rename_i c1 st1 heq
        rw [heq] at h
        obtain ⟨hidle, hsame⟩ := h
        have hidle' : st1.idle ≤ st.idle + sched_ctx.numa_num := by simpa using hidle
        have hsame' : same_tables sched_ctx c1 := hsame
        obtain ⟨h1, h2⟩ := ih (loop_time + 1) c1 st1 hc
        rw [hsame'.2.1] at h1
        exact ⟨by omega, same_tables_trans _ _ _ hsame' h2⟩
      · rename_i o c1 st1 _ heq
        rw [heq] at h
        obtain ⟨hidle, hsame⟩ := h
        have hidle' : st1.idle ≤ st.idle + sched_ctx.numa_num := by simpa using hidle
        exact ⟨by show st1.idle ≤ _; omega, hsame⟩
    · exact ⟨Nat.le_add_right _ _, same_tables_refl _⟩

/-- `session_sched_poll_policy` counts at most `(MAX_POLL_TIMES - 1) * numa_num`
idle sweeps. -/
theorem session_sched_poll_policy_idle (fuel NUMA_NUM_NODES : Nat) (sched_ctx : wd_sched_ctx)
    (expect : Nat) (st : poll_st) :
    idle_of (session_sched_poll_policy fuel NUMA_NUM_NODES (some sched_ctx) expect
        (some st)).2 ≤ st.idle + (MAX_POLL_TIMES - 1) * sched_ctx.numa_num := by
  unfold session_sched_poll_policy
  simp only
  split_ifs
  · exact Nat.le_add_right _ _
  · exact Nat.le_add_right _ _
  · have h := session_sched_poll_policy_while_idle sched_ctx expect fuel MAX_POLL_TIMES 0 st
      (by decide)
    simp only [Nat.sub_zero] at h
    split
    · rename_i st1 heq
      rw [heq] at h
      exact h
    · rename_i o st1 _ heq
      rw [heq] at h
      exact h

/-- `loop_sched_poll_policy` counts at most `(MAX_POLL_TIMES - 1) * numa_num`
idle sweeps. -/
theorem loop_sched_poll_policy_idle (fuel NUMA_NUM_NODES : Nat) (sched_ctx : wd_sched_ctx)
    (expect : Nat) (st : poll_st) :
    idle_of (loop_sched_poll_policy fuel NUMA_NUM_NODES (some sched_ctx) expect
        (some st)).2.2 ≤ st.idle + (MAX_POLL_TIMES - 1) * sched_ctx.numa_num := by
  unfold loop_sched_poll_policy
  simp only
  split_ifs
  · exact Nat.le_add_right _ _
  · exact Nat.le_add_right _ _
  · have h := (loop_sched_poll_policy_while_idle expect fuel MAX_POLL_TIMES 0 sched_ctx st
      (by decide)).1
    simp only [Nat.sub_zero] at h
    split
    · rename_i c1 st1 heq
      rw [heq] at h
      exact h
    · rename_i o c1 st1 _ heq
      rw [heq] at h
      exact h

/-- C15, for the sweeps that receive nothing: in every run of
`session_sched_poll_policy` and of `loop_sched_poll_policy`, whatever the
completion check reports and whatever `expect` is, the node loop moves on
after a sweep that left `*count` unchanged at most
`MAX_POLL_TIMES * numa_num` times. -/
theorem poll_idle_sweeps_bounded (fuel NUMA_NUM_NODES : Nat) (sched_ctx : wd_sched_ctx)
    (expect : Nat) (st : poll_st) :
    idle_of (session_sched_poll_policy fuel NUMA_NUM_NODES (some sched_ctx) expect
          (some st)).2 ≤ st.idle + MAX_POLL_TIMES * sched_ctx.numa_num ∧
      idle_of (loop_sched_poll_policy fuel NUMA_NUM_NODES (some sched_ctx) expect
          (some st)).2.2 ≤ st.idle + MAX_POLL_TIMES * sched_ctx.numa_num :=
  have hle : st.idle + (MAX_POLL_TIMES - 1) * sched_ctx.numa_num ≤
      st.idle + MAX_POLL_TIMES * sched_ctx.numa_num :=
    Nat.add_le_add_left (Nat.mul_le_mul_right _ (by decide)) _
  ⟨Nat.le_trans (session_sched_poll_policy_idle fuel NUMA_NUM_NODES sched_ctx expect st) hle,
    Nat.le_trans (loop_sched_poll_policy_idle fuel NUMA_NUM_NODES sched_ctx expect st) hle⟩

/-! ## Completion poller: a poll that outlasts the retry budget -/

/-- With one item reported per call and `expect = 0`, the loop of
`session_poll_region` probes every context that is left and adds one to
`*count` each time, as long as `*count` does not wrap. -/
theorem session_poll_region_loop_poll_one (end_ n : Nat) (fuel i poll_num : Nat)
    (st : poll_st) (hin : i + n = end_ + 1) (hend : end_ + 1 < U32)
    (hcount : st.count + n < U32) (hfuel : n < fuel) :
    (session_poll_region_loop poll_one end_ 0 fuel i poll_num st).1 = .ret 0 ∧
      (session_poll_region_loop poll_one end_ 0 fuel i poll_num st).2.count = st.count + n ∧
      (session_poll_region_loop poll_one end_ 0 fuel i poll_num st).2.log.length =
        st.log.length + n := by
  induction n generalizing fuel i poll_num st with
  | zero =>
    obtain ⟨f, rfl⟩ : ∃ f, fuel = f + 1 := ⟨fuel - 1, by omega⟩
    have hi : ¬ i ≤ end_ := by omega
    simp [session_poll_region_loop, if_neg hi]
  | succ n ih =>
    obtain ⟨f, rfl⟩ : ∃ f, fuel = f + 1 := ⟨fuel - 1, by omega⟩
    have hi : i ≤ end_ := by omega
    have hmod : (i + 1) % U32 = i + 1 := Nat.mod_eq_of_lt (by omega)
    have hc : (st.count + 1) % U32 = st.count + 1 := Nat.mod_eq_of_lt (by omega)
    have h1 : ¬ ((0 : Int) < 0 ∧ (0 : Int) ≠ -EAGAIN) := by decide
    have h2 : ¬ ((0 : Int) = -EAGAIN) := by decide
    have h3 : ¬ (st.count + 1 = 0) := by omega
    have := ih f (i + 1) 1
      { count := st.count + 1, log := st.log ++ [⟨i, st.count, 0, some 1⟩], idle := st.idle }
      (by omega) (by simp only; omega) (by omega)
    simp only [List.length_append, List.length_singleton] at this
    simp only [session_poll_region_loop, if_pos hi, poll_one, h1, h2, if_false, hmod, hc, h3]
    refine ⟨this.1, ?_, ?_⟩
    · rw [this.2.1]
      omega
    · rw [this.2.2]
      omega

/-- One sweep of the end-to-end scheduler with one item reported per call and
`expect = 0`: the four contexts `4..7` are probed and `*count` grows by 4. -/
theorem e2e_sweep_poll_one (rfuel : Nat) (st : poll_st) (hfuel : 4 < rfuel)
    (hcount : st.count + 4 < U32) :
    ∃ st', session_poll_policy_rr rfuel (with_poll (ctx_of e2e_sched) poll_one) 0 0 st =
        (.ret 0, st') ∧
      st'.count = st.count + 4 ∧ st'.log.length = st.log.length + 4 := by
  have hread : region_read (with_poll (ctx_of e2e_sched) poll_one).sched_info
      ⟨UADK_CTX_HW, 0, SCHED_MODE_ASYNC, 0⟩ = some ⟨4, 7, 4, true⟩ := by decide
  have htn : (with_poll (ctx_of e2e_sched) poll_one).type_num = 1 := rfl
  have hpf : (with_poll (ctx_of e2e_sched) poll_one).poll_func = some poll_one := rfl
  have h := session_poll_region_loop_poll_one 7 4 rfuel 4 0 st rfl (by decide) hcount hfuel
  have hreg : session_poll_region rfuel (with_poll (ctx_of e2e_sched) poll_one) 4 7 0 st =
      (.ret 0, (session_poll_region_loop poll_one 7 0 rfuel 4 0 st).2) := by
    simp only [session_poll_region, hpf]
    exact Prod.ext h.1 rfl
  refine ⟨(session_poll_region_loop poll_one 7 0 rfuel 4 0 st).2, ?_, h.2.1, h.2.2⟩
  simp only [session_poll_policy_rr, htn, poll_types_loop, hread, hreg]
  simp

/-- On the end-to-end scheduler with one item reported per call and
`expect = 0`, the node loop makes one sweep in each round it is allowed and
does not end. -/
theorem e2e_for_poll_one (rfuel fuel : Nat) (st : poll_st) (hfuel : 4 < rfuel)
    (hcount : st.count + 4 * fuel < U32) :
    (session_sched_poll_policy_for (with_poll (ctx_of e2e_sched) poll_one) 0 rfuel fuel 0
        st).1 = .fuel_out ∧
      (session_sched_poll_policy_for (with_poll (ctx_of e2e_sched) poll_one) 0 rfuel fuel 0
        st).2.log.length = st.log.length + 4 * fuel := by
  induction fuel generalizing st with
  | zero => exact ⟨rfl, rfl⟩
  | succ fuel ih =>
    have hnum : (with_poll (ctx_of e2e_sched) poll_one).numa_num = 1 := rfl
    have hinfo : ∃ info, (with_poll (ctx_of e2e_sched) poll_one).sched_info[0]? = some info ∧
        info.nm_valid = true := ⟨_, rfl, rfl⟩
    obtain ⟨info, hinfo, hvalid⟩ := hinfo
    obtain ⟨st1, hrr, hc1, hl1⟩ := e2e_sweep_poll_one rfuel st hfuel (by omega)
    have hih := ih st1 (by omega)
    have hne1 : ¬ (0 = st1.count) := by omega
    have hne2 : ¬ (st.count = st1.count) := by omega
    unfold session_sched_poll_policy_for
    simp only [hnum, Nat.lt_one_iff, if_true, hinfo, hvalid, Bool.not_true, Bool.false_eq_true,
      if_false, hrr, ne_eq, not_true_eq_false, hne1, hne2]
    exact ⟨hih.1, by rw [hih.2, hl1]; omega⟩

/-- C15 as stated fails: on the end-to-end scheduler (one node), with
`expect = 0`, `*count = 0` and a completion check that reports one item per
call, the poll has made 1001 sweeps of the node, 4004 probes, and has not
returned. -/
theorem poll_outlasts_budget_counterexample :
    (session_sched_poll_policy 1001 128 (some (with_poll (ctx_of e2e_sched) poll_one)) 0
        (some poll_start)).1 = .fuel_out ∧
      (probes (session_sched_poll_policy 1001 128
        (some (with_poll (ctx_of e2e_sched) poll_one)) 0 (some poll_start)).2).length =
        4004 := by
  have h := e2e_for_poll_one 1001 1001 poll_start (by decide) (by decide)
  have hw : session_sched_poll_policy_while (with_poll (ctx_of e2e_sched) poll_one) 0 1001
      MAX_POLL_TIMES 0 poll_start =
      (.fuel_out, (session_sched_poll_policy_for (with_poll (ctx_of e2e_sched) poll_one) 0
        1001 1001 0 poll_start).2) := by
    have hcond : (0 + 1) % U32 < MAX_POLL_TIMES := by decide
    have hk : MAX_POLL_TIMES = 999 + 1 := rfl
    rw [hk, session_sched_poll_policy_while, if_pos hcond]
    generalize hfor : session_sched_poll_policy_for (with_poll (ctx_of e2e_sched) poll_one) 0
      1001 1001 0 poll_start = res at h
    obtain ⟨o, st1⟩ := res
    simp only at h
    rw [h.1]
  have hpf : (with_poll (ctx_of e2e_sched) poll_one).poll_func.isNone = false := rfl
  have hnum : ¬ (with_poll (ctx_of e2e_sched) poll_one).numa_num > 128 := by decide
  simp only [session_sched_poll_policy, hpf, Bool.false_eq_true, if_false, hnum, hw, probes,
    List.length_map]
  exact ⟨trivial, h.2⟩

/-! ## Completion poller: sweeps that receive nothing -/

/-- With a completion check that never reports a completion, the loop of
`session_poll_region` returns 0 and leaves `*count` as it is; when `*count`
differs from `expect` it probes every context that is left, in order. -/
theorem session_poll_region_loop_quiet (poll_func : user_poll_func) (hq : quiet poll_func)
    (end_ expect n : Nat) (fuel i : Nat) (st : poll_st) (hn : n = end_ + 1 - i)
    (hend : end_ + 1 < U32) (hcount : st.count < U32) (hfuel : n < fuel) :
    ∃ st', session_poll_region_loop poll_func end_ expect fuel i 0 st = (.ret 0, st') ∧
      st'.count = st.count ∧ st'.idle = st.idle ∧
      (st.count ≠ expect → positions st' = positions st ++ List.range' i n) := by
  induction n generalizing fuel i st with
  | zero =>
    obtain ⟨f, rfl⟩ : ∃ f, fuel = f + 1 := ⟨fuel - 1, by omega⟩
    have hi : ¬ i ≤ end_ := by omega
    exact ⟨st, by simp only [session_poll_region_loop, if_neg hi], rfl, rfl, by simp⟩
  | succ n ih =>
    obtain ⟨f, rfl⟩ : ∃ f, fuel = f + 1 := ⟨fuel - 1, by omega⟩
    have hi : i ≤ end_ := by omega
    have hmod : (i + 1) % U32 = i + 1 := Nat.mod_eq_of_lt (by omega)
    have hc : (st.count + 0) % U32 = st.count := by
      rw [Nat.add_zero]
      exact Nat.mod_eq_of_lt hcount
    obtain ⟨hnf, hstore⟩ := hq (st.log.map poll_event.pos) i
    have hnum : (match (poll_func (st.log.map poll_event.pos) i 1).2 with
        | some n => n
        | none => 0) = 0 := by
      rcases hstore with h | h <;> rw [h]
    have hrange : List.range' i (n + 1) = i :: List.range' (i + 1) n := rfl
    unfold session_poll_region_loop
    simp only [if_pos hi, hnum, hmod, hc]
    have hnf' : ¬ ((poll_func (st.log.map poll_event.pos) i 1).1 < 0 ∧
        (poll_func (st.log.map poll_event.pos) i 1).1 ≠ -EAGAIN) := hnf
    rw [if_neg hnf']
    have hrec := fun c (hcc : c = st.count) => ih f (i + 1)
      { count := c
        log := st.log ++ [⟨i, st.count, (poll_func (st.log.map poll_event.pos) i 1).1,
          (poll_func (st.log.map poll_event.pos) i 1).2⟩]
        idle := st.idle } (by omega) (by simp only; omega) (by omega)
    have hpos : ∀ (st' : poll_st) (c : Nat), positions st' =
        positions { count := c
                    log := st.log ++ [⟨i, st.count,
                      (poll_func (st.log.map poll_event.pos) i 1).1,
                      (poll_func (st.log.map poll_event.pos) i 1).2⟩]
                    idle := st.idle } ++ List.range' (i + 1) n →
        positions st' = positions st ++ List.range' i (n + 1) := by
      intro st' c h
      rw [h, hrange]
      simp [positions]
    by_cases hea : (poll_func (st.log.map poll_event.pos) i 1).1 = -EAGAIN
    · rw [if_pos hea]
      obtain ⟨st', h1, h2, h3, h4⟩ := hrec st.count rfl
      exact ⟨st', h1, h2, h3, fun hne => hpos st' _ (h4 hne)⟩
    · rw [if_neg hea]
      by_cases hex : st.count = expect
      · rw [if_pos hex]
        exact ⟨_, rfl, rfl, rfl, fun hne => absurd hex hne⟩
      · rw [if_neg hex]
        obtain ⟨st', h1, h2, h3, h4⟩ := hrec st.count rfl
        exact ⟨st', h1, h2, h3, fun hne => hpos st' _ (h4 hne)⟩

/-- With a completion check that never reports a completion, the loop over the
types ends without a return and leaves `*count` as it is; when `*count`
differs from `expect` it probes the contexts of every valid cell, in order. -/
theorem poll_types_loop_quiet (fuel : Nat) (sched_ctx : wd_sched_ctx)
    (poll_func : user_poll_func) (prop numa_id expect k i : Nat) (st : poll_st)
    (hpf : sched_ctx.poll_func = some poll_func) (hq : quiet poll_func)
    (hcells : ∀ t, i ≤ t → t < i + k →
      cell_pollable sched_ctx.sched_info ⟨prop, numa_id, SCHED_MODE_ASYNC, t⟩ = true)
    (hcount : st.count < U32) (hfuel : U32 ≤ fuel) :
    ∃ st', poll_types_loop fuel sched_ctx prop numa_id expect k i st = (.next, st') ∧
      st'.count = st.count ∧ st'.idle = st.idle ∧
      (st.count ≠ expect →
        positions st' =
          positions st ++ types_positions sched_ctx.sched_info prop numa_id k i) := by
  induction k generalizing i st with
  | zero => exact ⟨st, rfl, rfl, rfl, by simp [types_positions]⟩
  | succ k ih =>
    have hcell := hcells i (le_refl i) (by omega)
    unfold cell_pollable at hcell
    cases hr : region_read sched_ctx.sched_info ⟨prop, numa_id, SCHED_MODE_ASYNC, i⟩ with
    | none => simp [hr] at hcell
    | some region =>
      simp only [hr] at hcell
      unfold poll_types_loop types_positions
      simp only [hr]
      by_cases hv : region.valid = true
      · have hend : region.end_ + 1 < U32 := by simpa [hv] using hcell
        obtain ⟨st1, h1, h2, h3, h4⟩ := session_poll_region_loop_quiet poll_func hq region.end_
          expect (region.end_ + 1 - region.begin) fuel region.begin st rfl hend hcount
          (by omega)
        have hreg : session_poll_region fuel sched_ctx region.begin region.end_ expect st =
            (.ret 0, st1) := by
          simp only [session_poll_region, hpf, h1]
        obtain ⟨st2, g1, g2, g3, g4⟩ := ih (i + 1) st1
          (fun t ht hlt => hcells t (by omega) (by omega)) (by omega)
        refine ⟨st2, ?_, g2.trans h2, g3.trans h3, ?_⟩
        · simp only [hv, Bool.not_true, Bool.false_eq_true, if_false, hreg, ne_eq,
            not_true_eq_false, g1]
        · intro hne
          rw [g4 (by rw [h2]; exact hne), h4 hne]
          simp only [hv, if_true, List.append_assoc]
      · have hv' : region.valid = false := by simpa using hv
        obtain ⟨st2, g1, g2, g3, g4⟩ := ih (i + 1) st
          (fun t ht hlt => hcells t (by omega) (by omega)) hcount
        refine ⟨st2, ?_, g2, g3, ?_⟩
        · simp only [hv', Bool.not_false, if_true, g1]
        · intro hne
          rw [g4 hne]
          simp [hv']

/-- With a completion check that never reports a completion, one pass of the
node loop of `session_sched_poll_policy` leaves `*count` as it is.  When
`*count` differs from `expect` the pass ends without a return, after it has
probed the contexts of every valid node that was left; when `*count` equals
`expect` it returns 0 or ends. -/
theorem session_sched_poll_policy_for_quiet (sched_ctx : wd_sched_ctx)
    (poll_func : user_poll_func) (expect rfuel k : Nat) (fuel i : Nat) (st : poll_st)
    (hpf : sched_ctx.poll_func = some poll_func) (hq : quiet poll_func)
    (hready : poll_ready sched_ctx) (hk : k = sched_ctx.numa_num - i)
    (hcount : st.count < U32) (hrfuel : U32 ≤ rfuel) (hfuel : k < fuel) :
    ∃ o st', session_sched_poll_policy_for sched_ctx expect rfuel fuel i st = (o, st') ∧
      st'.count = st.count ∧ (o = .ret 0 ∨ o = .next) ∧
      (st.count ≠ expect →
        o = .next ∧ positions st' = positions st ++ nodes_positions sched_ctx k i) := by
  induction k generalizing fuel i st with
  | zero =>
    obtain ⟨f, rfl⟩ : ∃ f, fuel = f + 1 := ⟨fuel - 1, by omega⟩
    have hi : ¬ i < sched_ctx.numa_num := by omega
    exact ⟨.next, st, by simp only [session_sched_poll_policy_for, if_neg hi], rfl,
      Or.inr rfl, fun _ => ⟨rfl, by simp [nodes_positions]⟩⟩
  | succ k ih =>
    obtain ⟨f, rfl⟩ : ∃ f, fuel = f + 1 := ⟨fuel - 1, by omega⟩
    have hi : i < sched_ctx.numa_num := by omega
    have hlen : i < sched_ctx.sched_info.length := by
      have := hready.1
      omega
    unfold session_sched_poll_policy_for nodes_positions
    simp only [if_pos hi, List.getElem?_eq_getElem hlen]
    by_cases hv : (sched_ctx.sched_info[i]).nm_valid = true
    · obtain ⟨st1, h1, h2, h3, h4⟩ := poll_types_loop_quiet rfuel sched_ctx poll_func
        UADK_CTX_HW i expect sched_ctx.type_num 0 st hpf hq
        (fun t _ ht => hready.2 i hi t (by omega)) hcount hrfuel
      have hrr : session_poll_policy_rr rfuel sched_ctx i expect st = (.ret 0, st1) := by
        simp only [session_poll_policy_rr, h1]
      simp only [hv, Bool.not_true, Bool.false_eq_true, if_false, hrr, ne_eq,
        not_true_eq_false, if_true]
      by_cases hex : expect = st1.count
      · rw [if_pos hex]
        exact ⟨.ret 0, st1, rfl, h2, Or.inl rfl, fun hne => absurd (hex.trans h2).symm hne⟩
      · rw [if_neg hex, if_pos h2.symm]
        obtain ⟨o, st2, g1, g2, g3, g4⟩ := ih f (i + 1) { st1 with idle := st1.idle + 1 }
          (by omega) (by simp only; omega) (by omega)
        refine ⟨o, st2, g1, g2.trans h2, g3, ?_⟩
        intro hne
        obtain ⟨go, gp⟩ := g4 (by simp only; rw [h2]; exact hne)
        refine ⟨go, ?_⟩
        rw [gp]
        have : positions { st1 with idle := st1.idle + 1 } = positions st1 := rfl
        rw [this, h4 hne, List.append_assoc]
    · have hv' : (sched_ctx.sched_info[i]).nm_valid = false := by simpa using hv
      simp only [hv', Bool.not_false, if_true]
      obtain ⟨o, st2, g1, g2, g3, g4⟩ := ih f (i + 1) st (by omega) hcount (by omega)
      refine ⟨o, st2, g1, g2, g3, ?_⟩
      intro hne
      obtain ⟨go, gp⟩ := g4 hne
      refine ⟨go, ?_⟩
      rw [gp]
      simp

/-- With a completion check that never reports a completion, the `while` loop of
`session_sched_poll_policy` leaves `*count` as it is.  When `*count` differs
from `expect` it ends after one sweep for each pass that was left; when
`*count` equals `expect` it returns 0 or ends. -/
theorem session_sched_poll_policy_while_quiet (sched_ctx : wd_sched_ctx)
    (poll_func : user_poll_func) (expect fuel m : Nat) (k loop_time : Nat) (st : poll_st)
    (hpf : sched_ctx.poll_func = some poll_func) (hq : quiet poll_func)
    (hready : poll_ready sched_ctx) (hm : loop_time + m + 1 = MAX_POLL_TIMES)
    (hk : m < k) (hcount : st.count < U32) (hfuel : U32 + sched_ctx.numa_num ≤ fuel) :
    ∃ o st', session_sched_poll_policy_while sched_ctx expect fuel k loop_time st = (o, st') ∧
      st'.count = st.count ∧ (o = .ret 0 ∨ o = .next) ∧
      (st.count ≠ expect →
        o = .next ∧
          positions st' =
            positions st ++ (List.replicate m (sweep_positions sched_ctx)).flatten) := by
  have hU : 0 < U32 := by decide
  induction m generalizing k loop_time st with
  | zero =>
    obtain ⟨k', rfl⟩ : ∃ k', k = k' + 1 := ⟨k - 1, by omega⟩
    have hmod : (loop_time + 1) % U32 = loop_time + 1 :=
      Nat.mod_eq_of_lt (by unfold MAX_POLL_TIMES at hm; unfold U32; omega)
    have hc : ¬ loop_time + 1 < MAX_POLL_TIMES := by omega
    exact ⟨.next, st, by simp only [session_sched_poll_policy_while, hmod, if_neg hc], rfl,
      Or.inr rfl, fun _ => ⟨rfl, by simp⟩⟩
  | succ m ih =>
    obtain ⟨k', rfl⟩ : ∃ k', k = k' + 1 := ⟨k - 1, by omega⟩
    have hmod : (loop_time + 1) % U32 = loop_time + 1 :=
      Nat.mod_eq_of_lt (by unfold MAX_POLL_TIMES at hm; unfold U32; omega)
    have hc : loop_time + 1 < MAX_POLL_TIMES := by omega
    obtain ⟨o, st1, h1, h2, h3, h4⟩ := session_sched_poll_policy_for_quiet sched_ctx poll_func
      expect fuel sched_ctx.numa_num fuel 0 st hpf hq hready rfl hcount (by omega) (by omega)
    unfold session_sched_poll_policy_while
    simp only [hmod, if_pos hc, h1]
    rcases h3 with ho | ho
    · subst ho
      refine ⟨.ret 0, st1, rfl, h2, Or.inl rfl, ?_⟩
      intro hne
      have := (h4 hne).1
      cases this
    · subst ho
      obtain ⟨o2, st2, g1, g2, g3, g4⟩ := ih k' (loop_time + 1) st1 (by omega) (by omega)
        (by omega)
      refine ⟨o2, st2, g1, g2.trans h2, g3, ?_⟩
      intro hne
      obtain ⟨go, gp⟩ := g4 (by rw [h2]; exact hne)
      refine ⟨go, ?_⟩
      rw [gp, (h4 hne).2, List.replicate_succ, List.flatten_cons, List.append_assoc]
      rfl

/-- With a completion check that never reports a completion,
`session_sched_poll_policy` returns 0 and leaves `*count` as it is; when
`*count` differs from `expect` it has made `MAX_POLL_TIMES - 1` sweeps over the
valid nodes. -/
theorem session_sched_poll_policy_quiet (fuel NUMA_NUM_NODES : Nat)
    (sched_ctx : wd_sched_ctx) (poll_func : user_poll_func) (expect : Nat) (st : poll_st)
    (hpf : sched_ctx.poll_func = some poll_func) (hq : quiet poll_func)
    (hready : poll_ready sched_ctx) (hnum : sched_ctx.numa_num ≤ NUMA_NUM_NODES)
    (hcount : st.count < U32) (hfuel : U32 + sched_ctx.numa_num ≤ fuel) :
    ∃ st', session_sched_poll_policy fuel NUMA_NUM_NODES (some sched_ctx) expect (some st) =
        (.ret 0, some st') ∧
      st'.count = st.count ∧
      (st.count ≠ expect →
        positions st' =
          positions st ++
            (List.replicate (MAX_POLL_TIMES - 1) (sweep_positions sched_ctx)).flatten) := by
  obtain ⟨o, st1, h1, h2, h3, h4⟩ := session_sched_poll_policy_while_quiet sched_ctx poll_func
    expect fuel (MAX_POLL_TIMES - 1) MAX_POLL_TIMES 0 st hpf hq hready (by decide) (by decide)
    hcount hfuel
  have hpf' : sched_ctx.poll_func.isNone = false := by rw [hpf]; rfl
  have hnum' : ¬ sched_ctx.numa_num > NUMA_NUM_NODES := by omega
  refine ⟨st1, ?_, h2, fun hne => (h4 hne).2⟩
  simp only [session_sched_poll_policy, hpf', Bool.false_eq_true, if_false, hnum', h1]
  rcases h3 with ho | ho <;> subst ho <;> rfl

/-- C11, for a completion check that reports nothing: on a scheduler that can
be swept, `session_sched_poll_policy` called with `expect = 0` and
`*count = 0` returns 0 with `*count = 0` whenever no completion-check call
reports a fatal status or a number of items other than zero. -/
theorem session_poll_expect_zero (fuel NUMA_NUM_NODES : Nat) (sched_ctx : wd_sched_ctx)
    (poll_func : user_poll_func) (st : poll_st)
    (hpf : sched_ctx.poll_func = some poll_func) (hq : quiet poll_func)
    (hready : poll_ready sched_ctx) (hnum : sched_ctx.numa_num ≤ NUMA_NUM_NODES)
    (hcount : st.count = 0) (hfuel : U32 + sched_ctx.numa_num ≤ fuel) :
    ∃ st', session_sched_poll_policy fuel NUMA_NUM_NODES (some sched_ctx) 0 (some st) =
        (.ret 0, some st') ∧ st'.count = 0 := by
  obtain ⟨st', h1, h2, _⟩ := session_sched_poll_policy_quiet fuel NUMA_NUM_NODES sched_ctx
    poll_func 0 st hpf hq hready hnum (by rw [hcount]; decide) hfuel
  exact ⟨st', h1, h2.trans hcount⟩

/-- The try-again check never reports a completion. -/
theorem poll_eagain_quiet : quiet poll_eagain := by
  intro hist pos
  exact ⟨fun h => h.2 rfl, Or.inl rfl⟩

/-- C11 on the end-to-end scheduler with a completion check that always
reports try-again: the poll returns 0 with `*count = 0`. -/
theorem session_poll_expect_zero_witness :
    ∃ st', session_sched_poll_policy (U32 + 1) 128
        (some (with_poll (ctx_of e2e_sched) poll_eagain)) 0 (some poll_start) =
        (.ret 0, some st') ∧ st'.count = 0 :=
  session_poll_expect_zero (U32 + 1) 128 (with_poll (ctx_of e2e_sched) poll_eagain)
    poll_eagain poll_start rfl poll_eagain_quiet (by decide) (by decide) rfl (by decide)

/-- C14 fails on the code by one sweep: on the end-to-end scheduler, whose
async region is `[4, 7]`, with `expect = 1`, `*count = 0` and a completion
check that always reports try-again, the poll returns 0 with `*count = 0`
after 999 sweeps: each of the contexts 4 to 7 is probed 999 times, not
1000. -/
theorem session_poll_eagain_sweeps :
    ∃ st', session_sched_poll_policy (U32 + 1) 128
        (some (with_poll (ctx_of e2e_sched) poll_eagain)) 1 (some poll_start) =
        (.ret 0, some st') ∧
      st'.count = 0 ∧
      positions st' = (List.replicate 999 [4, 5, 6, 7]).flatten ∧
      ∀ pos ∈ [4, 5, 6, 7], (positions st').count pos = 999 := by
  obtain ⟨st', h1, h2, h3⟩ := session_sched_poll_policy_quiet (U32 + 1) 128
    (with_poll (ctx_of e2e_sched) poll_eagain) poll_eagain 1 poll_start rfl poll_eagain_quiet
    (by decide) (by decide) (by decide) (by decide)
  have hsweep : sweep_positions (with_poll (ctx_of e2e_sched) poll_eagain) = [4, 5, 6, 7] := by
    decide
  have hpos : positions st' = (List.replicate 999 [4, 5, 6, 7]).flatten := by
    have hstart : positions poll_start = [] := rfl
    have hpasses : MAX_POLL_TIMES - 1 = 999 := rfl
    rw [h3 (by decide), hsweep, hstart, hpasses, List.nil_append]
  refine ⟨st', h1, h2, hpos, ?_⟩
  intro pos hmem
  rw [hpos, List.count_flatten, List.map_replicate]
  have hone : List.count pos [4, 5, 6, 7] = 1 := by
    simp only [List.mem_cons, List.mem_singleton, List.not_mem_nil, or_false] at hmem
    rcases hmem with h | h | h | h <;> subst h <;> decide
  rw [hone, List.sum_replicate, smul_eq_mul, mul_one]

/-! ## Region registration: what a call leaves behind -/

/-- What a call of `wd_sched_rr_instance` that returns did: either it
returned `-WD_EINVAL` and the handle is as it was, or it returned 0 after the
checks passed, the `switch` wrote one node, `nm_valid` was set on it and the
locality map was recomputed from the new flags. -/
theorem wd_sched_rr_instance_inv (numa_distance : Int → Int → Int) (s : wd_sched)
    (sched_ctx : wd_sched_ctx) (p : sched_params) (r : Int) (out : Option wd_sched)
    (hctx : s.h_sched_ctx = some sched_ctx)
    (h : wd_sched_rr_instance numa_distance (some s) (some p) = some (r, out)) :
    (r = -WD_EINVAL ∧ out = some s) ∨
      (r = 0 ∧ p.begin ≤ p.end_ ∧ p.numa_id.toNat < sched_ctx.numa_num ∧
        p.ctx_prop ≤ UADK_CTX_SOFT ∧
        ∃ info info' numa_map, sched_ctx.sched_info[p.numa_id.toNat]? = some info ∧
          rr_instance_switch info p.ctx_prop p.mode p.type p = some info' ∧
          wd_sched_map_cpus_to_dev_loop numa_distance
              (sched_ctx.sched_info.set p.numa_id.toNat { info' with nm_valid := true })
              sched_ctx.numa_num sched_ctx.numa_num 0 sched_ctx.numa_map = some numa_map ∧
          out = some { s with
            h_sched_ctx := some
              { sched_ctx with
                sched_info :=
                  sched_ctx.sched_info.set p.numa_id.toNat { info' with nm_valid := true },
                numa_map := numa_map } }) := by
  have herr : ∀ o : Option wd_sched, o = some s →
      some (-WD_EINVAL, o) = some (r, out) → r = -WD_EINVAL ∧ out = some s := by
    intro o ho he
    injection he with he
    injection he with he1 he2
    exact ⟨he1.symm, by rw [← he2, ho]⟩
  unfold wd_sched_rr_instance at h
  simp only [hctx] at h
  split_ifs at h with h1 h2 h3 h4 h5
  · exact Or.inl (herr _ rfl h)
  · exact Or.inl (herr _ rfl h)
  · exact Or.inl (herr _ rfl h)
  · exact Or.inl (herr _ rfl h)
  · exact Or.inl (herr _ rfl h)
  · split at h
    · cases h
    · rename_i info hinfo
      split at h
      · cases h
      · exact Or.inl (herr _ rfl h)
      · split at h
        · cases h
        · rename_i info' hsw
          unfold wd_sched_map_cpus_to_dev at h
          simp only at h
          split at h
          · cases h
          · rename_i sched_ctx' hmap
            split at hmap
            · cases hmap
            · rename_i numa_map hloop
              injection hmap with hmap
              injection h with h
              injection h with hr hout
              refine Or.inr ⟨hr.symm, Nat.le_of_not_lt h1, ?_, Nat.le_of_not_lt h5, info, info',
                numa_map, hinfo, hsw, hloop, ?_⟩
              · omega
              · rw [← hout, ← hmap]

/-- The cells after the `switch` of `wd_sched_rr_instance` has written a node
and `nm_valid` is set on it: the addressed cell holds the region, with the
cursor at its first index, and every other cell is as it was. -/
theorem rr_instance_set_read (sched_info : List wd_sched_info) (n : Nat)
    (info info' : wd_sched_info) (p : sched_params) (hprop : p.ctx_prop ≤ UADK_CTX_SOFT)
    (hinfo : sched_info[n]? = some info)
    (hsw : rr_instance_switch info p.ctx_prop p.mode p.type p = some info')
    (ref : region_ref) :
    region_read (sched_info.set n { info' with nm_valid := true }) ref =
      if ref = ⟨p.ctx_prop, n, p.mode, p.type⟩ then some ⟨p.begin, p.end_, p.begin, true⟩
      else region_read sched_info ref := by
  obtain ⟨⟨tbl, htbl, htbls⟩, _⟩ :=
    rr_instance_switch_spec info info' p.ctx_prop p.mode p.type p hprop hsw
  have hn : n < sched_info.length := (List.getElem?_eq_some.mp hinfo).1
  unfold region_read
  by_cases hnn : ref.numa = n
  · rw [hnn, List.getElem?_set_self hn, hinfo]
    show tbl_read (info_tbl info' ref.prop) ref.mode ref.type = _
    rw [htbls]
    by_cases hpp : ref.prop = p.ctx_prop
    · rw [if_pos hpp, tbl_read_write _ _ _ _ _ htbl, hpp]
      by_cases hmt : ref.mode = p.mode ∧ ref.type = p.type
      · have href : ref = ⟨p.ctx_prop, n, p.mode, p.type⟩ := by
          cases ref
          simp_all
        rw [if_pos hmt, if_pos href]
      · have href : ref ≠ ⟨p.ctx_prop, n, p.mode, p.type⟩ := by
          intro href
          apply hmt
          rw [href]
          exact ⟨rfl, rfl⟩
        rw [if_neg hmt, if_neg href]
    · have href : ref ≠ ⟨p.ctx_prop, n, p.mode, p.type⟩ := by
        intro href
        apply hpp
        rw [href]
      rw [if_neg hpp, if_neg href]
  · have href : ref ≠ ⟨p.ctx_prop, n, p.mode, p.type⟩ := by
      intro href
      apply hnn
      rw [href]
    rw [List.getElem?_set_ne (Ne.symm hnn), if_neg href]

/-- The `nm_valid` flags after the `switch` of `wd_sched_rr_instance` has
written node `n`: the flag of `n` is set. -/
theorem rr_instance_set_nm_valid (sched_info : List wd_sched_info) (n : Nat)
    (info info' : wd_sched_info) (hinfo : sched_info[n]? = some info) :
    nm_valid_at (sched_info.set n { info' with nm_valid := true }) n = true := by
  have hn : n < sched_info.length := (List.getElem?_eq_some.mp hinfo).1
  unfold nm_valid_at
  rw [List.getElem?_set_self hn]

/-! ## The locality map -/

/-- The loop of `wd_sched_get_nearby_numa_id` keeps `nearby_inv`, when the
distance of every node it visits is below `INT32_MAX`. -/
theorem wd_sched_get_nearby_numa_id_loop_inv (numa_distance : Int → Int → Int)
    (sched_info : List wd_sched_info) (node : Int)
    (k i : Nat) (dis valid_id id : Int)
    (hdist : ∀ j : Nat, j < i + k → numa_distance node j < INT32_MAX)
    (hinv : nearby_inv numa_distance sched_info node i dis valid_id)
    (h : wd_sched_get_nearby_numa_id_loop numa_distance sched_info node k i dis valid_id =
      some id) :
    ∃ dis', nearby_inv numa_distance sched_info node (i + k) dis' id := by
  induction k generalizing i dis valid_id with
  | zero =>
    simp only [wd_sched_get_nearby_numa_id_loop, Option.some.injEq] at h
    subst h
    exact ⟨dis, hinv⟩
  | succ k ih =>
    unfold wd_sched_get_nearby_numa_id_loop at h
    split at h
    · cases h
    · rename_i info hinfo
      have hflag : nm_valid_at sched_info i = info.nm_valid := by
        simp only [nm_valid_at, hinfo]
      have hlast : ∀ j' : Nat, j' < i + 1 → j' < i ∨ j' = i := fun j' hj => by omega
      have hdist' : ∀ j : Nat, j < i + 1 + k → numa_distance node j < INT32_MAX :=
        fun j hj => hdist j (by omega)
      have hdi := hdist i (by omega)
      rw [show i + (k + 1) = i + 1 + k by omega]
      split_ifs at h with hv hd
      · refine ih (i + 1) _ _ hdist' ?_ h
        refine Or.inr ⟨i, rfl, by omega, by rw [hflag, hv], rfl, ?_, ?_⟩
        · intro j' hj hvj
          rcases hlast j' hj with hlt | heq
          · rcases hinv with ⟨_, _, hnone⟩ | ⟨j, _, _, _, _, hmin, _⟩
            · rw [hnone j' hlt] at hvj
              cases hvj
            · have := hmin j' hlt hvj
              omega
          · rw [heq]
        · intro j' hlt hvj
          rcases hinv with ⟨_, _, hnone⟩ | ⟨j, _, _, _, _, hmin, _⟩
          · rw [hnone j' hlt] at hvj
            cases hvj
          · have := hmin j' hlt hvj
            omega
      · refine ih (i + 1) _ _ hdist' ?_ h
        rcases hinv with ⟨_, hdis, _⟩ | ⟨j, hj, hji, hvj, hdis, hmin, hfirst⟩
        · omega
        · refine Or.inr ⟨j, hj, by omega, hvj, hdis, ?_, hfirst⟩
          intro j' hj' hvj'
          rcases hlast j' hj' with hlt | heq
          · exact hmin j' hlt hvj'
          · rw [heq]
            omega
      · refine ih (i + 1) _ _ hdist' ?_ h
        have hi : nm_valid_at sched_info i = false := by
          rw [hflag]
          simpa using hv
        rcases hinv with ⟨hid, hdis, hnone⟩ | ⟨j, hj, hji, hvj, hdis, hmin, hfirst⟩
        · refine Or.inl ⟨hid, hdis, ?_⟩
          intro j' hj'
          rcases hlast j' hj' with hlt | heq
          · exact hnone j' hlt
          · rw [heq]
            exact hi
        · refine Or.inr ⟨j, hj, by omega, hvj, hdis, ?_, hfirst⟩
          intro j' hj' hvj'
          rcases hlast j' hj' with hlt | heq
          · exact hmin j' hlt hvj'
          · rw [heq, hi] at hvj'
            cases hvj'

/-- When some node below `numa_num` has `nm_valid` set and the distance of
every node below `numa_num` from `i` is below `INT32_MAX`,
`wd_sched_get_nearby_numa_id` returns the first of the nearest nodes with
`nm_valid` set. -/
theorem wd_sched_get_nearby_numa_id_spec (numa_distance : Int → Int → Int)
    (sched_info : List wd_sched_info) (i numa_num : Nat) (id : Int)
    (hdist : ∀ j : Nat, j < numa_num → numa_distance i j < INT32_MAX)
    (hex : ∃ j : Nat, j < numa_num ∧ nm_valid_at sched_info j = true)
    (h : wd_sched_get_nearby_numa_id numa_distance sched_info i numa_num = some id) :
    nearest_valid numa_distance sched_info numa_num i id := by
  unfold wd_sched_get_nearby_numa_id at h
  obtain ⟨dis', hinv⟩ := wd_sched_get_nearby_numa_id_loop_inv numa_distance sched_info i
    numa_num 0 INT32_MAX (-1) id (fun j hj => hdist j (by omega))
    (Or.inl ⟨rfl, rfl, fun j' hj' => absurd hj' (Nat.not_lt_zero _)⟩) h
  rw [Nat.zero_add] at hinv
  rcases hinv with ⟨_, _, hnone⟩ | ⟨j, hj, hjn, hvj, hdis, hmin, hfirst⟩
  · obtain ⟨j, hjn, hvj⟩ := hex
    rw [hnone j hjn] at hvj
    cases hvj
  · refine ⟨j, hj, hjn, hvj, ?_, ?_⟩
    · intro j' hj' hvj'
      rw [← hdis]
      exact hmin j' hj' hvj'
    · intro j' hj' hvj'
      rw [← hdis]
      exact hfirst j' hj' hvj'

/-- The loop of `wd_sched_map_cpus_to_dev` leaves the entries below `i` as
they are and gives each node it visits its own index when `nm_valid` is set
on it, and the result of `wd_sched_get_nearby_numa_id` otherwise. -/
theorem wd_sched_map_cpus_to_dev_loop_spec (numa_distance : Int → Int → Int)
    (sched_info : List wd_sched_info) (numa_num k i : Nat) (numa_map numa_map' : Nat → Int)
    (h : wd_sched_map_cpus_to_dev_loop numa_distance sched_info numa_num k i numa_map =
      some numa_map') :
    (∀ j : Nat, j < i → numa_map' j = numa_map j) ∧
      ∀ j : Nat, i ≤ j → j < i + k →
        (nm_valid_at sched_info j = true → numa_map' j = (j : Int)) ∧
        (nm_valid_at sched_info j = false →
          wd_sched_get_nearby_numa_id numa_distance sched_info j numa_num =
            some (numa_map' j)) := by
  induction k generalizing i numa_map with
  | zero =>
    simp only [wd_sched_map_cpus_to_dev_loop, Option.some.injEq] at h
    subst h
    exact ⟨fun _ _ => rfl, fun j h1 h2 => absurd h2 (by omega)⟩
  | succ k ih =>
    unfold wd_sched_map_cpus_to_dev_loop at h
    split at h
    · cases h
    · rename_i info hinfo
      have hflag : nm_valid_at sched_info i = info.nm_valid := by
        simp only [nm_valid_at, hinfo]
      split_ifs at h with hv
      · obtain ⟨hlow, hhigh⟩ := ih (i + 1) _ h
        refine ⟨?_, ?_⟩
        · intro j hj
          rw [hlow j (by omega), if_neg (by omega)]
        · intro j h1 h2
          by_cases hji : j = i
          · subst hji
            refine ⟨fun _ => ?_, fun hf => ?_⟩
            · rw [hlow j (by omega), if_pos rfl]
            · rw [hflag, hv] at hf
              cases hf
          · exact hhigh j (by omega) (by omega)
      · split at h
        · cases h
        · rename_i id hid
          obtain ⟨hlow, hhigh⟩ := ih (i + 1) _ h
          refine ⟨?_, ?_⟩
          · intro j hj
            rw [hlow j (by omega), if_neg (by omega)]
          · intro j h1 h2
            by_cases hji : j = i
            · subst hji
              refine ⟨fun ht => ?_, fun _ => ?_⟩
              · rw [hflag] at ht
                exact absurd ht hv
              · rw [hlow j (by omega), if_pos rfl]
                exact hid
            · exact hhigh j (by omega) (by omega)

/-- C18: after a successful `wd_sched_rr_instance`, on a platform whose
distances between the nodes below `numa_num` are below `INT32_MAX`, the
locality map gives each node below
`numa_num` that has `nm_valid` set its own index, and each other node a node
with `nm_valid` set at the least distance from it, the lowest-indexed of the
nodes at that distance. -/
theorem wd_sched_rr_instance_numa_map (numa_distance : Int → Int → Int) (s : wd_sched)
    (sched_ctx : wd_sched_ctx) (p : sched_params) (out : Option wd_sched)
    (hctx : s.h_sched_ctx = some sched_ctx)
    (hdist : ∀ i j : Nat, i < sched_ctx.numa_num → j < sched_ctx.numa_num →
      numa_distance i j < INT32_MAX)
    (h : wd_sched_rr_instance numa_distance (some s) (some p) = some (0, out)) :
    ∃ sched_ctx', out = some { s with h_sched_ctx := some sched_ctx' } ∧
      numa_map_spec numa_distance sched_ctx' := by
  rcases wd_sched_rr_instance_inv numa_distance s sched_ctx p 0 out hctx h with
    ⟨hr, _⟩ | ⟨_, _, hn, _, info, info', numa_map, hinfo, _, hloop, hout⟩
  · exact absurd hr (by decide)
  · refine ⟨_, hout, ?_⟩
    intro i hi
    obtain ⟨_, hhigh⟩ := wd_sched_map_cpus_to_dev_loop_spec numa_distance _ _ _ _ _ _ hloop
    obtain ⟨hself, hnear⟩ := hhigh i (Nat.zero_le _) (by simpa using hi)
    refine ⟨hself, fun hf => ?_⟩
    exact wd_sched_get_nearby_numa_id_spec numa_distance _ i _ _ (fun j hj => hdist i j hi hj)
      ⟨p.numa_id.toNat, hn, rr_instance_set_nm_valid _ _ info info' hinfo⟩ (hnear hf)

/-- C18 on three nodes in a row, of which nodes 1 and 2 have contexts once
the region of node 2 is registered: the locality map is as C18 says, so node 0
is served by node 1, the nearer of the two. -/
theorem wd_sched_rr_instance_numa_map_witness :
    ∃ sched_ctx', three_node_out =
        some { sched_of three_node_sched with h_sched_ctx := some sched_ctx' } ∧
      numa_map_spec line_distance sched_ctx' :=
  wd_sched_rr_instance_numa_map line_distance (sched_of three_node_sched)
    (ctx_of three_node_sched) ⟨2, 0, SCHED_MODE_SYNC, 4, 7, UADK_CTX_HW⟩ three_node_out rfl
    (fun i j hi hj => by
      have hnum : (ctx_of three_node_sched).numa_num = 3 := by decide
      rw [hnum] at hi hj
      unfold line_distance INT32_MAX
      omega)
    rfl

/-! ## Region registration: ranges that intersect -/

/-- C17 fails on the code: on the scheduler whose hardware sync region is
`[0, 3]`, the registration of the hardware async region `[2, 5]` returns 0;
the scheduler it leaves is reachable from a fresh one, and in it the two
cells are valid and their ranges have the indices 2 and 3 in common. -/
theorem wd_sched_rr_instance_overlap_counterexample :
    Option.map Prod.fst (wd_sched_rr_instance flat_distance (some (sched_of once_sched))
        (some ⟨0, 0, SCHED_MODE_ASYNC, 2, 5, UADK_CTX_HW⟩)) = some 0 ∧
      reachable flat_distance (ctx_of overlap_sched) ∧
      region_read (ctx_of overlap_sched).sched_info ⟨UADK_CTX_HW, 0, SCHED_MODE_SYNC, 0⟩ =
        some ⟨0, 3, 0, true⟩ ∧
      region_read (ctx_of overlap_sched).sched_info ⟨UADK_CTX_HW, 0, SCHED_MODE_ASYNC, 0⟩ =
        some ⟨2, 5, 2, true⟩ ∧
      ranges_overlap ⟨0, 3, 0, true⟩ ⟨2, 5, 2, true⟩ = true := by
  refine ⟨by decide, ?_, by decide, by decide, by decide⟩
  have hfresh : reachable flat_distance (ctx_of (fresh_sched SCHED_POLICY_RR)) :=
    reachable.fresh 0 true SCHED_POLICY_RR 1 1 none (sched_of (fresh_sched SCHED_POLICY_RR))
      _ rfl rfl
  have honce : reachable flat_distance (ctx_of once_sched) :=
    reachable.step _ _ hfresh
      (sched_step.rr_instance (sched_of (fresh_sched SCHED_POLICY_RR)) (sched_of once_sched)
        _ _ ⟨0, 0, SCHED_MODE_SYNC, 0, 3, UADK_CTX_HW⟩ 0 rfl rfl (by decide) (by decide) rfl)
  exact reachable.step _ _ honce
    (sched_step.rr_instance (sched_of once_sched) (sched_of overlap_sched)
      _ _ ⟨0, 0, SCHED_MODE_ASYNC, 2, 5, UADK_CTX_HW⟩ 0 rfl rfl (by decide) (by decide) rfl)

/-- C17, as the code has it: `wd_sched_rr_instance` compares the range of a
call with no other cell.  On a scheduler whose cells are allocated, a call
with `begin ≤ end` at a coordinate inside the tables, whose range intersects
the range of a different valid cell, returns 0 like any other; afterwards the
addressed cell holds the range of the call, the other cell is as it was, and
so two distinct valid cells have ranges that intersect. -/
theorem wd_sched_rr_instance_overlap (numa_distance : Int → Int → Int) (s : wd_sched)
    (sched_ctx : wd_sched_ctx) (p : sched_params) (other : region_ref)
    (r : sched_ctx_region) (hctx : s.h_sched_ctx = some sched_ctx)
    (hwf : ctx_wf sched_ctx) (hbe : p.begin ≤ p.end_) (hn0 : 0 ≤ p.numa_id)
    (hn : p.numa_id < (sched_ctx.numa_num : Int)) (ht : p.type < sched_ctx.type_num)
    (hm : p.mode < SCHED_MODE_BUTT) (hp : p.ctx_prop ≤ UADK_CTX_SOFT)
    (hother : other ≠ ⟨p.ctx_prop, p.numa_id.toNat, p.mode, p.type⟩)
    (hr : region_read sched_ctx.sched_info other = some r) (hvalid : r.valid = true)
    (hover : ranges_overlap ⟨p.begin, p.end_, p.begin, true⟩ r = true) :
    ∃ sched_ctx' r1 r2,
      wd_sched_rr_instance numa_distance (some s) (some p) =
        some (0, some { s with h_sched_ctx := some sched_ctx' }) ∧
      region_read sched_ctx'.sched_info ⟨p.ctx_prop, p.numa_id.toNat, p.mode, p.type⟩ =
        some r1 ∧
      region_read sched_ctx'.sched_info other = some r2 ∧
      r1 = ⟨p.begin, p.end_, p.begin, true⟩ ∧ r2 = r ∧
      r1.valid = true ∧ r2.valid = true ∧ ranges_overlap r1 r2 = true := by
  obtain ⟨out, hout⟩ := wd_sched_rr_instance_succeeds numa_distance s sched_ctx p hctx hwf hbe
    hn0 hn ht hm hp
  rcases wd_sched_rr_instance_inv numa_distance s sched_ctx p 0 out hctx hout with
    ⟨h0, _⟩ | ⟨_, _, _, _, info, info', numa_map, hinfo, hsw, _, hout'⟩
  · exact absurd h0 (by decide)
  · rw [hout'] at hout
    refine ⟨_, _, _, hout, ?_, ?_, rfl, rfl, rfl, hvalid, hover⟩
    · show region_read (sched_ctx.sched_info.set p.numa_id.toNat _) _ = _
      rw [rr_instance_set_read _ _ info info' p hp hinfo hsw, if_pos rfl]
    · show region_read (sched_ctx.sched_info.set p.numa_id.toNat _) _ = _
      rw [rr_instance_set_read _ _ info info' p hp hinfo hsw, if_neg hother, hr]

/-- C17 as amended, on the scheduler whose hardware sync region is `[0, 3]`:
the hardware async region `[2, 5]` is accepted and both cells are valid
afterwards. -/
theorem wd_sched_rr_instance_overlap_witness :
    ∃ sched_ctx' r1 r2,
      wd_sched_rr_instance flat_distance (some (sched_of once_sched))
          (some ⟨0, 0, SCHED_MODE_ASYNC, 2, 5, UADK_CTX_HW⟩) =
        some (0, some { sched_of once_sched with h_sched_ctx := some sched_ctx' }) ∧
      region_read sched_ctx'.sched_info ⟨UADK_CTX_HW, 0, SCHED_MODE_ASYNC, 0⟩ = some r1 ∧
      region_read sched_ctx'.sched_info ⟨UADK_CTX_HW, 0, SCHED_MODE_SYNC, 0⟩ = some r2 ∧
      r1 = ⟨2, 5, 2, true⟩ ∧ r2 = ⟨0, 3, 0, true⟩ ∧
      r1.valid = true ∧ r2.valid = true ∧ ranges_overlap r1 r2 = true :=
  wd_sched_rr_instance_overlap flat_distance (sched_of once_sched) (ctx_of once_sched)
    ⟨0, 0, SCHED_MODE_ASYNC, 2, 5, UADK_CTX_HW⟩ ⟨UADK_CTX_HW, 0, SCHED_MODE_SYNC, 0⟩
    ⟨0, 3, 0, true⟩ rfl (by decide) (by decide) (by decide) (by decide) (by decide)
    (by decide) (by decide) (by decide) (by decide) rfl (by decide)

/-! ## The cursor stays inside its range -/

/-- The allocator keeps the bounds of a valid cell. -/
theorem sched_get_next_pos_rr_inv (r : sched_ctx_region) (h : region_inv r) :
    region_inv (sched_get_next_pos_rr r).2 := by
  unfold sched_get_next_pos_rr
  simp only
  split_ifs with hlt
  · intro hv
    obtain ⟨h1, h2, h3⟩ := h hv
    have hmod : (r.last + 1) % U32 = r.last + 1 := Nat.mod_eq_of_lt (by omega)
    show r.begin ≤ (r.last + 1) % U32 ∧ (r.last + 1) % U32 ≤ r.end_ ∧ r.end_ < U32
    rw [hmod]
    omega
  · intro hv
    obtain ⟨h1, h2, h3⟩ := h hv
    show r.begin ≤ r.begin ∧ r.begin ≤ r.end_ ∧ r.end_ < U32
    omega

/-- A call of the allocator through a pointer keeps the bounds of every valid
cell. -/
theorem region_next_pos_inv (c c' : wd_sched_ctx) (ref : region_ref) (pos : Nat)
    (h : region_next_pos c ref = some (pos, c')) (hinv : cursor_inv c.sched_info) :
    cursor_inv c'.sched_info := by
  unfold region_next_pos at h
  split at h
  · cases h
  · rename_i region hregion
    split at h
    · cases h
    · rename_i sched_info hwrite
      cases h
      intro ref' r' hr'
      rw [region_read_write _ _ _ _ hwrite ref'] at hr'
      split_ifs at hr' with href
      · cases hr'
        exact sched_get_next_pos_rr_inv region (hinv ref region hregion)
      · exact hinv ref' r' hr'

/-- The bounds of the valid cells are kept by `session_sched_init_ctx`. -/
theorem session_sched_init_ctx_inv (c c' : wd_sched_ctx) (key key' : sched_key)
    (sched_mode : Int) (pos : Nat)
    (h : session_sched_init_ctx c key sched_mode = some (pos, c', key'))
    (hinv : cursor_inv c.sched_info) : cursor_inv c'.sched_info := by
  unfold session_sched_init_ctx at h
  simp only at h
  split_ifs at h
  · cases h
    exact hinv
  · split at h
    · cases h
    · cases h
      exact hinv
    · rename_i ref _
      split at h
      · cases h
      · rename_i pos2 c2 hnext
        cases h
        exact region_next_pos_inv c _ ref _ hnext hinv

/-- The bounds of the valid cells are kept by `loop_sched_init_ctx`. -/
theorem loop_sched_init_ctx_inv (c c' : wd_sched_ctx) (key key' : sched_key)
    (sched_mode : Int) (pos : Nat)
    (h : loop_sched_init_ctx c key sched_mode = some (pos, c', key'))
    (hinv : cursor_inv c.sched_info) : cursor_inv c'.sched_info := by
  unfold loop_sched_init_ctx at h
  simp only at h
  split_ifs at h
  · cases h
    exact hinv
  · split at h
    · cases h
    · cases h
      exact hinv
    · rename_i ref _
      split at h
      · cases h
      · rename_i pos2 c2 hnext
        cases h
        exact region_next_pos_inv c _ ref _ hnext hinv

/-- The bounds of the valid cells are kept by `loop_sched_rte_pick_ctx`. -/
theorem loop_sched_rte_pick_ctx_inv (c c' : wd_sched_ctx) (key key' : sched_key)
    (sched_mode : Int) (pos : Nat)
    (h : loop_sched_rte_pick_ctx c key sched_mode = some (pos, c', key'))
    (hinv : cursor_inv c.sched_info) : cursor_inv c'.sched_info := by
  unfold loop_sched_rte_pick_ctx at h
  simp only at h
  split at h
  · cases h
  · cases h
    exact hinv
  · rename_i ref _
    split at h
    · cases h
    · rename_i pos2 c2 hnext
      cases h
      exact region_next_pos_inv c _ ref _ hnext hinv

/-- The bounds of the valid cells are kept by `session_sched_init`. -/
theorem session_sched_init_inv (c c' : wd_sched_ctx) (node : Int) (mem : Option sched_key)
    (sched_param : Option sched_params) (res : Except Int sched_key)
    (h : session_sched_init node mem (some c) sched_param = some (res, some c'))
    (hinv : cursor_inv c.sched_info) : cursor_inv c'.sched_info := by
  unfold session_sched_init at h
  split_ifs at h
  · cases h
    exact hinv
  · simp only at h
    split at h
    · cases h
      exact hinv
    · split at h
      · cases h
      · rename_i id1 c1 k1 h1
        have hinv1 := session_sched_init_ctx_inv _ _ _ _ _ _ h1 hinv
        split at h
        · cases h
        · rename_i id2 c2 k2 h2
          have hinv2 := session_sched_init_ctx_inv _ _ _ _ _ _ h2 hinv1
          split_ifs at h
          · cases h
            exact hinv2
          · cases h
            exact hinv2

/-- The bounds of the valid cells are kept by `loop_sched_init`. -/
theorem loop_sched_init_inv (c c' : wd_sched_ctx) (node : Int) (mem : Option sched_key)
    (sched_param : Option sched_params) (res : Except Int sched_key)
    (h : loop_sched_init node mem (some c) sched_param = some (res, some c'))
    (hinv : cursor_inv c.sched_info) : cursor_inv c'.sched_info := by
  unfold loop_sched_init at h
  split_ifs at h
  · cases h
    exact hinv
  · simp only at h
    split at h
    · cases h
      exact hinv
    · split at h
      · cases h
      · rename_i id1 c1 k1 h1
        have hinv1 := loop_sched_init_ctx_inv _ _ _ _ _ _ h1 hinv
        split at h
        · cases h
        · rename_i id2 c2 k2 h2
          have hinv2 := loop_sched_init_ctx_inv _ _ _ _ _ _ h2 hinv1
          split_ifs at h
          · cases h
            exact hinv2
          · split at h
            · cases h
            · rename_i id3 c3 k3 h3
              have hinv3 := loop_sched_init_ctx_inv _ _ _ _ _ _ h3 hinv2
              split at h
              · cases h
              · rename_i id4 c4 k4 h4
                have hinv4 := loop_sched_init_ctx_inv _ _ _ _ _ _ h4 hinv3
                cases h
                exact hinv4

/-- The bounds of the valid cells are kept by `loop_sched_rte_pick_next_ctx`. -/
theorem loop_sched_rte_pick_next_ctx_inv (c c' : wd_sched_ctx)
    (key key' : Option sched_key) (sched_mode : Int) (pos : Nat)
    (h : loop_sched_rte_pick_next_ctx (some c) key sched_mode = some (pos, some c', key'))
    (hinv : cursor_inv c.sched_info) : cursor_inv c'.sched_info := by
  cases key with
  | none =>
    simp only [loop_sched_rte_pick_next_ctx] at h
    cases h
    exact hinv
  | some skey =>
    simp only [loop_sched_rte_pick_next_ctx] at h
    split_ifs at h
    all_goals
      first
      | (cases h; exact hinv)
      | (split at h
         · cases h
         · rename_i id1 c1 k1 h1
           have hinv1 := loop_sched_rte_pick_ctx_inv _ _ _ _ _ _ h1 hinv
           cases h
           exact hinv1)

/-- The region tables are not written by `loop_sched_pick_next_ctx`. -/
theorem loop_sched_pick_next_ctx_tables (c c' : wd_sched_ctx) (key key' : Option sched_key)
    (sched_mode : Int) (pos : Nat)
    (h : loop_sched_pick_next_ctx (some c) key sched_mode = (pos, some c', key')) :
    c'.sched_info = c.sched_info := by
  cases key with
  | none =>
    simp only [loop_sched_pick_next_ctx] at h
    cases h
    rfl
  | some skey =>
    simp only [loop_sched_pick_next_ctx, session_sched_pick_next_ctx] at h
    split_ifs at h
    all_goals
      cases h
      rfl

/-- The region tables are not written by `session_sched_pick_next_ctx`. -/
theorem session_sched_pick_next_ctx_tables (c c' : wd_sched_ctx)
    (key key' : Option sched_key) (sched_mode : Int) (pos : Nat)
    (h : session_sched_pick_next_ctx (some c) key sched_mode = (pos, some c', key')) :
    c'.sched_info = c.sched_info := by
  cases key with
  | none =>
    simp only [session_sched_pick_next_ctx] at h
    cases h
    rfl
  | some skey =>
    simp only [session_sched_pick_next_ctx] at h
    split_ifs at h
    all_goals
      cases h
      rfl

/-- The region tables are not written by `loop_sched_poll_policy`. -/
theorem loop_sched_poll_policy_tables (c c' : wd_sched_ctx) (fuel NUMA_NUM_NODES expect : Nat)
    (count count' : Option poll_st) (o : outcome)
    (h : loop_sched_poll_policy fuel NUMA_NUM_NODES (some c) expect count =
      (o, some c', count')) :
    c'.sched_info = c.sched_info := by
  cases count with
  | none =>
    simp only [loop_sched_poll_policy] at h
    cases h
    rfl
  | some st =>
    simp only [loop_sched_poll_policy] at h
    split_ifs at h
    · cases h
      rfl
    · cases h
      rfl
    · have hsame := (loop_sched_poll_policy_while_idle expect fuel MAX_POLL_TIMES 0 c st
        (by decide)).2
      split at h
      · rename_i c1 st1 heq
        rw [heq] at hsame
        cases h
        exact hsame.1
      · rename_i o1 c1 st1 _ heq
        rw [heq] at hsame
        cases h
        exact hsame.1

/-- The bounds of the valid cells are kept by `wd_sched_rr_instance` when the
bounds of the call are `__u32` values. -/
theorem wd_sched_rr_instance_cursor_inv (numa_distance : Int → Int → Int)
    (s s' : wd_sched) (c c' : wd_sched_ctx) (p : sched_params) (r : Int)
    (hs : s.h_sched_ctx = some c) (hs' : s'.h_sched_ctx = some c') (hend : p.end_ < U32)
    (h : wd_sched_rr_instance numa_distance (some s) (some p) = some (r, some s'))
    (hinv : cursor_inv c.sched_info) : cursor_inv c'.sched_info := by
  rcases wd_sched_rr_instance_inv numa_distance s c p r (some s') hs h with
    ⟨_, hout⟩ | ⟨_, hbe, _, hp, info, info', numa_map, hinfo, hsw, _, hout⟩
  · cases hout
    rw [hs] at hs'
    cases hs'
    exact hinv
  · cases hout
    cases hs'
    intro ref r' hr'
    rw [rr_instance_set_read _ _ info info' p hp hinfo hsw] at hr'
    split_ifs at hr'
    · cases hr'
      intro _
      exact ⟨Nat.le_refl _, hbe, hend⟩
    · exact hinv ref r' hr'

/-- No cell of a freshly created scheduler is valid, so the bounds hold. -/
theorem wd_sched_rr_alloc_cursor_inv (numa_max_node : Int) (calloc_ok : Bool)
    (sched_type type_num numa_num : Nat) (func : Option user_poll_func) (s : wd_sched)
    (c : wd_sched_ctx)
    (h : wd_sched_rr_alloc numa_max_node calloc_ok sched_type type_num numa_num func =
      some (some s))
    (hs : s.h_sched_ctx = some c) : cursor_inv c.sched_info := by
  obtain ⟨c0, hc0, _, _, _, hcells, _⟩ := wd_sched_rr_alloc_fresh numa_max_node calloc_ok
    sched_type type_num numa_num func s h
  rw [hs] at hc0
  cases hc0
  intro ref r hr hv
  have hcell := hcells ref
  unfold cell_valid at hcell
  rw [hr] at hcell
  have hcell' : r.valid = false := hcell
  rw [hcell'] at hv
  cases hv

/-- Every call of the interface keeps the bounds of the valid cells. -/
theorem sched_step_inv (numa_distance : Int → Int → Int) (c c' : wd_sched_ctx)
    (h : sched_step numa_distance c c') (hinv : cursor_inv c.sched_info) :
    cursor_inv c'.sched_info := by
  cases h with
  | rr_instance s s' _ _ p r hs hs' hbegin hend h =>
    exact wd_sched_rr_instance_cursor_inv numa_distance s s' c c' p r hs hs' hend h hinv
  | session_init _ _ node mem sched_param res h =>
    exact session_sched_init_inv c c' node mem sched_param res h hinv
  | loop_init _ _ node mem sched_param res h =>
    exact loop_sched_init_inv c c' node mem sched_param res h hinv
  | rte_init _ node mem sched_param res h => exact hinv
  | session_pick _ _ key key' sched_mode pos h =>
    rw [session_sched_pick_next_ctx_tables c c' key key' sched_mode pos h]
    exact hinv
  | loop_pick _ _ key key' sched_mode pos h =>
    rw [loop_sched_pick_next_ctx_tables c c' key key' sched_mode pos h]
    exact hinv
  | rte_pick _ _ key key' sched_mode pos h =>
    exact loop_sched_rte_pick_next_ctx_inv c c' key key' sched_mode pos h hinv
  | session_poll _ fuel NUMA_NUM_NODES expect count count' o h => exact hinv
  | loop_poll _ _ fuel NUMA_NUM_NODES expect count count' o h =>
    rw [loop_sched_poll_policy_tables c c' fuel NUMA_NUM_NODES expect count count' o h]
    exact hinv

/-- Every reachable scheduler keeps the bounds of the valid cells. -/
theorem reachable_cursor_inv (numa_distance : Int → Int → Int) (c : wd_sched_ctx)
    (h : reachable numa_distance c) : cursor_inv c.sched_info := by
  induction h with
  | fresh numa_max_node calloc_ok sched_type type_num numa_num func s c h hs =>
    exact wd_sched_rr_alloc_cursor_inv numa_max_node calloc_ok sched_type type_num numa_num
      func s c h hs
  | step c c' _ hstep ih => exact sched_step_inv numa_distance c c' hstep ih

/-- C16: in every scheduler reachable from a freshly created one by calls of
`wd_sched_rr_instance`, of the init, pick and poll functions of the policies,
every valid cell has `begin ≤ last ≤ end`. -/
theorem reachable_cursor_in_range (numa_distance : Int → Int → Int) (c : wd_sched_ctx)
    (h : reachable numa_distance c) (ref : region_ref) (r : sched_ctx_region)
    (hr : region_read c.sched_info ref = some r) (hv : r.valid = true) :
    r.begin ≤ r.last ∧ r.last ≤ r.end_ :=
  ⟨(reachable_cursor_inv numa_distance c h ref r hr hv).1,
    (reachable_cursor_inv numa_distance c h ref r hr hv).2.1⟩

/-- The scheduler with the hardware sync region `[0, 3]`, after one
`session_sched_init`, is reachable from a fresh one. -/
theorem once_init_ctx_reachable : reachable flat_distance once_init_ctx :=
  reachable.step _ _
    (reachable.step _ _
      (reachable.fresh 0 true SCHED_POLICY_RR 1 1 none
        (sched_of (fresh_sched SCHED_POLICY_RR)) (ctx_of (fresh_sched SCHED_POLICY_RR))
        rfl rfl)
      (sched_step.rr_instance (sched_of (fresh_sched SCHED_POLICY_RR)) (sched_of once_sched)
        (ctx_of (fresh_sched SCHED_POLICY_RR)) (ctx_of once_sched)
        ⟨0, 0, SCHED_MODE_SYNC, 0, 3, UADK_CTX_HW⟩ 0 rfl rfl (by decide) (by decide) rfl))
    (sched_step.session_init (ctx_of once_sched) once_init_ctx 0 (some zero_key) none
      once_init_res rfl)

/-- C16 on the scheduler with the hardware sync region `[0, 3]` after one
`session_sched_init`: the cell is valid, its cursor has moved to 1, and
`0 ≤ 1 ≤ 3`. -/
theorem reachable_cursor_in_range_witness :
    region_read once_init_ctx.sched_info ⟨UADK_CTX_HW, 0, SCHED_MODE_SYNC, 0⟩ =
        some ⟨0, 3, 1, true⟩ ∧
      (⟨0, 3, 1, true⟩ : sched_ctx_region).begin ≤ (⟨0, 3, 1, true⟩ : sched_ctx_region).last ∧
      (⟨0, 3, 1, true⟩ : sched_ctx_region).last ≤ (⟨0, 3, 1, true⟩ : sched_ctx_region).end_ :=
  ⟨by decide,
    reachable_cursor_in_range flat_distance once_init_ctx once_init_ctx_reachable
      ⟨UADK_CTX_HW, 0, SCHED_MODE_SYNC, 0⟩ ⟨0, 3, 1, true⟩ (by decide) rfl⟩

/-! ## Init: the key that is built -/

/-- The key that `session_sched_init_ctx` leaves is the key it was given with
`mode` set. -/
theorem session_sched_init_ctx_key (c c' : wd_sched_ctx) (key key' : sched_key)
    (sched_mode : Int) (pos : Nat)
    (h : session_sched_init_ctx c key sched_mode = some (pos, c', key')) :
    key' = { key with mode := (sched_mode % 256).toNat } := by
  unfold session_sched_init_ctx at h
  simp only at h
  split_ifs at h
  · cases h
    rfl
  · split at h
    · cases h
    · cases h
      rfl
    · split at h
      · cases h
      · cases h
        rfl

/-- The key that `loop_sched_init_ctx` leaves is the key it was given with
`mode` set. -/
theorem loop_sched_init_ctx_key (c c' : wd_sched_ctx) (key key' : sched_key)
    (sched_mode : Int) (pos : Nat)
    (h : loop_sched_init_ctx c key sched_mode = some (pos, c', key')) :
    key' = { key with mode := (sched_mode % 256).toNat } := by
  unfold loop_sched_init_ctx at h
  simp only at h
  split_ifs at h
  · cases h
    rfl
  · split at h
    · cases h
    · cases h
      rfl
    · split at h
      · cases h
      · cases h
        rfl

/-- A key returned by `session_sched_init` has `numa_id = 0`. -/
theorem session_sched_init_numa_id (node : Int) (mem : Option sched_key)
    (h_sched_ctx : Option wd_sched_ctx) (sched_param : Option sched_params)
    (skey : sched_key) (out : Option wd_sched_ctx)
    (h : session_sched_init node mem h_sched_ctx sched_param = some (.ok skey, out)) :
    skey.numa_id = 0 := by
  unfold session_sched_init at h
  split_ifs at h
  · cases h
  · split at h
    · cases h
    · split at h
      · cases h
      · simp only at h
        split at h
        · cases h
        · rename_i id1 c1 k1 h1
          have hk1 := session_sched_init_ctx_key _ _ _ _ _ _ h1
          split at h
          · cases h
          · rename_i id2 c2 k2 h2
            have hk2 := session_sched_init_ctx_key _ _ _ _ _ _ h2
            split_ifs at h
            · cases h
            · cases h
              rw [hk2, hk1]

/-- A key returned by `loop_sched_init` has `numa_id = 0`. -/
theorem loop_sched_init_numa_id (node : Int) (mem : Option sched_key)
    (h_sched_ctx : Option wd_sched_ctx) (sched_param : Option sched_params)
    (skey : sched_key) (out : Option wd_sched_ctx)
    (h : loop_sched_init node mem h_sched_ctx sched_param = some (.ok skey, out)) :
    skey.numa_id = 0 := by
  unfold loop_sched_init at h
  split_ifs at h
  · cases h
  · split at h
    · cases h
    · split at h
      · cases h
      · simp only at h
        split at h
        · cases h
        · rename_i id1 c1 k1 h1
          have hk1 := loop_sched_init_ctx_key _ _ _ _ _ _ h1
          split at h
          · cases h
          · rename_i id2 c2 k2 h2
            have hk2 := loop_sched_init_ctx_key _ _ _ _ _ _ h2
            split_ifs at h
            · cases h
            · split at h
              · cases h
              · rename_i id3 c3 k3 h3
                have hk3 := loop_sched_init_ctx_key _ _ _ _ _ _ h3
                split at h
                · cases h
                · rename_i id4 c4 k4 h4
                  have hk4 := loop_sched_init_ctx_key _ _ _ _ _ _ h4
                  cases h
                  rw [hk4, hk3, hk2, hk1]

/-- A key returned by `loop_sched_rte_init` has `numa_id = 0`. -/
theorem loop_sched_rte_init_numa_id (node : Int) (mem : Option sched_key)
    (h_sched_ctx : Option wd_sched_ctx) (sched_param : Option sched_params)
    (skey : sched_key)
    (h : loop_sched_rte_init node mem h_sched_ctx sched_param = .ok skey) :
    skey.numa_id = 0 := by
  unfold loop_sched_rte_init at h
  split_ifs at h
  cases h_sched_ctx with
  | none => cases h
  | some sched_ctx =>
    cases mem with
    | none => cases h
    | some mem =>
      simp only at h
      split_ifs at h
      cases h
      rfl

/-! ## Loop policy: key resolution stays inside the tables -/

/-- On a scheduler whose cells are allocated, a node below `numa_num` exists
and its four tables hold a cell for every mode and type. -/
theorem ctx_wf_node (c : wd_sched_ctx) (hwf : ctx_wf c) (numa mode type : Nat)
    (hn : numa < c.numa_num) (hm : mode < SCHED_MODE_BUTT) (ht : type < c.type_num) :
    ∃ info, c.sched_info[numa]? = some info ∧
      ∀ prop, prop < SCHED_REGION_NUM →
        (tbl_read (info_tbl info prop) mode type).isSome = true := by
  have h0 := hwf numa hn 0 (by decide) mode hm type ht
  unfold region_read at h0
  cases hinfo : c.sched_info[numa]? with
  | none => simp [hinfo] at h0
  | some info =>
    refine ⟨info, rfl, fun prop hp => ?_⟩
    have h := hwf numa hn prop hp mode hm type ht
    unfold region_read at h
    simp only [hinfo] at h
    exact h

/-- The scan of `loop_get_ctx_range` returns on a scheduler whose cells are
allocated, and a cell it returns is a cell of a node below `numa_num`, of one
of the four tables, for the mode and the type of the key. -/
theorem loop_get_ctx_range_scan_total (c : wd_sched_ctx) (key : sched_key) (hwf : ctx_wf c)
    (hm : key.mode < SCHED_MODE_BUTT) (ht : key.type < c.type_num) (k i : Nat)
    (hk : i + k ≤ c.numa_num) :
    ∃ res, loop_get_ctx_range_scan c key k i = some res ∧
      ∀ ref, res = some ref →
        ref.numa < c.numa_num ∧ ref.prop < SCHED_REGION_NUM ∧ ref.mode = key.mode ∧
          ref.type = key.type := by
  induction k generalizing i with
  | zero => exact ⟨none, rfl, fun ref h => by cases h⟩
  | succ k ih =>
    obtain ⟨info, hinfo, _⟩ := ctx_wf_node c hwf i key.mode key.type (by omega) hm ht
    unfold loop_get_ctx_range_scan
    simp only [hinfo]
    have hi : i < c.numa_num := by omega
    split_ifs
    · exact ⟨_, rfl, fun ref h => by
        cases h
        exact ⟨hi, (by decide : UADK_CTX_HW < SCHED_REGION_NUM), rfl, rfl⟩⟩
    · exact ⟨_, rfl, fun ref h => by
        cases h
        exact ⟨hi, (by decide : UADK_CTX_CE_INS < SCHED_REGION_NUM), rfl, rfl⟩⟩
    · exact ⟨_, rfl, fun ref h => by
        cases h
        exact ⟨hi, (by decide : UADK_CTX_SVE_INS < SCHED_REGION_NUM), rfl, rfl⟩⟩
    · exact ⟨_, rfl, fun ref h => by
        cases h
        exact ⟨hi, (by decide : UADK_CTX_SOFT < SCHED_REGION_NUM), rfl, rfl⟩⟩
    · exact ih (i + 1) (by omega)

/-- One test of the first part of `loop_get_ctx_range` returns when the cell it
may read is allocated. -/
theorem loop_branch_total (flag prop_ok : Bool) (cell : Option sched_ctx_region)
    (h : cell.isSome = true) : ∃ b, loop_branch flag prop_ok cell = some b := by
  unfold loop_branch
  split_ifs
  · cases cell with
    | none => cases h
    | some region => exact ⟨_, rfl⟩
  · exact ⟨_, rfl⟩

/-- The first part of `loop_get_ctx_range` returns on a node whose cells are
allocated, and a cell it returns is a cell of the node of the key, of one of
the four tables, for the mode and the type of the key. -/
theorem loop_get_ctx_range_exact_total (info : wd_sched_info) (key : sched_key)
    (h : ∀ prop, prop < SCHED_REGION_NUM →
      (tbl_read (info_tbl info prop) key.mode key.type).isSome = true) :
    ∃ res, loop_get_ctx_range_exact info key = some res ∧
      ∀ ref, res = some ref →
        ref.numa = key.numa_id.toNat ∧ ref.prop < SCHED_REGION_NUM ∧ ref.mode = key.mode ∧
          ref.type = key.type := by
  have h0 : (tbl_read info.ctx_region key.mode key.type).isSome = true := h 0 (by decide)
  have h1 : (tbl_read info.ce_ctx_region key.mode key.type).isSome = true := h 1 (by decide)
  have h2 : (tbl_read info.sve_ctx_region key.mode key.type).isSome = true := h 2 (by decide)
  obtain ⟨b0, e0⟩ := loop_branch_total info.hw_valid (key.ctx_prop = UADK_CTX_HW) _ h0
  obtain ⟨b1, e1⟩ := loop_branch_total info.ce_valid (key.ctx_prop = UADK_CTX_CE_INS) _ h1
  obtain ⟨b2, e2⟩ := loop_branch_total info.sve_valid (key.ctx_prop = UADK_CTX_SVE_INS) _ h2
  obtain ⟨b3, e3⟩ := loop_branch_total info.soft_valid (key.ctx_prop = UADK_CTX_SOFT) _ h1
  unfold loop_get_ctx_range_exact
  rw [e0]
  cases b0
  · simp only
    rw [e1]
    cases b1
    · simp only
      rw [e2]
      cases b2
      · simp only
        rw [e3]
        cases b3
        · exact ⟨none, rfl, fun ref h => by cases h⟩
        · exact ⟨_, rfl, fun ref h => by
            cases h
            exact ⟨rfl, (by decide : UADK_CTX_CE_INS < SCHED_REGION_NUM), rfl, rfl⟩⟩
      · exact ⟨_, rfl, fun ref h => by
          cases h
          exact ⟨rfl, (by decide : UADK_CTX_SVE_INS < SCHED_REGION_NUM), rfl, rfl⟩⟩
    · exact ⟨_, rfl, fun ref h => by
        cases h
        exact ⟨rfl, (by decide : UADK_CTX_CE_INS < SCHED_REGION_NUM), rfl, rfl⟩⟩
  · exact ⟨_, rfl, fun ref h => by
      cases h
      exact ⟨rfl, (by decide : UADK_CTX_HW < SCHED_REGION_NUM), rfl, rfl⟩⟩

/-- On a scheduler whose cells are allocated, `loop_get_ctx_range` returns for
every key with `numa_id < numa_num`, `mode < 2` and `type < type_num`, and a
cell it returns is allocated. -/
theorem loop_get_ctx_range_total (c : wd_sched_ctx) (key : sched_key) (hwf : ctx_wf c)
    (hn : key.numa_id < (c.numa_num : Int)) (hm : key.mode < SCHED_MODE_BUTT)
    (ht : key.type < c.type_num) :
    ∃ res, loop_get_ctx_range c key = some res ∧
      ∀ ref, res = some ref →
        ref.mode = key.mode ∧ ref.type = key.type ∧
          (region_read c.sched_info ref).isSome = true := by
  have hcell : ∀ ref : region_ref,
      ref.numa < c.numa_num ∧ ref.prop < SCHED_REGION_NUM ∧ ref.mode = key.mode ∧
        ref.type = key.type →
      ref.mode = key.mode ∧ ref.type = key.type ∧
        (region_read c.sched_info ref).isSome = true := by
    intro ref ⟨h1, h2, h3, h4⟩
    refine ⟨h3, h4, ?_⟩
    have := hwf ref.numa h1 ref.prop h2 ref.mode (by rw [h3]; exact hm) ref.type
      (by rw [h4]; exact ht)
    exact this
  obtain ⟨sres, hscan, hsref⟩ := loop_get_ctx_range_scan_total c key hwf hm ht c.numa_num 0
    (by omega)
  unfold loop_get_ctx_range
  split_ifs with h0
  · obtain ⟨info, hinfo, hcells⟩ := ctx_wf_node c hwf key.numa_id.toNat key.mode key.type
      (by omega) hm ht
    obtain ⟨eres, hexact, heref⟩ := loop_get_ctx_range_exact_total info key hcells
    simp only [hinfo, hexact]
    cases eres with
    | none => exact ⟨sres, hscan, fun ref h => hcell ref (hsref ref h)⟩
    | some ref0 =>
      refine ⟨some ref0, rfl, fun ref h => ?_⟩
      cases h
      obtain ⟨e1, e2, e3, e4⟩ := heref ref0 rfl
      exact hcell ref0 ⟨by rw [e1]; omega, e2, e3, e4⟩
  · exact ⟨sres, hscan, fun ref h => hcell ref (hsref ref h)⟩

/-- On a scheduler whose cells are allocated, `loop_sched_rte_pick_ctx` returns
for the sync and the async mode and every key with `numa_id < numa_num` and
`type < type_num`; the key it leaves is the key it was given with `mode`
set. -/
theorem loop_sched_rte_pick_ctx_total (c : wd_sched_ctx) (key : sched_key) (sched_mode : Int)
    (hwf : ctx_wf c) (hn : key.numa_id < (c.numa_num : Int)) (ht : key.type < c.type_num)
    (hmode : sched_mode = CTX_MODE_SYNC ∨ sched_mode = CTX_MODE_ASYNC) :
    ∃ pos c', loop_sched_rte_pick_ctx c key sched_mode =
      some (pos, c', { key with mode := (sched_mode % 256).toNat }) := by
  have hm : (sched_mode % 256).toNat < SCHED_MODE_BUTT := by
    rcases hmode with h | h <;> subst h <;> decide
  obtain ⟨res, hres, href⟩ := loop_get_ctx_range_total c
    { key with mode := (sched_mode % 256).toNat } hwf hn hm ht
  unfold loop_sched_rte_pick_ctx
  simp only [hres]
  cases res with
  | none => exact ⟨_, _, rfl⟩
  | some ref =>
    obtain ⟨_, _, hsome⟩ := href ref rfl
    cases hr : region_read c.sched_info ref with
    | none => simp [hr] at hsome
    | some r =>
      obtain ⟨c', hc', _⟩ := region_next_pos_spec c ref r hr
      simp only [hc']
      exact ⟨_, _, rfl⟩

/-! ## Loop policy: async picks alternate -/

/-- Async picks in a row, from a balancer whose hardware counter is `d ≤ 1`
above the software counter, as long as no counter wraps: the picks alternate,
starting with the hardware index when `d = 0` and with the software index
when `d = 1`, and each counter goes up by the number of its picks. -/
theorem loop_picks_async (key : sched_key) (hs : key.sw_sync_ctxid ≠ INVALID_POS)
    (ha : key.sw_async_ctxid ≠ INVALID_POS) (n d : Nat) (c : wd_sched_ctx) (hd : d ≤ 1)
    (hhw : c.balancer.hw_task_num = c.balancer.sw_task_num + d)
    (hb : c.balancer.sw_task_num + d + (n + 1 - d) / 2 < U32) :
    ∃ c', loop_picks CTX_MODE_ASYNC n (some c) (some key) =
        (if d = 0 then alternating key.async_ctxid key.sw_async_ctxid n
          else alternating key.sw_async_ctxid key.async_ctxid n, some c', some key) ∧
      c'.balancer.hw_task_num = c.balancer.hw_task_num + (n + 1 - d) / 2 ∧
      c'.balancer.sw_task_num = c.balancer.sw_task_num + (n + d) / 2 := by
  have hno : ¬ (key.sw_sync_ctxid = INVALID_POS ∨ key.sw_async_ctxid = INVALID_POS) := by
    rintro (h | h)
    · exact hs h
    · exact ha h
  have hmode : ¬ CTX_MODE_ASYNC = CTX_MODE_SYNC := by decide
  induction n generalizing d c with
  | zero =>
    refine ⟨c, ?_, ?_, ?_⟩
    · simp only [loop_picks, alternating, ite_self]
    · omega
    · omega
  | succ n ih =>
    rcases Nat.le_one_iff_eq_zero_or_eq_one.mp hd with h0 | h1
    · subst h0
      have hgt : ¬ c.balancer.hw_task_num > c.balancer.sw_task_num := by omega
      have hmod : (c.balancer.hw_task_num + 1) % U32 = c.balancer.hw_task_num + 1 :=
        Nat.mod_eq_of_lt (by omega)
      have hrest : ∀ c1 : wd_sched_ctx,
          c1.balancer.hw_task_num = c.balancer.hw_task_num + 1 →
          c1.balancer.sw_task_num = c.balancer.sw_task_num →
          ∃ c', loop_picks CTX_MODE_ASYNC n (some c1) (some key) =
              (alternating key.sw_async_ctxid key.async_ctxid n, some c', some key) ∧
            c'.balancer.hw_task_num = c.balancer.hw_task_num + (n + 1 + 1 - 0) / 2 ∧
            c'.balancer.sw_task_num = c.balancer.sw_task_num + (n + 1 + 0) / 2 := by
        intro c1 e1 e2
        obtain ⟨c', hc', h1, h2⟩ := ih 1 c1 (Nat.le_refl 1) (by omega) (by omega)
        refine ⟨c', ?_, by omega, by omega⟩
        rw [hc']
        simp only [one_ne_zero, if_false]
      obtain ⟨c', hc', h1, h2⟩ := hrest
        { c with balancer :=
          { c.balancer with
            next_send_type := SCHED_SEND_HW
            hw_task_num := (c.balancer.hw_task_num + 1) % U32
            hw_dfx_num := (c.balancer.hw_dfx_num + 1) % U32 } } hmod rfl
      refine ⟨c', ?_, h1, h2⟩
      simp only [loop_picks, loop_sched_pick_next_ctx, if_neg hno, if_neg hmode, if_neg hgt,
        if_true, alternating]
      rw [hc']
    · subst h1
      have hgt : c.balancer.hw_task_num > c.balancer.sw_task_num := by omega
      have hne : ¬ SCHED_SEND_SW = SCHED_SEND_HW := by decide
      have hmod : (c.balancer.sw_task_num + 1) % U32 = c.balancer.sw_task_num + 1 :=
        Nat.mod_eq_of_lt (by omega)
      have hrest : ∀ c1 : wd_sched_ctx,
          c1.balancer.hw_task_num = c.balancer.hw_task_num →
          c1.balancer.sw_task_num = c.balancer.sw_task_num + 1 →
          ∃ c', loop_picks CTX_MODE_ASYNC n (some c1) (some key) =
              (alternating key.async_ctxid key.sw_async_ctxid n, some c', some key) ∧
            c'.balancer.hw_task_num = c.balancer.hw_task_num + (n + 1 + 1 - 1) / 2 ∧
            c'.balancer.sw_task_num = c.balancer.sw_task_num + (n + 1 + 1) / 2 := by
        intro c1 e1 e2
        obtain ⟨c', hc', h1, h2⟩ := ih 0 c1 (Nat.zero_le 1) (by omega) (by omega)
        refine ⟨c', ?_, by omega, by omega⟩
        rw [hc']
        simp only [if_true]
      obtain ⟨c', hc', h1, h2⟩ := hrest
        { c with balancer :=
          { c.balancer with
            next_send_type := SCHED_SEND_SW
            sw_task_num := (c.balancer.sw_task_num + 1) % U32
            sw_dfx_num := (c.balancer.sw_dfx_num + 1) % U32 } } rfl hmod
      refine ⟨c', ?_, h1, h2⟩
      simp only [loop_picks, loop_sched_pick_next_ctx, if_neg hno, if_neg hmode, if_pos hgt,
        if_neg hne, alternating, one_ne_zero, if_false]
      rw [hc']

/-- C28, as long as no counter wraps: from a balancer with
`hw_task_num = sw_task_num`, `n` async picks of `loop_sched_pick_next_ctx` in
a row, on a key whose software indices are valid and with
`hw_task_num + ⌈n / 2⌉ < 2 ^ 32`, return the hardware index, the software
index, the hardware index, and so on; afterwards `hw_task_num` is
`sw_task_num` or `sw_task_num + 1`.  The bound holds for every shorter
sequence as well, so this is the state after every call. -/
theorem loop_async_picks_alternate (n : Nat) (c : wd_sched_ctx) (key : sched_key)
    (hs : key.sw_sync_ctxid ≠ INVALID_POS) (ha : key.sw_async_ctxid ≠ INVALID_POS)
    (hhw : c.balancer.hw_task_num = c.balancer.sw_task_num)
    (hb : c.balancer.hw_task_num + (n + 1) / 2 < U32) :
    ∃ c', loop_picks CTX_MODE_ASYNC n (some c) (some key) =
        (alternating key.async_ctxid key.sw_async_ctxid n, some c', some key) ∧
      c'.balancer.sw_task_num ≤ c'.balancer.hw_task_num ∧
      c'.balancer.hw_task_num ≤ c'.balancer.sw_task_num + 1 := by
  obtain ⟨c', hc', h1, h2⟩ := loop_picks_async key hs ha n 0 c (Nat.zero_le 1)
    (by omega) (by omega)
  refine ⟨c', ?_, ?_, ?_⟩
  · rw [hc']
    simp only [if_true]
  · omega
  · omega

/-- C28 on a fresh loop scheduler, for five picks: hardware, software,
hardware, software, hardware. -/
theorem loop_async_picks_alternate_witness :
    ∃ c', loop_picks CTX_MODE_ASYNC 5 (some (ctx_of (fresh_sched SCHED_POLICY_LOOP)))
          (some demo_key) =
        (alternating demo_key.async_ctxid demo_key.sw_async_ctxid 5, some c',
          some demo_key) ∧
      c'.balancer.sw_task_num ≤ c'.balancer.hw_task_num ∧
      c'.balancer.hw_task_num ≤ c'.balancer.sw_task_num + 1 :=
  loop_async_picks_alternate 5 (ctx_of (fresh_sched SCHED_POLICY_LOOP)) demo_key (by decide)
    (by decide) (by decide) (by decide)

/-- C28 as stated fails: from a balancer with
`hw_task_num = sw_task_num = 2 ^ 32 - 1`, the first async pick is a hardware
pick that wraps `hw_task_num` to 0, so the second pick is a hardware pick as
well, and after the first call `hw_task_num` is `2 ^ 32 - 1` below
`sw_task_num`. -/
theorem loop_async_picks_counterexample :
    full_ctx.balancer.hw_task_num = full_ctx.balancer.sw_task_num ∧
      (loop_picks CTX_MODE_ASYNC 2 (some full_ctx) (some demo_key)).1 =
        [demo_key.async_ctxid, demo_key.async_ctxid] ∧
      demo_key.async_ctxid ≠ demo_key.sw_async_ctxid ∧
      ((loop_sched_pick_next_ctx (some full_ctx) (some demo_key) CTX_MODE_ASYNC).2.1.map
        (fun c => (c.balancer.hw_task_num, c.balancer.sw_task_num))) =
        some (0, 4294967295) := by
  decide

/-! ## The policies without region tables: the poll of one context -/

/-- The loop of `sched_none_poll_policy` and of `sched_single_poll_policy`
probes `pos` only, at most `loop_times` times, stops at a fatal status, which
it returns, returns 0 otherwise, and stops at the first check that did not
report try-again and left `*count` equal to `expect`. -/
theorem sched_fixed_poll_loop_spec (poll_func : user_poll_func) (pos expect : Nat)
    (loop_times poll_num : Nat) (st : poll_st) :
    ∃ new, (sched_fixed_poll_loop poll_func pos expect loop_times poll_num st).2.log =
        st.log ++ new ∧
      (∀ e ∈ new, e.pos = pos) ∧ new.length ≤ loop_times ∧
      (∀ e rest, new = e :: rest → e.count = st.count) ∧
      (∀ pre e post, new = pre ++ e :: post → fatal e.ret →
        post = [] ∧
          (sched_fixed_poll_loop poll_func pos expect loop_times poll_num st).1 = e.ret) ∧
      ((∀ e ∈ new, ¬ fatal e.ret) →
        (sched_fixed_poll_loop poll_func pos expect loop_times poll_num st).1 = 0) ∧
      (∀ pre e e' post, new = pre ++ e :: e' :: post →
        e.ret = -EAGAIN ∨ e'.count ≠ expect) := by
  induction loop_times generalizing poll_num st with
  | zero =>
    refine ⟨[], by simp [sched_fixed_poll_loop], ?_, ?_, ?_, ?_, ?_, ?_⟩
    · intro e he
      cases he
    · exact Nat.le_refl _
    · intro e rest h
      cases h
    · intro pre e post h
      cases pre <;> cases h
    · intro _
      rfl
    · intro pre e e' post h
      cases pre <;> cases h
  | succ n ih =>
    have hone : ∀ (ev : poll_event) (pre : List poll_event) (e : poll_event)
        (post : List poll_event), [ev] = pre ++ e :: post → pre = [] ∧ e = ev ∧ post = [] := by
      intro ev pre e post h
      cases pre with
      | nil =>
        simp only [List.nil_append, List.cons.injEq] at h
        exact ⟨rfl, h.1.symm, h.2.symm⟩
      | cons x pre' =>
        simp only [List.cons_append, List.cons.injEq] at h
        cases pre' <;> cases h.2
    have htwo : ∀ (ev : poll_event) (pre : List poll_event) (e e' : poll_event)
        (post : List poll_event), [ev] ≠ pre ++ e :: e' :: post := by
      intro ev pre e e' post h
      have := congrArg List.length h
      simp at this
      omega
    unfold sched_fixed_poll_loop
    simp only
    generalize poll_func (List.map poll_event.pos st.log) pos 1 = r
    split_ifs with hfatal heagain hhit
    · refine ⟨[⟨pos, st.count, r.1, r.2⟩], rfl, ?_, ?_, ?_, ?_, ?_, ?_⟩
      · intro e he
        simp only [List.mem_singleton] at he
        rw [he]
      · simp
      · intro e rest h
        cases h
        rfl
      · intro pre e post h _
        obtain ⟨_, he, hpost⟩ := hone _ pre e post h
        exact ⟨hpost, by rw [he]⟩
      · intro hno
        exact absurd hfatal (hno _ (List.mem_singleton.mpr rfl))
      · intro pre e e' post h
        exact absurd h (htwo _ pre e e' post)
    · obtain ⟨new', hlog, hpos, hlen, hfirst, hfat, hzero, hstop⟩ := ih
        (match r.2 with
          | some n => n
          | none => poll_num)
        { st with log := st.log ++ [⟨pos, st.count, r.1, r.2⟩] }
      refine ⟨⟨pos, st.count, r.1, r.2⟩ :: new', ?_, ?_, ?_, ?_, ?_, ?_, ?_⟩
      · rw [hlog]
        simp
      · intro e he
        rcases List.mem_cons.mp he with h | h
        · rw [h]
        · exact hpos e h
      · simp only [List.length_cons]
        omega
      · intro e rest h
        cases h
        rfl
      · intro pre e post h hf
        cases pre with
        | nil =>
          simp only [List.nil_append, List.cons.injEq] at h
          rw [← h.1] at hf
          exact absurd heagain hf.2
        | cons x pre' =>
          simp only [List.cons_append, List.cons.injEq] at h
          exact hfat pre' e post h.2 hf
      · intro hno
        exact hzero (fun e he => hno e (List.mem_cons_of_mem _ he))
      · intro pre e e' post h
        cases pre with
        | nil =>
          simp only [List.nil_append, List.cons.injEq] at h
          rw [← h.1]
          exact Or.inl heagain
        | cons x pre' =>
          simp only [List.cons_append, List.cons.injEq] at h
          exact hstop pre' e e' post h.2
    · refine ⟨[⟨pos, st.count, r.1, r.2⟩], rfl, ?_, ?_, ?_, ?_, ?_, ?_⟩
      · intro e he
        simp only [List.mem_singleton] at he
        rw [he]
      · simp
      · intro e rest h
        cases h
        rfl
      · intro pre e post h hf
        obtain ⟨_, he, hpost⟩ := hone _ pre e post h
        rw [he] at hf
        exact absurd hf hfatal
      · intro _
        rfl
      · intro pre e e' post h
        exact absurd h (htwo _ pre e e' post)
    · obtain ⟨new', hlog, hpos, hlen, hfirst, hfat, hzero, hstop⟩ := ih
        (match r.2 with
          | some n => n
          | none => poll_num)
        { st with
          log := st.log ++ [⟨pos, st.count, r.1, r.2⟩],
          count := (st.count +
            (match r.2 with
              | some n => n
              | none => poll_num)) % U32 }
      refine ⟨⟨pos, st.count, r.1, r.2⟩ :: new', ?_, ?_, ?_, ?_, ?_, ?_, ?_⟩
      · rw [hlog]
        simp
      · intro e he
        rcases List.mem_cons.mp he with h | h
        · rw [h]
        · exact hpos e h
      · simp only [List.length_cons]
        omega
      · intro e rest h
        cases h
        rfl
      · intro pre e post h hf
        cases pre with
        | nil =>
          simp only [List.nil_append, List.cons.injEq] at h
          rw [← h.1] at hf
          exact absurd hf hfatal
        | cons x pre' =>
          simp only [List.cons_append, List.cons.injEq] at h
          exact hfat pre' e post h.2 hf
      · intro hno
        exact hzero (fun e he => hno e (List.mem_cons_of_mem _ he))
      · intro pre e e' post h
        cases pre with
        | nil =>
          simp only [List.nil_append, List.cons.injEq] at h
          right
          rw [hfirst e' post h.2]
          exact hhit
        | cons x pre' =>
          simp only [List.cons_append, List.cons.injEq] at h
          exact hstop pre' e e' post h.2

/-! ## Loop policy: the counters of outstanding tasks after a polling pass -/

/-- C23 fails on the code: on node 0 with the hardware async region `[4, 4]` and
the crypto-engine async region `[5, 5]`, one hardware and one software task
outstanding, `*count = 0`, `expect = 2` and one item reported per call, a
pass of `loop_poll_policy_rr` makes one check on each path (context 4, then
context 5) and returns 0 with `*count = 2`; `hw_task_num` goes from 1 to 0,
but `sw_task_num` goes from 1 to `2 ^ 32 - 1`: it is decreased by `*count`,
which is 2 by then, not by the one completion of its path. -/
theorem loop_poll_policy_rr_subtracts_count :
    loop_two_path_ctx.balancer.hw_task_num = 1 ∧
      loop_two_path_ctx.balancer.sw_task_num = 1 ∧
      (loop_poll_policy_rr 10 loop_two_path_ctx 0 2 poll_start).1 = .ret 0 ∧
      probes (some (loop_poll_policy_rr 10 loop_two_path_ctx 0 2 poll_start).2.2) =
        [(4, 0), (5, 1)] ∧
      (loop_poll_policy_rr 10 loop_two_path_ctx 0 2 poll_start).2.2.count = 2 ∧
      (loop_poll_policy_rr 10 loop_two_path_ctx 0 2 poll_start).2.1.balancer.hw_task_num =
        0 ∧
      (loop_poll_policy_rr 10 loop_two_path_ctx 0 2 poll_start).2.1.balancer.sw_task_num =
        4294967295 := by
  decide

/-! ## Completion poller: the sweep of one region -/

/-- For a region that ends below the last `__u32` index, the loop of
`session_poll_region` returns, whatever the completion check reports: it has
probed every context from `i` to `end`, once each and in order, and returns
0, unless a check had a fatal status or `*count` is `expect` at the end. -/
theorem session_poll_region_loop_sweep (poll_func : user_poll_func) (end_ expect n : Nat)
    (fuel i poll_num : Nat) (st : poll_st) (hn : n = end_ + 1 - i) (hend : end_ + 1 < U32)
    (hfuel : n < fuel) :
    ∃ new, (session_poll_region_loop poll_func end_ expect fuel i poll_num st).2.log =
        st.log ++ new ∧
      (((session_poll_region_loop poll_func end_ expect fuel i poll_num st).1 = .ret 0 ∧
          new.map poll_event.pos = List.range' i n) ∨
        (∃ e ∈ new, fatal e.ret) ∨
        (session_poll_region_loop poll_func end_ expect fuel i poll_num st).2.count =
          expect) := by
  induction n generalizing fuel i poll_num st with
  | zero =>
    obtain ⟨f, rfl⟩ : ∃ f, fuel = f + 1 := ⟨fuel - 1, by omega⟩
    have hi : ¬ i ≤ end_ := by omega
    refine ⟨[], ?_, Or.inl ⟨?_, rfl⟩⟩
    · simp only [session_poll_region_loop, if_neg hi, List.append_nil]
    · simp only [session_poll_region_loop, if_neg hi]
  | succ n ih =>
    obtain ⟨f, rfl⟩ : ∃ f, fuel = f + 1 := ⟨fuel - 1, by omega⟩
    have hi : i ≤ end_ := by omega
    have hmod : (i + 1) % U32 = i + 1 := Nat.mod_eq_of_lt (by omega)
    have hrange : List.range' i (n + 1) = i :: List.range' (i + 1) n := rfl
    unfold session_poll_region_loop
    simp only [if_pos hi, hmod]
    generalize poll_func (List.map poll_event.pos st.log) i 1 = r
    split_ifs with hfatal heagain hhit
    · exact ⟨[⟨i, st.count, r.1, r.2⟩], rfl,
        Or.inr (Or.inl ⟨_, List.mem_singleton.mpr rfl, hfatal⟩)⟩
    · obtain ⟨new', hlog, hres⟩ := ih f (i + 1)
        (match r.2 with
          | some n => n
          | none => poll_num)
        { st with log := st.log ++ [⟨i, st.count, r.1, r.2⟩] } (by omega) (by omega)
      refine ⟨⟨i, st.count, r.1, r.2⟩ :: new', ?_, ?_⟩
      · rw [hlog]
        simp
      · rcases hres with ⟨h1, h2⟩ | ⟨e, he, hf⟩ | h
        · exact Or.inl ⟨h1, by rw [List.map_cons, h2, hrange]⟩
        · exact Or.inr (Or.inl ⟨e, List.mem_cons_of_mem _ he, hf⟩)
        · exact Or.inr (Or.inr h)
    · exact ⟨[⟨i, st.count, r.1, r.2⟩], rfl, Or.inr (Or.inr hhit)⟩
    · obtain ⟨new', hlog, hres⟩ := ih f (i + 1)
        (match r.2 with
          | some n => n
          | none => poll_num)
        { st with
          log := st.log ++ [⟨i, st.count, r.1, r.2⟩],
          count := (st.count +
            (match r.2 with
              | some n => n
              | none => poll_num)) % U32 } (by omega) (by omega)
      refine ⟨⟨i, st.count, r.1, r.2⟩ :: new', ?_, ?_⟩
      · rw [hlog]
        simp
      · rcases hres with ⟨h1, h2⟩ | ⟨e, he, hf⟩ | h
        · exact Or.inl ⟨h1, by rw [List.map_cons, h2, hrange]⟩
        · exact Or.inr (Or.inl ⟨e, List.mem_cons_of_mem _ he, hf⟩)
        · exact Or.inr (Or.inr h)

/-- For every `begin ≤ end < 2 ^ 32 - 1`, when no completion check reports a
fatal status and `*count` is not `expect` at the end, `session_poll_region`
has made one completion check for each context of `[begin, end]`, in
ascending order, and returns 0. -/
theorem session_poll_region_sweep (fuel : Nat) (sched_ctx : wd_sched_ctx)
    (poll_func : user_poll_func) (begin end_ expect : Nat) (st : poll_st)
    (hpf : sched_ctx.poll_func = some poll_func) (hbe : begin ≤ end_)
    (hend : end_ + 1 < U32) (hfuel : end_ + 1 - begin < fuel) :
    ∃ new, (session_poll_region fuel sched_ctx begin end_ expect st).2.log = st.log ++ new ∧
      ((∀ e ∈ new, ¬ fatal e.ret) →
        (session_poll_region fuel sched_ctx begin end_ expect st).2.count ≠ expect →
        (session_poll_region fuel sched_ctx begin end_ expect st).1 = .ret 0 ∧
          new.map poll_event.pos = List.range' begin (end_ - begin + 1)) := by
  obtain ⟨new, hlog, hres⟩ := session_poll_region_loop_sweep poll_func end_ expect
    (end_ + 1 - begin) fuel begin 0 st rfl hend hfuel
  simp only [session_poll_region, hpf]
  refine ⟨new, hlog, fun hnf hne => ?_⟩
  rcases hres with ⟨h1, h2⟩ | ⟨e, he, hf⟩ | h
  · exact ⟨h1, by rw [h2, show end_ + 1 - begin = end_ - begin + 1 by omega]⟩
  · exact absurd hf (hnf e he)
  · exact absurd h hne

/-- With a region that ends at the last `__u32` index and a completion check
that always reports try-again, the loop of `session_poll_region` uses up
every allowance of rounds. -/
theorem session_poll_region_loop_wraps (expect : Nat) (fuel i poll_num : Nat) (st : poll_st)
    (hi : i < U32) :
    (session_poll_region_loop poll_eagain 4294967295 expect fuel i poll_num st).1 =
      .fuel_out := by
  induction fuel generalizing i poll_num st with
  | zero => rfl
  | succ f ih =>
    have hle : i ≤ 4294967295 := by
      unfold U32 at hi
      omega
    have hnf : ¬ ((poll_eagain (List.map poll_event.pos st.log) i 1).1 < 0 ∧
        (poll_eagain (List.map poll_event.pos st.log) i 1).1 ≠ -EAGAIN) :=
      fun h => h.2 rfl
    have hea : (poll_eagain (List.map poll_event.pos st.log) i 1).1 = -EAGAIN := rfl
    unfold session_poll_region_loop
    simp only [if_pos hle]
    rw [if_neg hnf, if_pos hea]
    exact ih _ _ _ (Nat.mod_lt _ (by decide))

/-- C26 fails on the code for `end = 2 ^ 32 - 1`: with `begin = end = 2 ^ 32 - 1`,
`expect = 1`, `*count = 0` and a completion check that always reports
try-again, no check is fatal and `*count` stays 0, yet `session_poll_region`
does not return after the one check of `[begin, end]`: whatever the number of
rounds allowed, the loop is still running, and its first four checks are of
the contexts `2 ^ 32 - 1`, 0, 1 and 2. -/
theorem session_poll_region_wraps :
    (∀ fuel, (session_poll_region fuel (with_poll (ctx_of top_sched) poll_eagain)
        4294967295 4294967295 1 poll_start).1 = .fuel_out) ∧
      positions (session_poll_region 4 (with_poll (ctx_of top_sched) poll_eagain)
        4294967295 4294967295 1 poll_start).2 = [4294967295, 0, 1, 2] ∧
      (session_poll_region 4 (with_poll (ctx_of top_sched) poll_eagain)
        4294967295 4294967295 1 poll_start).2.count = 0 := by
  refine ⟨fun fuel => ?_, by decide, by decide⟩
  exact session_poll_region_loop_wraps 1 fuel 4294967295 0 poll_start (by decide)

/-! ## The flags of the nodes: theorems -/

/-- The `switch` of `wd_sched_rr_instance` leaves the flags of the other path
kinds as they are. -/
theorem rr_instance_switch_flags (info info' : wd_sched_info) (prop mode type : Nat)
    (param : sched_params) (hprop : prop ≤ UADK_CTX_SOFT)
    (h : rr_instance_switch info prop mode type param = some info') (q : Nat)
    (hq : q ≠ prop) : path_flag info' q = path_flag info q := by
  have h4 : prop = 0 ∨ prop = 1 ∨ prop = 2 ∨ prop = 3 := by
    unfold UADK_CTX_SOFT at hprop
    omega
  unfold rr_instance_switch at h
  rcases h4 with hp | hp | hp | hp <;> subst hp <;>
    simp only [UADK_CTX_HW, UADK_CTX_CE_INS, UADK_CTX_SVE_INS, UADK_CTX_SOFT,
      if_true, OfNat.ofNat_ne_zero, OfNat.zero_ne_ofNat, if_false, Nat.reduceEqDiff,
      Nat.succ_ne_self, OfNat.ofNat_ne_one, OfNat.one_ne_ofNat, one_ne_zero, zero_ne_one] at h
  all_goals
    split at h
    · cases h
    · injection h with h
      subst h
      simp only [path_flag, UADK_CTX_HW, UADK_CTX_CE_INS, UADK_CTX_SVE_INS, UADK_CTX_SOFT]
      split_ifs <;> first | rfl | omega

/-- A node without a flag and without a valid cell satisfies `flags_inv`. -/
theorem flags_inv_of_clear (info : wd_sched_info) (hnm : info.nm_valid = false)
    (hhw : info.hw_valid = false) (hce : info.ce_valid = false)
    (hsve : info.sve_valid = false) (hsoft : info.soft_valid = false)
    (hcells : ∀ prop mode type r, tbl_read (info_tbl info prop) mode type = some r →
      r.valid = false) : flags_inv info := by
  have hflag : ∀ prop, path_flag info prop = false := by
    intro prop
    unfold path_flag
    split_ifs <;> first | assumption | rfl
  refine ⟨?_, ?_⟩
  · rw [hnm]
    constructor
    · intro h
      cases h
    · rintro ⟨prop, _, h⟩
      rw [hflag prop] at h
      cases h
  · intro prop _
    rw [hflag prop]
    constructor
    · intro h
      cases h
    · rintro ⟨mode, type, r, hr, hv⟩
      rw [hcells prop mode type r hr] at hv
      cases hv

/-- Every node of a scheduler reached by calls of `wd_sched_rr_instance`
satisfies `flags_inv`. -/
theorem registered_flags_inv (numa_distance : Int → Int → Int) (c : wd_sched_ctx)
    (h : registered numa_distance c) :
    ∀ (j : Nat) (info : wd_sched_info), c.sched_info[j]? = some info → flags_inv info := by
  induction h with
  | fresh numa_max_node calloc_ok sched_type type_num numa_num func s c h hs =>
    obtain ⟨c0, hc0, _, _, _, hcells, hflags, _⟩ := wd_sched_rr_alloc_fresh numa_max_node
      calloc_ok sched_type type_num numa_num func s h
    rw [hs] at hc0
    cases hc0
    intro j info hj
    obtain ⟨h1, h2, h3, h4, h5⟩ := hflags j info hj
    refine flags_inv_of_clear info h1 h2 h3 h4 h5 ?_
    intro prop mode type r hr
    have hcell := hcells ⟨prop, j, mode, type⟩
    unfold cell_valid region_read at hcell
    simp only [hj, hr] at hcell
    exact hcell
  | rr_instance s s' c c' p r _ hs hs' hcall ih =>
    rcases wd_sched_rr_instance_inv numa_distance s c p r (some s') hs hcall with
      ⟨_, hout⟩ | ⟨_, _, _, hp, info, info', numa_map, hinfo, hsw, _, hout⟩
    · cases hout
      rw [hs] at hs'
      cases hs'
      exact ih
    · cases hout
      cases hs'
      intro j infoj hj
      have hn : p.numa_id.toNat < c.sched_info.length := (List.getElem?_eq_some.mp hinfo).1
      by_cases hjn : j = p.numa_id.toNat
      · subst hjn
        have hj' : (c.sched_info.set p.numa_id.toNat { info' with nm_valid := true })[
            p.numa_id.toNat]? = some infoj := hj
        rw [List.getElem?_set_self hn] at hj'
        cases hj'
        obtain ⟨⟨tbl, htbl, htbls⟩, hflag⟩ :=
          rr_instance_switch_spec info info' p.ctx_prop p.mode p.type p hp hsw
        obtain ⟨_, hold⟩ := ih p.numa_id.toNat info hinfo
        have hlt : p.ctx_prop < SCHED_REGION_NUM := by
          unfold UADK_CTX_SOFT at hp
          unfold SCHED_REGION_NUM
          omega
        refine ⟨⟨fun _ => ⟨p.ctx_prop, hlt, hflag⟩, fun _ => rfl⟩, ?_⟩
        intro prop hprop
        by_cases hpp : prop = p.ctx_prop
        · subst hpp
          refine ⟨fun _ => ⟨p.mode, p.type, ⟨p.begin, p.end_, p.begin, true⟩, ?_, rfl⟩,
            fun _ => hflag⟩
          show tbl_read (info_tbl info' p.ctx_prop) p.mode p.type = _
          rw [htbls, if_pos rfl, tbl_read_write _ _ _ _ _ htbl, if_pos ⟨rfl, rfl⟩]
        · have hf : path_flag { info' with nm_valid := true } prop = path_flag info prop :=
            rr_instance_switch_flags info info' p.ctx_prop p.mode p.type p hp hsw prop hpp
          have ht : info_tbl { info' with nm_valid := true } prop = info_tbl info prop := by
            show info_tbl info' prop = _
            rw [htbls, if_neg hpp]
          rw [hf]
          unfold table_has_valid
          rw [ht]
          exact hold prop hprop
      · have hj' : (c.sched_info.set p.numa_id.toNat { info' with nm_valid := true })[j]? =
            some infoj := hj
        rw [List.getElem?_set_ne (Ne.symm hjn)] at hj'
        exact ih j infoj hj'

/-- C29: in every scheduler reached from a freshly created one by calls of
`wd_sched_rr_instance`, for every node, `nm_valid` is set if and only if one
of `hw_valid`, `ce_valid`, `sve_valid` and `soft_valid` is set, and each of
these four flags is set if and only if a cell of the table of its path on
that node has `valid = true`. -/
theorem registered_flags (numa_distance : Int → Int → Int) (c : wd_sched_ctx)
    (h : registered numa_distance c) (j : Nat) (info : wd_sched_info)
    (hj : c.sched_info[j]? = some info) :
    (info.nm_valid = true ↔
        info.hw_valid = true ∨ info.ce_valid = true ∨ info.sve_valid = true ∨
          info.soft_valid = true) ∧
      (info.hw_valid = true ↔ table_has_valid info UADK_CTX_HW) ∧
      (info.ce_valid = true ↔ table_has_valid info UADK_CTX_CE_INS) ∧
      (info.sve_valid = true ↔ table_has_valid info UADK_CTX_SVE_INS) ∧
      (info.soft_valid = true ↔ table_has_valid info UADK_CTX_SOFT) := by
  obtain ⟨hnm, hpath⟩ := registered_flags_inv numa_distance c h j info hj
  refine ⟨?_, hpath UADK_CTX_HW (by decide), hpath UADK_CTX_CE_INS (by decide),
    hpath UADK_CTX_SVE_INS (by decide), hpath UADK_CTX_SOFT (by decide)⟩
  rw [hnm]
  constructor
  · rintro ⟨prop, hlt, hf⟩
    have h4 : prop = 0 ∨ prop = 1 ∨ prop = 2 ∨ prop = 3 := by
      unfold SCHED_REGION_NUM at hlt
      omega
    rcases h4 with hp | hp | hp | hp <;> subst hp
    · exact Or.inl hf
    · exact Or.inr (Or.inl hf)
    · exact Or.inr (Or.inr (Or.inl hf))
    · exact Or.inr (Or.inr (Or.inr hf))
  · rintro (h | h | h | h)
    · exact ⟨UADK_CTX_HW, by decide, h⟩
    · exact ⟨UADK_CTX_CE_INS, by decide, h⟩
    · exact ⟨UADK_CTX_SVE_INS, by decide, h⟩
    · exact ⟨UADK_CTX_SOFT, by decide, h⟩

/-- The loop scheduler with the crypto-engine sync region `[4, 7]` and the
software-fallback sync region `[8, 11]` is reached from a fresh one by two
calls of `wd_sched_rr_instance`. -/
theorem loop_ce_soft_sched_registered :
    registered flat_distance (ctx_of loop_ce_soft_sched) :=
  registered.rr_instance
    (sched_of (register (fresh_sched SCHED_POLICY_LOOP)
      ⟨0, 0, SCHED_MODE_SYNC, 4, 7, UADK_CTX_CE_INS⟩))
    (sched_of loop_ce_soft_sched)
    (ctx_of (register (fresh_sched SCHED_POLICY_LOOP)
      ⟨0, 0, SCHED_MODE_SYNC, 4, 7, UADK_CTX_CE_INS⟩))
    (ctx_of loop_ce_soft_sched) ⟨0, 0, SCHED_MODE_SYNC, 8, 11, UADK_CTX_SOFT⟩ 0
    (registered.rr_instance (sched_of (fresh_sched SCHED_POLICY_LOOP))
      (sched_of (register (fresh_sched SCHED_POLICY_LOOP)
        ⟨0, 0, SCHED_MODE_SYNC, 4, 7, UADK_CTX_CE_INS⟩))
      (ctx_of (fresh_sched SCHED_POLICY_LOOP))
      (ctx_of (register (fresh_sched SCHED_POLICY_LOOP)
        ⟨0, 0, SCHED_MODE_SYNC, 4, 7, UADK_CTX_CE_INS⟩))
      ⟨0, 0, SCHED_MODE_SYNC, 4, 7, UADK_CTX_CE_INS⟩ 0
      (registered.fresh 0 true SCHED_POLICY_LOOP 1 1 none
        (sched_of (fresh_sched SCHED_POLICY_LOOP)) (ctx_of (fresh_sched SCHED_POLICY_LOOP))
        rfl rfl)
      rfl rfl rfl)
    rfl rfl rfl

/-- C29 on node 0 of the loop scheduler with the crypto-engine sync region
`[4, 7]` and the software-fallback sync region `[8, 11]`: `nm_valid`,
`ce_valid` and `soft_valid` are set, `hw_valid` and `sve_valid` are not. -/
theorem registered_flags_witness :
    (ctx_of loop_ce_soft_sched).sched_info[0]? = some ce_soft_node ∧
      (ce_soft_node.nm_valid, ce_soft_node.hw_valid, ce_soft_node.ce_valid,
        ce_soft_node.sve_valid, ce_soft_node.soft_valid) =
        (true, false, true, false, true) ∧
      ((ce_soft_node.nm_valid = true ↔
          ce_soft_node.hw_valid = true ∨ ce_soft_node.ce_valid = true ∨
            ce_soft_node.sve_valid = true ∨ ce_soft_node.soft_valid = true) ∧
        (ce_soft_node.hw_valid = true ↔ table_has_valid ce_soft_node UADK_CTX_HW) ∧
        (ce_soft_node.ce_valid = true ↔ table_has_valid ce_soft_node UADK_CTX_CE_INS) ∧
        (ce_soft_node.sve_valid = true ↔ table_has_valid ce_soft_node UADK_CTX_SVE_INS) ∧
        (ce_soft_node.soft_valid = true ↔ table_has_valid ce_soft_node UADK_CTX_SOFT)) :=
  ⟨rfl, by decide,
    registered_flags flat_distance (ctx_of loop_ce_soft_sched) loop_ce_soft_sched_registered
      0 ce_soft_node rfl⟩

/-! ## Loop policy: the software pair of the key -/

/-- The relation `same_shape` is reflexive. -/
theorem same_shape_refl (c : wd_sched_ctx) : same_shape c c :=
  ⟨rfl, rfl, fun _ => rfl, fun _ => rfl⟩

/-- The relation `same_shape` is transitive. -/
theorem same_shape_trans (a b c : wd_sched_ctx) (h1 : same_shape a b)
    (h2 : same_shape b c) : same_shape a c :=
  ⟨h2.1.trans h1.1, h2.2.1.trans h1.2.1, fun ref => (h2.2.2.1 ref).trans (h1.2.2.1 ref),
    fun j => (h2.2.2.2 j).trans (h1.2.2.2 j)⟩

/-- The flags of a node are not in its tables. -/
theorem node_flags_set_tbl (info : wd_sched_info) (prop : Nat) (tbl : region_tbl) :
    node_flags (info_set_tbl info prop tbl) = node_flags info := by
  unfold info_set_tbl
  split_ifs <;> rfl

/-- A write through a pointer leaves the flags of every node as they are. -/
theorem region_write_flags (sched_info sched_info' : List wd_sched_info) (ref : region_ref)
    (r : sched_ctx_region) (h : region_write sched_info ref r = some sched_info') (j : Nat) :
    (sched_info'[j]?).map node_flags = (sched_info[j]?).map node_flags := by
  unfold region_write at h
  split at h
  · rename_i info hinfo
    split at h
    · rename_i tbl htbl
      injection h with h
      subst h
      have hn : ref.numa < sched_info.length := (List.getElem?_eq_some.mp hinfo).1
      by_cases hj : j = ref.numa
      · subst hj
        rw [List.getElem?_set_self hn, hinfo]
        simp only [Option.map_some', node_flags_set_tbl]
      · rw [List.getElem?_set_ne (Ne.symm hj)]
    · cases h
  · cases h

/-- A call of the allocator through a pointer moves a cursor and nothing
else. -/
theorem region_next_pos_shape (c c' : wd_sched_ctx) (ref : region_ref) (pos : Nat)
    (h : region_next_pos c ref = some (pos, c')) : same_shape c c' := by
  unfold region_next_pos at h
  split at h
  · cases h
  · rename_i region hregion
    split at h
    · cases h
    · rename_i sched_info hwrite
      cases h
      refine ⟨rfl, rfl, fun ref' => ?_, fun j => region_write_flags _ _ _ _ hwrite j⟩
      show (region_read sched_info ref').map cell_shape = _
      rw [region_read_write _ _ _ _ hwrite ref']
      split_ifs with href
      · rw [href, hregion]
        simp only [Option.map_some', cell_shape, sched_get_next_pos_rr]
        split_ifs <;> rfl
      · rfl

/-- The call `loop_sched_init_ctx` moves a cursor at most. -/
theorem loop_sched_init_ctx_shape (c c' : wd_sched_ctx) (key key' : sched_key)
    (sched_mode : Int) (pos : Nat)
    (h : loop_sched_init_ctx c key sched_mode = some (pos, c', key')) : same_shape c c' := by
  unfold loop_sched_init_ctx at h
  simp only at h
  split_ifs at h
  · cases h
    exact same_shape_refl c
  · split at h
    · cases h
    · cases h
      exact same_shape_refl c
    · rename_i ref _
      split at h
      · cases h
      · rename_i pos2 c2 hnext
        cases h
        exact region_next_pos_shape c _ ref _ hnext

/-- For a key that `sched_key_valid` rejects, `loop_sched_init_ctx` returns
`INVALID_POS`. -/
theorem loop_sched_init_ctx_invalid (c c' : wd_sched_ctx) (key key' : sched_key)
    (sched_mode : Int) (pos : Nat)
    (h : loop_sched_init_ctx c key sched_mode = some (pos, c', key'))
    (hv : sched_key_valid c { key with mode := (sched_mode % 256).toNat } = false) :
    pos = INVALID_POS := by
  unfold loop_sched_init_ctx at h
  simp only [hv, Bool.not_false, if_true] at h
  cases h
  rfl

/-- The test `sched_key_valid`, for a key on node 0 and a mode below
`SCHED_MODE_BUTT`. -/
theorem sched_key_valid_node0 (c : wd_sched_ctx) (key : sched_key) (h0 : key.numa_id = 0)
    (hm : key.mode < SCHED_MODE_BUTT) :
    sched_key_valid c key = decide (0 < c.numa_num ∧ key.type < c.type_num) := by
  unfold sched_key_valid
  rw [h0]
  by_cases hin : 0 < c.numa_num ∧ key.type < c.type_num
  · have hno : ¬ ((0 : Int) ≥ (c.numa_num : Int) ∨ key.mode ≥ SCHED_MODE_BUTT ∨
        key.type ≥ c.type_num) := by omega
    rw [if_neg hno]
    exact (decide_eq_true hin).symm
  · have hyes : (0 : Int) ≥ (c.numa_num : Int) ∨ key.mode ≥ SCHED_MODE_BUTT ∨
        key.type ≥ c.type_num := by omega
    rw [if_pos hyes]
    exact (decide_eq_false hin).symm

/-- The test `sched_key_valid` as the init calls make it: on a key of node 0
whose mode has been set to a value below `SCHED_MODE_BUTT`. -/
theorem sched_key_valid_mode (c : wd_sched_ctx) (key : sched_key) (m : Nat)
    (h0 : key.numa_id = 0) (hm : m < SCHED_MODE_BUTT) :
    sched_key_valid c { key with mode := m } =
      decide (0 < c.numa_num ∧ key.type < c.type_num) :=
  sched_key_valid_node0 c { key with mode := m } h0 hm

/-- For a key of the crypto-engine path on node 0 that `sched_key_valid`
accepts, when the crypto-engine flag of node 0 is set and its crypto-engine
cell for the mode and the type of the key is valid, `loop_sched_init_ctx`
returns the cursor of that cell. -/
theorem loop_sched_init_ctx_ce (c c' : wd_sched_ctx) (key key' : sched_key)
    (sched_mode : Int) (pos : Nat) (info : wd_sched_info) (r : sched_ctx_region)
    (h : loop_sched_init_ctx c key sched_mode = some (pos, c', key'))
    (h0 : key.numa_id = 0) (hprop : key.ctx_prop = UADK_CTX_CE_INS)
    (hv : sched_key_valid c { key with mode := (sched_mode % 256).toNat } = true)
    (hinfo : c.sched_info[0]? = some info) (hce : info.ce_valid = true)
    (hr : region_read c.sched_info
      ⟨UADK_CTX_CE_INS, 0, (sched_mode % 256).toNat, key.type⟩ = some r)
    (hvalid : r.valid = true) : pos = r.last := by
  have hrange := loop_get_ctx_range_exact_cell c
    { key with mode := (sched_mode % 256).toNat } info (by show (0 : Int) ≤ key.numa_id; omega)
    (Or.inr (Or.inl hprop))
    (by show c.sched_info[key.numa_id.toNat]? = some info; rw [h0]; exact hinfo)
    (by show path_flag info key.ctx_prop = true
        rw [hprop]
        exact hce)
    (by show cell_valid c.sched_info
          ⟨key.ctx_prop, key.numa_id.toNat, (sched_mode % 256).toNat, key.type⟩ = true
        rw [hprop, h0]
        unfold cell_valid
        rw [show (0 : Int).toNat = 0 from rfl, hr]
        exact hvalid)
  unfold loop_sched_init_ctx at h
  simp only [hv, Bool.not_true, Bool.false_eq_true, if_false, hrange] at h
  have href : (⟨key.ctx_prop, key.numa_id.toNat, (sched_mode % 256).toNat, key.type⟩ :
      region_ref) = ⟨UADK_CTX_CE_INS, 0, (sched_mode % 256).toNat, key.type⟩ := by
    rw [hprop, h0]
    rfl
  obtain ⟨c2, hc2, _⟩ := region_next_pos_spec c _ r hr
  rw [href, hc2] at h
  cases h
  rfl

/-- What a call of `loop_sched_init` that returns a key has done: four calls
of `loop_sched_init_ctx` in a row, each on a key of node 0 with the type of
the key returned, the last two on the crypto-engine path; the first two did
not both return `INVALID_POS`, and the last two returned the software pair of
the key. -/
theorem loop_sched_init_ok_inv (node : Int) (mem : Option sched_key) (c c' : wd_sched_ctx)
    (sched_param : Option sched_params) (skey : sched_key)
    (h : loop_sched_init node mem (some c) sched_param = some (.ok skey, some c')) :
    ∃ (k0 kS kA kB k1 k2 k3 k4 : sched_key) (id1 id2 : Nat) (c1 c2 c3 : wd_sched_ctx),
      (loop_sched_init_ctx c k0 CTX_MODE_SYNC = some (id1, c1, k1) ∧
        k0.numa_id = 0 ∧ k0.type = skey.type) ∧
      (loop_sched_init_ctx c1 kS CTX_MODE_ASYNC = some (id2, c2, k2) ∧
        kS.numa_id = 0 ∧ kS.type = skey.type) ∧
      ¬ (id1 = INVALID_POS ∧ id2 = INVALID_POS) ∧
      (loop_sched_init_ctx c2 kA CTX_MODE_SYNC = some (skey.sw_sync_ctxid, c3, k3) ∧
        kA.numa_id = 0 ∧ kA.type = skey.type ∧ kA.ctx_prop = UADK_CTX_CE_INS) ∧
      (loop_sched_init_ctx c3 kB CTX_MODE_ASYNC = some (skey.sw_async_ctxid, c', k4) ∧
        kB.numa_id = 0 ∧ kB.type = skey.type ∧ kB.ctx_prop = UADK_CTX_CE_INS) := by
  unfold loop_sched_init at h
  split_ifs at h
  · cases h
  · cases mem with
    | none => cases h
    | some mem =>
      simp only at h
      split at h
      · cases h
      · rename_i id1 c1 k1 h1
        have hk1 := loop_sched_init_ctx_key _ _ _ _ _ _ h1
        subst hk1
        split at h
        · cases h
        · rename_i id2 c2 k2 h2
          have hk2 := loop_sched_init_ctx_key _ _ _ _ _ _ h2
          subst hk2
          split_ifs at h with hboth
          · cases h
          · split at h
            · cases h
            · rename_i id3 c3 k3 h3
              have hk3 := loop_sched_init_ctx_key _ _ _ _ _ _ h3
              subst hk3
              split at h
              · cases h
              · rename_i id4 c4 k4 h4
                have hk4 := loop_sched_init_ctx_key _ _ _ _ _ _ h4
                subst hk4
                cases h
                exact ⟨_, _, _, _, _, _, _, _, id1, id2, c1, c2, c3, ⟨h1, rfl, rfl⟩,
                  ⟨h2, rfl, rfl⟩, hboth, ⟨h3, rfl, rfl, rfl⟩, ⟨h4, rfl, rfl, rfl⟩⟩

/-- A cell keeps its bounds and its `valid` flag across `same_shape`. -/
theorem same_shape_cell (c c' : wd_sched_ctx) (h : same_shape c c') (ref : region_ref)
    (r : sched_ctx_region) (hr : region_read c.sched_info ref = some r) :
    ∃ r', region_read c'.sched_info ref = some r' ∧ r'.begin = r.begin ∧
      r'.end_ = r.end_ ∧ r'.valid = r.valid := by
  have hs := h.2.2.1 ref
  rw [hr] at hs
  cases hr' : region_read c'.sched_info ref with
  | none =>
    rw [hr'] at hs
    cases hs
  | some r' =>
    rw [hr'] at hs
    simp only [Option.map_some', Option.some.injEq, cell_shape, Prod.mk.injEq] at hs
    exact ⟨r', rfl, hs.1, hs.2.1, hs.2.2⟩

/-- A node keeps its crypto-engine flag across `same_shape`. -/
theorem same_shape_node (c c' : wd_sched_ctx) (h : same_shape c c') (j : Nat)
    (info : wd_sched_info) (hinfo : c.sched_info[j]? = some info) :
    ∃ info', c'.sched_info[j]? = some info' ∧ info'.ce_valid = info.ce_valid := by
  have hs := h.2.2.2 j
  rw [hinfo] at hs
  cases hj : c'.sched_info[j]? with
  | none =>
    rw [hj] at hs
    cases hs
  | some info' =>
    rw [hj] at hs
    simp only [Option.map_some', Option.some.injEq, node_flags, Prod.mk.injEq] at hs
    exact ⟨info', rfl, hs.2.2.1⟩

/-- A call of `loop_sched_init_ctx` for the crypto-engine path on node 0, made
after cursors have moved: when node 0 had its crypto-engine flag set and a
valid crypto-engine cell for the mode and the type of the key, the index
returned is inside the range of that cell. -/
theorem loop_sched_init_ctx_ce_range (c0 c c' : wd_sched_ctx) (key key' : sched_key)
    (sched_mode : Int) (pos : Nat) (info : wd_sched_info) (r : sched_ctx_region)
    (hshape : same_shape c0 c) (hinv : cursor_inv c.sched_info)
    (hdims : 0 < c0.numa_num ∧ key.type < c0.type_num)
    (hmode : (sched_mode % 256).toNat < SCHED_MODE_BUTT)
    (h : loop_sched_init_ctx c key sched_mode = some (pos, c', key'))
    (h0 : key.numa_id = 0) (hprop : key.ctx_prop = UADK_CTX_CE_INS)
    (hinfo : c0.sched_info[0]? = some info) (hce : info.ce_valid = true)
    (hr : region_read c0.sched_info
      ⟨UADK_CTX_CE_INS, 0, (sched_mode % 256).toNat, key.type⟩ = some r)
    (hvalid : r.valid = true) : r.begin ≤ pos ∧ pos ≤ r.end_ := by
  obtain ⟨info', hinfo', hce'⟩ := same_shape_node c0 c hshape 0 info hinfo
  obtain ⟨r', hr', hb, he, hv⟩ := same_shape_cell c0 c hshape _ r hr
  have hvalid' : r'.valid = true := by rw [hv, hvalid]
  have hkey : sched_key_valid c { key with mode := (sched_mode % 256).toNat } = true := by
    rw [sched_key_valid_mode c key _ h0 hmode, hshape.1, hshape.2.1]
    exact decide_eq_true hdims
  have hpos := loop_sched_init_ctx_ce c c' key key' sched_mode pos info' r' h h0 hprop hkey
    hinfo' (by rw [hce', hce]) hr' hvalid'
  obtain ⟨h1, h2, _⟩ := hinv _ r' hr' hvalid'
  rw [hpos, ← hb, ← he]
  exact ⟨h1, h2⟩

/-- C21, where node 0 has the crypto-engine cell: after a call of
`loop_sched_init` that returns a key, on a scheduler whose valid cells have
`begin ≤ last ≤ end`, if node 0 has its crypto-engine flag set then
`sw_sync_ctxid` is an index inside `[begin, end]` of the crypto-engine sync
cell of node 0 for the type of the key when that cell is valid, and
`sw_async_ctxid` is an index inside `[begin, end]` of the crypto-engine async
cell of node 0 for the type of the key when that cell is valid. -/
theorem loop_sched_init_sw_pair (node : Int) (mem : Option sched_key) (c c' : wd_sched_ctx)
    (sched_param : Option sched_params) (skey : sched_key) (info : wd_sched_info)
    (hinv : cursor_inv c.sched_info)
    (h : loop_sched_init node mem (some c) sched_param = some (.ok skey, some c'))
    (hinfo : c.sched_info[0]? = some info) (hce : info.ce_valid = true) :
    (∀ r, region_read c.sched_info ⟨UADK_CTX_CE_INS, 0, SCHED_MODE_SYNC, skey.type⟩ =
          some r → r.valid = true →
        r.begin ≤ skey.sw_sync_ctxid ∧ skey.sw_sync_ctxid ≤ r.end_) ∧
      (∀ r, region_read c.sched_info ⟨UADK_CTX_CE_INS, 0, SCHED_MODE_ASYNC, skey.type⟩ =
          some r → r.valid = true →
        r.begin ≤ skey.sw_async_ctxid ∧ skey.sw_async_ctxid ≤ r.end_) := by
  obtain ⟨k0, kS, kA, kB, k1, k2, k3, k4, id1, id2, c1, c2, c3, ⟨h1, h10, h1t⟩,
    ⟨h2, h20, h2t⟩, hboth, ⟨h3, h30, h3t, h3p⟩, ⟨h4, h40, h4t, h4p⟩⟩ :=
    loop_sched_init_ok_inv node mem c c' sched_param skey h
  have s1 := loop_sched_init_ctx_shape _ _ _ _ _ _ h1
  have s2 := same_shape_trans _ _ _ s1 (loop_sched_init_ctx_shape _ _ _ _ _ _ h2)
  have s3 := same_shape_trans _ _ _ s2 (loop_sched_init_ctx_shape _ _ _ _ _ _ h3)
  have i1 := loop_sched_init_ctx_inv _ _ _ _ _ _ h1 hinv
  have i2 := loop_sched_init_ctx_inv _ _ _ _ _ _ h2 i1
  have i3 := loop_sched_init_ctx_inv _ _ _ _ _ _ h3 i2
  have hsync : ((CTX_MODE_SYNC : Int) % 256).toNat = SCHED_MODE_SYNC := by decide
  have hasync : ((CTX_MODE_ASYNC : Int) % 256).toNat = SCHED_MODE_ASYNC := by decide
  have hdims : 0 < c.numa_num ∧ skey.type < c.type_num := by
    by_contra hno
    apply hboth
    constructor
    · apply loop_sched_init_ctx_invalid _ _ _ _ _ _ h1
      rw [sched_key_valid_mode c k0 _ h10 (by rw [hsync]; decide), h1t]
      exact decide_eq_false hno
    · apply loop_sched_init_ctx_invalid _ _ _ _ _ _ h2
      rw [sched_key_valid_mode c1 kS _ h20 (by rw [hasync]; decide), s1.1, s1.2.1, h2t]
      exact decide_eq_false hno
  constructor
  · intro r hr hvalid
    exact loop_sched_init_ctx_ce_range c c2 c3 kA k3 CTX_MODE_SYNC _ info r s2 i2
      (by rw [h3t]; exact hdims) (by rw [hsync]; decide) h3 h30 h3p hinfo hce
      (by rw [hsync, h3t]; exact hr) hvalid
  · intro r hr hvalid
    exact loop_sched_init_ctx_ce_range c c3 c' kB k4 CTX_MODE_ASYNC _ info r s3 i3
      (by rw [h4t]; exact hdims) (by rw [hasync]; decide) h4 h40 h4p hinfo hce
      (by rw [hasync, h4t]; exact hr) hvalid

/-- The loop scheduler with the hardware sync region `[0, 3]` and the
crypto-engine sync region `[4, 7]` is reachable from a fresh one. -/
theorem loop_hw_ce_sched_reachable : reachable flat_distance (ctx_of loop_hw_ce_sched) :=
  reachable.step _ _
    (reachable.step _ _
      (reachable.fresh 0 true SCHED_POLICY_LOOP 1 1 none
        (sched_of (fresh_sched SCHED_POLICY_LOOP)) (ctx_of (fresh_sched SCHED_POLICY_LOOP))
        rfl rfl)
      (sched_step.rr_instance (sched_of (fresh_sched SCHED_POLICY_LOOP))
        (sched_of loop_once_sched) (ctx_of (fresh_sched SCHED_POLICY_LOOP))
        (ctx_of loop_once_sched) ⟨0, 0, SCHED_MODE_SYNC, 0, 3, UADK_CTX_HW⟩ 0 rfl rfl
        (by decide) (by decide) rfl))
    (sched_step.rr_instance (sched_of loop_once_sched) (sched_of loop_hw_ce_sched)
      (ctx_of loop_once_sched) (ctx_of loop_hw_ce_sched)
      ⟨0, 0, SCHED_MODE_SYNC, 4, 7, UADK_CTX_CE_INS⟩ 0 rfl rfl (by decide) (by decide) rfl)

/-- C21 on the loop scheduler with the hardware sync region `[0, 3]` and the
crypto-engine sync region `[4, 7]`: the key that `loop_sched_init` returns has
`sw_sync_ctxid = 4`, inside `[4, 7]`. -/
theorem loop_sched_init_sw_pair_witness :
    loop_init_key loop_hw_ce_sched = some ⟨0, 0, 1, 0, 0, 0, 4, 0⟩ ∧
      region_read (ctx_of loop_hw_ce_sched).sched_info
        ⟨UADK_CTX_CE_INS, 0, SCHED_MODE_SYNC, 0⟩ = some ⟨4, 7, 4, true⟩ ∧
      (⟨4, 7, 4, true⟩ : sched_ctx_region).begin ≤
        (⟨0, 0, 1, 0, 0, 0, 4, 0⟩ : sched_key).sw_sync_ctxid ∧
      (⟨0, 0, 1, 0, 0, 0, 4, 0⟩ : sched_key).sw_sync_ctxid ≤
        (⟨4, 7, 4, true⟩ : sched_ctx_region).end_ :=
  ⟨by decide, by decide,
    (loop_sched_init_sw_pair 0 (some zero_key) (ctx_of loop_hw_ce_sched)
      (loop_init_ctx loop_hw_ce_sched) none ⟨0, 0, 1, 0, 0, 0, 4, 0⟩
      ((ctx_of loop_hw_ce_sched).sched_info.headD zero_info)
      (reachable_cursor_inv flat_distance _ loop_hw_ce_sched_reachable) rfl rfl
      (by decide)).1 ⟨4, 7, 4, true⟩ (by decide) rfl⟩

/-- C21 as stated fails: on the loop scheduler with the hardware sync region
`[0, 3]` alone, `loop_sched_init` returns a key with `sw_sync_ctxid = 1`; this
is not `INVALID_POS`, and no crypto-engine cell is valid on any node: the
index is the cursor of the hardware sync cell, which the scan over the nodes
returns for the key of the crypto-engine path as well. -/
theorem loop_sched_init_sw_pair_counterexample :
    loop_init_key loop_once_sched = some ⟨0, 0, 1, 0, 0, 0, 1, 0⟩ ∧
      (⟨0, 0, 1, 0, 0, 0, 1, 0⟩ : sched_key).sw_sync_ctxid ≠ INVALID_POS ∧
      (∀ numa < (ctx_of loop_once_sched).numa_num, ∀ mode < SCHED_MODE_BUTT,
        ∀ type < (ctx_of loop_once_sched).type_num,
          cell_valid (ctx_of loop_once_sched).sched_info
            ⟨UADK_CTX_CE_INS, numa, mode, type⟩ = false) ∧
      region_read (ctx_of loop_once_sched).sched_info
        ⟨UADK_CTX_HW, 0, SCHED_MODE_SYNC, 0⟩ = some ⟨0, 3, 0, true⟩ ∧
      region_read (loop_init_ctx loop_once_sched).sched_info
        ⟨UADK_CTX_HW, 0, SCHED_MODE_SYNC, 0⟩ = some ⟨0, 3, 2, true⟩ := by
  decide

/-! ## The policies without region tables: where the poll ends -/

/-- The loop of `sched_none_poll_policy` and of `sched_single_poll_policy` ends
before `loop_times` checks are made only at a check with a fatal status, or
at a check that did not report try-again and left `*count` equal to
`expect`. -/
theorem sched_fixed_poll_loop_full (poll_func : user_poll_func) (pos expect : Nat)
    (loop_times poll_num : Nat) (st : poll_st) :
    ∃ new, (sched_fixed_poll_loop poll_func pos expect loop_times poll_num st).2.log =
        st.log ++ new ∧
      (new.length = loop_times ∨
        ∃ e, new.getLast? = some e ∧
          (fatal e.ret ∨
            (e.ret ≠ -EAGAIN ∧
              (sched_fixed_poll_loop poll_func pos expect loop_times poll_num st).2.count =
                expect))) := by
  induction loop_times generalizing poll_num st with
  | zero => exact ⟨[], by simp [sched_fixed_poll_loop], Or.inl rfl⟩
  | succ n ih =>
    have hlast : ∀ (ev e : poll_event) (l : List poll_event), l.getLast? = some e →
        (ev :: l).getLast? = some e := by
      intro ev e l h
      cases l with
      | nil => cases h
      | cons x xs => rw [List.getLast?_cons_cons, h]
    unfold sched_fixed_poll_loop
    simp only
    generalize poll_func (List.map poll_event.pos st.log) pos 1 = r
    split_ifs with hfatal heagain hhit
    · exact ⟨[⟨pos, st.count, r.1, r.2⟩], rfl, Or.inr ⟨_, rfl, Or.inl hfatal⟩⟩
    · obtain ⟨new', hlog, hres⟩ := ih
        (match r.2 with
          | some n => n
          | none => poll_num)
        { st with log := st.log ++ [⟨pos, st.count, r.1, r.2⟩] }
      refine ⟨⟨pos, st.count, r.1, r.2⟩ :: new', ?_, ?_⟩
      · rw [hlog]
        simp
      · rcases hres with h | ⟨e, he, hstop⟩
        · exact Or.inl (by rw [List.length_cons, h])
        · exact Or.inr ⟨e, hlast _ e new' he, hstop⟩
    · exact ⟨[⟨pos, st.count, r.1, r.2⟩], rfl, Or.inr ⟨_, rfl, Or.inr ⟨heagain, hhit⟩⟩⟩
    · obtain ⟨new', hlog, hres⟩ := ih
        (match r.2 with
          | some n => n
          | none => poll_num)
        { st with
          log := st.log ++ [⟨pos, st.count, r.1, r.2⟩],
          count := (st.count +
            (match r.2 with
              | some n => n
              | none => poll_num)) % U32 }
      refine ⟨⟨pos, st.count, r.1, r.2⟩ :: new', ?_, ?_⟩
      · rw [hlog]
        simp
      · rcases hres with h | ⟨e, he, hstop⟩
        · exact Or.inl (by rw [List.length_cons, h])
        · exact Or.inr ⟨e, hlast _ e new' he, hstop⟩

/-- The poll of one context satisfies `fixed_poll_spec` with the number of
rounds of its loop as the bound. -/
theorem sched_fixed_poll_loop_fixed_spec (poll_func : user_poll_func) (pos expect : Nat)
    (loop_times : Nat) (st : poll_st) :
    fixed_poll_spec pos expect loop_times st
      (sched_fixed_poll_loop poll_func pos expect loop_times 0 st) := by
  obtain ⟨new, h1, h2, h3, _, h5, h6, h7⟩ :=
    sched_fixed_poll_loop_spec poll_func pos expect loop_times 0 st
  obtain ⟨new2, g1, g2⟩ := sched_fixed_poll_loop_full poll_func pos expect loop_times 0 st
  have hsame : new2 = new := List.append_cancel_left (g1.symm.trans h1)
  rw [hsame] at g2
  exact ⟨new, h1, h2, h3, h5, h6, h7, g2⟩

/-- With a completion check that always reports try-again, the loop of
`sched_none_poll_policy` and of `sched_single_poll_policy` makes every one of
its `loop_times` checks and returns 0 with `*count` as it was. -/
theorem sched_fixed_poll_loop_eagain (pos expect loop_times poll_num : Nat) (st : poll_st) :
    sched_fixed_poll_loop poll_eagain pos expect loop_times poll_num st =
      (0, { st with
        log := st.log ++ List.replicate loop_times ⟨pos, st.count, -EAGAIN, none⟩ }) := by
  induction loop_times generalizing poll_num st with
  | zero => simp [sched_fixed_poll_loop]
  | succ n ih =>
    have hnf : ¬ ((poll_eagain (List.map poll_event.pos st.log) pos 1).1 < 0 ∧
        (poll_eagain (List.map poll_event.pos st.log) pos 1).1 ≠ -EAGAIN) :=
      fun h => h.2 rfl
    have hea : (poll_eagain (List.map poll_event.pos st.log) pos 1).1 = -EAGAIN := rfl
    unfold sched_fixed_poll_loop
    simp only
    rw [if_neg hnf, if_pos hea, ih]
    simp only [List.replicate_succ, List.append_assoc, List.singleton_append]
    rfl

/-- C27, with the test of `*count` as the code makes it: when the scheduler and
its completion check are set, `sched_none_poll_policy` probes context 0 only
and `sched_single_poll_policy` context 1 only; each makes at most
`(MAX_POLL_TIMES + expect) mod 2 ^ 32` completion checks, stops at the first
check that does not report try-again and after which `*count` equals
`expect`, or at a check with a negative status other than `-EAGAIN`, which is
returned as it is, and not before the bound otherwise, and returns 0 when no
check had such a status; when the scheduler or its completion check is
`NULL`, each returns `-WD_EINVAL` and makes no check. -/
theorem sched_fixed_poll_policy_spec (h_sched_ctx : Option wd_sched_ctx) (expect : Nat)
    (st : poll_st) :
    ((∃ sched_ctx poll_func, h_sched_ctx = some sched_ctx ∧
          sched_ctx.poll_func = some poll_func) →
        fixed_poll_spec 0 expect ((MAX_POLL_TIMES + expect) % U32) st
            (sched_none_poll_policy h_sched_ctx expect st) ∧
          fixed_poll_spec 1 expect ((MAX_POLL_TIMES + expect) % U32) st
            (sched_single_poll_policy h_sched_ctx expect st)) ∧
      ((h_sched_ctx = none ∨
          ∃ sched_ctx, h_sched_ctx = some sched_ctx ∧ sched_ctx.poll_func = none) →
        sched_none_poll_policy h_sched_ctx expect st = (-WD_EINVAL, st) ∧
          sched_single_poll_policy h_sched_ctx expect st = (-WD_EINVAL, st)) := by
  constructor
  · rintro ⟨sched_ctx, poll_func, rfl, hpf⟩
    simp only [sched_none_poll_policy, sched_single_poll_policy, hpf]
    exact ⟨sched_fixed_poll_loop_fixed_spec poll_func 0 expect _ st,
      sched_fixed_poll_loop_fixed_spec poll_func 1 expect _ st⟩
  · rintro (rfl | ⟨sched_ctx, rfl, hpf⟩)
    · exact ⟨rfl, rfl⟩
    · simp only [sched_none_poll_policy, sched_single_poll_policy, hpf]
      exact ⟨trivial, trivial⟩

/-- C27 with a completion check that reports one item per call: for
`expect = 2 ^ 32 - 1000` the bound is 0 and no check is made; for
`expect = 2` the poll of context 0 and the poll of context 1 make two checks
and return 0 with `*count = 2`; without a completion check the polls return
`-WD_EINVAL`. -/
theorem sched_fixed_poll_policy_spec_witness :
    (fixed_poll_spec 0 4294966296 ((MAX_POLL_TIMES + 4294966296) % U32) poll_start
        (sched_none_poll_policy (some none_ctx) 4294966296 poll_start) ∧
      fixed_poll_spec 1 4294966296 ((MAX_POLL_TIMES + 4294966296) % U32) poll_start
        (sched_single_poll_policy (some none_ctx) 4294966296 poll_start)) ∧
      (sched_none_poll_policy (some none_null_ctx) 2 poll_start = (-WD_EINVAL, poll_start) ∧
        sched_single_poll_policy (some none_null_ctx) 2 poll_start =
          (-WD_EINVAL, poll_start)) ∧
      (MAX_POLL_TIMES + 4294966296) % U32 = 0 ∧
      sched_none_poll_policy (some none_ctx) 4294966296 poll_start = (0, poll_start) ∧
      sched_none_poll_policy (some none_ctx) 2 poll_start =
        (0, ⟨2, [⟨0, 0, 0, some 1⟩, ⟨0, 1, 0, some 1⟩], 0⟩) ∧
      sched_single_poll_policy (some none_ctx) 2 poll_start =
        (0, ⟨2, [⟨1, 0, 0, some 1⟩, ⟨1, 1, 0, some 1⟩], 0⟩) :=
  ⟨(sched_fixed_poll_policy_spec (some none_ctx) 4294966296 poll_start).1
      ⟨none_ctx, poll_one, rfl, rfl⟩,
    (sched_fixed_poll_policy_spec (some none_null_ctx) 2 poll_start).2
      (Or.inr ⟨none_null_ctx, rfl, rfl⟩),
    by decide, by decide, by decide, by decide⟩

/-- C27 as stated fails: with `expect = 0`, `*count = 0` and a completion check
that always reports try-again, `*count` equals `expect` after the first check,
yet `sched_none_poll_policy` and `sched_single_poll_policy` make all of their
1000 checks, since a check that reports try-again is not followed by the test
of `*count`; and on a scheduler created without a completion check, no check
is made and the polls return `-WD_EINVAL`, not 0. -/
theorem sched_fixed_poll_policy_counterexample :
    sched_none_poll_policy (some none_eagain_ctx) 0 poll_start =
        (0, ⟨0, List.replicate 1000 ⟨0, 0, -EAGAIN, none⟩, 0⟩) ∧
      sched_single_poll_policy (some none_eagain_ctx) 0 poll_start =
        (0, ⟨0, List.replicate 1000 ⟨1, 0, -EAGAIN, none⟩, 0⟩) ∧
      sched_none_poll_policy (some none_null_ctx) 0 poll_start = (-WD_EINVAL, poll_start) ∧
      sched_single_poll_policy (some none_null_ctx) 0 poll_start =
        (-WD_EINVAL, poll_start) ∧
      -WD_EINVAL ≠ 0 := by
  have hbound : (MAX_POLL_TIMES + 0) % U32 = 1000 := by decide
  have hnone : sched_none_poll_policy (some none_eagain_ctx) 0 poll_start =
      sched_fixed_poll_loop poll_eagain 0 0 ((MAX_POLL_TIMES + 0) % U32) 0 poll_start := rfl
  have hsingle : sched_single_poll_policy (some none_eagain_ctx) 0 poll_start =
      sched_fixed_poll_loop poll_eagain 1 0 ((MAX_POLL_TIMES + 0) % U32) 0 poll_start := rfl
  refine ⟨?_, ?_, by decide, by decide, by decide⟩
  · rw [hnone, hbound, sched_fixed_poll_loop_eagain]
    rfl
  · rw [hsingle, hbound, sched_fixed_poll_loop_eagain]
    rfl

/-! ## Init: the key that is built -/

/-- With a node for the thread, a scheduler and a key block, `loop_sched_init`
is its resolution part run on the key it has built. -/
theorem loop_sched_init_eq_tail (node : Int) (hnode : 0 ≤ node) (mem : sched_key)
    (sched_ctx : wd_sched_ctx) (sched_param : Option sched_params) :
    loop_sched_init node (some mem) (some sched_ctx) sched_param =
      loop_sched_init_tail sched_ctx (loop_sched_init_key mem sched_param) := by
  unfold loop_sched_init
  rw [if_neg (not_lt.mpr hnode)]
  rfl

/-- With a node for the thread, a scheduler and a key block,
`loop_sched_rte_init` returns the key it has built when `sched_key_valid` accepts
it, and `-WD_EINVAL` otherwise. -/
theorem loop_sched_rte_init_eq_key (node : Int) (hnode : 0 ≤ node) (mem : sched_key)
    (sched_ctx : wd_sched_ctx) (sched_param : Option sched_params) :
    loop_sched_rte_init node (some mem) (some sched_ctx) sched_param =
      if sched_key_valid sched_ctx (loop_sched_rte_init_key mem sched_param) then
        .ok (loop_sched_rte_init_key mem sched_param)
      else .error (-WD_EINVAL) := by
  unfold loop_sched_rte_init
  rw [if_neg (not_lt.mpr hnode)]
  show (if !sched_key_valid sched_ctx (loop_sched_rte_init_key mem sched_param) then _
    else _) = _
  cases sched_key_valid sched_ctx (loop_sched_rte_init_key mem sched_param) <;> rfl

/-- The keys the three init functions build, field by field: `numa_id` is 0;
the type is that of the parameters; the path kind is that of the parameters
for the loop policies; the run-time loop policy sets the four indices to
`INVALID_POS`; every other field is what the key block held. -/
theorem init_key_fields (sched_ctx : wd_sched_ctx) (node : Int) (mem : sched_key)
    (p : sched_params) :
    session_init_key sched_ctx node mem (some p) =
        { mem with numa_id := 0, type := p.type } ∧
      session_init_key sched_ctx node mem none = zero_key ∧
      loop_sched_init_key mem (some p) =
        { mem with numa_id := 0, type := p.type, ctx_prop := p.ctx_prop } ∧
      loop_sched_init_key mem none = { zero_key with ctx_prop := UADK_CTX_HW } ∧
      loop_sched_rte_init_key mem (some p) =
        ⟨0, p.type, mem.mode, p.ctx_prop, INVALID_POS, INVALID_POS, INVALID_POS,
          INVALID_POS⟩ ∧
      loop_sched_rte_init_key mem none =
        ⟨0, 0, 0, UADK_CTX_HW, INVALID_POS, INVALID_POS, INVALID_POS, INVALID_POS⟩ := by
  refine ⟨?_, rfl, ?_, rfl, ?_, rfl⟩
  · unfold session_init_key
    by_cases h : p.numa_id < 0 <;> simp only [h, if_true, if_false]
  · unfold loop_sched_init_key
    by_cases h : p.numa_id < 0 <;> simp only [h, if_true, if_false]
  · unfold loop_sched_rte_init_key
    by_cases h : p.numa_id < 0 <;> simp only [h, if_true, if_false]

/-- C24: for a thread on a node, a scheduler and a key block, each of
`session_sched_init`, `loop_sched_init` and `loop_sched_rte_init` builds a key and
goes on with it: the first two resolve the indices with the key built, and
`loop_sched_rte_init` returns the key built when `sched_key_valid` accepts it
and `-WD_EINVAL` otherwise.  The key built has `numa_id = 0` whatever the
parameters (none, a negative `numa_id`, or any other) and whatever the node of
the thread: with parameters it is the key block with `numa_id = 0`, the type
(and for the loop policies the path kind) of the parameters, and for
`loop_sched_rte_init` the four indices `INVALID_POS`; the `numa_id` of the
parameters is in no field of it.  So the key that an init returns has
`numa_id = 0`, and a call whose parameters differ from those of another call
in `numa_id` only has the same result on the same scheduler: the same key with
the same indices, and the same scheduler afterwards. -/
theorem init_numa_id_zero (node : Int) (mem : Option sched_key)
    (h_sched_ctx : Option wd_sched_ctx) (p : sched_params) (numa_id : Int) :
    (∀ m c sched_param, 0 ≤ node →
        session_sched_init node (some m) (some c) sched_param =
          session_sched_init_tail c (session_init_key c node m sched_param)) ∧
      (∀ m c sched_param, 0 ≤ node →
        loop_sched_init node (some m) (some c) sched_param =
          loop_sched_init_tail c (loop_sched_init_key m sched_param)) ∧
      (∀ m c sched_param, 0 ≤ node →
        loop_sched_rte_init node (some m) (some c) sched_param =
          if sched_key_valid c (loop_sched_rte_init_key m sched_param) then
            .ok (loop_sched_rte_init_key m sched_param)
          else .error (-WD_EINVAL)) ∧
      (∀ m c,
        session_init_key c node m (some { p with numa_id := numa_id }) =
            { m with numa_id := 0, type := p.type } ∧
          session_init_key c node m none = zero_key ∧
          loop_sched_init_key m (some { p with numa_id := numa_id }) =
            { m with numa_id := 0, type := p.type, ctx_prop := p.ctx_prop } ∧
          loop_sched_init_key m none = { zero_key with ctx_prop := UADK_CTX_HW } ∧
          loop_sched_rte_init_key m (some { p with numa_id := numa_id }) =
            ⟨0, p.type, m.mode, p.ctx_prop, INVALID_POS, INVALID_POS, INVALID_POS,
              INVALID_POS⟩ ∧
          loop_sched_rte_init_key m none =
            ⟨0, 0, 0, UADK_CTX_HW, INVALID_POS, INVALID_POS, INVALID_POS,
              INVALID_POS⟩) ∧
      (∀ sched_param skey out,
        session_sched_init node mem h_sched_ctx sched_param = some (.ok skey, out) →
        skey.numa_id = 0) ∧
      (∀ sched_param skey out,
        loop_sched_init node mem h_sched_ctx sched_param = some (.ok skey, out) →
        skey.numa_id = 0) ∧
      (∀ sched_param skey,
        loop_sched_rte_init node mem h_sched_ctx sched_param = .ok skey →
        skey.numa_id = 0) ∧
      session_sched_init node mem h_sched_ctx (some { p with numa_id := numa_id }) =
        session_sched_init node mem h_sched_ctx (some p) ∧
      loop_sched_init node mem h_sched_ctx (some { p with numa_id := numa_id }) =
        loop_sched_init node mem h_sched_ctx (some p) ∧
      loop_sched_rte_init node mem h_sched_ctx (some { p with numa_id := numa_id }) =
        loop_sched_rte_init node mem h_sched_ctx (some p) := by
  refine ⟨fun m c sched_param hnode => session_sched_init_eq_tail node hnode m c sched_param,
    fun m c sched_param hnode => loop_sched_init_eq_tail node hnode m c sched_param,
    fun m c sched_param hnode => loop_sched_rte_init_eq_key node hnode m c sched_param,
    fun m c => init_key_fields c node m { p with numa_id := numa_id },
    fun sched_param skey out h =>
      session_sched_init_numa_id node mem h_sched_ctx sched_param skey out h,
    fun sched_param skey out h =>
      loop_sched_init_numa_id node mem h_sched_ctx sched_param skey out h,
    fun sched_param skey h =>
      loop_sched_rte_init_numa_id node mem h_sched_ctx sched_param skey h, ?_, ?_, ?_⟩
  · unfold session_sched_init
    by_cases h1 : numa_id < 0 <;> by_cases h2 : p.numa_id < 0 <;>
      simp only [h1, h2, if_true, if_false]
  · unfold loop_sched_init
    by_cases h1 : numa_id < 0 <;> by_cases h2 : p.numa_id < 0 <;>
      simp only [h1, h2, if_true, if_false]
  · unfold loop_sched_rte_init
    by_cases h1 : numa_id < 0 <;> by_cases h2 : p.numa_id < 0 <;>
      simp only [h1, h2, if_true, if_false]

/-- C24 for a thread on node 3 and parameters that name node 7, with a key
block that holds the indices 0, 4, 8 and 12.  `session_sched_init` on the
end-to-end scheduler returns the key of node 0 with the indices 0 and 4 it
resolved; `loop_sched_init` on the loop scheduler with a hardware and a
crypto-engine sync region returns the key of node 0 with the software sync
index 4; `loop_sched_rte_init` returns the key of node 0 with the four indices
`INVALID_POS`.  Each is what the call with parameters that name node 0
returns, and each call is the resolution part run on the key built. -/
theorem init_numa_id_zero_witness :
    init_result (session_sched_init 3 (some demo_key) (some (ctx_of e2e_sched))
        (some far_params)) = some (.ok ⟨0, 0, 1, 0, 0, 4, 8, 12⟩) ∧
      init_result (loop_sched_init 3 (some demo_key) (some (ctx_of loop_hw_ce_sched))
        (some far_params)) = some (.ok ⟨0, 0, 1, 0, 0, 0, 4, 0⟩) ∧
      loop_sched_rte_init 3 (some demo_key) (some rte_ctx) (some far_params) =
        .ok rte_key ∧
      far_params.numa_id = 7 ∧
      session_sched_init 3 (some demo_key) (some (ctx_of e2e_sched)) (some far_params) =
        session_sched_init_tail (ctx_of e2e_sched)
          (session_init_key (ctx_of e2e_sched) 3 demo_key (some far_params)) ∧
      loop_sched_init 3 (some demo_key) (some (ctx_of loop_hw_ce_sched))
          (some far_params) =
        loop_sched_init_tail (ctx_of loop_hw_ce_sched)
          (loop_sched_init_key demo_key (some far_params)) ∧
      loop_sched_rte_init 3 (some demo_key) (some rte_ctx) (some far_params) =
        (if sched_key_valid rte_ctx (loop_sched_rte_init_key demo_key (some far_params)) then
          .ok (loop_sched_rte_init_key demo_key (some far_params))
        else .error (-WD_EINVAL)) ∧
      session_sched_init 3 (some demo_key) (some (ctx_of e2e_sched))
          (some { far_params with numa_id := 0 }) =
        session_sched_init 3 (some demo_key) (some (ctx_of e2e_sched)) (some far_params) ∧
      loop_sched_init 3 (some demo_key) (some (ctx_of loop_hw_ce_sched))
          (some { far_params with numa_id := 0 }) =
        loop_sched_init 3 (some demo_key) (some (ctx_of loop_hw_ce_sched))
          (some far_params) ∧
      loop_sched_rte_init 3 (some demo_key) (some rte_ctx)
          (some { far_params with numa_id := 0 }) =
        loop_sched_rte_init 3 (some demo_key) (some rte_ctx) (some far_params) :=
  ⟨rfl, rfl, rfl, rfl,
    (init_numa_id_zero 3 (some demo_key) (some (ctx_of e2e_sched)) far_params 0).1
      demo_key (ctx_of e2e_sched) (some far_params) (by decide),
    (init_numa_id_zero 3 (some demo_key) (some (ctx_of loop_hw_ce_sched)) far_params 0).2.1
      demo_key (ctx_of loop_hw_ce_sched) (some far_params) (by decide),
    (init_numa_id_zero 3 (some demo_key) (some rte_ctx) far_params 0).2.2.1
      demo_key rte_ctx (some far_params) (by decide),
    (init_numa_id_zero 3 (some demo_key) (some (ctx_of e2e_sched)) far_params
      0).2.2.2.2.2.2.2.1,
    (init_numa_id_zero 3 (some demo_key) (some (ctx_of loop_hw_ce_sched)) far_params
      0).2.2.2.2.2.2.2.2.1,
    (init_numa_id_zero 3 (some demo_key) (some rte_ctx) far_params 0).2.2.2.2.2.2.2.2.2⟩

/-! ## The run-time loop policy: memoized pick -/

/-- The scan of `loop_get_ctx_range` does not read the balancer. -/
theorem loop_get_ctx_range_scan_balancer (c : wd_sched_ctx) (b : wd_sched_balancer)
    (key : sched_key) (k i : Nat) :
    loop_get_ctx_range_scan { c with balancer := b } key k i =
      loop_get_ctx_range_scan c key k i := by
  induction k generalizing i with
  | zero => rfl
  | succ k ih =>
    unfold loop_get_ctx_range_scan
    simp only [ih]

/-- What `loop_get_ctx_range` finds does not depend on the balancer. -/
theorem loop_get_ctx_range_balancer (c : wd_sched_ctx) (b : wd_sched_balancer)
    (key : sched_key) :
    loop_get_ctx_range { c with balancer := b } key = loop_get_ctx_range c key := by
  unfold loop_get_ctx_range
  simp only [loop_get_ctx_range_scan_balancer]

/-- What `loop_sched_rte_pick_ctx` does on a scheduler whose cells are allocated,
for a key inside the tables: `loop_get_ctx_range` returns for the key with the
mode of the call; when it finds no cell the index is `INVALID_POS` and the
scheduler is as it was; when it finds a cell, the cell is allocated and of
the mode and the type of the key, the index is the cursor of that cell, and
the round robin has advanced the cursor of that cell and written no other
cell. -/
theorem loop_sched_rte_pick_ctx_spec (c : wd_sched_ctx) (key : sched_key) (sched_mode : Int)
    (hwf : ctx_wf c) (hn : key.numa_id < (c.numa_num : Int)) (ht : key.type < c.type_num)
    (hmode : sched_mode = CTX_MODE_SYNC ∨ sched_mode = CTX_MODE_ASYNC) :
    ∃ res pos c',
      loop_get_ctx_range c { key with mode := (sched_mode % 256).toNat } = some res ∧
      loop_sched_rte_pick_ctx c key sched_mode =
        some (pos, c', { key with mode := (sched_mode % 256).toNat }) ∧
      (res = none → pos = INVALID_POS ∧ c' = c) ∧
      ∀ ref, res = some ref →
        ref.mode = (sched_mode % 256).toNat ∧ ref.type = key.type ∧
        ∃ r, region_read c.sched_info ref = some r ∧ pos = r.last ∧
          ∀ ref', region_read c'.sched_info ref' =
            if ref' = ref then some (sched_get_next_pos_rr r).2
            else region_read c.sched_info ref' := by
  have hm : (sched_mode % 256).toNat < SCHED_MODE_BUTT := by
    rcases hmode with h | h <;> subst h <;> decide
  obtain ⟨res, hres, href⟩ := loop_get_ctx_range_total c
    { key with mode := (sched_mode % 256).toNat } hwf hn hm ht
  cases res with
  | none =>
    refine ⟨none, INVALID_POS, c, hres, ?_, fun _ => ⟨rfl, rfl⟩, fun ref h => by cases h⟩
    unfold loop_sched_rte_pick_ctx
    simp only [hres]
  | some ref =>
    obtain ⟨hrm, hrt, hsome⟩ := href ref rfl
    cases hr : region_read c.sched_info ref with
    | none => simp [hr] at hsome
    | some r =>
      obtain ⟨c', hc', _, _, hreads⟩ := region_next_pos_spec c ref r hr
      refine ⟨some ref, r.last, c', hres, ?_, (fun h => by cases h), fun ref2 h => ?_⟩
      · unfold loop_sched_rte_pick_ctx
        simp only [hres, hc']
      · cases h
        exact ⟨hrm, hrt, r, hr, rfl, hreads⟩

/-- What a call of `loop_sched_rte_pick_next_ctx` does when the index it selects
is `INVALID_POS`, on a scheduler whose cells are allocated and for a key
inside the tables. -/
theorem loop_sched_rte_pick_next_ctx_resolve (c : wd_sched_ctx) (skey : sched_key)
    (sched_mode : Int) (hc : rte_cached c skey sched_mode = INVALID_POS) (hwf : ctx_wf c)
    (hn : skey.numa_id < (c.numa_num : Int)) (ht : skey.type < c.type_num) :
    ∃ res pos c' skey',
      loop_get_ctx_range c (rte_lookup_key c skey sched_mode) = some res ∧
      loop_sched_rte_pick_next_ctx (some c) (some skey) sched_mode =
        some (pos, some c', some skey') ∧
      rte_cached c skey' sched_mode = pos ∧
      rte_others c skey' sched_mode = rte_others c skey sched_mode ∧
      (res = none → pos = INVALID_POS ∧ c'.sched_info = c.sched_info) ∧
      ∀ ref, res = some ref →
        ref.mode = (rte_lookup_key c skey sched_mode).mode ∧ ref.type = skey.type ∧
        ∃ r, region_read c.sched_info ref = some r ∧ pos = r.last ∧
          ∀ ref', region_read c'.sched_info ref' =
            if ref' = ref then some (sched_get_next_pos_rr r).2
            else region_read c.sched_info ref' := by
  unfold rte_cached at hc
  by_cases hs : c.balancer.switch_slice = LOOP_SWITH_TIME
  · by_cases hm : sched_mode = CTX_MODE_SYNC
    · simp only [hs, hm, if_true] at hc
      obtain ⟨res, pos, c', hres, hpick, hnone, hsome⟩ := loop_sched_rte_pick_ctx_spec
        { c with balancer := { c.balancer with switch_slice := 0 } }
        { skey with ctx_prop := UADK_CTX_HW } CTX_MODE_SYNC hwf hn ht (Or.inl rfl)
      rw [loop_get_ctx_range_balancer] at hres
      refine ⟨res, pos, c',
        { skey with
          ctx_prop := UADK_CTX_HW,
          mode := (CTX_MODE_SYNC % 256).toNat,
          sync_ctxid := pos }, ?_, ?_, ?_, ?_, ?_, ?_⟩
      · simp only [rte_lookup_key, hs, hm, if_true]
        exact hres
      · unfold loop_sched_rte_pick_next_ctx
        simp only at hpick
        simp only [hs, hm, if_true, if_false]
        rw [if_neg (not_not.mpr hc)]
        simp only [hpick]
      · simp only [rte_cached, hs, hm, if_true]
      · simp only [rte_others, hs, hm, if_true]
      · intro h
        obtain ⟨h1, h2⟩ := hnone h
        exact ⟨h1, by rw [h2]⟩
      · intro ref h
        simp only [rte_lookup_key, hs, hm, if_true]
        exact hsome ref h
    · simp only [hs, hm, if_true, if_false] at hc
      obtain ⟨res, pos, c', hres, hpick, hnone, hsome⟩ := loop_sched_rte_pick_ctx_spec
        { c with balancer := { c.balancer with switch_slice := 0 } }
        { skey with ctx_prop := UADK_CTX_HW } CTX_MODE_ASYNC hwf hn ht (Or.inr rfl)
      rw [loop_get_ctx_range_balancer] at hres
      refine ⟨res, pos, c',
        { skey with
          ctx_prop := UADK_CTX_HW,
          mode := (CTX_MODE_ASYNC % 256).toNat,
          async_ctxid := pos }, ?_, ?_, ?_, ?_, ?_, ?_⟩
      · simp only [rte_lookup_key, hs, hm, if_true, if_false]
        exact hres
      · unfold loop_sched_rte_pick_next_ctx
        simp only at hpick
        simp only [hs, hm, if_true, if_false]
        rw [if_neg (not_not.mpr hc)]
        simp only [hpick]
      · simp only [rte_cached, hs, hm, if_true, if_false]
      · simp only [rte_others, hs, hm, if_true, if_false]
      · intro h
        obtain ⟨h1, h2⟩ := hnone h
        exact ⟨h1, by rw [h2]⟩
      · intro ref h
        simp only [rte_lookup_key, hs, hm, if_true, if_false]
        exact hsome ref h
  · by_cases hm : sched_mode = CTX_MODE_SYNC
    · simp only [hs, hm, if_true, if_false] at hc
      obtain ⟨res, pos, c', hres, hpick, hnone, hsome⟩ := loop_sched_rte_pick_ctx_spec
        { c with balancer :=
          { c.balancer with switch_slice := c.balancer.switch_slice + 1 } }
        { skey with ctx_prop := UADK_CTX_CE_INS } CTX_MODE_SYNC hwf hn ht (Or.inl rfl)
      rw [loop_get_ctx_range_balancer] at hres
      refine ⟨res, pos, c',
        { skey with
          ctx_prop := UADK_CTX_CE_INS,
          mode := (CTX_MODE_SYNC % 256).toNat,
          sw_sync_ctxid := pos }, ?_, ?_, ?_, ?_, ?_, ?_⟩
      · simp only [rte_lookup_key, hs, hm, if_true, if_false]
        exact hres
      · unfold loop_sched_rte_pick_next_ctx
        simp only at hpick
        simp only [hs, hm, if_true, if_false]
        rw [if_neg (not_not.mpr hc)]
        simp only [hpick]
      · simp only [rte_cached, hs, hm, if_true, if_false]
      · simp only [rte_others, hs, hm, if_true, if_false]
      · intro h
        obtain ⟨h1, h2⟩ := hnone h
        exact ⟨h1, by rw [h2]⟩
      · intro ref h
        simp only [rte_lookup_key, hs, hm, if_true, if_false]
        exact hsome ref h
    · simp only [hs, hm, if_true, if_false] at hc
      obtain ⟨res, pos, c', hres, hpick, hnone, hsome⟩ := loop_sched_rte_pick_ctx_spec
        { c with balancer :=
          { c.balancer with switch_slice := c.balancer.switch_slice + 1 } }
        { skey with ctx_prop := UADK_CTX_CE_INS } CTX_MODE_ASYNC hwf hn ht (Or.inr rfl)
      rw [loop_get_ctx_range_balancer] at hres
      refine ⟨res, pos, c',
        { skey with
          ctx_prop := UADK_CTX_CE_INS,
          mode := (CTX_MODE_ASYNC % 256).toNat,
          sw_async_ctxid := pos }, ?_, ?_, ?_, ?_, ?_, ?_⟩
      · simp only [rte_lookup_key, hs, hm, if_true, if_false]
        exact hres
      · unfold loop_sched_rte_pick_next_ctx
        simp only at hpick
        simp only [hs, hm, if_true, if_false]
        rw [if_neg (not_not.mpr hc)]
        simp only [hpick]
      · simp only [rte_cached, hs, hm, if_true, if_false]
      · simp only [rte_others, hs, hm, if_true, if_false]
      · intro h
        obtain ⟨h1, h2⟩ := hnone h
        exact ⟨h1, by rw [h2]⟩
      · intro ref h
        simp only [rte_lookup_key, hs, hm, if_true, if_false]
        exact hsome ref h

/-- C22, with the outcome of the resolution as the code has it: when the index
of the key that a call of `loop_sched_rte_pick_next_ctx` selects is not
`INVALID_POS`, the call returns that index, leaves the four indices of the key
as they are and writes no region table.  When it is `INVALID_POS`, on a
scheduler whose cells are allocated and for a key inside the tables, the call
looks for a cell with `loop_get_ctx_range`, for the key with the path kind and
the mode of the call.  If a cell is found, it is an allocated cell of that
mode and of the type of the key, the call returns the cursor of that cell
(its `last`), the round robin has advanced that cursor, and no other cell is
written; if none is found, the call returns `INVALID_POS` and writes no region
table.  Either way the call returns, the index it returns is the one it has
stored in the key at the place it selected, and the other three indices are
as they were. -/
theorem loop_sched_rte_pick_next_ctx_memo (c : wd_sched_ctx) (skey : sched_key)
    (sched_mode : Int) :
    (rte_cached c skey sched_mode ≠ INVALID_POS →
      ∃ c' skey', loop_sched_rte_pick_next_ctx (some c) (some skey) sched_mode =
          some (rte_cached c skey sched_mode, some c', some skey') ∧
        skey'.sync_ctxid = skey.sync_ctxid ∧ skey'.async_ctxid = skey.async_ctxid ∧
        skey'.sw_sync_ctxid = skey.sw_sync_ctxid ∧
        skey'.sw_async_ctxid = skey.sw_async_ctxid ∧ c'.sched_info = c.sched_info) ∧
      (rte_cached c skey sched_mode = INVALID_POS → ctx_wf c →
        skey.numa_id < (c.numa_num : Int) → skey.type < c.type_num →
        ∃ res pos c' skey',
          loop_get_ctx_range c (rte_lookup_key c skey sched_mode) = some res ∧
          loop_sched_rte_pick_next_ctx (some c) (some skey) sched_mode =
            some (pos, some c', some skey') ∧
          rte_cached c skey' sched_mode = pos ∧
          rte_others c skey' sched_mode = rte_others c skey sched_mode ∧
          (res = none → pos = INVALID_POS ∧ c'.sched_info = c.sched_info) ∧
          ∀ ref, res = some ref →
            ref.mode = (rte_lookup_key c skey sched_mode).mode ∧ ref.type = skey.type ∧
            ∃ r, region_read c.sched_info ref = some r ∧ pos = r.last ∧
              ∀ ref', region_read c'.sched_info ref' =
                if ref' = ref then some (sched_get_next_pos_rr r).2
                else region_read c.sched_info ref') := by
  constructor
  · intro hc
    unfold rte_cached at hc ⊢
    unfold loop_sched_rte_pick_next_ctx
    by_cases hs : c.balancer.switch_slice = LOOP_SWITH_TIME <;>
      by_cases hm : sched_mode = CTX_MODE_SYNC <;>
      simp only [hs, hm, if_true, if_false] at hc ⊢ <;>
      simp only [hc, ne_eq, not_false_eq_true, if_true] <;>
      exact ⟨_, _, rfl, rfl, rfl, rfl, rfl, rfl⟩
  · intro hc hwf hn ht
    exact loop_sched_rte_pick_next_ctx_resolve c skey sched_mode hc hwf hn ht

/-- C22 on a run-time loop scheduler with the hardware sync region `[0, 3]`
whose next pick is a hardware pick.  A key with the sync index 2 gets 2 back
and nothing is written.  A key with no index resolved: `loop_get_ctx_range`
finds the hardware sync cell of node 0, whose cursor is 0; the call returns 0,
the key has the sync index 0 afterwards, and the cursor of the cell is 1. -/
theorem loop_sched_rte_pick_next_ctx_memo_witness :
    (∃ c' skey', loop_sched_rte_pick_next_ctx (some rte_ctx)
          (some { rte_key with sync_ctxid := 2 }) CTX_MODE_SYNC =
          some (2, some c', some skey') ∧
        skey'.sync_ctxid = 2 ∧ skey'.async_ctxid = INVALID_POS ∧
        skey'.sw_sync_ctxid = INVALID_POS ∧ skey'.sw_async_ctxid = INVALID_POS ∧
        c'.sched_info = rte_ctx.sched_info) ∧
      (∃ res pos c' skey',
        loop_get_ctx_range rte_ctx (rte_lookup_key rte_ctx rte_key CTX_MODE_SYNC) =
          some res ∧
        loop_sched_rte_pick_next_ctx (some rte_ctx) (some rte_key) CTX_MODE_SYNC =
          some (pos, some c', some skey') ∧
        rte_cached rte_ctx skey' CTX_MODE_SYNC = pos ∧
        rte_others rte_ctx skey' CTX_MODE_SYNC = rte_others rte_ctx rte_key CTX_MODE_SYNC ∧
        (res = none → pos = INVALID_POS ∧ c'.sched_info = rte_ctx.sched_info) ∧
        ∀ ref, res = some ref →
          ref.mode = (rte_lookup_key rte_ctx rte_key CTX_MODE_SYNC).mode ∧
          ref.type = rte_key.type ∧
          ∃ r, region_read rte_ctx.sched_info ref = some r ∧ pos = r.last ∧
            ∀ ref', region_read c'.sched_info ref' =
              if ref' = ref then some (sched_get_next_pos_rr r).2
              else region_read rte_ctx.sched_info ref') ∧
      loop_get_ctx_range rte_ctx (rte_lookup_key rte_ctx rte_key CTX_MODE_SYNC) =
        some (some ⟨UADK_CTX_HW, 0, SCHED_MODE_SYNC, 0⟩) ∧
      region_read rte_ctx.sched_info ⟨UADK_CTX_HW, 0, SCHED_MODE_SYNC, 0⟩ =
        some ⟨0, 3, 0, true⟩ ∧
      (loop_sched_rte_pick_next_ctx (some rte_ctx) (some rte_key) CTX_MODE_SYNC).map
          (fun out => (out.1, out.2.2)) =
        some (0, some { rte_key with sync_ctxid := 0 }) ∧
      ((loop_sched_rte_pick_next_ctx (some rte_ctx) (some rte_key) CTX_MODE_SYNC).bind
          (fun out => out.2.1)).bind
          (fun c' => region_read c'.sched_info ⟨UADK_CTX_HW, 0, SCHED_MODE_SYNC, 0⟩) =
        some ⟨0, 3, 1, true⟩ :=
  ⟨(loop_sched_rte_pick_next_ctx_memo rte_ctx { rte_key with sync_ctxid := 2 }
      CTX_MODE_SYNC).1 (by decide),
    (loop_sched_rte_pick_next_ctx_memo rte_ctx rte_key CTX_MODE_SYNC).2 (by decide)
      (by decide) (by decide) (by decide),
    by decide, by decide, by decide, by decide⟩

/-- C22 as stated fails on a run-time loop scheduler as `wd_sched_rr_alloc`
returns it, on which no region is registered, for the key
that `loop_sched_rte_init` returns there: the software sync index of the key,
which the first sync pick selects, is `INVALID_POS`, `loop_get_ctx_range` finds
no cell for the key, and the call returns `INVALID_POS`, stores it as the
software sync index, and leaves every region table as it was: no cell is
resolved. -/
theorem loop_sched_rte_pick_next_ctx_memo_counterexample :
    ctx_wf rte_empty_ctx ∧
      loop_sched_rte_init 0 (some zero_key) (some rte_empty_ctx) none = .ok rte_key ∧
      rte_cached rte_empty_ctx rte_key CTX_MODE_SYNC = INVALID_POS ∧
      loop_get_ctx_range rte_empty_ctx
          (rte_lookup_key rte_empty_ctx rte_key CTX_MODE_SYNC) = some none ∧
      loop_sched_rte_pick_next_ctx (some rte_empty_ctx) (some rte_key) CTX_MODE_SYNC =
        some (INVALID_POS,
          some { rte_empty_ctx with balancer := ⟨1, 0, 0, 0, 0, 0⟩ },
          some { rte_key with ctx_prop := UADK_CTX_CE_INS }) :=
  ⟨by decide, rfl, by decide, by decide, rfl⟩

end WdSched
